import Mathlib

/-!
# MulOS nucleus: a shallow embedding

Verification development for the MulOS kernel (phase 1 data structures,
phase 2 nucleus).  The C sources embedded here are

* `phase1/pcb.c`, `phase1/asl.c`  (PCB pool, process queues, process tree, ASL)
* `phase2/scheduler.c`, `phase2/exceptions.c`, `phase2/interrupts.c`
* `headers/const.h`

Conventions of the embedding.

* A PCB is named by its index in `pcbFree_table`, a semaphore descriptor by its
  index in `semd_table`.  A null pointer to either is `none`.
* Addresses of `int` objects (semaphores, bus registers) are natural numbers and
  `mem` is the word stored at an address; `0` is the null address.
* Unsigned 32-bit arithmetic is written with an explicit `% 2 ^ 32`.
* A function whose C body dereferences a null or dangling pointer returns
  `none` at that point.
* Values read from the hardware (`getPRID`, `STCK`) are explicit arguments.
-/

namespace MulOS

/-! ## Constants (`headers/const.h`) -/

def MAXPROC : Nat := 20
def NCPU : Nat := 8
def NRSEMAPHORES : Nat := 49
def NSUPPSEM : Nat := 48
def SEMDEVLEN : Nat := 49
def TIMESLICE : Nat := 5000
def PSECOND : Nat := 100000
def TIMESCALEADDR : Nat := 0x10000024
def IRT_START : Nat := 0x10000300
def IRT_NUM_ENTRY : Nat := 48
def TPR : Nat := 0x10000408
def MSTATUS_MIE_MASK : Nat := 0x8
def MSTATUS_MPP_MASK : Nat := 0x1800
def MIE_MTIE_MASK : Nat := 0x40
def MIE_ALL : Nat := 0xFFFFFFFF
def PGFAULTEXCEPT : Nat := 0
def GENERALEXCEPT : Nat := 1
def PRIVINSTR : Nat := 10
def RECVD : Nat := 5
def START_DEVREG : Nat := 0x10000054
def INT_LINE_OFFSET : Nat := 0x80
def DEVS_PER_LINE : Nat := 8
def RECV_COMMAND_OFFSET : Nat := 0x4
def TRANSM_COMMAND_OFFSET : Nat := 0xc
def RECV_STATUS_OFFSET : Nat := 0x0
def TRANSM_STATUS_OFFSET : Nat := 0x8
def IL_TIMER : Nat := 3
def IL_CPUTIMER : Nat := 7
def IL_DISK : Nat := 17
def IL_FLASH : Nat := 18
def IL_ETHERNET : Nat := 19
def IL_PRINTER : Nat := 20
def IL_TERMINAL : Nat := 21
def CAUSE_EXCCODE_MASK : Nat := 0x7FFFFFFF
def INTERVALTMR : Nat := 0x10000020
def BIOSDATAPAGE : Nat := 0x0FFFF000
def KERNELSTACK : Nat := 0x20001000
def RAMBASEADDR : Nat := 0x10000000
def RAMBASESIZE : Nat := 0x10000004
def MSTATUS_MPIE_MASK : Nat := 0x80
def MSTATUS_MPP_M : Nat := 0x1800
def MSTATUS_MPP_U : Nat := 0x0000
def PAGESIZE : Nat := 4096

/-- Modelled from the spec: `DEVREGSIZE` comes from the machine's `const.h`, which
is not part of the sources; section 6 of the specification gives the device
register stride `D * 0x10`. -/
def DEVREGSIZE : Nat := 0x10

/-- Modelled from the spec: `ACK` comes from the machine's `const.h`, which is not
part of the sources; section 6 of the specification lists `ACK = 1`. -/
def ACK : Nat := 1

/-- Two to the thirty-second: the modulus of `unsigned int` arithmetic. -/
def WORD : Nat := 2 ^ 32

/-- The syscall numbers of `const.h` as they appear in the unsigned register
`a0` (`-k` is stored as `2^32 - k`). -/
def CREATEPROCESS : Nat := WORD - 1
def TERMPROCESS : Nat := WORD - 2
def PASSEREN : Nat := WORD - 3
def VERHOGEN : Nat := WORD - 4
def DOIO : Nat := WORD - 5
def GETTIME : Nat := WORD - 6
def CLOCKWAIT : Nat := WORD - 7
def GETSUPPORTPTR : Nat := WORD - 8
def GETPROCESSID : Nat := WORD - 9

/-! ## Data model -/

/-- Modelled from the spec: `state_t` is declared in the machine's `types.h`, which
is not part of the sources.  Section 3 of the specification lists its content
(general registers, program counter, status, cause, entry_hi, machine interrupt
enable); the registers the nucleus names are fields, the others are `gpr`. -/
structure state_t where
  entry_hi : Nat
  cause : Nat
  status : Nat
  pc_epc : Nat
  mie : Nat
  reg_a0 : Nat
  reg_a1 : Nat
  reg_a2 : Nat
  reg_a3 : Nat
  reg_sp : Nat
  gpr : List Nat
deriving DecidableEq

/-- Modelled from the spec: `context_t` is declared in `types.h`, which is not part
of the sources; section 3 gives its fields (stack pointer, status, entry PC). -/
structure context_t where
  stackPtr : Nat
  status : Nat
  pc : Nat
deriving DecidableEq

/-- Modelled from the spec: `pteEntry_t` is declared in `types.h`, which is not
part of the sources: a page-table entry is the pair of words loaded into
EntryHI and EntryLO (section 4.8). -/
structure pteEntry_t where
  pte_entryHI : Nat
  pte_entryLO : Nat
deriving DecidableEq

/-- Modelled from the spec: the part of `support_t` (declared in `types.h`, not part
of the sources) that the nucleus and the support level touch: the ASID, the two
saved exception states and the two exception contexts, indexed by
`PGFAULTEXCEPT` and `GENERALEXCEPT`, and the private page table of 32 entries
(section 3). -/
structure support_t where
  sup_asid : Nat
  sup_exceptState : Nat → state_t
  sup_exceptContext : Nat → context_t
  sup_privatePgTbl : Nat → pteEntry_t := fun _ => { pte_entryHI := 0, pte_entryLO := 0 }

/-- Modelled from the spec: `pcb_t` is declared in `types.h`, which is not part of
the sources.  The intrusive links are represented by the collections they form:
`p_list` by the queue that holds the PCB, `p_sib` by the parent's `p_child`
list, and `p_child` is the list of children, earliest inserted first. -/
structure pcb_t where
  p_parent : Option Nat
  p_child : List Nat
  p_s : state_t
  p_time : Nat
  p_semAdd : Nat
  p_supportStruct : Nat
  p_pid : Int

/-- Modelled from the spec: `semd_t` is declared in `types.h`, which is not part of
the sources: the address key and the FIFO of blocked PCBs (section 3).  The link
`s_link` is represented by the list (`semd_h` or `semdFree_h`) holding the
descriptor. -/
structure semd_t where
  s_key : Nat
  s_procq : List Nat

/-- The kernel's global variables and the memory it reads and writes. -/
structure State where
  /-- `pcbFree_h` (pcb.c), first element first. -/
  pcbFree_h : List Nat
  /-- `pcbFree_table` (pcb.c). -/
  pcbFree_table : Nat → pcb_t
  /-- `next_pid` (pcb.c). -/
  next_pid : Int
  /-- `semd_table` (asl.c). -/
  semd_table : Nat → semd_t
  /-- `semdFree_h` (asl.c), first element first. -/
  semdFree_h : List Nat
  /-- `semd_h` (asl.c): the null-terminated chain of active descriptors. -/
  semd_h : List Nat
  /-- `ProcessCount` (initial.c), an `unsigned int`. -/
  ProcessCount : Nat
  /-- `ReadyQueue` (initial.c), head first. -/
  ReadyQueue : List Nat
  /-- `CurrentProcess` (initial.c). -/
  CurrentProcess : Nat → Option Nat
  /-- The address of the array `DeviceSemaphores` (initial.c). -/
  DeviceSemaphores : Nat
  /-- `lastTOD` (exceptions.c). -/
  lastTOD : Nat
  /-- Word memory: semaphores and bus registers, by address. -/
  mem : Nat → Nat
  /-- Processor states stored in memory, by address (`state_t*` arguments). -/
  stateMem : Nat → state_t
  /-- Support structures stored in memory, by address. -/
  supportMem : Nat → support_t
  /-- The saved exception state of each CPU: `GET_EXCEPTION_STATE_PTR(i)`. -/
  excState : Nat → state_t
  /-- The local timer of each CPU (`setTIMER`). -/
  timer : Nat → Nat
  /-- The machine interrupt-enable register of each CPU (`setMIE`). -/
  mieReg : Nat → Nat
  /-- The status register of each CPU (`getSTATUS`, `setSTATUS`). -/
  statusReg : Nat → Nat

/-- How a nucleus routine gives up the processor. -/
inductive Control where
  | HALT
  | WAIT
  | LDST (s : state_t)
  | LDCXT (stackPtr status pc : Nat)
  | PANIC
  | ret
deriving DecidableEq

/-! ## Process queues (`phase1/pcb.c`)

Modelled from the spec: `listx.h` is not part of the sources.  A `list_head`
collection is represented by the sequence of its members, head first:
`list_add_tail` appends, `list_del` removes the member, `list_empty` tests for
the empty sequence and `list_for_each` visits the members in order.  The
representation is that of PCBs each linked in at most one collection (a PCB has
one `p_list` link); see `LinkedOnce` below. -/

/-- `mkEmptyProcQ`: `INIT_LIST_HEAD(head)`. -/
def mkEmptyProcQ : List Nat := []

/-- `emptyProcQ`: `list_empty(head)`. -/
def emptyProcQ (head : List Nat) : Bool := head.isEmpty

/-- `insertProcQ`: `list_add_tail(&p->p_list, head)`. -/
def insertProcQ (head : List Nat) (p : Nat) : List Nat := head ++ [p]

/-- `headProcQ`: null on the empty queue, else the entry at `head->next`. -/
def headProcQ (head : List Nat) : Option Nat :=
  if emptyProcQ head then none else head.head?

/-- `removeProcQ`: null on the empty queue, else the entry at `head->next`,
unlinked.  Returns the entry and the remaining queue. -/
def removeProcQ (head : List Nat) : Option Nat × List Nat :=
  match head with
  | [] => (none, [])
  | out :: rest => (some out, rest)

/-- `outProcQ`: the first member whose pid equals `p`'s is unlinked and
returned; null when there is none. -/
def outProcQ (tbl : Nat → pcb_t) (head : List Nat) (p : Nat) : Option Nat × List Nat :=
  match head.find? (fun q => decide ((tbl q).p_pid = (tbl p).p_pid)) with
  | none => (none, head)
  | some q => (some q, head.erase q)

/-! ## Scheduler (`phase2/scheduler.c`) -/

/-- The loop of `scheduler` that stores `getPRID()` in every entry of the
interrupt routing table. -/
def writeIRT (prid : Nat) (m : Nat → Nat) : Nat → Nat :=
  fun a => if IRT_START ≤ a ∧ a < IRT_START + 4 * IRT_NUM_ENTRY ∧ (a - IRT_START) % 4 = 0
    then prid else m a

/-- `scheduler`, run by CPU `prid`.  `none` stands for `LDST` through a null
`CurrentProcess` entry. -/
def scheduler (prid : Nat) (st : State) : Option (State × Control) :=
  if emptyProcQ st.ReadyQueue then
    if st.ProcessCount = 0 then
      some ({ st with mem := writeIRT prid st.mem }, Control.HALT)
    else
      some ({ st with
                mieReg := Function.update st.mieReg prid (MIE_ALL &&& (0xFFFFFFFF ^^^ MIE_MTIE_MASK))
                statusReg := Function.update st.statusReg prid
                  (st.statusReg prid ||| MSTATUS_MIE_MASK)
                mem := Function.update st.mem TPR 1 }, Control.WAIT)
  else
    let r := removeProcQ st.ReadyQueue
    let st1 : State :=
      { st with
          ReadyQueue := r.2
          CurrentProcess := Function.update st.CurrentProcess prid r.1
          timer := Function.update st.timer prid ((TIMESLICE * st.mem TIMESCALEADDR) % WORD)
          mem := Function.update st.mem TPR 0 }
    match st1.CurrentProcess prid with
    | none => none
    | some p => some (st1, Control.LDST (st1.pcbFree_table p).p_s)

/-! ## PCB pool and process tree (`phase1/pcb.c`) -/

/-- `_initState` (pcb.c): every field of the processor state is zero. -/
def _initState : state_t :=
  { entry_hi := 0, cause := 0, status := 0, pc_epc := 0, mie := 0,
    reg_a0 := 0, reg_a1 := 0, reg_a2 := 0, reg_a3 := 0, reg_sp := 0,
    gpr := List.replicate 27 0 }

/-- The value of an `int` after an increment that leaves the 32-bit range. -/
def wrapInt (x : Int) : Int := (x + 2 ^ 31) % 2 ^ 32 - 2 ^ 31

/-- Apply `f` to entry `p` of `pcbFree_table`. -/
def State.updPcb (st : State) (p : Nat) (f : pcb_t → pcb_t) : State :=
  { st with pcbFree_table := Function.update st.pcbFree_table p (f (st.pcbFree_table p)) }

/-- Apply `f` to entry `d` of `semd_table`. -/
def State.updSemd (st : State) (d : Nat) (f : semd_t → semd_t) : State :=
  { st with semd_table := Function.update st.semd_table d (f (st.semd_table d)) }

/-- `_initPcb`: clears the tree links, the state, the time and the semaphore
address and assigns `next_pid++`; the support pointer is not written. -/
def _initPcb (pcb : Nat) (st : State) : State :=
  { st.updPcb pcb (fun b =>
      { b with p_parent := none, p_child := [], p_s := _initState,
               p_time := 0, p_semAdd := 0, p_pid := st.next_pid }) with
    next_pid := wrapInt (st.next_pid + 1) }

/-- `initPcbs`: the free list holds `pcbFree_table[0..MAXPROC-1]` in order. -/
def initPcbs (st : State) : State :=
  { st with pcbFree_h := List.range MAXPROC }

/-- `freePcb`: `list_add_tail(&p->p_list, &pcbFree_h)`. -/
def freePcb (p : Nat) (st : State) : State :=
  { st with pcbFree_h := st.pcbFree_h ++ [p] }

/-- `allocPcb`: null when the free list is empty; otherwise the entry at
`pcbFree_h.prev` (the last one) is unlinked and initialised. -/
def allocPcb (st : State) : Option Nat × State :=
  match st.pcbFree_h.getLast? with
  | none => (none, st)
  | some pcb => (some pcb, _initPcb pcb { st with pcbFree_h := st.pcbFree_h.dropLast })

/-- `emptyChild`: `list_empty(&p->p_child)`. -/
def emptyChild (p : Nat) (st : State) : Bool := (st.pcbFree_table p).p_child.isEmpty

/-- `insertChild`: nothing when either pointer is null; otherwise `p` gets
parent `prnt` and is appended to `prnt`'s child list. -/
def insertChild (prnt : Option Nat) (p : Option Nat) (st : State) : State :=
  match prnt, p with
  | some prnt, some p =>
    (st.updPcb p (fun b => { b with p_parent := some prnt })).updPcb prnt
      (fun b => { b with p_child := b.p_child ++ [p] })
  | _, _ => st

/-- `removeChild`: null when `p` has no child; otherwise the first child is
orphaned, unlinked and returned. -/
def removeChild (p : Nat) (st : State) : Option Nat × State :=
  match (st.pcbFree_table p).p_child with
  | [] => (none, st)
  | child :: rest =>
    (some child,
     (st.updPcb child (fun b => { b with p_parent := none })).updPcb p
       (fun b => { b with p_child := rest }))

/-- `outChild`: null when `p` has no parent; otherwise `p` is unlinked from its
parent's child list, orphaned and returned. -/
def outChild (p : Nat) (st : State) : Option Nat × State :=
  match (st.pcbFree_table p).p_parent with
  | none => (none, st)
  | some prnt =>
    (some p,
     (st.updPcb prnt (fun b => { b with p_child := b.p_child.erase p })).updPcb p
       (fun b => { b with p_parent := none }))

/-! ## Active semaphore list (`phase1/asl.c`) -/

/-- `findSemd`: the first descriptor of the `semd_h` chain whose key is `key`. -/
def findSemd (key : Nat) (st : State) : Option Nat :=
  st.semd_h.find? (fun d => decide ((st.semd_table d).s_key = key))

/-- `allocSem`: the descriptor at `semdFree_h.prev` is unlinked, keyed and given
an empty queue.  `none` when the free list is empty (the C code would take the
list head for a descriptor). -/
def allocSem (key : Nat) (st : State) : Option (Nat × State) :=
  match st.semdFree_h.getLast? with
  | none => none
  | some newSem =>
    some (newSem,
      { st with semdFree_h := st.semdFree_h.dropLast }.updSemd newSem
        (fun _ => { s_key := key, s_procq := mkEmptyProcQ }))

/-- `insertSem`: a fresh descriptor for `key` holding `p`, linked at the end of
the `semd_h` chain. -/
def insertSem (key : Nat) (p : Nat) (st : State) : Option State :=
  match allocSem key st with
  | none => none
  | some (newSem, st1) =>
    let st2 := st1.updSemd newSem (fun s => { s with s_procq := s.s_procq ++ [p] })
    some { st2 with semd_h := st2.semd_h ++ [newSem] }

/-- `initASL`: every descriptor is free, the active chain is empty. -/
def initASL (st : State) : State :=
  { st with semdFree_h := List.range MAXPROC, semd_h := [] }

/-- `insertBlocked`: returns the C result (`1` on failure, `0` on success) and
the new state. -/
def insertBlocked (semAdd : Nat) (p : Nat) (st : State) : Nat × State :=
  match findSemd semAdd st with
  | some sem =>
    (0, (st.updSemd sem (fun s => { s with s_procq := s.s_procq ++ [p] })).updPcb p
          (fun b => { b with p_semAdd := semAdd }))
  | none =>
    if st.semdFree_h.isEmpty then (1, st)
    else
      match insertSem semAdd p st with
      | none => (1, st)
      | some st1 => (0, st1.updPcb p (fun b => { b with p_semAdd := semAdd }))

/-- `removeBlocked`: pops the head of the queue of `semAdd`'s descriptor; when
the queue is then empty the descriptor is unlinked from `semd_h` and appended to
`semdFree_h`.  Null when there is no descriptor.  The head is unlinked by
`list_del` on its `p_list`: the sequences describe the result when the head is
linked in this queue only (`LinkedOnce`). -/
def removeBlocked (semAdd : Nat) (st : State) : Option Nat × State :=
  match findSemd semAdd st with
  | some sem =>
    let r := removeProcQ (st.semd_table sem).s_procq
    let st1 := st.updSemd sem (fun s => { s with s_procq := r.2 })
    if emptyProcQ (st1.semd_table sem).s_procq then
      (r.1, { st1 with semd_h := st1.semd_h.erase sem, semdFree_h := st1.semdFree_h ++ [sem] })
    else (r.1, st1)
  | none => (none, st)

/-- `outBlocked`: removes `p` (by pid) from the queue of the descriptor keyed by
`p->p_semAdd`; null when there is no such descriptor or `p` is not in it.  The
PCB found is unlinked by `list_del` on its `p_list`: the sequences describe the
result when that PCB is linked in this queue only (`LinkedOnce`). -/
def outBlocked (p : Nat) (st : State) : Option Nat × State :=
  match findSemd (st.pcbFree_table p).p_semAdd st with
  | none => (none, st)
  | some sem =>
    let r := outProcQ st.pcbFree_table (st.semd_table sem).s_procq p
    (r.1, st.updSemd sem (fun s => { s with s_procq := r.2 }))

/-- `headBlocked`: the head of the queue of `semAdd`'s descriptor, null when
there is no descriptor or the queue is empty. -/
def headBlocked (semAdd : Nat) (st : State) : Option Nat :=
  match findSemd semAdd st with
  | none => none
  | some sem =>
    if emptyProcQ (st.semd_table sem).s_procq then none
    else headProcQ (st.semd_table sem).s_procq

/-- The loops of `outBlockedPID` over the descriptors `sems` still to visit.
The chain `semd_h` is null-terminated while `list_for_each` stops only at the
list head, so when no queue holds the pid the loop runs past the last descriptor
into the null pointer: that is `none`. -/
def outBlockedPIDFrom (pid : Int) (st : State) : List Nat → Option (Nat × State)
  | [] => none
  | sem :: rest =>
    match (st.semd_table sem).s_procq.find?
        (fun q => decide ((st.pcbFree_table q).p_pid = pid)) with
    | some proc =>
      some (proc, st.updSemd sem (fun s => { s with s_procq := s.s_procq.erase proc }))
    | none => outBlockedPIDFrom pid st rest

/-- `outBlockedPID`: unlinks and returns the first blocked PCB with the pid. -/
def outBlockedPID (pid : Int) (st : State) : Option (Nat × State) :=
  outBlockedPIDFrom pid st st.semd_h

/-! ## Nucleus services (`phase2/exceptions.c`) -/

/-- Unsigned 32-bit subtraction. -/
def sub32 (a b : Nat) : Nat := (a + WORD - b % WORD) % WORD

/-- The `int` denoted by an unsigned 32-bit word. -/
def toInt32 (w : Nat) : Int := if w % WORD < 2 ^ 31 then (w % WORD : Nat) else (w % WORD : Nat) - 2 ^ 32

/-- The unsigned 32-bit word holding an `int`. -/
def ofInt32 (i : Int) : Nat := (i % 2 ^ 32).toNat

/-- `getTimeElapsed`: `currTOD` and `nextTOD` are the values delivered by its
two `STCK` reads. -/
def getTimeElapsed (currTOD nextTOD : Nat) (st : State) : Nat × State :=
  (sub32 currTOD st.lastTOD, { st with lastTOD := nextTOD })

/-- `findPcb`: the caller for pid 0, else the ready PCB with that pid, else the
result of `outBlockedPID`. -/
def findPcb (prid : Nat) (pid : Int) (st : State) : Option (Option Nat × State) :=
  if pid = 0 then some (st.CurrentProcess prid, st)
  else
    match st.ReadyQueue.find? (fun q => decide ((st.pcbFree_table q).p_pid = pid)) with
    | some pcb => some (some pcb, st)
    | none =>
      match outBlockedPID pid st with
      | none => none
      | some (pcb, st1) => some (some pcb, st1)

/-- The statements that `terminateProcessSubTree` (lines 110-129) and
`terminateProcess` (lines 217-235) both run on a PCB: `outChild`, `outProcQ` on
the ready queue, `outBlocked`, `ProcessCount--`, `freePcb`, and the loop that
clears every `CurrentProcess` entry equal to the PCB. -/
def reapPcb (target : Nat) (st : State) : State :=
  let st1 := (outChild target st).2
  let st2 := { st1 with ReadyQueue := (outProcQ st1.pcbFree_table st1.ReadyQueue target).2 }
  let st3 := (outBlocked target st2).2
  let st4 := { st3 with ProcessCount := (st3.ProcessCount + WORD - 1) % WORD }
  let st5 := freePcb target st4
  { st5 with
      CurrentProcess := fun i =>
        if i < NCPU ∧ st5.CurrentProcess i = some target then none else st5.CurrentProcess i }

/-- The entry after `x` in a sibling list: `none` when `x` is not in the list,
`some none` when `x` is the last entry (`list_is_last`). -/
def nextSibling (x : Nat) : List Nat → Option (Option Nat)
  | [] => none
  | y :: rest => if y = x then some rest.head? else nextSibling x rest

/-- `terminateProcessSubTree`.  The first argument bounds the depth of the C
recursion; `none` is returned when it is used up, when `target` has no parent
(the sibling test goes through `target->p_parent`) or when `target` is not in
its parent's child list. -/
def terminateProcessSubTree : Nat → Option Nat → State → Option State
  | _, none, st => some st
  | 0, some _, _ => none
  | fuel + 1, some target, st =>
    match (if emptyChild target st then some st
           else terminateProcessSubTree fuel (st.pcbFree_table target).p_child.head? st) with
    | none => none
    | some st1 =>
      match (st1.pcbFree_table target).p_parent with
      | none => none
      | some prnt =>
        match nextSibling target (st1.pcbFree_table prnt).p_child with
        | none => none
        | some none => some (reapPcb target st1)
        | some (some sib) =>
          match terminateProcessSubTree fuel (some sib) st1 with
          | none => none
          | some st2 => some (reapPcb target st2)

/-- Store `v` in register `a0` of CPU `prid`'s saved exception state. -/
def State.setA0 (st : State) (prid v : Nat) : State :=
  { st with excState := Function.update st.excState prid { (st.excState prid) with reg_a0 := v } }

/-- `createProcess`, called by CPU `prid`; `statep` and `supportStruct` are the
two pointer arguments.  When the pool is exhausted the routine returns before
it touches `statep` (lines 154-158).  Otherwise line 162 copies `*statep`
without a test: `none` when `statep` is null. -/
def createProcess (prid : Nat) (statep : Nat) (supportStruct : Nat) (st : State) : Option State :=
  match allocPcb st with
  | (none, st1) =>
    some (st1.setA0 prid (ofInt32 (-1)))
  | (some newProcess, st1) =>
    if statep = 0 then none
    else
      let st2 := st1.updPcb newProcess (fun b =>
        { b with p_s := st1.stateMem statep, p_supportStruct := supportStruct })
      let st3 := { st2 with ReadyQueue := insertProcQ st2.ReadyQueue newProcess }
      let st4 := insertChild (st3.CurrentProcess prid) (some newProcess) st3
      let st5 := { st4 with ProcessCount := (st4.ProcessCount + 1) % WORD }
      let st6 := st5.updPcb newProcess (fun b => { b with p_time := 0, p_semAdd := 0 })
      some (st6.setA0 prid (ofInt32 (st6.pcbFree_table newProcess).p_pid))

/-- The part of `terminateProcess` after the target is known: the subtree below
the target, the target itself, then `scheduler()`. -/
def terminateTarget (fuel prid target : Nat) (st : State) : Option (State × Control) :=
  match (if emptyChild target st then some st
         else terminateProcessSubTree fuel (st.pcbFree_table target).p_child.head? st) with
  | none => none
  | some st1 => scheduler prid (reapPcb target st1)

/-- `terminateProcess`, called by CPU `prid`. -/
def terminateProcess (fuel prid : Nat) (pid : Int) (st : State) : Option (State × Control) :=
  if pid = 0 then
    match st.CurrentProcess prid with
    | none => none
    | some target => terminateTarget fuel prid target st
  else
    match findPcb prid pid st with
    | none => none
    | some (none, st1) => some (st1, Control.ret)
    | some (some target, st1) => terminateTarget fuel prid target st1

/-- The blocking branch shared by `passeren` (lines 253-270), `verhogen`
(lines 304-319) and `doIo` (lines 360-374), up to the release of the lock: the
caller gets the saved state, its elapsed time and `p_semAdd`, is handed to
`insertBlocked` (whose result is ignored), has its saved pc advanced by 4, and
leaves its `CurrentProcess` entry.  `none` when the entry is null. -/
def blockCaller (prid currTOD nextTOD semAddr : Nat) (st : State) : Option State :=
  match st.CurrentProcess prid with
  | none => none
  | some cur =>
    let e := getTimeElapsed currTOD nextTOD st
    let st1 := e.2.updPcb cur (fun b =>
      { b with p_s := st.excState prid, p_time := (b.p_time + e.1) % WORD, p_semAdd := semAddr })
    let st2 := (insertBlocked semAddr cur st1).2
    let st3 := st2.updPcb cur (fun b =>
      { b with p_s := { b.p_s with pc_epc := (b.p_s.pc_epc + 4) % WORD } })
    some { st3 with CurrentProcess := Function.update st3.CurrentProcess prid none }

/-- The non-blocking branch shared by `passeren` (lines 280-287, `v = 0`) and
`verhogen` (lines 331-337, `v = 1`): wake the head of the semaphore's queue, or
store `v` in the semaphore when `removeBlocked` returns null. -/
def wakeOrSet (semAddr v : Nat) (st : State) : State :=
  let r := removeBlocked semAddr st
  match r.1 with
  | some unblocked => { r.2 with ReadyQueue := insertProcQ r.2.ReadyQueue unblocked }
  | none => { r.2 with mem := Function.update r.2.mem semAddr v }

/-- `passeren`, called by CPU `prid`. -/
def passeren (prid currTOD nextTOD semAddr : Nat) (st : State) : Option (State × Control) :=
  if st.mem semAddr = 0 then
    match blockCaller prid currTOD nextTOD semAddr st with
    | none => none
    | some st1 => scheduler prid st1
  else some (wakeOrSet semAddr 0 st, Control.ret)

/-- `verhogen`, called by CPU `prid`. -/
def verhogen (prid currTOD nextTOD semAddr : Nat) (st : State) : Option (State × Control) :=
  if st.mem semAddr = 1 then
    match blockCaller prid currTOD nextTOD semAddr st with
    | none => none
    | some st1 => scheduler prid st1
  else some (wakeOrSet semAddr 1 st, Control.ret)

/-- `getDeviceSemaphoreIndex` (interrupts.c); `none` is `PANIC()`. -/
def getDeviceSemaphoreIndex (cmdAddr : Nat) : Option Int :=
  if 0x10000254 ≤ cmdAddr ∧ cmdAddr < 0x10000354 then
    let devOffset := cmdAddr - 0x10000254
    let dev_no := devOffset / 0x10
    let offset := devOffset % 0x10
    if offset = 0x4 then some ((4 * DEVS_PER_LINE + dev_no * 2 : Nat) : Int)
    else if offset = 0xC then some ((4 * DEVS_PER_LINE + (dev_no * 2 + 1) : Nat) : Int)
    else some (-1)
  else
    let base := sub32 cmdAddr 0x4
    let offset := toInt32 (sub32 base START_DEVREG)
    if offset < 0 ∨ offset > ((INT_LINE_OFFSET * 5 : Nat) : Int) then none
    else
      let int_line_index := offset / (INT_LINE_OFFSET : Int)
      let dev_no := (offset % (INT_LINE_OFFSET : Int)) / (DEVREGSIZE : Int)
      let int_line := 3 + int_line_index
      some ((int_line - 3) * (DEVS_PER_LINE : Int) + dev_no)

/-- The address `&DeviceSemaphores[i]` of an `int` array entry. -/
def devSemAddr (st : State) (i : Int) : Nat := ((st.DeviceSemaphores : Int) + 4 * i).toNat

/-- `getPseudoClockSemaphore` (initial.c): `&DeviceSemaphores[NSUPPSEM]`. -/
def getPseudoClockSemaphore (st : State) : Nat := devSemAddr st (NSUPPSEM : Nat)

/-- `doIo`, called by CPU `prid`. -/
def doIo (prid currTOD nextTOD commandAddr commandValue : Nat) (st : State) :
    Option (State × Control) :=
  match getDeviceSemaphoreIndex commandAddr with
  | none => some (st, Control.PANIC)
  | some sem_index =>
    let semaddr := devSemAddr st sem_index
    let st1 := { st with mem := Function.update st.mem commandAddr commandValue }
    match blockCaller prid currTOD nextTOD semaddr st1 with
    | none => none
    | some st2 => scheduler prid st2

/-- `waitForClock`: `passeren` on the pseudo-clock semaphore. -/
def waitForClock (prid currTOD nextTOD : Nat) (st : State) : Option (State × Control) :=
  passeren prid currTOD nextTOD (getPseudoClockSemaphore st) st

/-- `getCPUTime`, called by CPU `prid`. -/
def getCPUTime (prid currTOD nextTOD : Nat) (st : State) : Option State :=
  match st.CurrentProcess prid with
  | none => none
  | some cur =>
    let e := getTimeElapsed currTOD nextTOD st
    some (e.2.setA0 prid (((st.pcbFree_table cur).p_time + e.1) % WORD))

/-- `getSupportData`, called by CPU `prid`. -/
def getSupportData (prid : Nat) (st : State) : Option State :=
  match st.CurrentProcess prid with
  | none => none
  | some cur =>
    let supportData := (st.pcbFree_table cur).p_supportStruct
    if supportData ≠ 0 then some (st.setA0 prid supportData) else some (st.setA0 prid 0)

/-- `getProcessID`, called by CPU `prid`. -/
def getProcessID (prid : Nat) (parent : Nat) (st : State) : Option State :=
  match st.CurrentProcess prid with
  | none => none
  | some cur =>
    if parent = 0 then some (st.setA0 prid (ofInt32 (st.pcbFree_table cur).p_pid))
    else
      match (st.pcbFree_table cur).p_parent with
      | none => none
      | some prnt => some (st.setA0 prid (ofInt32 (st.pcbFree_table prnt).p_pid))

/-- `passUpToSupportLevel`: the saved state is copied into the caller's support
structure and the matching context is loaded. -/
def passUpToSupportLevel (prid exceptionType : Nat) (st : State) : Option (State × Control) :=
  match st.CurrentProcess prid with
  | none => none
  | some cur =>
    let sp := (st.pcbFree_table cur).p_supportStruct
    let sup := st.supportMem sp
    let sup1 : support_t :=
      { sup with sup_exceptState :=
          Function.update sup.sup_exceptState exceptionType (st.excState prid) }
    let c := sup1.sup_exceptContext exceptionType
    some ({ st with supportMem := Function.update st.supportMem sp sup1 },
          Control.LDCXT c.stackPtr c.status c.pc)

/-- `handleProgramTrap`: pass up when the caller has a support structure,
otherwise `terminateProcess(0)`. -/
def handleProgramTrap (fuel prid : Nat) (st : State) : Option (State × Control) :=
  match st.CurrentProcess prid with
  | none => none
  | some cur =>
    if (st.pcbFree_table cur).p_supportStruct ≠ 0 then passUpToSupportLevel prid GENERALEXCEPT st
    else terminateProcess fuel prid 0 st

/-- `handleTLBException`: as `handleProgramTrap`, through `PGFAULTEXCEPT`. -/
def handleTLBException (fuel prid : Nat) (st : State) : Option (State × Control) :=
  match st.CurrentProcess prid with
  | none => none
  | some cur =>
    if (st.pcbFree_table cur).p_supportStruct ≠ 0 then passUpToSupportLevel prid PGFAULTEXCEPT st
    else terminateProcess fuel prid 0 st

/-- The end of `SYSCALL_handler` (lines 528-529), reached when the service
returns: the saved pc is advanced by 4 and the saved state is reloaded. -/
def resumeCaller (prid : Nat) (st : State) : State × Control :=
  let es := st.excState prid
  let es1 := { es with pc_epc := (es.pc_epc + 4) % WORD }
  ({ st with excState := Function.update st.excState prid es1 }, Control.LDST es1)

/-- What `SYSCALL_handler` does with the outcome of a service: lines 528-529
when the service returned, nothing when it gave up the processor. -/
def afterService (prid : Nat) : Option (State × Control) → Option (State × Control)
  | some (st, Control.ret) => some (resumeCaller prid st)
  | r => r

/-- `SYSCALL_handler` on CPU `prid`, whose argument is that CPU's saved
exception state. -/
def SYSCALL_handler (fuel prid currTOD nextTOD : Nat) (st : State) : Option (State × Control) :=
  let exceptionState := st.excState prid
  if exceptionState.status &&& MSTATUS_MPP_MASK = 0 then
    handleProgramTrap fuel prid
      { st with
          excState := Function.update st.excState prid { exceptionState with cause := PRIVINSTR } }
  else
    let a0 := exceptionState.reg_a0
    afterService prid (
      if a0 = CREATEPROCESS then
        (createProcess prid exceptionState.reg_a1 exceptionState.reg_a3 st).map
          (fun s => (s, Control.ret))
      else if a0 = TERMPROCESS then
        terminateProcess fuel prid (toInt32 exceptionState.reg_a1) st
      else if a0 = PASSEREN then passeren prid currTOD nextTOD exceptionState.reg_a1 st
      else if a0 = VERHOGEN then verhogen prid currTOD nextTOD exceptionState.reg_a1 st
      else if a0 = DOIO then
        doIo prid currTOD nextTOD exceptionState.reg_a1 exceptionState.reg_a2 st
      else if a0 = GETTIME then
        (getCPUTime prid currTOD nextTOD st).map (fun s => (s, Control.ret))
      else if a0 = CLOCKWAIT then waitForClock prid currTOD nextTOD st
      else if a0 = GETSUPPORTPTR then (getSupportData prid st).map (fun s => (s, Control.ret))
      else if a0 = GETPROCESSID then
        (getProcessID prid exceptionState.reg_a1 st).map (fun s => (s, Control.ret))
      else handleProgramTrap fuel prid st)

/-! ## Interrupts (`phase2/interrupts.c`) -/

/-- `getLineNo`; `cause` is the value delivered by `getCAUSE()`. -/
def getLineNo (cause : Nat) : Nat :=
  let c := cause &&& CAUSE_EXCCODE_MASK
  if c = IL_CPUTIMER then 1
  else if c = IL_TIMER then 2
  else if c = IL_DISK then 3
  else if c = IL_FLASH then 4
  else if c = IL_ETHERNET then 5
  else if c = IL_PRINTER then 6
  else if c = IL_TERMINAL then 7
  else 0

/-- `getHighestPriorityDeviceNumber`: the lowest device number whose bit is set
in the bit-word of the interrupt line; `none` is `PANIC()`. -/
def getHighestPriorityDeviceNumber (cause : Nat) (st : State) : Option Nat :=
  let dev_word := st.mem (ofInt32 (0x10000040 + 4 * ((getLineNo cause : Int) - 3)))
  (List.range 8).find? (fun dev_no => decide (dev_word &&& (1 <<< dev_no) ≠ 0))

/-- The statements that follow the `ACK` in each of the three branches of
`handleDeviceInterrupt` (lines 230-242, 247-258, 266-277) and the end of the
function (lines 280-286): `headBlocked` on the device semaphore; when it is
null the handler returns; otherwise the status goes to the PCB's `a0`, the
semaphore is set to 1, the PCB is appended to the ready queue, and the CPU
either resumes its current process or calls the scheduler. -/
def deliverStatus (prid cmdAddr status : Nat) (st : State) : Option (State × Control) :=
  match getDeviceSemaphoreIndex cmdAddr with
  | none => some (st, Control.PANIC)
  | some semIndex =>
    let semaddr := devSemAddr st semIndex
    match headBlocked semaddr st with
    | none => some (st, Control.ret)
    | some unblocked =>
      let st1 := st.updPcb unblocked (fun b => { b with p_s := { b.p_s with reg_a0 := status } })
      let st2 := { st1 with mem := Function.update st1.mem semaddr 1 }
      let st3 := { st2 with ReadyQueue := insertProcQ st2.ReadyQueue unblocked }
      match st3.CurrentProcess prid with
      | none => scheduler prid st3
      | some cur => some (st3, Control.LDST (st3.pcbFree_table cur).p_s)

/-- `handleDeviceInterrupt` on CPU `prid`. -/
def handleDeviceInterrupt (prid cause : Nat) (st : State) : Option (State × Control) :=
  let int_line := getLineNo cause
  match getHighestPriorityDeviceNumber cause st with
  | none => some (st, Control.PANIC)
  | some dev_no =>
    let dev_base := ofInt32 ((START_DEVREG : Int) + ((int_line : Int) - 3) * INT_LINE_OFFSET
      + dev_no * DEVREGSIZE)
    if int_line = 7 then
      let transm_status := st.mem (dev_base + TRANSM_STATUS_OFFSET)
      let recv_status := st.mem (dev_base + RECV_STATUS_OFFSET)
      if st.mem (dev_base + 0x8) &&& 0xFF = RECVD then
        deliverStatus prid (dev_base + TRANSM_COMMAND_OFFSET) transm_status
          { st with mem := Function.update st.mem (dev_base + TRANSM_COMMAND_OFFSET) ACK }
      else
        deliverStatus prid (dev_base + RECV_COMMAND_OFFSET) recv_status
          { st with mem := Function.update st.mem (dev_base + RECV_COMMAND_OFFSET) ACK }
    else
      let status := st.mem (dev_base + RECV_STATUS_OFFSET)
      deliverStatus prid (dev_base + 0x4) status
        { st with mem := Function.update st.mem (dev_base + RECV_COMMAND_OFFSET) ACK }

/-- `handleProcessLocalTimerInterrupt` on CPU `prid`. -/
def handleProcessLocalTimerInterrupt (prid : Nat) (st : State) : Option (State × Control) :=
  match st.CurrentProcess prid with
  | none => none
  | some cur =>
    let st1 := { st with timer := Function.update st.timer prid ((TIMESLICE * TIMESCALEADDR) % WORD) }
    let st2 := st1.updPcb cur (fun b => { b with p_s := st1.excState prid })
    scheduler prid { st2 with ReadyQueue := insertProcQ st2.ReadyQueue cur }

/-- The loop `while ((unblocked = removeBlocked(semAddr))) insertProcQ(...)` of
`handlePseudoClockInterrupt`; the first argument bounds the number of
iterations and `none` is returned when it is used up. -/
def drainBlocked : Nat → Nat → State → Option State
  | 0, _, _ => none
  | fuel + 1, semAddr, st =>
    let r := removeBlocked semAddr st
    match r.1 with
    | none => some r.2
    | some unblocked =>
      drainBlocked fuel semAddr { r.2 with ReadyQueue := insertProcQ r.2.ReadyQueue unblocked }

/-- Modelled from the spec: `LDIT` is a macro of the machine's library, which is
not part of the sources; it loads the interval timer (bus register at
`INTERVALTMR`) with the given number of microseconds scaled by the time-scale
register (section 4.5: reload the interval timer to PSECOND). -/
def LDIT (t : Nat) (st : State) : State :=
  { st with mem := Function.update st.mem INTERVALTMR ((t * st.mem TIMESCALEADDR) % WORD) }

/-- `handlePseudoClockInterrupt` on CPU `prid`. -/
def handlePseudoClockInterrupt (fuel prid : Nat) (st : State) : Option (State × Control) :=
  let st1 := LDIT PSECOND st
  let semAddr := getPseudoClockSemaphore st1
  match (if (headBlocked semAddr st1).isSome then drainBlocked fuel semAddr st1 else some st1) with
  | none => none
  | some st2 =>
    match st2.CurrentProcess prid with
    | none => scheduler prid st2
    | some cur => some (st2, Control.LDST (st2.pcbFree_table cur).p_s)

/-- `INTERRUPT_handler` on CPU `prid`. -/
def INTERRUPT_handler (fuel prid cause : Nat) (st : State) : Option (State × Control) :=
  if getLineNo cause = 1 then handleProcessLocalTimerInterrupt prid st
  else if getLineNo cause = 2 then handlePseudoClockInterrupt fuel prid st
  else handleDeviceInterrupt prid cause st

/-! ## Observations used in the statements -/

/-- The blocked queue of the semaphore at address `a`: the queue of the
descriptor `findSemd` returns, empty when there is none. -/
def blockedQueue (a : Nat) (st : State) : List Nat :=
  match findSemd a st with
  | none => []
  | some d => (st.semd_table d).s_procq

/-- No two descriptors of the active chain carry the same key. -/
def ASLKeysDistinct (st : State) : Prop :=
  (st.semd_h.map (fun d => (st.semd_table d).s_key)).Nodup

/-- The ASL is well formed: the active descriptors carry distinct keys, no
active descriptor is on the free list, and the free list has no repetition. -/
def ASLInv (st : State) : Prop :=
  ASLKeysDistinct st ∧ (∀ d, d ∈ st.semd_h → d ∉ st.semdFree_h) ∧ st.semdFree_h.Nodup

def RAMSTART : Nat := 0x20000000

/-- A PASSEREN (`isV = false`) or VERHOGEN (`isV = true`) issued by the process
running on CPU `prid` on the semaphore at `semAddr`; `currTOD` and `nextTOD` are
the clock values read if the call blocks. -/
structure SemCall where
  isV : Bool
  prid : Nat
  currTOD : Nat
  nextTOD : Nat
  semAddr : Nat

/-- The nucleus service a call stands for. -/
def SemCall.run (c : SemCall) (st : State) : Option (State × Control) :=
  if c.isV then verhogen c.prid c.currTOD c.nextTOD c.semAddr st
  else passeren c.prid c.currTOD c.nextTOD c.semAddr st

/-- The call blocks its caller: PASSEREN on value 0, VERHOGEN on value 1. -/
def SemCall.blocks (c : SemCall) (st : State) : Prop :=
  st.mem c.semAddr = if c.isV then 1 else 0

instance (c : SemCall) (st : State) : Decidable (c.blocks st) := by
  unfold SemCall.blocks
  exact inferInstance

/-- The state after the calls have been served one after the other; `none`
when one of them is issued from a CPU without a current process. -/
def runCalls : List SemCall → State → Option State
  | [], st => some st
  | c :: cs, st =>
    match c.run st with
    | none => none
    | some r => runCalls cs r.1

/-- The processes that block on semaphore `a` during the calls, in the order in
which they block. -/
def blockLog (a : Nat) : List SemCall → State → List Nat
  | [], _ => []
  | c :: cs, st =>
    (if c.semAddr = a ∧ c.blocks st then (st.CurrentProcess c.prid).toList else []) ++
      (match c.run st with
       | none => []
       | some r => blockLog a cs r.1)

/-- The processes appended to the ready queue by the calls on semaphore `a`
that do not block, in the order in which they are appended. -/
def wakeLog (a : Nat) : List SemCall → State → List Nat
  | [], _ => []
  | c :: cs, st =>
    match c.run st with
    | none => []
    | some r =>
      (if c.semAddr = a ∧ ¬ c.blocks st then r.1.ReadyQueue.drop st.ReadyQueue.length else []) ++
        wakeLog a cs r.1

/-- Every call of the sequence that blocks finds a descriptor for its
semaphore on the ASL or a free descriptor, so that `insertBlocked` succeeds. -/
def roomToBlock : List SemCall → State → Bool
  | [], _ => true
  | c :: cs, st =>
    decide (c.blocks st → (findSemd c.semAddr st).isSome ∨ st.semdFree_h ≠ []) &&
      (match c.run st with
       | none => true
       | some r => roomToBlock cs r.1)

/-- The kinds (`true` for VERHOGEN) of the calls made on semaphore `a`. -/
def kindsOn (a : Nat) (cs : List SemCall) : List Bool :=
  (cs.filter (fun c => decide (c.semAddr = a))).map (fun c => c.isV)

/-- A forest of PCBs in first-child / next-sibling form: `node p c s` is the
PCB `p` with the forest `c` of its children and the forest `s` of its later
siblings. -/
inductive Forest where
  | nil
  | node (p : Nat) (children : Forest) (siblings : Forest)

/-- The PCBs of the top sibling chain, first sibling first. -/
def Forest.roots : Forest → List Nat
  | Forest.nil => []
  | Forest.node p _ s => p :: s.roots

/-- All PCBs of the forest, in the order `terminateProcessSubTree` reaps them:
the descendants of the first sibling, then the later siblings with their
descendants, then the first sibling. -/
def Forest.nodes : Forest → List Nat
  | Forest.nil => []
  | Forest.node p c s => c.nodes ++ s.nodes ++ [p]

/-- The depth of the recursion of `terminateProcessSubTree` over the forest. -/
def Forest.depth : Forest → Nat
  | Forest.nil => 0
  | Forest.node _ c s => max c.depth s.depth + 1

/-- The PCB table stores the forest as (part of) the children of `y`: every
PCB of the top chain has parent `y`, its child list is the top chain of its
children forest, and so on below. -/
def Forest.StoredIn (tbl : Nat → pcb_t) : Nat → Forest → Prop
  | _, Forest.nil => True
  | y, Forest.node p c s =>
    (tbl p).p_parent = some y ∧ (tbl p).p_child = c.roots ∧
      Forest.StoredIn tbl p c ∧ Forest.StoredIn tbl y s

/-- Reap the PCBs of a list one after the other. -/
def reapAll (l : List Nat) (st : State) : State := l.foldl (fun s x => reapPcb x s) st

/-- The PCB `z` is on the ready queue or on the queue of an active descriptor. -/
def Queued (st : State) (z : Nat) : Prop :=
  z ∈ st.ReadyQueue ∨ ∃ d, d ∈ st.semd_h ∧ z ∈ (st.semd_table d).s_procq

/-- The conditions under which reaping the PCBs of `l` removes exactly them from
the queues: a queued PCB with the pid of one of them is that PCB, a PCB of `l`
that is on the blocked queue of a semaphore has that semaphore (or one with the
same descriptor) as its `p_semAdd`, and no queue holds a PCB twice. -/
def ReapReady (l : List Nat) (st : State) : Prop :=
  (∀ x, x ∈ l → ∀ z, Queued st z →
    (st.pcbFree_table z).p_pid = (st.pcbFree_table x).p_pid → z = x) ∧
  (∀ x, x ∈ l → ∀ a, x ∈ blockedQueue a st →
    findSemd (st.pcbFree_table x).p_semAdd st = findSemd a st) ∧
  st.ReadyQueue.Nodup ∧ (∀ a, (blockedQueue a st).Nodup)

/-- What TERMPROCESS has to achieve on the PCBs of `l` (the target and its
descendants), between the state `st` before and the state `st'` after: each PCB
of `l` has no parent any more and is no longer in the child list of the parent
it had; PCBs outside `l` keep their parent; the ready queue and every blocked
queue are the old ones with exactly the PCBs of `l` removed; every CPU slot
holding a PCB of `l` is null and the other slots are unchanged; the free list
is the old one followed by `l`; `ProcessCount` is lowered by the length of `l`. -/
def SubtreeGone (st st' : State) (l : List Nat) : Prop :=
  (∀ x, x ∈ l → (st'.pcbFree_table x).p_parent = none) ∧
  (∀ x, x ∈ l → ∀ y, (st.pcbFree_table x).p_parent = some y →
    x ∉ (st'.pcbFree_table y).p_child) ∧
  (∀ z, z ∉ l → (st'.pcbFree_table z).p_parent = (st.pcbFree_table z).p_parent) ∧
  st'.ReadyQueue = st.ReadyQueue.filter (fun z => decide (z ∉ l)) ∧
  (∀ a, blockedQueue a st' = (blockedQueue a st).filter (fun z => decide (z ∉ l))) ∧
  (∀ i, i < NCPU → st'.CurrentProcess i =
    if ∃ x, x ∈ l ∧ st.CurrentProcess i = some x then none else st.CurrentProcess i) ∧
  st'.pcbFree_h = st.pcbFree_h ++ l ∧
  st'.ProcessCount = st.ProcessCount - l.length

/-! ## Sample states -/

/-- A PCB of the zero-initialised static table. -/
def idlePcb : pcb_t :=
  { p_parent := none, p_child := [], p_s := _initState, p_time := 0, p_semAdd := 0,
    p_supportStruct := 0, p_pid := 0 }

/-- A zeroed support structure. -/
def idleSupport : support_t :=
  { sup_asid := 0, sup_exceptState := fun _ => _initState,
    sup_exceptContext := fun _ => { stackPtr := 0, status := 0, pc := 0 } }

/-- The kernel variables after `initPcbs`, `initASL` and the initialisations of
`main` (no process yet), over a zeroed memory; the array `DeviceSemaphores` is
placed at `0x20002000`. -/
def initState : State :=
  { pcbFree_h := List.range MAXPROC, pcbFree_table := fun _ => idlePcb, next_pid := 1,
    semd_table := fun _ => { s_key := 0, s_procq := [] },
    semdFree_h := List.range MAXPROC, semd_h := [], ProcessCount := 0, ReadyQueue := [],
    CurrentProcess := fun _ => none, DeviceSemaphores := 0x20002000, lastTOD := 0,
    mem := fun _ => 0, stateMem := fun _ => _initState, supportMem := fun _ => idleSupport,
    excState := fun _ => _initState, timer := fun _ => 0, mieReg := fun _ => 0,
    statusReg := fun _ => 0 }

/-- A state whose PCB pool is exhausted. -/
def exhaustedPcbState : State := { initState with pcbFree_h := [] }

/-- A state with one process: PCB 19 (pid 1) runs on CPU 0. -/
def oneProcessState : State :=
  let st := (allocPcb initState).2
  { st with ProcessCount := 1, CurrentProcess := Function.update st.CurrentProcess 0 (some 19) }

/-- The address of a semaphore used in the sample runs. -/
def semA : Nat := 0x20003000

/-- PCB 19 (pid 1) runs on CPU 0 and PCB 18 (pid 2) is blocked on `semA`, whose
value is 0. -/
def waitingState : State :=
  let st := (allocPcb oneProcessState).2
  (insertBlocked semA 18 { st with ProcessCount := 2 }).2

/-- The command register of the device with semaphore index `i` (lines 3..6). -/
def cmdRegOf (i : Nat) : Nat := START_DEVREG + (i / 8) * INT_LINE_OFFSET + (i % 8) * DEVREGSIZE + 0x4

/-- One input/output cycle of the process on CPU 0 with the device of semaphore
index `i`: `doIo` on its command register, the device raising its bit in the
interrupt line's bit-word, and `handleDeviceInterrupt` on CPU 0. -/
def ioCycle (st : State) (i : Nat) : State :=
  match doIo 0 0 0 (cmdRegOf i) 2 st with
  | none => st
  | some (s1, _) =>
    match handleDeviceInterrupt 0 (IL_DISK + i / 8)
        { s1 with mem := Function.update s1.mem (0x10000040 + 4 * (i / 8)) (1 <<< (i % 8)) } with
    | none => st
    | some (s2, _) => s2

/-- Two processes: PCB 19 (pid 1) runs on CPU 0 and PCB 18 (pid 2) on CPU 1. -/
def twoCpuState : State :=
  let st := (allocPcb oneProcessState).2
  { st with ProcessCount := 2, CurrentProcess := Function.update st.CurrentProcess 1 (some 18) }

/-- The state after the process on CPU 0 of `twoCpuState` has used twenty
different devices, one cycle each. -/
def twentyDevicesState : State := (List.range 20).foldl ioCycle twoCpuState

/-- A PASSEREN on `semA` from CPU 0 followed by a VERHOGEN on `semA` from
CPU 1. -/
def oneBlockOneWake : List SemCall :=
  [{ isV := false, prid := 0, currTOD := 0, nextTOD := 0, semAddr := semA },
   { isV := true, prid := 1, currTOD := 0, nextTOD := 0, semAddr := semA }]

/-- PCB 19 (pid 1) runs on CPU 0; PCBs 18, 17 and 16 (pids 2, 3, 4) are blocked,
in that order, on the pseudo-clock semaphore. -/
def clockWaitState : State :=
  let s1 := (allocPcb oneProcessState).2
  let s2 := (allocPcb s1).2
  let s3 := (allocPcb s2).2
  let c := getPseudoClockSemaphore s3
  (insertBlocked c 16 (insertBlocked c 17 (insertBlocked c 18 { s3 with ProcessCount := 4 }).2).2).2

/-- The semaphore of flash device 0 (index 8 of `DeviceSemaphores`). -/
def flashSem0 : Nat := devSemAddr initState 8

/-- PCB 19, the only process, has issued `doIo` on flash device 0 from CPU 0 and
is blocked; the device has completed with status 1 and raised bit 0 of the
bit-word of interrupt line 4. -/
def ioPendingState : State :=
  match doIo 0 0 0 (cmdRegOf 8) 2 oneProcessState with
  | none => oneProcessState
  | some (s1, _) =>
    { s1 with mem := Function.update (Function.update s1.mem (0x10000040 + 4) 1) 0x100000D4 1 }

/-- The address of the processor state handed to CREATEPROCESS in the sample
runs. -/
def stateA : Nat := 0x20008000

/-- The tree Root -> A -> B -> C of scenario S1: Root is PCB 19 (pid 1) running
on CPU 0 in machine mode, A, B, C are PCBs 18, 17, 16 (pids 2, 3, 4), each
created by its parent from the state stored at `stateA`, all three on the ready
queue.  Root has issued TERMPROCESS with the pid of A. -/
def chainState : State :=
  let s1 := (createProcess 0 stateA 0 oneProcessState).getD oneProcessState
  let s2 := (createProcess 0 stateA 0 { s1 with CurrentProcess := Function.update s1.CurrentProcess 0 (some 18) }).getD s1
  let s3 := (createProcess 0 stateA 0 { s2 with CurrentProcess := Function.update s2.CurrentProcess 0 (some 17) }).getD s2
  { s3 with
      CurrentProcess := Function.update s3.CurrentProcess 0 (some 19)
      excState := Function.update s3.excState 0
        { _initState with status := MSTATUS_MPP_M, reg_a0 := TERMPROCESS, reg_a1 := 2,
                          pc_epc := 0x20001000 } }

/-- As `chainState`, with one more child X of Root (PCB 15, pid 5) at the end of
the ready queue. -/
def chainAndSiblingState : State :=
  let s := (createProcess 0 stateA 0 chainState).getD chainState
  { s with excState := chainState.excState }

/-- The forest below A in `chainState`: B (PCB 17) with its only child C
(PCB 16). -/
def chainForest : Forest := Forest.node 17 (Forest.node 16 Forest.nil Forest.nil) Forest.nil

/-! ## Traps, the PCB pool and the ASL: observations and sample states -/

/-- The queues, the semaphores, the process count, the PCBs and the CPU slots
are the same in both states. -/
def SameKernelData (s t : State) : Prop :=
  t.ReadyQueue = s.ReadyQueue ∧ t.semd_h = s.semd_h ∧ t.semd_table = s.semd_table ∧
  t.semdFree_h = s.semdFree_h ∧ t.mem = s.mem ∧ t.ProcessCount = s.ProcessCount ∧
  t.pcbFree_table = s.pcbFree_table ∧ t.pcbFree_h = s.pcbFree_h ∧
  t.CurrentProcess = s.CurrentProcess

/-- The nine service numbers `SYSCALL_handler` dispatches on. -/
def serviceCodes : List Nat :=
  [CREATEPROCESS, TERMPROCESS, PASSEREN, VERHOGEN, DOIO, GETTIME, CLOCKWAIT, GETSUPPORTPTR,
   GETPROCESSID]

/-- PCB 19 (pid 1, no support structure), the only process, runs on CPU 0 in
machine mode and issues a system call with the number 0 in a0. -/
def badCodeState : State :=
  { oneProcessState with
      excState := Function.update oneProcessState.excState 0
        { _initState with status := MSTATUS_MPP_M, reg_a0 := 0, pc_epc := 0x20001000 } }

/-- PCB 19 runs on CPU 0 in user mode with the support structure stored at
`0x20005000`, whose general-exception context is `(0x20006000, 0x1800,
0x20007000)`; it issues PASSEREN on `semA`. -/
def userCallState : State :=
  let st := oneProcessState.updPcb 19 (fun b => { b with p_supportStruct := 0x20005000 })
  { st with
      supportMem := Function.update st.supportMem 0x20005000
        { idleSupport with sup_exceptContext := fun _ =>
            { stackPtr := 0x20006000, status := 0x1800, pc := 0x20007000 } }
      excState := Function.update st.excState 0
        { _initState with status := 0, reg_a0 := PASSEREN, reg_a1 := semA, pc_epc := 0x80000100 } }

/-- PCB 19 (pid 1, accumulated time 0), the only process, runs on CPU 0 in
machine mode and issues GETTIME; `lastTOD` is 0. -/
def gettimeState : State :=
  { oneProcessState with
      excState := Function.update oneProcessState.excState 0
        { _initState with status := MSTATUS_MPP_M, reg_a0 := GETTIME, pc_epc := 0x20001000 } }

/-- The process resumed on CPU 0 runs on and traps again with `a0` in
register a0: the saved exception state is the resumed one with that a0. -/
def trapAgain (a0 : Nat) (st : State) : State :=
  st.setA0 0 a0

/-- The queue built from `mkEmptyProcQ` by `insertProcQ` of the PCBs of `ps`,
in that order. -/
def queueOf (ps : List Nat) : List Nat := ps.foldl insertProcQ mkEmptyProcQ

/-- The results of `k` successive `removeProcQ` calls on the queue and the
queue they leave. -/
def removeMany : Nat → List Nat → List (Option Nat) × List Nat
  | 0, q => ([], q)
  | k + 1, q => ((removeProcQ q).1 :: (removeMany k (removeProcQ q).2).1,
                 (removeMany k (removeProcQ q).2).2)

/-- The results of `k` successive `allocPcb` calls and the state after them. -/
def allocMany : Nat → State → List (Option Nat) × State
  | 0, st => ([], st)
  | k + 1, st => ((allocPcb st).1 :: (allocMany k (allocPcb st).2).1,
                  (allocMany k (allocPcb st).2).2)

/-- A zeroed processor state: `entry_hi`, `cause`, `status`, `pc_epc` and `mie`
are 0 and so is every general register, the named ones and the remaining 27. -/
def state_t.Zeroed (s : state_t) : Prop :=
  s.entry_hi = 0 ∧ s.cause = 0 ∧ s.status = 0 ∧ s.pc_epc = 0 ∧ s.mie = 0 ∧
  s.reg_a0 = 0 ∧ s.reg_a1 = 0 ∧ s.reg_a2 = 0 ∧ s.reg_a3 = 0 ∧ s.reg_sp = 0 ∧
  s.gpr = List.replicate 27 0

/-- What `_initPcb` leaves in a PCB: no parent, no children, a zeroed
processor state, no accumulated time and a null semaphore address. -/
def pcb_t.Cleared (b : pcb_t) : Prop :=
  b.p_parent = none ∧ b.p_child = [] ∧ b.p_s.Zeroed ∧ b.p_time = 0 ∧ b.p_semAdd = 0

/-- A call of the PCB allocator: `allocPcb()` or `freePcb(p)`. -/
inductive PcbCall where
  | alloc
  | free (p : Nat)
deriving DecidableEq

/-- The pids found in the PCBs returned by the successful `allocPcb` calls of
the sequence, in the order of the calls. -/
def pidLog : List PcbCall → State → List Int
  | [], _ => []
  | PcbCall.alloc :: cs, st =>
    match (allocPcb st).1 with
    | some p => ((allocPcb st).2.pcbFree_table p).p_pid :: pidLog cs (allocPcb st).2
    | none => pidLog cs (allocPcb st).2
  | PcbCall.free p :: cs, st => pidLog cs (freePcb p st)

/-- The PCBs returned by the successful `allocPcb` calls of the sequence. -/
def slotLog : List PcbCall → State → List Nat
  | [], _ => []
  | PcbCall.alloc :: cs, st => (allocPcb st).1.toList ++ slotLog cs (allocPcb st).2
  | PcbCall.free p :: cs, st => slotLog cs (freePcb p st)

/-- The ASL after twenty rounds from `oneProcessState`: in round `i` PCB 19 is
blocked on the semaphore at `semA + 4 * i` by `insertBlocked` and taken out
again by `outBlocked`. -/
def twentyRoundsState : State :=
  (List.range 20).foldl (fun s i => (outBlocked 19 (insertBlocked (semA + 4 * i) 19 s).2).2)
    oneProcessState

/-- A call of the ASL: `insertBlocked(a, p)` or `removeBlocked(a)`. -/
inductive AslCall where
  | ins (a p : Nat)
  | rem (a : Nat)

/-- The state after the call. -/
def AslCall.run : AslCall → State → State
  | AslCall.ins a p, st => (insertBlocked a p st).2
  | AslCall.rem a, st => (removeBlocked a st).2

/-- The state after a sequence of ASL calls. -/
def runAsl : List AslCall → State → State
  | [], st => st
  | c :: cs, st => runAsl cs (c.run st)

/-- The PCBs blocked on `a` by the successful `insertBlocked(a, .)` calls of the
sequence, in the order of the calls. -/
def insertedLog (a : Nat) : List AslCall → State → List Nat
  | [], _ => []
  | AslCall.ins b p :: cs, st =>
    (if b = a ∧ (insertBlocked b p st).1 = 0 then [p] else []) ++
      insertedLog a cs (insertBlocked b p st).2
  | AslCall.rem b :: cs, st => insertedLog a cs (removeBlocked b st).2

/-- The PCBs returned by the `removeBlocked(a)` calls of the sequence, in the
order of the calls (a null result contributes nothing). -/
def removedLog (a : Nat) : List AslCall → State → List Nat
  | [], _ => []
  | AslCall.ins b p :: cs, st => removedLog a cs (insertBlocked b p st).2
  | AslCall.rem b :: cs, st =>
    (if b = a then (removeBlocked b st).1.toList else []) ++
      removedLog a cs (removeBlocked b st).2

/-- All twenty PCBs have been allocated (pids 1 to 20); the ASL is as `initASL`
leaves it. -/
def allAllocatedState : State := (allocMany MAXPROC initState).2

/-- Three PCBs are blocked on `semA` and, in between, two on the next
semaphore; then `semA` is drained by four `removeBlocked` calls, and the other
semaphore by one. -/
def sampleAslCalls : List AslCall :=
  [AslCall.ins semA 5, AslCall.ins (semA + 4) 6, AslCall.ins semA 7, AslCall.rem semA,
   AslCall.ins (semA + 4) 8, AslCall.ins semA 9, AslCall.rem (semA + 4), AslCall.rem semA,
   AslCall.rem semA, AslCall.rem semA]

/-- PCB 19 (pid 1) is blocked on `semA` by `insertBlocked`; no other PCB is
blocked. -/
def blockedOnceState : State := (insertBlocked semA 19 oneProcessState).2

/-- Every descriptor of the active chain has at least one PCB in its queue. -/
def NoEmptyDescriptor (st : State) : Prop :=
  ∀ d, d ∈ st.semd_h → (st.semd_table d).s_procq ≠ []

/-- Two VERHOGEN calls on `semA` by the process running on CPU 0. -/
def twoVerhogen : List SemCall :=
  [{ isV := true, prid := 0, currTOD := 0, nextTOD := 0, semAddr := semA },
   { isV := true, prid := 0, currTOD := 0, nextTOD := 0, semAddr := semA }]

/-- A kernel operation: one of the ASL calls `insertBlocked`, `removeBlocked`,
`outBlocked`, `outBlockedPID`, or one of PASSEREN, VERHOGEN, DOIO and the
interrupt handler served on a CPU. -/
inductive KernelCall where
  | ins (a p : Nat)
  | rem (a : Nat)
  | out (p : Nat)
  | outPID (pid : Int)
  | P (prid currTOD nextTOD semAddr : Nat)
  | V (prid currTOD nextTOD semAddr : Nat)
  | io (prid currTOD nextTOD commandAddr commandValue : Nat)
  | interrupt (fuel prid cause : Nat)

/-- The state the operation leaves; `none` when the C code goes through a null
pointer (or the bound on the pseudo-clock loop is used up). -/
def KernelCall.run : KernelCall → State → Option State
  | KernelCall.ins a p, st => some (insertBlocked a p st).2
  | KernelCall.rem a, st => some (removeBlocked a st).2
  | KernelCall.out p, st => some (outBlocked p st).2
  | KernelCall.outPID pid, st => (outBlockedPID pid st).map (fun r => r.2)
  | KernelCall.P prid t1 t2 a, st => (passeren prid t1 t2 a st).map (fun r => r.1)
  | KernelCall.V prid t1 t2 a, st => (verhogen prid t1 t2 a st).map (fun r => r.1)
  | KernelCall.io prid t1 t2 c v, st => (doIo prid t1 t2 c v st).map (fun r => r.1)
  | KernelCall.interrupt fuel prid cause, st =>
    (INTERRUPT_handler fuel prid cause st).map (fun r => r.1)

/-- The semaphore address handed to the operation is not null. -/
def KernelCall.semNonNull : KernelCall → Bool
  | KernelCall.ins a _ => decide (a ≠ 0)
  | KernelCall.P _ _ _ a => decide (a ≠ 0)
  | KernelCall.V _ _ _ a => decide (a ≠ 0)
  | _ => true

/-- The state after a sequence of kernel operations. -/
def runKernel : List KernelCall → State → Option State
  | [], st => some st
  | c :: cs, st =>
    match c.run st with
    | none => none
    | some s => runKernel cs s

/-- Every PCB in the queue of an active descriptor has a non-null `p_semAdd`. -/
def BlockedHaveSemAdd (st : State) : Prop :=
  ∀ d, d ∈ st.semd_h → ∀ p, p ∈ (st.semd_table d).s_procq → (st.pcbFree_table p).p_semAdd ≠ 0

/-- From `st` to `st'` no PCB with a null `p_semAdd` has entered the queue of
an active descriptor, no non-null `p_semAdd` has become null, and the array
`DeviceSemaphores` has not moved. -/
def SemAddKept (st st' : State) : Prop :=
  (∀ d, d ∈ st'.semd_h → ∀ p, p ∈ (st'.semd_table d).s_procq →
    (d ∈ st.semd_h ∧ p ∈ (st.semd_table d).s_procq) ∨ (st'.pcbFree_table p).p_semAdd ≠ 0) ∧
  (∀ p, (st.pcbFree_table p).p_semAdd ≠ 0 → (st'.pcbFree_table p).p_semAdd ≠ 0) ∧
  st'.DeviceSemaphores = st.DeviceSemaphores

/-- The process on CPU 0 issues PASSEREN on `semA` (value 0) and the process on
CPU 1 then issues VERHOGEN on `semA`. -/
def blockThenWake : List KernelCall :=
  [KernelCall.P 0 0 0 semA, KernelCall.V 1 0 0 semA]

/-- The process on CPU 0 issues PASSEREN on `semA` (value 0) and the process on
CPU 1 issues DOIO on the command register of flash device 0. -/
def blockTwo : List KernelCall :=
  [KernelCall.P 0 0 0 semA, KernelCall.io 1 0 0 (cmdRegOf 8) 2]

/-! ## Support level (`phase3`)

The support level runs as processes of the nucleus.  A routine is embedded as a
function on the variables of the support level; the requests it makes to the
nucleus (`SYSCALL`) are appended to a trace, and the values a request returns
(the status delivered by DOIO) are arguments of the routine; a recorded
PASSEREN or VERHOGEN leaves the semaphore word in `mem` as it is.  The TLB and
the status register of the CPU are hardware outside the sources:
`updateTLB_Probe`, `disableInterrupts` and `enableInterrupts` leave the
variables below as they are. -/

def UPROCMAX : Nat := 8
def USERPGTBLSIZE : Nat := 32
def MAXSTRLENG : Nat := 128
def USERSTACKTOP : Nat := 0xC0000000
def UPROCSTARTADDR : Nat := 0x800000B0
def VALIDON : Nat := 0x200
def DIRTYON : Nat := 0x400
def VPNSHIFT : Nat := 12
def ASIDSHIFT : Nat := 6
def FLASHREAD : Nat := 2
def FLASHWRITE : Nat := 3
def PRINTCHR : Nat := 2
def CHARTRANSM : Nat := 5
def TERMINATE : Nat := 2
def WRITEPRINTER : Nat := 3
def WRITETERMINAL : Nat := 4
def READTERMINAL : Nat := 5

/-- Modelled from the spec: `READY` comes from the machine's `const.h`, which is
not part of the sources; section 6 of the specification lists `READY = 1`. -/
def READY : Nat := 1

/-- Modelled from the spec: `EOS` comes from the machine's `const.h`, which is not
part of the sources; section 6 of the specification: EOS is the NUL byte. -/
def EOS : Nat := 0

/-- `SWAP_POOL_SIZE` (vmSupport.h). -/
def SWAP_POOL_SIZE : Nat := 2 * UPROCMAX

/-- `SWAP_POOL_STARTADDR` (vmSupport.h). -/
def SWAP_POOL_STARTADDR : Nat := RAMSTART + (64 * PAGESIZE) + (NCPU * PAGESIZE)

/-- The address `SWAP_POOL_STARTADDR + (victim_frame_index * PAGESIZE)` that
`TLB_Handler` (line 184) computes for a frame, a `memaddr`. -/
def frameAddr (victim_frame_index : Nat) : Nat :=
  (SWAP_POOL_STARTADDR + victim_frame_index * PAGESIZE) % WORD

/-- `GET_PAGE_INDEX` (vmSupport.h) on an `int`; `vpn & 0xFF` is the remainder of
`vpn` modulo 256. -/
def GET_PAGE_INDEX (vpn : Int) : Int :=
  if vpn = 0xBFFFF then (USERPGTBLSIZE : Int) - 1 else vpn % 256

/-- `GET_DEV_BASE` (vmSupport.h), as an address. -/
def GET_DEV_BASE (int_line dev_num : Int) : Nat :=
  ofInt32 ((START_DEVREG : Int) + (int_line - 3) * 0x80 + dev_num * 0x10)

/-- `getDeviceSemIndex` (initProc.c). -/
def getDeviceSemIndex (line dev : Int) : Int := (line - 3) * 8 + dev

/-- Modelled from the spec: `swap_t` is declared in `types.h`, which is not part of
the sources: an entry of the swap table is (ASID, VPN, pointer to the owning
page-table entry), ASID -1 marking a free entry (section 3).  The pointer
`&supp->sup_privatePgTbl[i]` is the pair of the address of the support
structure and the index `i`; null is `none`. -/
structure swap_t where
  sw_asid : Int
  sw_pageNo : Int
  sw_pte : Option (Nat × Nat)
deriving DecidableEq

/-- A request to the nucleus: `SYSCALL(a0, a1, a2, a3)`. -/
structure Request where
  a0 : Nat
  a1 : Nat
  a2 : Nat
  a3 : Nat
deriving DecidableEq

/-- The variables of the support level and the memory it reads and writes. -/
structure SupState where
  /-- `SwapTable` (vmSupport.c). -/
  SwapTable : Nat → swap_t
  /-- The static `free_frame_index` of `_getFreeSwapFrameIndex`. -/
  free_frame_index : Nat
  /-- `AsidInSwapPool` (vmSupport.c). -/
  AsidInSwapPool : Int
  /-- The address of `SwapPoolSemaphore` (vmSupport.c). -/
  SwapPoolSemaphore : Nat
  /-- The address of `MasterSemaphore` (initProc.c). -/
  MasterSemaphore : Nat
  /-- The address of the array `SupportDeviceSemaphores` (initProc.c). -/
  SupportDeviceSemaphores : Nat
  /-- Word memory: device registers and semaphores, by address. -/
  mem : Nat → Nat
  /-- The bytes of the virtual address space of the calling U-proc. -/
  vmem : Nat → Nat
  /-- Support structures stored in memory, by address. -/
  supportMem : Nat → support_t
  /-- The requests made to the nucleus so far, oldest first. -/
  trace : List Request

/-- How a support-level routine ends: it returns to its caller, it resumes a
saved state, or it has asked the nucleus to terminate the process. -/
inductive SupControl where
  | ret
  | LDST (s : state_t)
  | terminated
deriving DecidableEq

/-- `SYSCALL(a0, a1, a2, a3)`: the request is recorded. -/
def SupState.request (st : SupState) (a0 a1 a2 a3 : Nat) : SupState :=
  { st with trace := st.trace ++ [{ a0 := a0, a1 := a1, a2 := a2, a3 := a3 }] }

/-- The address `&SupportDeviceSemaphores[index]`. -/
def SupState.supportSemAddr (st : SupState) (index : Int) : Nat :=
  ofInt32 ((st.SupportDeviceSemaphores : Int) + 4 * index)

/-- Apply `f` to entry `i` of the private page table of the support structure
at address `s`. -/
def SupState.updPte (st : SupState) (s i : Nat) (f : pteEntry_t → pteEntry_t) : SupState :=
  let sup := st.supportMem s
  let tbl := Function.update sup.sup_privatePgTbl i (f (sup.sup_privatePgTbl i))
  { st with supportMem := Function.update st.supportMem s { sup with sup_privatePgTbl := tbl } }

/-- `_is_valid_address` (sysSupport.c); `virtAddr` is an `unsigned int`, and
`virtAddr + len` is computed in `unsigned int`. -/
def _is_valid_address (virtAddr : Nat) (len : Int) : Bool :=
  let sum := (virtAddr + ofInt32 len) % WORD
  let inTextData := decide (virtAddr ≥ 0x80000000) && decide (sum ≤ 0x8001E000)
  let inStack := decide (virtAddr ≥ 0xBFFFF000) && decide (sum ≤ USERSTACKTOP)
  let validLength := decide (len ≥ 0) && decide (len ≤ (MAXSTRLENG : Int))
  (inTextData || inStack) && validLength

/-- `terminateUProc` (sysSupport.c): the device semaphores of the U-proc that
are 0 are released, its swap-table entries are freed, the swap-pool semaphore
is released when the U-proc holds it, the master semaphore is released and the
nucleus is asked to terminate the process. -/
def terminateUProc (supp : Nat) (st : SupState) : SupState :=
  let asid : Int := ((st.supportMem supp).sup_asid : Nat)
  let st1 := (List.range' 3 6).foldl (fun s i =>
      let index := getDeviceSemIndex (i : Nat) (asid - 1)
      if s.mem (s.supportSemAddr index) = 0 then s.request VERHOGEN (s.supportSemAddr index) 0 0
      else s) st
  let st2 : SupState :=
    { st1 with SwapTable := fun i =>
        if i < SWAP_POOL_SIZE ∧ (st1.SwapTable i).sw_asid = asid then
          { sw_asid := -1, sw_pageNo := -1, sw_pte := none }
        else st1.SwapTable i }
  let st3 : SupState :=
    if st2.AsidInSwapPool = asid then
      { st2 with AsidInSwapPool := 0 }.request VERHOGEN st2.SwapPoolSemaphore 0 0
    else st2
  (st3.request VERHOGEN st3.MasterSemaphore 0 0).request TERMPROCESS 0 0 0

/-- `programTrapExceptionHandler` (sysSupport.c). -/
def programTrapExceptionHandler (supp : Nat) (st : SupState) : SupState :=
  terminateUProc supp st

/-- `_getFreeSwapFrameIndex` (vmSupport.c): the loop stops at the first `i`
below `SWAP_POOL_SIZE` for which entry `(free_frame_index + i) % SWAP_POOL_SIZE`
is free, or at `SWAP_POOL_SIZE`. -/
def _getFreeSwapFrameIndex (st : SupState) : Nat × SupState :=
  let i := ((List.range SWAP_POOL_SIZE).find? (fun i =>
      decide ((st.SwapTable ((st.free_frame_index + i) % SWAP_POOL_SIZE)).sw_asid = -1))).getD
    SWAP_POOL_SIZE
  if i = SWAP_POOL_SIZE then (1, st)
  else
    ((st.free_frame_index + i) % SWAP_POOL_SIZE,
     { st with free_frame_index := (st.free_frame_index + i) % SWAP_POOL_SIZE })

/-- `initSwapStructs` (vmSupport.c). -/
def initSwapStructs (st : SupState) : SupState :=
  { st with SwapTable := fun i =>
      if i < SWAP_POOL_SIZE then { sw_asid := -1, sw_pageNo := -1, sw_pte := none }
      else st.SwapTable i }

/-- Store `v` in register a0 of the saved general-exception state of the support
structure at address `supp`. -/
def SupState.setA0 (st : SupState) (supp v : Nat) : SupState :=
  let sup := st.supportMem supp
  let es := Function.update sup.sup_exceptState GENERALEXCEPT { (sup.sup_exceptState GENERALEXCEPT) with reg_a0 := v }
  { st with supportMem := Function.update st.supportMem supp { sup with sup_exceptState := es } }

/-- The page-table entry a swap-table pointer designates; `none` for the null
pointer. -/
def SupState.pteAt (st : SupState) : Option (Nat × Nat) → Option pteEntry_t
  | none => none
  | some (s, i) => some ((st.supportMem s).sup_privatePgTbl i)

/-- `_flashIO` (vmSupport.c) called by the U-proc whose support structure is at
`supp`; `status` is the value its DOIO returns.  The second component is
`false` when the status is not READY, in which case the U-proc has been
terminated.  A device register `dtpreg_t` has its command word at offset 4 and
`data0` at offset 8. -/
def _flashIO (asid vpn : Int) (command starting_frame_addr status supp : Nat) (st : SupState) :
    SupState × Bool :=
  let dev := asid - 1
  let st1 := st.request GETSUPPORTPTR 0 0 0
  let flash_base := GET_DEV_BASE 4 dev
  let st2 : SupState :=
    { st1 with mem := Function.update st1.mem (flash_base + 0x8) starting_frame_addr }
  let device_block_number := (GET_PAGE_INDEX vpn).toNat
  let command_value := (device_block_number <<< 8) ||| command
  let st3 := st2.request DOIO (flash_base + 0x4) command_value 0
  if status ≠ READY then (programTrapExceptionHandler supp st3, false) else (st3, true)

/-- The loop of `TLB_Handler` (lines 166-180) over the swap-table entries still
to visit: `some true` when an entry for the page is found whose page-table
entry is valid (the handler then releases the swap pool and resumes the
U-proc), `some false` when the loop ends, `none` when a matching entry has a
null page-table pointer. -/
def residentValid (asid missing_page_num : Int) (st : SupState) : List Nat → Option Bool
  | [] => some false
  | i :: rest =>
    if (st.SwapTable i).sw_asid = asid ∧ (st.SwapTable i).sw_pageNo = missing_page_num then
      match st.pteAt (st.SwapTable i).sw_pte with
      | none => none
      | some pte =>
        if pte.pte_entryLO &&& VALIDON ≠ 0 then some true
        else residentValid asid missing_page_num st rest
    else residentValid asid missing_page_num st rest

/-- The eviction of `TLB_Handler` (lines 188-198): when the chosen frame is
occupied, the page-table entry of the page it holds loses its valid bit and the
frame is written to the backing store of its owner; `wStatus` is the status of
that write.  `none` when the entry has a null page-table pointer. -/
def evictFrame (victim frame_addr wStatus supp : Nat) (st : SupState) :
    Option (SupState × Bool) :=
  if (st.SwapTable victim).sw_asid ≠ -1 then
    match (st.SwapTable victim).sw_pte with
    | none => none
    | some (s, i) =>
      some ( _flashIO (st.SwapTable victim).sw_asid (st.SwapTable victim).sw_pageNo FLASHWRITE
        frame_addr wStatus supp
        (st.updPte s i (fun e => { e with pte_entryLO := e.pte_entryLO &&& (0xFFFFFFFF ^^^ VALIDON) })))
  else some (st, true)

/-- `TLB_Handler` (vmSupport.c), run by the U-proc whose support structure is at
`supp`; `wStatus` and `rStatus` are the statuses of the write of the victim
page (when there is one) and of the read of the missing page. -/
def TLB_Handler (supp wStatus rStatus : Nat) (st : SupState) : Option (SupState × SupControl) :=
  let st0 := st.request GETSUPPORTPTR 0 0 0
  let saved_exception_state := (st0.supportMem supp).sup_exceptState PGFAULTEXCEPT
  let cause := saved_exception_state.cause
  if cause ≠ 25 ∧ cause ≠ 26 then
    some (programTrapExceptionHandler supp st0, SupControl.terminated)
  else
    let asid : Int := ((st0.supportMem supp).sup_asid : Nat)
    let st1 : SupState := { (st0.request PASSEREN st0.SwapPoolSemaphore 0 0) with AsidInSwapPool := asid }
    let missing_page_num : Int := (((saved_exception_state.entry_hi &&& 0xFFFFF000) >>> VPNSHIFT : Nat) : Int)
    let index := (GET_PAGE_INDEX missing_page_num).toNat
    match residentValid asid missing_page_num st1 (List.range SWAP_POOL_SIZE) with
    | none => none
    | some true =>
      some (({ st1 with AsidInSwapPool := 0 } : SupState).request VERHOGEN st1.SwapPoolSemaphore 0 0,
            SupControl.LDST saved_exception_state)
    | some false =>
      let r := _getFreeSwapFrameIndex st1
      let victim_frame_index := r.1
      let frame_addr := frameAddr victim_frame_index
      match evictFrame victim_frame_index frame_addr wStatus supp r.2 with
      | none => none
      | some (st3, false) => some (st3, SupControl.terminated)
      | some (st3, true) =>
        match _flashIO asid missing_page_num FLASHREAD frame_addr rStatus supp st3 with
        | (st4, false) => some (st4, SupControl.terminated)
        | (st4, true) =>
          let entry : swap_t :=
            { sw_asid := asid, sw_pageNo := missing_page_num, sw_pte := some (supp, index) }
          let st5 : SupState :=
            { st4 with SwapTable := Function.update st4.SwapTable victim_frame_index entry }
          let st6 := st5.updPte supp index
            (fun e => { e with pte_entryLO := frame_addr ||| VALIDON ||| DIRTYON })
          some (({ st6 with AsidInSwapPool := 0 } : SupState).request VERHOGEN st6.SwapPoolSemaphore 0 0,
                SupControl.LDST saved_exception_state)

/-- The loop of `writePrinter` (lines 87-97) with `current_char` at
`virtAddr + k` and `chars_transmitted` equal to `k`; `status k` is the value
returned by the DOIO that sends character `k`.  The result carries the status
that made the loop stop, if any; `none` when the bound on the number of
iterations is used up. -/
def printerLoop (virtAddr : Nat) (len : Int) (printer_base : Nat) (status : Nat → Nat) :
    Nat → Nat → SupState → Option (SupState × Option Nat)
  | 0, _, _ => none
  | fuel + 1, k, st =>
    if st.vmem ((virtAddr + k) % WORD) = EOS then some (st, none)
    else if (k : Int) < len then
      let st1 : SupState :=
        { st with mem := Function.update st.mem (printer_base + 0x8) (st.vmem ((virtAddr + k) % WORD)) }
      let st2 := st1.request DOIO (printer_base + 0x4) PRINTCHR 0
      if status k ≠ READY then some (st2, some (status k))
      else printerLoop virtAddr len printer_base status fuel (k + 1) st2
    else some (st, none)

/-- `writePrinter` (sysSupport.c), called for the U-proc whose support structure
is at `supp`. -/
def writePrinter (fuel virtAddr : Nat) (len : Int) (supp : Nat) (status : Nat → Nat)
    (st : SupState) : Option (SupState × SupControl) :=
  if _is_valid_address virtAddr len = false then
    some (terminateUProc supp st, SupControl.terminated)
  else
    let asid : Int := ((st.supportMem supp).sup_asid : Nat)
    let semIndex := getDeviceSemIndex 6 (asid - 1)
    let st1 := st.request PASSEREN (st.supportSemAddr semIndex) 0 0
    let printer_base := GET_DEV_BASE 6 (asid - 1)
    match printerLoop virtAddr len printer_base status fuel 0 st1 with
    | none => none
    | some (st2, some s) =>
      some ((st2.setA0 supp (sub32 0 s)).request VERHOGEN (st2.supportSemAddr semIndex) 0 0,
            SupControl.ret)
    | some (st2, none) =>
      some ((st2.setA0 supp (ofInt32 len)).request VERHOGEN (st2.supportSemAddr semIndex) 0 0,
            SupControl.ret)

/-- The loop of `writeTerminal` (lines 131-141), as `printerLoop`; the second
component of the result is the final value of `chars_transmitted`.  A terminal
register `termreg_t` has its transmit command word at offset 0xC. -/
def terminalLoop (virtAddr : Nat) (len : Int) (terminal_dev : Nat) (status : Nat → Nat) :
    Nat → Nat → SupState → Option (SupState × Nat × Option Nat)
  | 0, _, _ => none
  | fuel + 1, k, st =>
    if st.vmem ((virtAddr + k) % WORD) = EOS then some (st, k, none)
    else if (k : Int) < len then
      let command_value := PRINTCHR ||| (st.vmem ((virtAddr + k) % WORD) <<< 8)
      let st1 := st.request DOIO (terminal_dev + 0xC) command_value 0
      if status k &&& 0xFF ≠ CHARTRANSM then some (st1, k + 1, some (status k))
      else terminalLoop virtAddr len terminal_dev status fuel (k + 1) st1
    else some (st, k + 1, none)

/-- `writeTerminal` (sysSupport.c), called for the U-proc whose support
structure is at `supp`. -/
def writeTerminal (fuel virtAddr : Nat) (len : Int) (supp : Nat) (status : Nat → Nat)
    (st : SupState) : Option (SupState × SupControl) :=
  if _is_valid_address virtAddr len = false then
    some (terminateUProc supp st, SupControl.terminated)
  else
    let asid : Int := ((st.supportMem supp).sup_asid : Nat)
    let semIndex := getDeviceSemIndex 7 (asid - 1)
    let st1 := st.request PASSEREN (st.supportSemAddr semIndex) 0 0
    let terminal_dev := GET_DEV_BASE 7 (asid - 1)
    match terminalLoop virtAddr len terminal_dev status fuel 0 st1 with
    | none => none
    | some (st2, _, some s) =>
      some ((st2.setA0 supp (sub32 0 s)).request VERHOGEN (st2.supportSemAddr semIndex) 0 0,
            SupControl.ret)
    | some (st2, chars_transmitted, none) =>
      some ((st2.setA0 supp chars_transmitted).request VERHOGEN (st2.supportSemAddr semIndex) 0 0,
            SupControl.ret)

def IEPON : Nat := 0x4
def IMON : Nat := 0xFF00
def TEBITON : Nat := 0x08000000
def USERPON : Nat := 0x8

/-- `_initSupport` (initProc.c) on the support structure at address `supp`.  The
addresses of the two handlers and of the last words of the two stacks of the
structure are parameters. -/
def _initSupport (supp asid generalHandler tlbHandler stackGen stackTLB : Nat) (st : SupState) :
    SupState :=
  let sup := st.supportMem supp
  let ctx : Nat → context_t := fun t =>
    if t = GENERALEXCEPT then
      { stackPtr := stackGen, status := IEPON ||| IMON ||| TEBITON, pc := generalHandler }
    else if t = PGFAULTEXCEPT then
      { stackPtr := stackTLB, status := IEPON ||| IMON ||| TEBITON, pc := tlbHandler }
    else sup.sup_exceptContext t
  let tbl : Nat → pteEntry_t := fun i =>
    if i < USERPGTBLSIZE - 1 then
      { pte_entryHI := (0x80000000 + (i <<< VPNSHIFT) + (asid <<< ASIDSHIFT)) % WORD,
        pte_entryLO := DIRTYON }
    else if i = USERPGTBLSIZE - 1 then
      { pte_entryHI := (0xBFFFF000 + (asid <<< ASIDSHIFT)) % WORD, pte_entryLO := DIRTYON }
    else sup.sup_privatePgTbl i
  let sup1 : support_t := { sup with sup_asid := asid, sup_exceptContext := ctx, sup_privatePgTbl := tbl }
  { st with supportMem := Function.update st.supportMem supp sup1 }

/-- The swap-table entries recorded for page `vpn` of address space `asid`. -/
def swapMatches (asid vpn : Int) (st : SupState) : List Nat :=
  (List.range SWAP_POOL_SIZE).filter (fun i =>
    decide ((st.SwapTable i).sw_asid = asid ∧ (st.SwapTable i).sw_pageNo = vpn))

/-- The results of `k` successive calls of `_getFreeSwapFrameIndex`. -/
def selectMany : Nat → SupState → List Nat
  | 0, _ => []
  | k + 1, st => (_getFreeSwapFrameIndex st).1 :: selectMany k (_getFreeSwapFrameIndex st).2

/-- The nucleus passes a page fault of the U-proc whose support structure is at
`supp` up to the support level: the saved page-fault state of the structure has
cause 25 and carries page `vpn` and the ASID of the U-proc in EntryHI. -/
def passUpFault (supp vpn : Nat) (st : SupState) : SupState :=
  let sup := st.supportMem supp
  let es : state_t := { _initState with cause := 25, entry_hi := (vpn <<< VPNSHIFT) + (sup.sup_asid <<< ASIDSHIFT) }
  let sup1 : support_t := { sup with sup_exceptState := Function.update sup.sup_exceptState PGFAULTEXCEPT es }
  { st with supportMem := Function.update st.supportMem supp sup1 }

/-- A service of the support level: the page-fault handler run for a fault of
the U-proc at `supp` on page `vpn`, with the statuses of its flash write and
flash read, or the termination of the U-proc at `supp`. -/
inductive SupCall where
  | fault (supp vpn wStatus rStatus : Nat)
  | terminate (supp : Nat)

/-- The state the service leaves. -/
def SupCall.run : SupCall → SupState → Option SupState
  | SupCall.fault supp vpn wStatus rStatus, st =>
    (TLB_Handler supp wStatus rStatus (passUpFault supp vpn st)).map (fun r => r.1)
  | SupCall.terminate supp, st => some (terminateUProc supp st)

/-- The state after a sequence of services. -/
def runSup : List SupCall → SupState → Option SupState
  | [], st => some st
  | c :: cs, st =>
    match c.run st with
    | none => none
    | some s => runSup cs s

/-- The address of the support structure of the U-proc with the given ASID in
the sample states. -/
def supportAddr (asid : Nat) : Nat := 0x2000A000 + asid * 0x1000

/-- The support level before `test` runs: the semaphores of
`SupportDeviceSemaphores` (placed at `0x20009100`) are 1, everything else is
zero. -/
def supZero : SupState :=
  { SwapTable := fun _ => { sw_asid := 0, sw_pageNo := 0, sw_pte := none },
    free_frame_index := 0, AsidInSwapPool := 0, SwapPoolSemaphore := 0x20009000,
    MasterSemaphore := 0x20009004, SupportDeviceSemaphores := 0x20009100,
    mem := fun a => if 0x20009100 ≤ a ∧ a < 0x20009100 + 4 * NSUPPSEM then 1 else 0,
    vmem := fun _ => 0, supportMem := fun _ => idleSupport, trace := [] }

/-- The support level as `test` sets it up: `initSwapStructs`, then
`_initSupport` for the ASIDs 1 to 8. -/
def supBoot : SupState :=
  (List.range UPROCMAX).foldl (fun s i =>
      _initSupport (supportAddr (i + 1)) (i + 1) 0x20004000 0x20005000
        (supportAddr (i + 1) + 0x800) (supportAddr (i + 1) + 0x400) s)
    (initSwapStructs supZero)

/-- The U-proc with ASID 1 touches its pages `0x80000` to `0x8000F` one after
the other; every flash operation succeeds. -/
def sixteenPageIns : List SupCall :=
  (List.range 16).map (fun j => SupCall.fault (supportAddr 1) (0x80000 + j) READY READY)

/-- The swap pool filled by `sixteenPageIns`. -/
def fullPoolState : SupState := (runSup sixteenPageIns supBoot).getD supBoot

/-- The U-proc with ASID 1 brings in two pages and the U-proc with ASID 3
fourteen, which fills the pool; the U-proc with ASID 2 faults, and the write of
the victim page to the flash device fails (status 6); the U-proc with ASID 3
terminates; the U-proc with ASID 1 touches its page `0x80001` again. -/
def staleEntryRun : List SupCall :=
  [SupCall.fault (supportAddr 1) 0x80000 READY READY,
   SupCall.fault (supportAddr 1) 0x80001 READY READY] ++
  (List.range 14).map (fun j => SupCall.fault (supportAddr 3) (0x80000 + j) READY READY) ++
  [SupCall.fault (supportAddr 2) 0x80000 6 READY,
   SupCall.terminate (supportAddr 3),
   SupCall.fault (supportAddr 1) 0x80001 READY READY]

/-- The command registers of the 48 devices: lines 3 to 6 with their devices 0
to 7, then for each terminal 0 to 7 its receive and its transmit command
register. -/
def deviceCommandRegisters : List Nat :=
  (List.range 32).map (fun n => 0x10000054 + (n / 8) * 0x80 + (n % 8) * 0x10 + 4) ++
  (List.range 16).map (fun n => 0x10000254 + (n / 2) * 0x10 + (if n % 2 = 0 then 0x4 else 0xC))

/-- The number of DOIO requests in a trace. -/
def doioCount (t : List Request) : Nat := (t.filter (fun r => decide (r.a0 = DOIO))).length

/-- The value left in a0 of the saved general-exception state of the support
structure at `supp`. -/
def SupState.resultA0 (st : SupState) (supp : Nat) : Nat :=
  ((st.supportMem supp).sup_exceptState GENERALEXCEPT).reg_a0

/-- The U-proc with ASID 1 has the bytes `h`, `i`, NUL at `0x80001000`. -/
def hiBufferState : SupState :=
  { supBoot with
      vmem := fun a => if a = 0x80001000 then 0x68 else if a = 0x80001001 then 0x69 else 0 }

/-- The U-proc with ASID 1 has the bytes `a`, `b`, `c`, NUL at `0x80001000`. -/
def abcBufferState : SupState :=
  { supBoot with
      vmem := fun a => if 0x80001000 ≤ a ∧ a < 0x80001003 then 0x61 + (a - 0x80001000) else 0 }

/-! ## The boot sequence (`phase2/initial.c`) and the accounting of PCBs -/

def IRT_RP_BIT_ON : Nat := 1 <<< 28

/-- `_initDeviceSemaphores` (initial.c). -/
def _initDeviceSemaphores (st : State) : State :=
  (List.range NRSEMAPHORES).foldl
    (fun s i => { s with mem := Function.update s.mem (devSemAddr s (i : Nat)) 0 }) st

/-- `_initCurrentProcessArray` (initial.c). -/
def _initCurrentProcessArray (st : State) : State :=
  { st with CurrentProcess := fun i => if i < NCPU then none else st.CurrentProcess i }

/-- `_initPassupVector` (initial.c); the addresses of `uTLB_RefillHandler` and
`exceptionHandler` are parameters.  Modelled from the spec: `passupvector_t` is
declared in the machine's library; its four words are, in order, the TLB-refill
stack pointer, the TLB-refill handler, the exception stack pointer and the
exception handler (section 6). -/
def _initPassupVector (uTLB_RefillHandler exceptionHandler : Nat) (st : State) : State :=
  (List.range NCPU).foldl
    (fun s i =>
      let passupVector := BIOSDATAPAGE + (0x900 + 0x10 * i)
      let sp := if i = 0 then KERNELSTACK else 0x20020000 + i * PAGESIZE
      let m1 := Function.update s.mem passupVector sp
      let m2 := Function.update m1 (passupVector + 0x8) sp
      let m3 := Function.update m2 (passupVector + 0x4) uTLB_RefillHandler
      { s with mem := Function.update m3 (passupVector + 0xC) exceptionHandler }) st

/-- `_initFirstPCB` (initial.c); `test` is the address of the function `test`
and `none` is `PANIC()`.  `RAMTOP` (const.h) adds the two bus registers at
`RAMBASEADDR` and `RAMBASESIZE`. -/
def _initFirstPCB (test : Nat) (st : State) : Option (Nat × State) :=
  match allocPcb st with
  | (none, _) => none
  | (some p, st1) =>
    let ramtop := (st1.mem RAMBASEADDR + st1.mem RAMBASESIZE) % WORD
    some (p, st1.updPcb p (fun b =>
      { b with p_s := { b.p_s with mie := MIE_ALL, status := MSTATUS_MPIE_MASK ||| MSTATUS_MPP_M, reg_sp := ramtop, pc_epc := test },
               p_semAdd := 0, p_time := 0, p_supportStruct := 0 }))

/-- `_initInterrupts` (initial.c). -/
def _initInterrupts (st : State) : State :=
  let st1 := (List.range IRT_NUM_ENTRY).foldl
    (fun s i => { s with mem := Function.update s.mem (IRT_START + i * 0x4) (IRT_RP_BIT_ON ||| ((1 <<< NCPU) - 1)) }) st
  { st1 with mem := Function.update st1.mem TPR 0 }

/-- Modelled from the spec: `INITCPU` is a macro of the machine's library, which
is not part of the sources; it starts CPU `i` on the processor state `s`
(section 2: one kernel PCB per CPU).  Of that state the model keeps the status
and the interrupt-enable register of the CPU. -/
def INITCPU (i : Nat) (s : state_t) (st : State) : State :=
  { st with statusReg := Function.update st.statusReg i s.status, mieReg := Function.update st.mieReg i s.mie }

/-- One round of the loop of `_initOtherPCBs` (initial.c), for CPU `i`;
`schedulerAddr` is the address of the function `scheduler` and `none` is
`PANIC()`. -/
def initOtherPCB (schedulerAddr : Nat) (i : Nat) (st : State) : Option State :=
  match allocPcb st with
  | (none, _) => none
  | (some p, st1) =>
    let st2 := st1.updPcb p (fun b =>
      { b with p_s := { b.p_s with status := MSTATUS_MPP_M, pc_epc := schedulerAddr, reg_sp := 0x20020000 + i * PAGESIZE },
               p_semAdd := 0, p_time := 0, p_supportStruct := 0 })
    some (INITCPU i (st2.pcbFree_table p).p_s st2)

/-- `_initOtherPCBs` (initial.c): the loop for `i` from 1 to `NCPU - 1`. -/
def _initOtherPCBs (schedulerAddr : Nat) (st : State) : Option State :=
  ((List.range (NCPU - 1)).map (fun k => k + 1)).foldl
    (fun s i => s.bind (initOtherPCB schedulerAddr i)) (some st)

/-- `main` (initial.c) up to its call of `scheduler`: the state `main` has built
when it calls the scheduler, `none` when it stops in `PANIC()`.  The addresses
of the functions `uTLB_RefillHandler`, `exceptionHandler`, `test` and
`scheduler` are parameters. -/
def mainInit (uTLB_RefillHandler exceptionHandler test schedulerAddr : Nat) (st : State) :
    Option State :=
  let st1 := _initPassupVector uTLB_RefillHandler exceptionHandler st
  let st2 := initASL (initPcbs st1)
  let st3 : State := { st2 with ProcessCount := 0, ReadyQueue := mkEmptyProcQ }
  let st4 := _initCurrentProcessArray (_initDeviceSemaphores st3)
  let st5 := LDIT PSECOND st4
  match _initFirstPCB test st5 with
  | none => none
  | some (p, st6) =>
    let st7 : State := { st6 with ReadyQueue := insertProcQ st6.ReadyQueue p }
    let st8 : State := { st7 with ProcessCount := (st7.ProcessCount + 1) % WORD }
    _initOtherPCBs schedulerAddr (_initInterrupts st8)

/-- `main` (initial.c), run by CPU 0. -/
def main (uTLB_RefillHandler exceptionHandler test schedulerAddr : Nat) (st : State) :
    Option (State × Control) :=
  (mainInit uTLB_RefillHandler exceptionHandler test schedulerAddr st).bind (scheduler 0)

/-- The PCBs held by the `CurrentProcess` entries of the CPUs. -/
def slotList (st : State) : List Nat :=
  (List.range NCPU).flatMap (fun i => (st.CurrentProcess i).toList)

/-- The PCBs on the queues of the descriptors of the active chain. -/
def blockedList (st : State) : List Nat :=
  st.semd_h.flatMap (fun d => (st.semd_table d).s_procq)

/-- The PCBs reachable from the ready queue, the `CurrentProcess` entries and
the blocked queues of the semaphores, each listed once. -/
def reachablePcbs (st : State) : List Nat :=
  (st.ReadyQueue ++ slotList st ++ blockedList st).dedup

/-- The PCBs of `pcbFree_table` that are not on the free list. -/
def nonFreePcbs (st : State) : List Nat :=
  (List.range MAXPROC).filter (fun p => decide (p ∉ st.pcbFree_h))

/-- The PCBs `_initOtherPCBs` allocates, one for each CPU from 1 to `NCPU - 1`:
the last entries of the free list after the PCB of the first process (the last
one, 19) has been taken. -/
def otherCpuPcbs : List Nat := (List.range (NCPU - 1)).map (fun k => MAXPROC - 2 - k)

/-- The PCBs of the ready queue, the `CurrentProcess` entries, the blocked
queues, the free list and `otherCpuPcbs`, with repetitions. -/
def accountedPcbs (st : State) : List Nat :=
  st.ReadyQueue ++ slotList st ++ blockedList st ++ st.pcbFree_h ++ otherCpuPcbs

/-- Every PCB of the table is in exactly one of the ready queue, a
`CurrentProcess` entry, a blocked queue, the free list and `otherCpuPcbs`; every
descriptor is in exactly one of the active chain and the free list; and no
active descriptor has an empty queue. -/
def Accounted (st : State) : Prop :=
  (accountedPcbs st).Perm (List.range MAXPROC) ∧
  (st.semd_h ++ st.semdFree_h).Perm (List.range MAXPROC) ∧
  NoEmptyDescriptor st

/-- A nucleus operation: the scheduler run by an idle CPU, a service requested
by the process running on CPU `prid` (CREATEPROCESS, PASSEREN, VERHOGEN, DOIO),
or a timer interrupt taken by CPU `prid` (the processor local timer, or the
interval timer of the pseudo-clock).  The clock values read by a blocking
service and the bound on the iterations of the pseudo-clock loop are
arguments. -/
inductive NucleusCall where
  | dispatch (prid : Nat)
  | create (prid statep supportStruct : Nat)
  | P (prid currTOD nextTOD semAddr : Nat)
  | V (prid currTOD nextTOD semAddr : Nat)
  | io (prid currTOD nextTOD commandAddr commandValue : Nat)
  | localTimer (prid : Nat)
  | pseudoClock (fuel prid : Nat)

/-- The CPU an operation runs on (`getPRID()`). -/
def NucleusCall.cpu : NucleusCall → Nat
  | dispatch prid => prid
  | create prid _ _ => prid
  | P prid _ _ _ => prid
  | V prid _ _ _ => prid
  | io prid _ _ _ _ => prid
  | localTimer prid => prid
  | pseudoClock _ prid => prid

/-- The state an operation leaves; `none` when the operation does not apply
(the scheduler on a CPU that has a current process) or the code dereferences a
null pointer. -/
def NucleusCall.run (c : NucleusCall) (st : State) : Option State :=
  match c with
  | dispatch prid =>
    if st.CurrentProcess prid = none then (scheduler prid st).map Prod.fst else none
  | create prid statep supportStruct => createProcess prid statep supportStruct st
  | P prid currTOD nextTOD semAddr => (passeren prid currTOD nextTOD semAddr st).map Prod.fst
  | V prid currTOD nextTOD semAddr => (verhogen prid currTOD nextTOD semAddr st).map Prod.fst
  | io prid currTOD nextTOD commandAddr commandValue =>
    (doIo prid currTOD nextTOD commandAddr commandValue st).map Prod.fst
  | localTimer prid => (handleProcessLocalTimerInterrupt prid st).map Prod.fst
  | pseudoClock fuel prid => (handlePseudoClockInterrupt fuel prid st).map Prod.fst

/-- The operations of a list, one after the other. -/
def runNucleus : List NucleusCall → State → Option State
  | [], st => some st
  | c :: cs, st => (c.run st).bind (runNucleus cs)

/-- The machine at power-on as used in the sample runs: the kernel variables
hold arbitrary values (here a stale ready queue and free list), `next_pid` has
its static initial value 1 and memory is zero but for the two bus registers
read by `RAMTOP`. -/
def powerOnState : State :=
  { initState with
      pcbFree_h := [3], ReadyQueue := [5, 5], ProcessCount := 7, semd_h := [1], semdFree_h := [],
      CurrentProcess := fun _ => some 2,
      mem := fun a => if a = RAMBASEADDR then 0x20000000 else if a = RAMBASESIZE then 0x02000000 else 0 }

/-- The state `main` builds from `powerOnState`. -/
def bootState : State := (mainInit 0x20001100 0x20001200 0x20001300 0x20001400 powerOnState).getD powerOnState

/-- A sample run after boot: CPU 0 dispatches the first process, which creates
two processes and blocks on `semA`; CPU 1 dispatches a created process, which
releases `semA`, starts a DOIO on the printer 0 and so blocks; the local timer
of CPU 0 and the interval timer then interrupt CPU 0. -/
def bootRun : List NucleusCall :=
  [NucleusCall.dispatch 0, NucleusCall.create 0 stateA 0, NucleusCall.create 0 stateA 0,
   NucleusCall.P 0 10 11 semA, NucleusCall.dispatch 1, NucleusCall.V 1 20 21 semA,
   NucleusCall.io 1 30 31 0x100001D8 2, NucleusCall.localTimer 0, NucleusCall.pseudoClock 30 0]

/-- The bag of the PCBs of the ready queue, the `CurrentProcess` entries, the
blocked queues and the free list. -/
def pcbBag (st : State) : Multiset Nat :=
  (st.ReadyQueue : Multiset Nat) + (slotList st : Multiset Nat) + (blockedList st : Multiset Nat) +
    (st.pcbFree_h : Multiset Nat)

/-- Every descriptor is in exactly one of the active chain and the free list,
and no active descriptor has an empty queue. -/
def AslOk (st : State) : Prop :=
  (st.semd_h ++ st.semdFree_h).Perm (List.range MAXPROC) ∧ NoEmptyDescriptor st

/-! ## The instantiator's processor state, the TLB-refill handler and sample states -/

/-- `_initState` (initProc.c): the function writes four fields of the `state_t`
it is given and leaves the others as they are. -/
def initProc._initState (state : state_t) (asid : Nat) : state_t :=
  { state with pc_epc := UPROCSTARTADDR, reg_sp := USERSTACKTOP, status := IMON ||| TEBITON ||| USERPON ||| IEPON, entry_hi := (asid <<< ASIDSHIFT) % WORD }

/-- The page-table index `uTLB_RefillHandler` (lines 43-46) computes from the
saved `entry_hi`. -/
def refillIndex (entry_hi : Nat) : Nat :=
  let vpn := (entry_hi &&& 0xFFFFF000) >>> VPNSHIFT
  if vpn = 0xBFFFF then USERPGTBLSIZE - 1 else vpn &&& 0xFF

/-- `uTLB_RefillHandler` (exceptions.c) on CPU `prid`: the page-table entry it
writes into the TLB (`setENTRYHI`, `setENTRYLO`, `TLBWR`) and the `LDST` of the
saved state.  `none` when the CPU has no current process or the process has no
support structure. -/
def uTLB_RefillHandler (prid : Nat) (st : State) : Option (pteEntry_t × Control) :=
  let saved_state := st.excState prid
  let index := refillIndex saved_state.entry_hi
  match st.CurrentProcess prid with
  | none => none
  | some cur =>
    if (st.pcbFree_table cur).p_supportStruct = 0 then none
    else
      some (((st.supportMem (st.pcbFree_table cur).p_supportStruct).sup_privatePgTbl index),
            Control.LDST saved_state)

/-- The page-table index `TLB_Handler` (lines 159-161) computes from the saved
`entry_hi`. -/
def faultIndex (entry_hi : Nat) : Int :=
  GET_PAGE_INDEX ((((entry_hi &&& 0xFFFFF000) >>> VPNSHIFT : Nat) : Int))

/-- The U-proc with ASID 1 as `test` creates it: PCB 19 runs on CPU 0, its
support structure is the one `_initSupport` has built at `supportAddr 1`, and
the saved exception state is the state `_initState` of initProc.c fabricates,
with the given values in a0 and a1 and the given `entry_hi`. -/
def uprocState (a0 a1 entry_hi : Nat) : State :=
  let st := oneProcessState.updPcb 19 (fun b => { b with p_supportStruct := supportAddr 1 })
  let s := initProc._initState _initState 1
  { st with supportMem := supBoot.supportMem, excState := Function.update st.excState 0 { s with reg_a0 := a0, reg_a1 := a1, entry_hi := entry_hi } }

/-- PCB 19, the only process, runs on CPU 0; the time-scale register holds 1. -/
def timeScaleOneState : State :=
  { oneProcessState with mem := Function.update oneProcessState.mem TIMESCALEADDR 1 }

/-! ## The general exception handler of the support level (`phase3/sysSupport.c`) -/

def GETEXECCODE : Nat := 0x7C
def SYSEXCEPTION : Nat := 8
def BREAKEXCEPTION : Nat := 9
def RECEIVECHAR : Nat := 2
def CHARRECV : Nat := 5

/-- The loop of `readTerminal` (lines 168-186) with `chars_received` equal to
`k`; `status k` is the value returned by the DOIO that receives character `k`.
The character is the byte `status >> 8`; a line feed or carriage return is
stored as EOS and ends the loop.  The result carries the final value of
`chars_received` and the status that made the loop stop, if any; `none` when
the bound on the number of iterations is used up. -/
def readLoop (virtAddr terminal_dev : Nat) (status : Nat → Nat) :
    Nat → Nat → SupState → Option (SupState × Nat × Option Nat)
  | 0, _, _ => none
  | fuel + 1, k, st =>
    let st1 := st.request DOIO (terminal_dev + 0x4) RECEIVECHAR 0
    if status k &&& 0xFF ≠ CHARRECV then some (st1, k, some (status k))
    else
      let c := (status k >>> 8) % 256
      let current_char := if c = 10 ∨ c = 13 then EOS else c
      let st2 : SupState := { st1 with vmem := Function.update st1.vmem ((virtAddr + k) % WORD) current_char }
      if current_char = EOS then some (st2, k + 1, none)
      else readLoop virtAddr terminal_dev status fuel (k + 1) st2

/-- `readTerminal` (sysSupport.c), called for the U-proc whose support structure
is at `supp`. -/
def readTerminal (fuel virtAddr supp : Nat) (status : Nat → Nat) (st : SupState) :
    Option (SupState × SupControl) :=
  let asid : Int := ((st.supportMem supp).sup_asid : Nat)
  let semIndex := getDeviceSemIndex 8 (asid - 1)
  let st1 := st.request PASSEREN (st.supportSemAddr semIndex) 0 0
  let terminal_dev := GET_DEV_BASE 7 (asid - 1)
  match readLoop virtAddr terminal_dev status fuel 0 st1 with
  | none => none
  | some (st2, _, some s) =>
    some ((st2.setA0 supp (sub32 0 s)).request VERHOGEN (st2.supportSemAddr semIndex) 0 0,
          SupControl.ret)
  | some (st2, chars_received, none) =>
    some ((st2.setA0 supp chars_received).request VERHOGEN (st2.supportSemAddr semIndex) 0 0,
          SupControl.ret)

/-- The end of `syscallHandler` (lines 218-219), reached when the service
returns: the saved pc is advanced by 4 and the saved state is reloaded. -/
def resumeUProc (supp : Nat) (st : SupState) : SupState × SupControl :=
  let sup := st.supportMem supp
  let state := sup.sup_exceptState GENERALEXCEPT
  let state1 := { state with pc_epc := (state.pc_epc + 4) % WORD }
  let sup1 : support_t := { sup with sup_exceptState := Function.update sup.sup_exceptState GENERALEXCEPT state1 }
  ({ st with supportMem := Function.update st.supportMem supp sup1 }, SupControl.LDST state1)

/-- `syscallHandler` (sysSupport.c) for the U-proc whose support structure is at
`supp`; `status` gives the statuses of the DOIO requests of the service and
`fuel` bounds its loop. -/
def syscallHandler (fuel supp : Nat) (status : Nat → Nat) (st : SupState) :
    Option (SupState × SupControl) :=
  let state := (st.supportMem supp).sup_exceptState GENERALEXCEPT
  let served : Option (SupState × SupControl) :=
    if state.reg_a0 = TERMINATE then some (terminateUProc supp st, SupControl.terminated)
    else if state.reg_a0 = WRITEPRINTER then
      writePrinter fuel state.reg_a1 (toInt32 state.reg_a2) supp status st
    else if state.reg_a0 = WRITETERMINAL then
      writeTerminal fuel state.reg_a1 (toInt32 state.reg_a2) supp status st
    else if state.reg_a0 = READTERMINAL then readTerminal fuel state.reg_a1 supp status st
    else some (st, SupControl.ret)
  match served with
  | some (st1, SupControl.ret) => some (resumeUProc supp st1)
  | r => r

/-- `generalExceptionHandler` (sysSupport.c); `supp` is the pointer the nucleus
returns for GETSUPPORTPTR. -/
def generalExceptionHandler (fuel supp : Nat) (status : Nat → Nat) (st : SupState) :
    Option (SupState × SupControl) :=
  let st0 := st.request GETSUPPORTPTR 0 0 0
  let exception_code := ((st0.supportMem supp).sup_exceptState GENERALEXCEPT).cause &&& GETEXECCODE
  if exception_code = SYSEXCEPTION then syscallHandler fuel supp status st0
  else some (programTrapExceptionHandler supp st0, SupControl.terminated)

/-- The nucleus has passed an exception of the U-proc whose support structure
is at `supp` up to the support level: the saved general-exception state of the
structure has the given cause and the given value in a0, and its pc is
`0x80000100`. -/
def passUpGeneral (supp cause a0 : Nat) (st : SupState) : SupState :=
  let sup := st.supportMem supp
  let es : state_t := { (initProc._initState _initState sup.sup_asid) with cause := cause, reg_a0 := a0, pc_epc := 0x80000100 }
  let sup1 : support_t := { sup with sup_exceptState := Function.update sup.sup_exceptState GENERALEXCEPT es }
  { st with supportMem := Function.update st.supportMem supp sup1 }

/-- The ASID of the U-proc whose support structure is at `supp`, as
`TLB_Handler` reads it. -/
def faultAsid (supp : Nat) (st : SupState) : Int := ((st.supportMem supp).sup_asid : Nat)

/-- The missing page number `TLB_Handler` (line 159) extracts from the saved
page-fault state of the support structure at `supp`. -/
def faultPage (supp : Nat) (st : SupState) : Int :=
  ((((((st.supportMem supp).sup_exceptState PGFAULTEXCEPT).entry_hi &&& 0xFFFFF000) >>> VPNSHIFT : Nat)) : Int)

/-- Entry `j` of the private page table of the support structure at `s`. -/
def SupState.pte (st : SupState) (s j : Nat) : pteEntry_t := (st.supportMem s).sup_privatePgTbl j

/-- A page-table entry with its valid bit cleared (`pte_entryLO &= ~VALIDON`). -/
def pteEntry_t.invalidated (e : pteEntry_t) : pteEntry_t :=
  { e with pte_entryLO := e.pte_entryLO &&& (0xFFFFFFFF ^^^ VALIDON) }

/-! ## The global lock (`GlobalLock`, initial.c)

The control paths of the nucleus routines, reduced to the events that concern
the global lock: `ACQUIRE_LOCK(&GlobalLock)`, `RELEASE_LOCK(&GlobalLock)`, the
call of `scheduler`, the instructions that give up the processor, `PANIC()`
and the return of a routine to its caller.  Each routine below follows the
branches of the routine of the same name above and lists the events of the
path taken from the given state, in program order. -/

/-- The events of a control path that concern the global lock. -/
inductive LockEvent where
  | ACQUIRE_LOCK
  | RELEASE_LOCK
  | scheduler
  | HALT
  | WAIT
  | LDST
  | LDCXT
  | PANIC
  | ret
deriving DecidableEq

/-- The event with which a routine gives up the processor or returns. -/
def Control.event : Control → LockEvent
  | Control.HALT => LockEvent.HALT
  | Control.WAIT => LockEvent.WAIT
  | Control.LDST _ => LockEvent.LDST
  | Control.LDCXT _ _ _ => LockEvent.LDCXT
  | Control.PANIC => LockEvent.PANIC
  | Control.ret => LockEvent.ret

/-- The events of `scheduler` (scheduler.c): the lock is acquired at line 32
and released at line 34 when the ready queue is empty, before `HALT` or `WAIT`,
and at line 56 otherwise, before `LDST`. -/
def schedulerLock (prid : Nat) (st : State) : Option (List LockEvent) :=
  if emptyProcQ st.ReadyQueue then
    if st.ProcessCount = 0 then
      some [LockEvent.ACQUIRE_LOCK, LockEvent.RELEASE_LOCK, LockEvent.HALT]
    else
      some [LockEvent.ACQUIRE_LOCK, LockEvent.RELEASE_LOCK, LockEvent.WAIT]
  else
    match Function.update st.CurrentProcess prid (removeProcQ st.ReadyQueue).1 prid with
    | none => none
    | some _ => some [LockEvent.ACQUIRE_LOCK, LockEvent.RELEASE_LOCK, LockEvent.LDST]

/-- The events of `createProcess` (exceptions.c lines 149-184): the lock is
acquired at line 150 and released at line 157 before the early return, or at
line 183 at the end.  `none` when the copy of `*statep` at line 162 goes
through a null pointer. -/
def createProcessLock (statep : Nat) (st : State) : Option (List LockEvent) :=
  match (allocPcb st).1 with
  | none => some [LockEvent.ACQUIRE_LOCK, LockEvent.RELEASE_LOCK, LockEvent.ret]
  | some _ =>
    if statep = 0 then none
    else some [LockEvent.ACQUIRE_LOCK, LockEvent.RELEASE_LOCK, LockEvent.ret]

/-- The events of `terminateProcess` after the target is known (lines
200-238), the lock being held: the release at line 237 and the call of
`scheduler` at line 238. -/
def terminateTargetLock (fuel prid target : Nat) (st : State) : Option (List LockEvent) :=
  match (if emptyChild target st then some st
         else terminateProcessSubTree fuel (st.pcbFree_table target).p_child.head? st) with
  | none => none
  | some st1 =>
    (schedulerLock prid (reapPcb target st1)).map
      (fun t => [LockEvent.RELEASE_LOCK, LockEvent.scheduler] ++ t)

/-- The events of `terminateProcess` (lines 192-239): the lock is acquired at
line 193; when no process has the pid it is released at line 207 and the
routine returns. -/
def terminateProcessLock (fuel prid : Nat) (pid : Int) (st : State) : Option (List LockEvent) :=
  if pid = 0 then
    match st.CurrentProcess prid with
    | none => none
    | some target =>
      (terminateTargetLock fuel prid target st).map (fun t => LockEvent.ACQUIRE_LOCK :: t)
  else
    match findPcb prid pid st with
    | none => none
    | some (none, _) => some [LockEvent.ACQUIRE_LOCK, LockEvent.RELEASE_LOCK, LockEvent.ret]
    | some (some target, st1) =>
      (terminateTargetLock fuel prid target st1).map (fun t => LockEvent.ACQUIRE_LOCK :: t)

/-- The events of `passeren` (lines 249-289): the lock is acquired at line
250; in the blocking branch it is released at line 270 and `scheduler` is
called at line 275; otherwise it is released at line 287 and the routine
returns. -/
def passerenLock (prid currTOD nextTOD semAddr : Nat) (st : State) : Option (List LockEvent) :=
  if st.mem semAddr = 0 then
    match blockCaller prid currTOD nextTOD semAddr st with
    | none => none
    | some st1 =>
      (schedulerLock prid st1).map
        (fun t => [LockEvent.ACQUIRE_LOCK, LockEvent.RELEASE_LOCK, LockEvent.scheduler] ++ t)
  else some [LockEvent.ACQUIRE_LOCK, LockEvent.RELEASE_LOCK, LockEvent.ret]

/-- The events of `verhogen` (lines 300-339): the lock is acquired at line
301; in the blocking branch it is released at line 319 and `scheduler` is
called at line 324; otherwise it is released at line 337 and the routine
returns. -/
def verhogenLock (prid currTOD nextTOD semAddr : Nat) (st : State) : Option (List LockEvent) :=
  if st.mem semAddr = 1 then
    match blockCaller prid currTOD nextTOD semAddr st with
    | none => none
    | some st1 =>
      (schedulerLock prid st1).map
        (fun t => [LockEvent.ACQUIRE_LOCK, LockEvent.RELEASE_LOCK, LockEvent.scheduler] ++ t)
  else some [LockEvent.ACQUIRE_LOCK, LockEvent.RELEASE_LOCK, LockEvent.ret]

/-- The events of `doIo` (lines 349-378): the lock is acquired at line 350,
`getDeviceSemaphoreIndex` is called at line 352 and may end in `PANIC()`
(interrupts.c line 127); otherwise the lock is released at line 374 and
`scheduler` is called at line 377. -/
def doIoLock (prid currTOD nextTOD commandAddr commandValue : Nat) (st : State) :
    Option (List LockEvent) :=
  match getDeviceSemaphoreIndex commandAddr with
  | none => some [LockEvent.ACQUIRE_LOCK, LockEvent.PANIC]
  | some sem_index =>
    let semaddr := devSemAddr st sem_index
    let st1 := { st with mem := Function.update st.mem commandAddr commandValue }
    match blockCaller prid currTOD nextTOD semaddr st1 with
    | none => none
    | some st2 =>
      (schedulerLock prid st2).map
        (fun t => [LockEvent.ACQUIRE_LOCK, LockEvent.RELEASE_LOCK, LockEvent.scheduler] ++ t)

/-- The events of `waitForClock` (lines 384-387): those of `passeren` on the
pseudo-clock semaphore. -/
def waitForClockLock (prid currTOD nextTOD : Nat) (st : State) : Option (List LockEvent) :=
  passerenLock prid currTOD nextTOD (getPseudoClockSemaphore st) st

/-- The events of `getCPUTime` (lines 394-403): acquire at line 395, release
at line 402. -/
def getCPUTimeLock (prid currTOD nextTOD : Nat) (st : State) : Option (List LockEvent) :=
  (getCPUTime prid currTOD nextTOD st).map
    (fun _ => [LockEvent.ACQUIRE_LOCK, LockEvent.RELEASE_LOCK, LockEvent.ret])

/-- The events of `getSupportData` (lines 410-424): acquire at line 411,
release at line 423. -/
def getSupportDataLock (prid : Nat) (st : State) : Option (List LockEvent) :=
  (getSupportData prid st).map
    (fun _ => [LockEvent.ACQUIRE_LOCK, LockEvent.RELEASE_LOCK, LockEvent.ret])

/-- The events of `getProcessID` (lines 434-446): acquire at line 435, release
at line 445. -/
def getProcessIDLock (prid parent : Nat) (st : State) : Option (List LockEvent) :=
  (getProcessID prid parent st).map
    (fun _ => [LockEvent.ACQUIRE_LOCK, LockEvent.RELEASE_LOCK, LockEvent.ret])

/-- The events of `passUpToSupportLevel` (lines 448-459): acquire at line 449,
release at line 457, `LDCXT` at line 458. -/
def passUpToSupportLevelLock (prid exceptionType : Nat) (st : State) : Option (List LockEvent) :=
  (passUpToSupportLevel prid exceptionType st).map
    (fun _ => [LockEvent.ACQUIRE_LOCK, LockEvent.RELEASE_LOCK, LockEvent.LDCXT])

/-- The events of `handleProgramTrap` (lines 467-477): the lock is held while
the support pointer is read (lines 468-470), then the routine passes up or
calls `terminateProcess(0)`. -/
def handleProgramTrapLock (fuel prid : Nat) (st : State) : Option (List LockEvent) :=
  match st.CurrentProcess prid with
  | none => none
  | some cur =>
    if (st.pcbFree_table cur).p_supportStruct ≠ 0 then
      (passUpToSupportLevelLock prid GENERALEXCEPT st).map
        (fun t => [LockEvent.ACQUIRE_LOCK, LockEvent.RELEASE_LOCK] ++ t)
    else
      (terminateProcessLock fuel prid 0 st).map
        (fun t => [LockEvent.ACQUIRE_LOCK, LockEvent.RELEASE_LOCK] ++ t)

/-- The events of `handleTLBException` (lines 479-489), as those of
`handleProgramTrap`. -/
def handleTLBExceptionLock (fuel prid : Nat) (st : State) : Option (List LockEvent) :=
  match st.CurrentProcess prid with
  | none => none
  | some cur =>
    if (st.pcbFree_table cur).p_supportStruct ≠ 0 then
      (passUpToSupportLevelLock prid PGFAULTEXCEPT st).map
        (fun t => [LockEvent.ACQUIRE_LOCK, LockEvent.RELEASE_LOCK] ++ t)
    else
      (terminateProcessLock fuel prid 0 st).map
        (fun t => [LockEvent.ACQUIRE_LOCK, LockEvent.RELEASE_LOCK] ++ t)

/-- The end of `SYSCALL_handler` (lines 528-529) in terms of events: when the
service returned, the `LDST` of the saved state follows. -/
def afterServiceLock : Option (List LockEvent) → Option (List LockEvent)
  | none => none
  | some t => if t.getLast? = some LockEvent.ret then some (t ++ [LockEvent.LDST]) else some t

/-- The events of `SYSCALL_handler` (lines 491-531) on CPU `prid`. -/
def SYSCALL_handlerLock (fuel prid currTOD nextTOD : Nat) (st : State) :
    Option (List LockEvent) :=
  let exceptionState := st.excState prid
  if exceptionState.status &&& MSTATUS_MPP_MASK = 0 then
    handleProgramTrapLock fuel prid
      { st with
          excState := Function.update st.excState prid { exceptionState with cause := PRIVINSTR } }
  else
    let a0 := exceptionState.reg_a0
    afterServiceLock (
      if a0 = CREATEPROCESS then createProcessLock exceptionState.reg_a1 st
      else if a0 = TERMPROCESS then
        terminateProcessLock fuel prid (toInt32 exceptionState.reg_a1) st
      else if a0 = PASSEREN then passerenLock prid currTOD nextTOD exceptionState.reg_a1 st
      else if a0 = VERHOGEN then verhogenLock prid currTOD nextTOD exceptionState.reg_a1 st
      else if a0 = DOIO then
        doIoLock prid currTOD nextTOD exceptionState.reg_a1 exceptionState.reg_a2 st
      else if a0 = GETTIME then getCPUTimeLock prid currTOD nextTOD st
      else if a0 = CLOCKWAIT then waitForClockLock prid currTOD nextTOD st
      else if a0 = GETSUPPORTPTR then getSupportDataLock prid st
      else if a0 = GETPROCESSID then getProcessIDLock prid exceptionState.reg_a1 st
      else handleProgramTrapLock fuel prid st)

/-- The events of `handleDeviceInterrupt` after the `ACK` of a branch, the
lock being held: `getDeviceSemaphoreIndex` may end in `PANIC()`; when no
process waits the lock is released and the handler returns (lines 174-175,
191-192, 210-211); otherwise the lock is released at line 219 and the handler
calls `scheduler` or resumes the current process. -/
def deliverStatusLock (prid cmdAddr status : Nat) (st : State) : Option (List LockEvent) :=
  match getDeviceSemaphoreIndex cmdAddr with
  | none => some [LockEvent.PANIC]
  | some semIndex =>
    let semaddr := devSemAddr st semIndex
    match headBlocked semaddr st with
    | none => some [LockEvent.RELEASE_LOCK, LockEvent.ret]
    | some unblocked =>
      let st1 := st.updPcb unblocked (fun b => { b with p_s := { b.p_s with reg_a0 := status } })
      let st2 := { st1 with mem := Function.update st1.mem semaddr 1 }
      let st3 := { st2 with ReadyQueue := insertProcQ st2.ReadyQueue unblocked }
      match st3.CurrentProcess prid with
      | none =>
        (schedulerLock prid st3).map
          (fun t => [LockEvent.RELEASE_LOCK, LockEvent.scheduler] ++ t)
      | some _ => some [LockEvent.RELEASE_LOCK, LockEvent.LDST]

/-- The events of `handleDeviceInterrupt` (lines 152-226) on CPU `prid`:
`getHighestPriorityDeviceNumber` may end in `PANIC()` before the lock is
acquired at line 158. -/
def handleDeviceInterruptLock (prid cause : Nat) (st : State) : Option (List LockEvent) :=
  let int_line := getLineNo cause
  match getHighestPriorityDeviceNumber cause st with
  | none => some [LockEvent.PANIC]
  | some dev_no =>
    let dev_base := ofInt32 ((START_DEVREG : Int) + ((int_line : Int) - 3) * INT_LINE_OFFSET
      + dev_no * DEVREGSIZE)
    if int_line = 7 then
      let transm_status := st.mem (dev_base + TRANSM_STATUS_OFFSET)
      let recv_status := st.mem (dev_base + RECV_STATUS_OFFSET)
      if st.mem (dev_base + 0x8) &&& 0xFF = RECVD then
        (deliverStatusLock prid (dev_base + TRANSM_COMMAND_OFFSET) transm_status
          { st with mem := Function.update st.mem (dev_base + TRANSM_COMMAND_OFFSET) ACK }).map
          (fun t => LockEvent.ACQUIRE_LOCK :: t)
      else
        (deliverStatusLock prid (dev_base + RECV_COMMAND_OFFSET) recv_status
          { st with mem := Function.update st.mem (dev_base + RECV_COMMAND_OFFSET) ACK }).map
          (fun t => LockEvent.ACQUIRE_LOCK :: t)
    else
      let status := st.mem (dev_base + RECV_STATUS_OFFSET)
      (deliverStatusLock prid (dev_base + 0x4) status
        { st with mem := Function.update st.mem (dev_base + RECV_COMMAND_OFFSET) ACK }).map
        (fun t => LockEvent.ACQUIRE_LOCK :: t)

/-- The events of `handleProcessLocalTimerInterrupt` (lines 242-254): acquire
at line 243, release at line 252, `scheduler` at line 253. -/
def handleProcessLocalTimerInterruptLock (prid : Nat) (st : State) : Option (List LockEvent) :=
  match st.CurrentProcess prid with
  | none => none
  | some cur =>
    let st1 := { st with timer := Function.update st.timer prid ((TIMESLICE * TIMESCALEADDR) % WORD) }
    let st2 := st1.updPcb cur (fun b => { b with p_s := st1.excState prid })
    (schedulerLock prid { st2 with ReadyQueue := insertProcQ st2.ReadyQueue cur }).map
      (fun t => [LockEvent.ACQUIRE_LOCK, LockEvent.RELEASE_LOCK, LockEvent.scheduler] ++ t)

/-- The events of `handlePseudoClockInterrupt` (lines 272-292): acquire at
line 273, release at line 285, then `scheduler` or the `LDST` of the current
process. -/
def handlePseudoClockInterruptLock (fuel prid : Nat) (st : State) : Option (List LockEvent) :=
  let st1 := LDIT PSECOND st
  let semAddr := getPseudoClockSemaphore st1
  match (if (headBlocked semAddr st1).isSome then drainBlocked fuel semAddr st1 else some st1) with
  | none => none
  | some st2 =>
    match st2.CurrentProcess prid with
    | none =>
      (schedulerLock prid st2).map
        (fun t => [LockEvent.ACQUIRE_LOCK, LockEvent.RELEASE_LOCK, LockEvent.scheduler] ++ t)
    | some _ => some [LockEvent.ACQUIRE_LOCK, LockEvent.RELEASE_LOCK, LockEvent.LDST]

/-- The events of `INTERRUPT_handler` (lines 304-316) on CPU `prid`. -/
def INTERRUPT_handlerLock (fuel prid cause : Nat) (st : State) : Option (List LockEvent) :=
  if getLineNo cause = 1 then handleProcessLocalTimerInterruptLock prid st
  else if getLineNo cause = 2 then handlePseudoClockInterruptLock fuel prid st
  else handleDeviceInterruptLock prid cause st

/-- The events of `uTLB_RefillHandler` (exceptions.c lines 39-55): acquire at
line 40, release at line 53, `LDST` at line 54. -/
def uTLB_RefillHandlerLock (prid : Nat) (st : State) : Option (List LockEvent) :=
  (uTLB_RefillHandler prid st).map
    (fun _ => [LockEvent.ACQUIRE_LOCK, LockEvent.RELEASE_LOCK, LockEvent.LDST])

/-- The routines of the nucleus that use the global lock, with the arguments
and the hardware values each one is run with. -/
inductive NucleusEntry where
  | scheduler (prid : Nat)
  | createProcess (prid statep supportStruct : Nat)
  | terminateProcess (fuel prid : Nat) (pid : Int)
  | passeren (prid currTOD nextTOD semAddr : Nat)
  | verhogen (prid currTOD nextTOD semAddr : Nat)
  | doIo (prid currTOD nextTOD commandAddr commandValue : Nat)
  | waitForClock (prid currTOD nextTOD : Nat)
  | getCPUTime (prid currTOD nextTOD : Nat)
  | getSupportData (prid : Nat)
  | getProcessID (prid parent : Nat)
  | passUpToSupportLevel (prid exceptionType : Nat)
  | handleProgramTrap (fuel prid : Nat)
  | handleTLBException (fuel prid : Nat)
  | SYSCALL_handler (fuel prid currTOD nextTOD : Nat)
  | handleDeviceInterrupt (prid cause : Nat)
  | handleProcessLocalTimerInterrupt (prid : Nat)
  | handlePseudoClockInterrupt (fuel prid : Nat)
  | INTERRUPT_handler (fuel prid cause : Nat)
  | uTLB_RefillHandler (prid : Nat)

/-- The lock events of the control path a routine takes from a state; `none`
where the routine has no defined behaviour or the bound on a loop is used
up. -/
def lockTrace : NucleusEntry → State → Option (List LockEvent)
  | NucleusEntry.scheduler prid, st => schedulerLock prid st
  | NucleusEntry.createProcess _ statep _, st => createProcessLock statep st
  | NucleusEntry.terminateProcess fuel prid pid, st => terminateProcessLock fuel prid pid st
  | NucleusEntry.passeren prid c n a, st => passerenLock prid c n a st
  | NucleusEntry.verhogen prid c n a, st => verhogenLock prid c n a st
  | NucleusEntry.doIo prid c n a v, st => doIoLock prid c n a v st
  | NucleusEntry.waitForClock prid c n, st => waitForClockLock prid c n st
  | NucleusEntry.getCPUTime prid c n, st => getCPUTimeLock prid c n st
  | NucleusEntry.getSupportData prid, st => getSupportDataLock prid st
  | NucleusEntry.getProcessID prid parent, st => getProcessIDLock prid parent st
  | NucleusEntry.passUpToSupportLevel prid e, st => passUpToSupportLevelLock prid e st
  | NucleusEntry.handleProgramTrap fuel prid, st => handleProgramTrapLock fuel prid st
  | NucleusEntry.handleTLBException fuel prid, st => handleTLBExceptionLock fuel prid st
  | NucleusEntry.SYSCALL_handler fuel prid c n, st => SYSCALL_handlerLock fuel prid c n st
  | NucleusEntry.handleDeviceInterrupt prid cause, st => handleDeviceInterruptLock prid cause st
  | NucleusEntry.handleProcessLocalTimerInterrupt prid, st =>
    handleProcessLocalTimerInterruptLock prid st
  | NucleusEntry.handlePseudoClockInterrupt fuel prid, st =>
    handlePseudoClockInterruptLock fuel prid st
  | NucleusEntry.INTERRUPT_handler fuel prid cause, st => INTERRUPT_handlerLock fuel prid cause st
  | NucleusEntry.uTLB_RefillHandler prid, st => uTLB_RefillHandlerLock prid st

/-- What the routine does from the state according to the definitions above:
how it gives up the processor or returns. -/
def NucleusEntry.control : NucleusEntry → State → Option Control
  | NucleusEntry.scheduler prid, st => (MulOS.scheduler prid st).map (fun r => r.2)
  | NucleusEntry.createProcess prid statep supportStruct, st =>
    (MulOS.createProcess prid statep supportStruct st).map (fun _ => Control.ret)
  | NucleusEntry.terminateProcess fuel prid pid, st =>
    (MulOS.terminateProcess fuel prid pid st).map (fun r => r.2)
  | NucleusEntry.passeren prid c n a, st => (MulOS.passeren prid c n a st).map (fun r => r.2)
  | NucleusEntry.verhogen prid c n a, st => (MulOS.verhogen prid c n a st).map (fun r => r.2)
  | NucleusEntry.doIo prid c n a v, st => (MulOS.doIo prid c n a v st).map (fun r => r.2)
  | NucleusEntry.waitForClock prid c n, st => (MulOS.waitForClock prid c n st).map (fun r => r.2)
  | NucleusEntry.getCPUTime prid c n, st =>
    (MulOS.getCPUTime prid c n st).map (fun _ => Control.ret)
  | NucleusEntry.getSupportData prid, st =>
    (MulOS.getSupportData prid st).map (fun _ => Control.ret)
  | NucleusEntry.getProcessID prid parent, st =>
    (MulOS.getProcessID prid parent st).map (fun _ => Control.ret)
  | NucleusEntry.passUpToSupportLevel prid e, st =>
    (MulOS.passUpToSupportLevel prid e st).map (fun r => r.2)
  | NucleusEntry.handleProgramTrap fuel prid, st =>
    (MulOS.handleProgramTrap fuel prid st).map (fun r => r.2)
  | NucleusEntry.handleTLBException fuel prid, st =>
    (MulOS.handleTLBException fuel prid st).map (fun r => r.2)
  | NucleusEntry.SYSCALL_handler fuel prid c n, st =>
    (MulOS.SYSCALL_handler fuel prid c n st).map (fun r => r.2)
  | NucleusEntry.handleDeviceInterrupt prid cause, st =>
    (MulOS.handleDeviceInterrupt prid cause st).map (fun r => r.2)
  | NucleusEntry.handleProcessLocalTimerInterrupt prid, st =>
    (MulOS.handleProcessLocalTimerInterrupt prid st).map (fun r => r.2)
  | NucleusEntry.handlePseudoClockInterrupt fuel prid, st =>
    (MulOS.handlePseudoClockInterrupt fuel prid st).map (fun r => r.2)
  | NucleusEntry.INTERRUPT_handler fuel prid cause, st =>
    (MulOS.INTERRUPT_handler fuel prid cause st).map (fun r => r.2)
  | NucleusEntry.uTLB_RefillHandler prid, st =>
    (MulOS.uTLB_RefillHandler prid st).map (fun r => r.2)

/-- The scan of a path for the lock discipline, from the state of the lock
(`true`: held) at its start.  `ACQUIRE_LOCK` of a held lock, `RELEASE_LOCK` of
a free lock, and `scheduler`, `HALT`, `WAIT`, `LDST`, `LDCXT` or a return
while the lock is held are violations (`none`); `PANIC()` ends the path.  The
result is the state of the lock at the end of the path. -/
def lockScan : Bool → List LockEvent → Option Bool
  | held, [] => some held
  | held, LockEvent.ACQUIRE_LOCK :: t => if held then none else lockScan true t
  | held, LockEvent.RELEASE_LOCK :: t => if held then lockScan false t else none
  | held, LockEvent.PANIC :: _ => some held
  | held, _ :: t => if held then none else lockScan false t

/-- The lock discipline of a path that starts with the lock free: every
acquisition is followed by exactly one release before the next acquisition and
before the end of the path, and the lock is free at every call of `scheduler`,
at `HALT`, `WAIT`, `LDST` and `LDCXT` and at every return. -/
def LockDiscipline (t : List LockEvent) : Prop := lockScan false t = some false

instance LockDiscipline.decidable (t : List LockEvent) : Decidable (LockDiscipline t) := by
  unfold LockDiscipline
  infer_instance

/-- PCB 19, the only process, runs on CPU 0 in machine mode and issues DOIO
with the command address 0, which is the address of no device register. -/
def doioBadAddressState : State :=
  { oneProcessState with
      excState := Function.update oneProcessState.excState 0
        { _initState with status := MSTATUS_MPP_M, reg_a0 := DOIO, reg_a1 := 0,
                          pc_epc := 0x20001000 } }

/-- A path scanned from the lock state `held` has no violation, and when it
does not reach `PANIC()` the lock is free at its end. -/
def LockSafeFrom (held : Bool) (t : List LockEvent) : Prop :=
  (lockScan held t).isSome ∧ (LockEvent.PANIC ∉ t → lockScan held t = some false)

instance LockSafeFrom.decidable (held : Bool) (t : List LockEvent) :
    Decidable (LockSafeFrom held t) := by
  unfold LockSafeFrom
  infer_instance

/-- A processor state with distinctive contents, used as the state handed to
CREATEPROCESS. -/
def sampleProcessorState : state_t :=
  { _initState with status := MSTATUS_MPIE_MASK ||| MSTATUS_MPP_M, pc_epc := 0x20009000, reg_sp := 0x2000A000, reg_a0 := 7 }

/-- PCB 19 (pid 1), the only process, runs on CPU 0; the memory at `stateA`
holds `sampleProcessorState`. -/
def createCallState : State :=
  { oneProcessState with stateMem := Function.update oneProcessState.stateMem stateA sampleProcessorState }

/-- The state after the process on CPU 0 of `twoCpuState` has used twenty
devices, one cycle each: those with the semaphore indices 0 to 7 and 9 to 20,
that is all of the first twenty-one but flash device 0. -/
def twentyOtherDevicesState : State :=
  (List.range 8 ++ List.range' 9 12).foldl ioCycle twoCpuState

/-! ## The `p_list` links of the PCBs

A PCB has one `p_list` link, so in the C code it is a member of at most one
`list_head` collection at a time.  The sequences that represent the ready
queue, the blocked queues and the free list describe the C lists exactly in
the states in which this holds (`LinkedOnce`); a `list_add_tail` of a PCB that
is still linked elsewhere leaves the C lists in a shape that no sequences
describe. -/

/-- The PCBs linked through `p_list`, with repetitions: the members of the
ready queue, of the queues of the active descriptors and of the free list. -/
def linkedPcbs (st : State) : List Nat := st.ReadyQueue ++ blockedList st ++ st.pcbFree_h

/-- Every PCB is a member of at most one of the ready queue, the blocked
queues and the free list, at most once, and a PCB that runs on a CPU is a
member of none. -/
def LinkedOnce (st : State) : Prop :=
  (linkedPcbs st).Nodup ∧ ∀ p, p ∈ slotList st → p ∉ linkedPcbs st

instance LinkedOnce.decidable (st : State) : Decidable (LinkedOnce st) := by
  unfold LinkedOnce
  infer_instance

/-- Every `insertBlocked(a, p)` of the sequence is called with a PCB `p` that
is linked in no list at the time of the call, as in the nucleus, where the PCB
is that of the running process. -/
def insertsUnlinked : List AslCall → State → Bool
  | [], _ => true
  | AslCall.ins a p :: cs, st =>
    decide (p ∉ linkedPcbs st) && insertsUnlinked cs (insertBlocked a p st).2
  | AslCall.rem a :: cs, st => insertsUnlinked cs (removeBlocked a st).2

/-- Three processes: PCBs 19, 18 and 17 (pids 1, 2, 3) run on CPUs 0, 1
and 2. -/
def threeCpuState : State :=
  let st := (allocPcb (allocPcb oneProcessState).2).2
  { st with ProcessCount := 3, CurrentProcess := Function.update (Function.update st.CurrentProcess 1 (some 18)) 2 (some 17) }

/-- PASSEREN on `semA` from CPU 0, a VERHOGEN on another semaphore from CPU 2,
PASSEREN on `semA` from CPU 1, then two VERHOGENs on `semA` from CPU 2. -/
def twoBlockTwoWake : List SemCall :=
  [{ isV := false, prid := 0, currTOD := 0, nextTOD := 0, semAddr := semA },
   { isV := true, prid := 2, currTOD := 0, nextTOD := 0, semAddr := semA + 4 },
   { isV := false, prid := 1, currTOD := 0, nextTOD := 0, semAddr := semA },
   { isV := true, prid := 2, currTOD := 0, nextTOD := 0, semAddr := semA },
   { isV := true, prid := 2, currTOD := 0, nextTOD := 0, semAddr := semA }]

/-! ## Theorems -/

theorem scheduler_halt (c : Nat) (st : State) (hq : st.ReadyQueue = [])
    (hc : st.ProcessCount = 0) :
    scheduler c st = some ({ st with mem := writeIRT c st.mem }, Control.HALT) := by
  simp [scheduler, emptyProcQ, hq, hc]

theorem scheduler_wait (c : Nat) (st : State) (hq : st.ReadyQueue = [])
    (hc : st.ProcessCount ≠ 0) :
    scheduler c st = some ({ st with
        mieReg := Function.update st.mieReg c (MIE_ALL &&& (0xFFFFFFFF ^^^ MIE_MTIE_MASK))
        statusReg := Function.update st.statusReg c (st.statusReg c ||| MSTATUS_MIE_MASK)
        mem := Function.update st.mem TPR 1 }, Control.WAIT) := by
  simp [scheduler, emptyProcQ, hq, hc]

theorem scheduler_dispatch (c : Nat) (st : State) (p : Nat) (rest : List Nat)
    (hq : st.ReadyQueue = p :: rest) :
    scheduler c st = some ({ st with
        ReadyQueue := rest
        CurrentProcess := Function.update st.CurrentProcess c (some p)
        timer := Function.update st.timer c ((TIMESLICE * st.mem TIMESCALEADDR) % WORD)
        mem := Function.update st.mem TPR 0 }, Control.LDST (st.pcbFree_table p).p_s) := by
  simp [scheduler, emptyProcQ, hq, removeProcQ]

/-- C10: on every kernel state the scheduler run by CPU `c` has exactly one of
three outcomes.  It halts iff the ready queue is empty and `ProcessCount` is 0;
it waits iff the ready queue is empty and `ProcessCount` is positive, and then no
queue, no descriptor, no PCB and no CPU slot changes; otherwise it removes the
head of the ready queue, stores it in slot `c`, leaves the other slots, the rest
of the ready queue, the ASL and the free lists as they were, and resumes with the
saved state of that PCB. -/
theorem scheduler_three_outcomes (c : Nat) (st : State) :
    ∃ st' ctl, scheduler c st = some (st', ctl) ∧
      (ctl = Control.HALT ↔ st.ReadyQueue = [] ∧ st.ProcessCount = 0) ∧
      (ctl = Control.WAIT ↔ st.ReadyQueue = [] ∧ 0 < st.ProcessCount) ∧
      (ctl = Control.HALT ∨ ctl = Control.WAIT →
        st'.ReadyQueue = st.ReadyQueue ∧ st'.CurrentProcess = st.CurrentProcess) ∧
      ((ctl ≠ Control.HALT ∧ ctl ≠ Control.WAIT) ↔ st.ReadyQueue ≠ []) ∧
      (st.ReadyQueue ≠ [] →
        ∃ p rest, st.ReadyQueue = p :: rest ∧ st'.ReadyQueue = rest ∧
          st'.CurrentProcess c = some p ∧
          (∀ i, i ≠ c → st'.CurrentProcess i = st.CurrentProcess i) ∧
          ctl = Control.LDST (st.pcbFree_table p).p_s) ∧
      st'.semd_h = st.semd_h ∧ st'.semd_table = st.semd_table ∧
      st'.semdFree_h = st.semdFree_h ∧ st'.pcbFree_h = st.pcbFree_h ∧
      st'.pcbFree_table = st.pcbFree_table ∧ st'.ProcessCount = st.ProcessCount := by
  rcases hq : st.ReadyQueue with _ | ⟨p, rest⟩
  · by_cases hc : st.ProcessCount = 0
    · exact ⟨_, _, scheduler_halt c st hq hc, by simp [hq, hc]⟩
    · exact ⟨_, _, scheduler_wait c st hq hc, by simp [hq, hc, Nat.pos_of_ne_zero hc]⟩
  · refine ⟨_, _, scheduler_dispatch c st p rest hq, ?_⟩
    simp [hq]
    refine ⟨p, rest, ⟨rfl, rfl⟩, rfl, rfl, ?_, rfl⟩
    intro i hi
    simp [Function.update, hi]

/-! ### CREATEPROCESS -/

theorem allocPcb_none (st : State) (h : st.pcbFree_h = []) : allocPcb st = (none, st) := by
  simp [allocPcb, h]

theorem allocPcb_some (st : State) (np : Nat) (h : st.pcbFree_h.getLast? = some np) :
    allocPcb st = (some np, _initPcb np { st with pcbFree_h := st.pcbFree_h.dropLast }) := by
  simp [allocPcb, h]

/-- C5: when the PCB pool is exhausted, `allocPcb` returns null and
CREATEPROCESS returns after storing -1 in the caller's a0 (the word
`0xFFFFFFFF`), whatever `statep` is, leaving the ready queue, `ProcessCount`,
every PCB (so the caller's child list), the ASL and the free pool unchanged. -/
theorem createProcess_pool_exhausted (prid statep supp : Nat) (st : State)
    (h : st.pcbFree_h = []) :
    (allocPcb st).1 = none ∧
    ∃ st', createProcess prid statep supp st = some st' ∧
      toInt32 (st'.excState prid).reg_a0 = -1 ∧
      (st'.excState prid).reg_a0 = 0xFFFFFFFF ∧
      st'.ReadyQueue = st.ReadyQueue ∧
      st'.ProcessCount = st.ProcessCount ∧
      st'.pcbFree_table = st.pcbFree_table ∧
      st'.semd_h = st.semd_h ∧
      st'.semd_table = st.semd_table ∧
      st'.semdFree_h = st.semdFree_h ∧
      st'.pcbFree_h = st.pcbFree_h ∧
      st'.next_pid = st.next_pid := by
  have h1 : createProcess prid statep supp st = some (st.setA0 prid (ofInt32 (-1))) := by
    simp [createProcess, allocPcb_none st h]
  have h2 : ofInt32 (-1) = 0xFFFFFFFF := by decide
  rw [h2] at h1
  refine ⟨by simp [allocPcb_none st h], _, h1, ?_, ?_, rfl, rfl, rfl, rfl, rfl, rfl, rfl, rfl⟩
  · simp [State.setA0]; decide
  · simp [State.setA0]

/-- The exhausted pool with a null `statep`: the call returns -1. -/
theorem createProcess_pool_exhausted_witness :
    exhaustedPcbState.pcbFree_h = [] ∧
    ∃ st', createProcess 0 0 0 exhaustedPcbState = some st' ∧
      toInt32 (st'.excState 0).reg_a0 = -1 ∧
      st'.ReadyQueue = exhaustedPcbState.ReadyQueue := by
  obtain ⟨-, st', h1, h2, -, h3, -⟩ := createProcess_pool_exhausted 0 0 0 exhaustedPcbState rfl
  exact ⟨rfl, st', h1, h2, h3⟩

theorem ofInt32_of_range (i : Int) (h0 : 0 ≤ i) (h1 : i < 2 ^ 32) : ((ofInt32 i : Nat) : Int) = i := by
  unfold ofInt32
  rw [Int.emod_eq_of_lt h0 h1]
  exact Int.toNat_of_nonneg h0

theorem dropLast_append_of_getLast? {l : List Nat} {a : Nat} (h : l.getLast? = some a) :
    l = l.dropLast ++ [a] := by
  have hne : l ≠ [] := by
    intro h0
    simp [h0] at h
  have h2 := List.dropLast_append_getLast hne
  rw [List.getLast?_eq_getLast l hne] at h
  injection h with h
  rw [h] at h2
  exact h2.symm

theorem mem_of_getLast? {l : List Nat} {a : Nat} (h : l.getLast? = some a) : a ∈ l := by
  rw [dropLast_append_of_getLast? h]
  simp

/-- C4: when the PCB pool is not exhausted and `statep` points to a processor
state, CREATEPROCESS issued by the process `caller` running on CPU `prid`
returns; it takes the PCB `np` at the end of the free list, gives it the state
stored at `statep` and the support pointer `supp`, appends it to the ready
queue, makes it the last child of `caller`, increments `ProcessCount` by one,
and stores in the caller's a0 the pid of `np`, which differs from the pid of
every other allocated PCB.  The pid bound `hpid` (every allocated PCB has a pid
below `next_pid`) holds in every state built by `allocPcb` while `next_pid` has
not left the `int` range. -/
theorem createProcess_success (prid statep supp caller : Nat) (st : State)
    (hstate : statep ≠ 0)
    (hfree : st.pcbFree_h ≠ [])
    (hcur : st.CurrentProcess prid = some caller)
    (hcaller : caller ∉ st.pcbFree_h)
    (hpid : ∀ q, q < MAXPROC → q ∉ st.pcbFree_h → (st.pcbFree_table q).p_pid < st.next_pid)
    (hnext : 0 ≤ st.next_pid ∧ st.next_pid < 2 ^ 31)
    (hcount : st.ProcessCount + 1 < 2 ^ 32) :
    ∃ np st', st.pcbFree_h.getLast? = some np ∧ (allocPcb st).1 = some np ∧
      createProcess prid statep supp st = some st' ∧
      (st'.pcbFree_table np).p_s = st.stateMem statep ∧
      (st'.pcbFree_table np).p_supportStruct = supp ∧
      st'.ReadyQueue = st.ReadyQueue ++ [np] ∧
      (st'.pcbFree_table np).p_parent = some caller ∧
      (st'.pcbFree_table caller).p_child = (st.pcbFree_table caller).p_child ++ [np] ∧
      st'.ProcessCount = st.ProcessCount + 1 ∧
      (((st'.excState prid).reg_a0 : Nat) : Int) = (st'.pcbFree_table np).p_pid ∧
      (∀ q, q ≠ np → q < MAXPROC → q ∉ st'.pcbFree_h →
        (st'.pcbFree_table q).p_pid ≠ (st'.pcbFree_table np).p_pid) ∧
      st'.pcbFree_h = st.pcbFree_h.dropLast := by
  obtain ⟨np, hnp⟩ : ∃ np, st.pcbFree_h.getLast? = some np := by
    cases hl : st.pcbFree_h.getLast? with
    | none => exact absurd (List.getLast?_eq_none_iff.mp hl) hfree
    | some np => exact ⟨np, rfl⟩
  have hmem : np ∈ st.pcbFree_h := mem_of_getLast? hnp
  have hne : caller ≠ np := fun h => hcaller (h ▸ hmem)
  have hne' : np ≠ caller := fun h => hne h.symm
  have hsplit := dropLast_append_of_getLast? hnp
  have hmod : (st.ProcessCount + 1) % WORD = st.ProcessCount + 1 :=
    Nat.mod_eq_of_lt (by simpa [WORD] using hcount)
  have hof : ((ofInt32 st.next_pid : Nat) : Int) = st.next_pid :=
    ofInt32_of_range _ hnext.1 (by have := hnext.2; omega)
  have hex : ∃ st', createProcess prid statep supp st = some st' := by
    simp only [createProcess, allocPcb_some st np hnp, if_neg hstate]
    exact ⟨_, rfl⟩
  obtain ⟨st', hrun⟩ := hex
  have hst' := hrun
  simp only [createProcess, allocPcb_some st np hnp, if_neg hstate, Option.some.injEq] at hst'
  subst hst'
  refine ⟨np, _, hnp, by simp [allocPcb_some st np hnp], hrun, ?_, ?_, ?_, ?_, ?_, ?_, ?_, ?_, ?_⟩
  · simp [_initPcb, State.updPcb, insertChild, hcur,
      State.setA0, Function.update, hne, hne']
  · simp [_initPcb, State.updPcb, insertChild, hcur,
      State.setA0, Function.update, hne, hne']
  · simp [_initPcb, State.updPcb, insertChild, hcur,
      State.setA0, insertProcQ]
  · simp [_initPcb, State.updPcb, insertChild, hcur,
      State.setA0, Function.update, hne, hne']
  · simp [_initPcb, State.updPcb, insertChild, hcur,
      State.setA0, Function.update, hne, hne']
  · simp [_initPcb, State.updPcb, insertChild, hcur,
      State.setA0, hmod]
  · simp [_initPcb, State.updPcb, insertChild, hcur,
      State.setA0, Function.update, hne, hne', hof]
  · intro q hq hlt hnot
    have hnot' : q ∉ st.pcbFree_h := by
      simp only [_initPcb, State.updPcb, insertChild, hcur, State.setA0] at hnot
      intro hin
      rw [hsplit] at hin
      rcases List.mem_append.mp hin with h | h
      · exact hnot h
      · exact hq (by simpa using h)
    have hlt' := hpid q hlt hnot'
    by_cases hqc : q = caller
    · subst hqc
      simp [_initPcb, State.updPcb, insertChild, hcur,
        State.setA0, Function.update, hne, hne']
      omega
    · simp [_initPcb, State.updPcb, insertChild, hcur,
        State.setA0, Function.update, hq, hqc, hne, hne']
      omega
  · simp [_initPcb, State.updPcb, insertChild, hcur, State.setA0]

/-- The success case at a concrete call: PCB 19, the only process, running on
CPU 0, issues CREATEPROCESS with the state stored at `stateA` and the support
structure at `0x20005000`.  PCB 18 gets that state and that support pointer,
is the only entry of the ready queue and the only child of PCB 19, and its pid,
2, is returned in a0. -/
theorem createProcess_success_witness :
    createCallState.pcbFree_h ≠ [] ∧ createCallState.CurrentProcess 0 = some 19 ∧
    ∃ st', createProcess 0 stateA 0x20005000 createCallState = some st' ∧
      (st'.pcbFree_table 18).p_s = sampleProcessorState ∧
      (st'.pcbFree_table 18).p_supportStruct = 0x20005000 ∧
      st'.ReadyQueue = [18] ∧
      (st'.pcbFree_table 18).p_parent = some 19 ∧
      (st'.pcbFree_table 19).p_child = [18] ∧
      st'.ProcessCount = 2 ∧
      (st'.excState 0).reg_a0 = 2 ∧ (st'.pcbFree_table 18).p_pid = 2 := by
  obtain ⟨np, st', hnp, -, hrun, hs, hsup, hrq, hpar, hch, hpc, ha0, -, -⟩ :=
    createProcess_success 0 stateA 0x20005000 19 createCallState (by decide) (by decide)
      (by decide) (by decide) (by decide) (by decide) (by decide)
  have h18 : np = 18 := by
    have h : createCallState.pcbFree_h.getLast? = some 18 := by decide
    rw [h] at hnp
    injection hnp with hnp
    exact hnp.symm
  subst h18
  have hrun' : (createProcess 0 stateA 0x20005000 createCallState).map (fun s =>
      ((s.excState 0).reg_a0, (s.pcbFree_table 18).p_pid)) = some (2, 2) := by decide
  rw [hrun] at hrun'
  simp only [Option.map_some', Option.some.injEq, Prod.mk.injEq] at hrun'
  exact ⟨by decide, by decide, st', hrun, hs.trans (by decide), hsup, hrq, hpar, hch, hpc,
    hrun'.1, hrun'.2⟩

/-- With a PCB available, CREATEPROCESS on a null `statep` has no outcome: the
copy `newProcess->p_s = *statep` reads through the null pointer. -/
theorem createProcess_null_state (prid supp : Nat) (st : State) (hfree : st.pcbFree_h ≠ []) :
    createProcess prid 0 supp st = none := by
  obtain ⟨np, hnp⟩ : ∃ np, st.pcbFree_h.getLast? = some np := by
    cases hl : st.pcbFree_h.getLast? with
    | none => exact absurd (List.getLast?_eq_none_iff.mp hl) hfree
    | some np => exact ⟨np, rfl⟩
  simp only [createProcess, allocPcb_some st np hnp, if_true]

/-! ### The ASL: `removeBlocked` -/

theorem find?_erase_of_not {p : Nat → Bool} {d : Nat} (hd : p d = false) :
    ∀ l : List Nat, (l.erase d).find? p = l.find? p
  | [] => rfl
  | x :: l => by
    by_cases hx : x = d
    · subst hx
      simp [List.find?, hd]
    · have hbeq : (x == d) = false := by simpa using hx
      rw [List.erase_cons, hbeq]
      simp only [List.find?]
      cases p x
      · simpa using find?_erase_of_not hd l
      · rfl

theorem find?_congr {p q : Nat → Bool} :
    ∀ l : List Nat, (∀ x ∈ l, p x = q x) → l.find? p = l.find? q
  | [], _ => rfl
  | x :: l, h => by
    have hx := h x (List.mem_cons_self _ _)
    have hl := find?_congr l (fun y hy => h y (List.mem_cons_of_mem _ hy))
    simp only [List.find?, hx, hl]

theorem find?_erase_key {key : Nat → Nat} {a d : Nat} :
    ∀ l : List Nat, (l.map key).Nodup → l.find? (fun x => decide (key x = a)) = some d →
      (l.erase d).find? (fun x => decide (key x = a)) = none
  | [], _, h => by simp at h
  | x :: l, hnd, h => by
    rw [List.map_cons, List.nodup_cons] at hnd
    by_cases hx : key x = a
    · have hxd : x = d := by simpa [List.find?, hx] using h
      subst hxd
      simp only [List.erase_cons_head]
      rw [List.find?_eq_none]
      intro y hy
      have : key y ≠ key x := fun he => hnd.1 (he ▸ List.mem_map_of_mem key hy)
      simpa [hx] using this
    · have hxd : x ≠ d := by
        intro he
        have hd := List.find?_some h
        simp only [decide_eq_true_eq] at hd
        exact hx (he ▸ hd)
      have h' : l.find? (fun x => decide (key x = a)) = some d := by
        simpa [List.find?, hx] using h
      have hbeq : (x == d) = false := by simpa using hxd
      rw [List.erase_cons, hbeq]
      simp only [List.find?, hx, decide_False]
      exact find?_erase_key l hnd.2 h'

theorem findSemd_key {a d : Nat} {st : State} (h : findSemd a st = some d) :
    (st.semd_table d).s_key = a := by
  have := List.find?_some h
  simpa using this

theorem findSemd_mem {a d : Nat} {st : State} (h : findSemd a st = some d) : d ∈ st.semd_h :=
  List.mem_of_find?_eq_some h

theorem key_update_procq (tbl : Nat → semd_t) (d : Nat) (q : List Nat) (x : Nat) :
    (Function.update tbl d { tbl d with s_procq := q } x).s_key = (tbl x).s_key := by
  by_cases hx : x = d
  · subst hx; simp
  · simp [Function.update, hx]

theorem removeBlocked_none {a : Nat} {st : State} (h : findSemd a st = none) :
    removeBlocked a st = (none, st) := by
  simp [removeBlocked, h]

theorem removeBlocked_some {a d : Nat} {st : State} (h : findSemd a st = some d) :
    removeBlocked a st =
      ((st.semd_table d).s_procq.head?,
        if (st.semd_table d).s_procq.tail = [] then
          { st with
              semd_table := Function.update st.semd_table d
                { st.semd_table d with s_procq := (st.semd_table d).s_procq.tail }
              semd_h := st.semd_h.erase d
              semdFree_h := st.semdFree_h ++ [d] }
        else
          { st with
              semd_table := Function.update st.semd_table d
                { st.semd_table d with s_procq := (st.semd_table d).s_procq.tail } }) := by
  cases hq : (st.semd_table d).s_procq with
  | nil => simp [removeBlocked, h, hq, removeProcQ, emptyProcQ, State.updSemd]
  | cons p rest =>
    cases rest with
    | nil => simp [removeBlocked, h, hq, removeProcQ, emptyProcQ, State.updSemd]
    | cons p2 rest2 => simp [removeBlocked, h, hq, removeProcQ, emptyProcQ, State.updSemd]

theorem removeBlocked_fst (a : Nat) (st : State) :
    (removeBlocked a st).1 = (blockedQueue a st).head? := by
  cases h : findSemd a st with
  | none => simp [removeBlocked_none h, blockedQueue, h]
  | some d => simp [removeBlocked_some h, blockedQueue, h]

theorem removeBlocked_queue (a : Nat) (st : State) (hk : ASLKeysDistinct st) :
    blockedQueue a (removeBlocked a st).2 = (blockedQueue a st).tail := by
  cases h : findSemd a st with
  | none => simp [removeBlocked_none h, blockedQueue, h]
  | some d =>
    rw [removeBlocked_some h]
    simp only [blockedQueue, h]
    by_cases ht : (st.semd_table d).s_procq.tail = []
    · simp only [ht, if_true, findSemd]
      have h1 : (st.semd_h.erase d).find? (fun x => decide
          ((Function.update st.semd_table d { st.semd_table d with s_procq := [] } x).s_key = a))
          = none := by
        rw [find?_congr (q := fun x => decide ((st.semd_table x).s_key = a)) _
          (fun x _ => by rw [key_update_procq])]
        exact find?_erase_key st.semd_h hk h
      rw [h1]
    · simp only [ht, if_false, findSemd]
      have h1 : st.semd_h.find? (fun x => decide
          ((Function.update st.semd_table d
            { st.semd_table d with s_procq := (st.semd_table d).s_procq.tail } x).s_key = a))
          = some d := by
        rw [find?_congr (q := fun x => decide ((st.semd_table x).s_key = a)) _
          (fun x _ => by rw [key_update_procq])]
        exact h
      rw [h1]
      simp

theorem findSemd_congr (b : Nat) (st st' : State) (q : List Nat) (d : Nat)
    (htbl : st'.semd_table = Function.update st.semd_table d { st.semd_table d with s_procq := q })
    (hl : st'.semd_h = st.semd_h ∨
      (st'.semd_h = st.semd_h.erase d ∧ (st.semd_table d).s_key ≠ b)) :
    findSemd b st' = findSemd b st := by
  unfold findSemd
  rw [htbl, find?_congr (q := fun x => decide ((st.semd_table x).s_key = b)) _
    (fun x _ => by rw [key_update_procq])]
  rcases hl with hl | ⟨hl, hne⟩
  · rw [hl]
  · rw [hl, find?_erase_of_not (by simpa using hne)]

theorem removeBlocked_other (a b : Nat) (st : State) (hab : b ≠ a) :
    blockedQueue b (removeBlocked a st).2 = blockedQueue b st := by
  cases h : findSemd a st with
  | none => simp [removeBlocked_none h]
  | some d =>
    have hkd : (st.semd_table d).s_key = a := findSemd_key h
    have hkb : (st.semd_table d).s_key ≠ b := fun he => hab (he.symm.trans hkd)
    rw [removeBlocked_some h]
    have hval : ∀ (q : List Nat) (d' : Nat), findSemd b st = some d' →
        (Function.update st.semd_table d { st.semd_table d with s_procq := q } d').s_procq =
          (st.semd_table d').s_procq := by
      intro q d' hd'
      have hne : d' ≠ d := by
        intro he
        rw [he] at hd'
        exact hab ((findSemd_key hd').symm.trans hkd)
      simp [Function.update, hne]
    by_cases ht : (st.semd_table d).s_procq.tail = []
    · simp only [ht, if_true]
      unfold blockedQueue
      rw [findSemd_congr b st { st with
          semd_table := Function.update st.semd_table d { st.semd_table d with s_procq := [] }
          semd_h := st.semd_h.erase d
          semdFree_h := st.semdFree_h ++ [d] } [] d rfl (Or.inr ⟨rfl, hkb⟩)]
      cases hb : findSemd b st with
      | none => rfl
      | some d' => exact hval [] d' hb
    · simp only [ht, if_false]
      unfold blockedQueue
      rw [findSemd_congr b st { st with
          semd_table := Function.update st.semd_table d
            { st.semd_table d with s_procq := (st.semd_table d).s_procq.tail } }
        (st.semd_table d).s_procq.tail d rfl (Or.inl rfl)]
      cases hb : findSemd b st with
      | none => rfl
      | some d' => exact hval _ d' hb

theorem removeBlocked_keysDistinct (a : Nat) (st : State) (hk : ASLKeysDistinct st) :
    ASLKeysDistinct (removeBlocked a st).2 := by
  cases h : findSemd a st with
  | none => simpa [removeBlocked_none h] using hk
  | some d =>
    rw [removeBlocked_some h]
    unfold ASLKeysDistinct at hk ⊢
    by_cases ht : (st.semd_table d).s_procq.tail = []
    · simp only [ht, if_true]
      have : (st.semd_h.erase d).map (fun x =>
          (Function.update st.semd_table d { st.semd_table d with s_procq := [] } x).s_key) =
          (st.semd_h.erase d).map (fun x => (st.semd_table x).s_key) :=
        List.map_congr_left (fun x _ => key_update_procq _ _ _ _)
      rw [this]
      exact hk.sublist ((List.erase_sublist d st.semd_h).map _)
    · simp only [ht, if_false]
      have : st.semd_h.map (fun x =>
          (Function.update st.semd_table d
            { st.semd_table d with s_procq := (st.semd_table d).s_procq.tail } x).s_key) =
          st.semd_h.map (fun x => (st.semd_table x).s_key) :=
        List.map_congr_left (fun x _ => key_update_procq _ _ _ _)
      rw [this]
      exact hk

theorem removeBlocked_fields (a : Nat) (st : State) :
    (removeBlocked a st).2.ReadyQueue = st.ReadyQueue ∧
    (removeBlocked a st).2.mem = st.mem ∧
    (removeBlocked a st).2.CurrentProcess = st.CurrentProcess ∧
    (removeBlocked a st).2.pcbFree_table = st.pcbFree_table ∧
    (removeBlocked a st).2.pcbFree_h = st.pcbFree_h ∧
    (removeBlocked a st).2.ProcessCount = st.ProcessCount ∧
    (removeBlocked a st).2.DeviceSemaphores = st.DeviceSemaphores := by
  cases h : findSemd a st with
  | none => simp [removeBlocked_none h]
  | some d =>
    rw [removeBlocked_some h]
    by_cases ht : (st.semd_table d).s_procq.tail = [] <;> simp [ht]

/-! ### PASSEREN and VERHOGEN: the branch that does not block -/

theorem wakeOrSet_cons (a v p : Nat) (rest : List Nat) (st : State)
    (hq : blockedQueue a st = p :: rest) :
    wakeOrSet a v st =
      { (removeBlocked a st).2 with ReadyQueue := (removeBlocked a st).2.ReadyQueue ++ [p] } := by
  have h1 : (removeBlocked a st).1 = some p := by rw [removeBlocked_fst, hq]; rfl
  simp only [wakeOrSet, h1, insertProcQ]

theorem wakeOrSet_nil (a v : Nat) (st : State) (hq : blockedQueue a st = []) :
    wakeOrSet a v st =
      { (removeBlocked a st).2 with mem := Function.update (removeBlocked a st).2.mem a v } := by
  have h1 : (removeBlocked a st).1 = none := by rw [removeBlocked_fst, hq]; rfl
  simp only [wakeOrSet, h1]

theorem wakeOrSet_effect (a v : Nat) (st : State) (hk : ASLKeysDistinct st) :
    (∀ p rest, blockedQueue a st = p :: rest →
      (wakeOrSet a v st).ReadyQueue = st.ReadyQueue ++ [p] ∧
      blockedQueue a (wakeOrSet a v st) = rest ∧
      (wakeOrSet a v st).mem = st.mem) ∧
    (blockedQueue a st = [] →
      (wakeOrSet a v st).mem = Function.update st.mem a v ∧
      (wakeOrSet a v st).ReadyQueue = st.ReadyQueue ∧
      blockedQueue a (wakeOrSet a v st) = []) ∧
    (wakeOrSet a v st).CurrentProcess = st.CurrentProcess ∧
    ASLKeysDistinct (wakeOrSet a v st) := by
  have hf := removeBlocked_fields a st
  have hq' := removeBlocked_queue a st hk
  have hk' := removeBlocked_keysDistinct a st hk
  refine ⟨?_, ?_, ?_, ?_⟩
  · intro p rest hq
    rw [wakeOrSet_cons a v p rest st hq]
    refine ⟨by simp [hf.1], ?_, hf.2.1⟩
    rw [hq] at hq'
    exact hq'
  · intro hq
    rw [wakeOrSet_nil a v st hq]
    refine ⟨by simp [hf.2.1], hf.1, ?_⟩
    rw [hq] at hq'
    exact hq'
  · cases hq : blockedQueue a st with
    | nil => rw [wakeOrSet_nil a v st hq]; exact hf.2.2.1
    | cons p rest => rw [wakeOrSet_cons a v p rest st hq]; exact hf.2.2.1
  · cases hq : blockedQueue a st with
    | nil => rw [wakeOrSet_nil a v st hq]; exact hk'
    | cons p rest => rw [wakeOrSet_cons a v p rest st hq]; exact hk'

/-- C1: a PASSEREN on a semaphore whose value is not 0 and a VERHOGEN on a
semaphore whose value is not 1 return to the caller (no CPU slot changes).  If
the blocked queue of the semaphore is `p :: rest`, then `p` is appended to the
ready queue, the blocked queue becomes `rest` and memory (so the semaphore) is
unchanged; if it is empty, the semaphore is set to 0 (PASSEREN) or 1 (VERHOGEN)
and the ready queue is unchanged.  In particular, with the semaphore at 0 and
only `p1` blocked on it, a VERHOGEN puts `p1` at the end of the ready queue and
leaves the semaphore at 0, and a second VERHOGEN sets it to 1 and leaves the
ready queue alone. -/
theorem passeren_verhogen_nonblocking (prid t1 t2 a : Nat) (st : State)
    (hk : ASLKeysDistinct st) :
    (st.mem a ≠ 0 → ∃ st', passeren prid t1 t2 a st = some (st', Control.ret) ∧
      st'.CurrentProcess = st.CurrentProcess ∧
      (∀ p rest, blockedQueue a st = p :: rest →
        st'.ReadyQueue = st.ReadyQueue ++ [p] ∧ blockedQueue a st' = rest ∧ st'.mem = st.mem) ∧
      (blockedQueue a st = [] →
        st'.mem a = 0 ∧ (∀ b, b ≠ a → st'.mem b = st.mem b) ∧
        st'.ReadyQueue = st.ReadyQueue ∧ blockedQueue a st' = [])) ∧
    (st.mem a ≠ 1 → ∃ st', verhogen prid t1 t2 a st = some (st', Control.ret) ∧
      st'.CurrentProcess = st.CurrentProcess ∧
      (∀ p rest, blockedQueue a st = p :: rest →
        st'.ReadyQueue = st.ReadyQueue ++ [p] ∧ blockedQueue a st' = rest ∧ st'.mem = st.mem) ∧
      (blockedQueue a st = [] →
        st'.mem a = 1 ∧ (∀ b, b ≠ a → st'.mem b = st.mem b) ∧
        st'.ReadyQueue = st.ReadyQueue ∧ blockedQueue a st' = [])) ∧
    (∀ p1, st.mem a = 0 → blockedQueue a st = [p1] →
      ∃ st1 st2, verhogen prid t1 t2 a st = some (st1, Control.ret) ∧
        st1.ReadyQueue = st.ReadyQueue ++ [p1] ∧ st1.mem a = 0 ∧
        verhogen prid t1 t2 a st1 = some (st2, Control.ret) ∧
        st2.mem a = 1 ∧ st2.ReadyQueue = st1.ReadyQueue) := by
  have key : ∀ v (s : State), ASLKeysDistinct s →
      (wakeOrSet a v s).CurrentProcess = s.CurrentProcess ∧
      (∀ p rest, blockedQueue a s = p :: rest →
        (wakeOrSet a v s).ReadyQueue = s.ReadyQueue ++ [p] ∧
        blockedQueue a (wakeOrSet a v s) = rest ∧ (wakeOrSet a v s).mem = s.mem) ∧
      (blockedQueue a s = [] →
        (wakeOrSet a v s).mem a = v ∧ (∀ b, b ≠ a → (wakeOrSet a v s).mem b = s.mem b) ∧
        (wakeOrSet a v s).ReadyQueue = s.ReadyQueue ∧ blockedQueue a (wakeOrSet a v s) = []) := by
    intro v s hs
    obtain ⟨h1, h2, h3, -⟩ := wakeOrSet_effect a v s hs
    refine ⟨h3, h1, fun hq => ?_⟩
    obtain ⟨hm, hr, hb⟩ := h2 hq
    refine ⟨by rw [hm]; simp, fun b hb' => by rw [hm]; simp [Function.update, hb'], hr, hb⟩
  refine ⟨fun h0 => ⟨wakeOrSet a 0 st, by simp [passeren, h0], key 0 st hk⟩,
    fun h1 => ⟨wakeOrSet a 1 st, by simp [verhogen, h1], key 1 st hk⟩, ?_⟩
  intro p1 h0 hq
  have hne : st.mem a ≠ 1 := by rw [h0]; decide
  obtain ⟨e1, e2, e3, e4⟩ := wakeOrSet_effect a 1 st hk
  obtain ⟨r1, r2, r3⟩ := e1 p1 [] hq
  have hm1 : (wakeOrSet a 1 st).mem a = 0 := by rw [r3]; exact h0
  have hne1 : (wakeOrSet a 1 st).mem a ≠ 1 := by rw [hm1]; decide
  obtain ⟨-, f2, -, -⟩ := wakeOrSet_effect a 1 (wakeOrSet a 1 st) e4
  obtain ⟨g1, g2, -⟩ := f2 r2
  refine ⟨wakeOrSet a 1 st, wakeOrSet a 1 (wakeOrSet a 1 st), by simp [verhogen, hne], r1, hm1,
    by simp [verhogen, hne1], by rw [g1]; simp, g2⟩

theorem waitingState_keysDistinct : ASLKeysDistinct waitingState := by
  unfold ASLKeysDistinct
  decide

theorem passeren_verhogen_nonblocking_witness :
    ASLKeysDistinct waitingState ∧ waitingState.mem semA = 0 ∧
    blockedQueue semA waitingState = [18] ∧
    ∃ st1 st2, verhogen 0 0 0 semA waitingState = some (st1, Control.ret) ∧
      st1.ReadyQueue = waitingState.ReadyQueue ++ [18] ∧ st1.mem semA = 0 ∧
      verhogen 0 0 0 semA st1 = some (st2, Control.ret) ∧
      st2.mem semA = 1 ∧ st2.ReadyQueue = st1.ReadyQueue :=
  ⟨waitingState_keysDistinct, by decide, by decide,
    (passeren_verhogen_nonblocking 0 0 0 semA waitingState waitingState_keysDistinct).2.2 18
      (by decide) (by decide)⟩

/-! ### The ASL: `insertBlocked` -/

theorem insertBlocked_found {a d : Nat} (p : Nat) {st : State} (h : findSemd a st = some d) :
    insertBlocked a p st =
      (0, { st with
              semd_table := Function.update st.semd_table d
                { st.semd_table d with s_procq := (st.semd_table d).s_procq ++ [p] }
              pcbFree_table := Function.update st.pcbFree_table p
                { st.pcbFree_table p with p_semAdd := a } }) := by
  simp [insertBlocked, h, State.updSemd, State.updPcb]

theorem insertBlocked_fresh {a newSem : Nat} (p : Nat) {st : State} (h : findSemd a st = none)
    (hfree : st.semdFree_h.getLast? = some newSem) :
    insertBlocked a p st =
      (0, { st with
              semd_table := Function.update st.semd_table newSem { s_key := a, s_procq := [p] }
              semdFree_h := st.semdFree_h.dropLast
              semd_h := st.semd_h ++ [newSem]
              pcbFree_table := Function.update st.pcbFree_table p
                { st.pcbFree_table p with p_semAdd := a } }) := by
  have hne : st.semdFree_h ≠ [] := by
    intro h0
    simp [h0] at hfree
  simp [insertBlocked, h, hne, insertSem, allocSem, hfree, State.updSemd, State.updPcb,
    mkEmptyProcQ]

theorem insertBlocked_full {a : Nat} (p : Nat) {st : State} (h : findSemd a st = none)
    (hfree : st.semdFree_h = []) : insertBlocked a p st = (1, st) := by
  simp [insertBlocked, h, hfree]

theorem findSemd_fresh {a newSem : Nat} {st st' : State} {q : List Nat}
    (h : findSemd a st = none)
    (htbl : st'.semd_table = Function.update st.semd_table newSem { s_key := a, s_procq := q })
    (hl : st'.semd_h = st.semd_h ++ [newSem]) :
    findSemd a st' = some newSem := by
  unfold findSemd at h ⊢
  rw [List.find?_eq_none] at h
  rw [hl, htbl]
  cases hf : (st.semd_h ++ [newSem]).find? (fun d => decide
      ((Function.update st.semd_table newSem { s_key := a, s_procq := q } d).s_key = a)) with
  | none =>
    rw [List.find?_eq_none] at hf
    have := hf newSem (by simp)
    simp at this
  | some x =>
    have hx := List.find?_some hf
    have hmem := List.mem_of_find?_eq_some hf
    by_cases hxn : x = newSem
    · rw [hxn]
    · exfalso
      rcases List.mem_append.mp hmem with hm | hm
      · have := h x hm
        simp [Function.update, hxn] at hx
        simp [hx] at this
      · exact hxn (by simpa using hm)

theorem insertBlocked_queue (a p : Nat) (st : State)
    (h : (findSemd a st).isSome ∨ st.semdFree_h ≠ []) :
    (insertBlocked a p st).1 = 0 ∧
    blockedQueue a (insertBlocked a p st).2 = blockedQueue a st ++ [p] := by
  cases hf : findSemd a st with
  | some d =>
    rw [insertBlocked_found p hf]
    refine ⟨rfl, ?_⟩
    unfold blockedQueue
    rw [findSemd_congr a st _ ((st.semd_table d).s_procq ++ [p]) d (by rfl) (Or.inl (by rfl)), hf]
    simp
  | none =>
    have hne : st.semdFree_h ≠ [] := by
      rcases h with h | h
      · simp [hf] at h
      · exact h
    obtain ⟨newSem, hnew⟩ : ∃ n, st.semdFree_h.getLast? = some n := by
      cases hl : st.semdFree_h.getLast? with
      | none => exact absurd (List.getLast?_eq_none_iff.mp hl) hne
      | some n => exact ⟨n, rfl⟩
    rw [insertBlocked_fresh p hf hnew]
    refine ⟨rfl, ?_⟩
    unfold blockedQueue
    rw [findSemd_fresh (q := [p]) hf (by rfl) (by rfl), hf]
    simp

theorem insertBlocked_fields (a p : Nat) (st : State) :
    (insertBlocked a p st).2.ReadyQueue = st.ReadyQueue ∧
    (insertBlocked a p st).2.mem = st.mem ∧
    (insertBlocked a p st).2.CurrentProcess = st.CurrentProcess ∧
    (insertBlocked a p st).2.pcbFree_h = st.pcbFree_h ∧
    (insertBlocked a p st).2.ProcessCount = st.ProcessCount ∧
    (insertBlocked a p st).2.excState = st.excState ∧
    (insertBlocked a p st).2.DeviceSemaphores = st.DeviceSemaphores ∧
    (∀ q, q ≠ p → (insertBlocked a p st).2.pcbFree_table q = st.pcbFree_table q) ∧
    ((insertBlocked a p st).2.pcbFree_table p).p_s = (st.pcbFree_table p).p_s ∧
    ((insertBlocked a p st).2.pcbFree_table p).p_pid = (st.pcbFree_table p).p_pid ∧
    ((insertBlocked a p st).2.pcbFree_table p).p_parent = (st.pcbFree_table p).p_parent ∧
    ((insertBlocked a p st).2.pcbFree_table p).p_child = (st.pcbFree_table p).p_child := by
  cases hf : findSemd a st with
  | some d =>
    rw [insertBlocked_found p hf]
    refine ⟨rfl, rfl, rfl, rfl, rfl, rfl, rfl, ?_, ?_, ?_, ?_, ?_⟩ <;>
      simp +contextual [Function.update]
  | none =>
    cases hl : st.semdFree_h.getLast? with
    | none =>
      rw [insertBlocked_full p hf (List.getLast?_eq_none_iff.mp hl)]
      simp
    | some n =>
      rw [insertBlocked_fresh p hf hl]
      refine ⟨rfl, rfl, rfl, rfl, rfl, rfl, rfl, ?_, ?_, ?_, ?_, ?_⟩ <;>
        simp +contextual [Function.update]

/-! ### PASSEREN and VERHOGEN: the branch that blocks -/

theorem blockCaller_effect (prid t1 t2 a cur : Nat) (st : State)
    (hcur : st.CurrentProcess prid = some cur)
    (hroom : (findSemd a st).isSome ∨ st.semdFree_h ≠ []) :
    ∃ st1, blockCaller prid t1 t2 a st = some st1 ∧
      (st1.pcbFree_table cur).p_s =
        { (st.excState prid) with pc_epc := ((st.excState prid).pc_epc + 4) % WORD } ∧
      (st1.pcbFree_table cur).p_semAdd = a ∧
      blockedQueue a st1 = blockedQueue a st ++ [cur] ∧
      st1.CurrentProcess prid = none ∧
      (∀ i, i ≠ prid → st1.CurrentProcess i = st.CurrentProcess i) ∧
      st1.mem = st.mem ∧ st1.ReadyQueue = st.ReadyQueue := by
  obtain ⟨s1, hs1⟩ : ∃ s : State, s = (getTimeElapsed t1 t2 st).2.updPcb cur (fun b =>
      { b with p_s := st.excState prid,
               p_time := (b.p_time + (getTimeElapsed t1 t2 st).1) % WORD, p_semAdd := a }) :=
    ⟨_, rfl⟩
  have e1 : findSemd a s1 = findSemd a st := by rw [hs1]; rfl
  have e2 : s1.semdFree_h = st.semdFree_h := by rw [hs1]; rfl
  have e3 : blockedQueue a s1 = blockedQueue a st := by rw [hs1]; rfl
  have e4 : s1.CurrentProcess = st.CurrentProcess := by rw [hs1]; rfl
  have e5 : s1.mem = st.mem := by rw [hs1]; rfl
  have e6 : s1.ReadyQueue = st.ReadyQueue := by rw [hs1]; rfl
  have e7 : (s1.pcbFree_table cur).p_s = st.excState prid := by
    rw [hs1]; simp [State.updPcb]
  have e8 : (s1.pcbFree_table cur).p_semAdd = a := by
    rw [hs1]; simp [State.updPcb]
  have hroom1 : (findSemd a s1).isSome ∨ s1.semdFree_h ≠ [] := by rw [e1, e2]; exact hroom
  obtain ⟨-, hq⟩ := insertBlocked_queue a cur s1 hroom1
  obtain ⟨f1, f2, f3, -, -, -, -, -, f9, -⟩ := insertBlocked_fields a cur s1
  have hsem : ((insertBlocked a cur s1).2.pcbFree_table cur).p_semAdd = a := by
    cases hf : findSemd a s1 with
    | some d => rw [insertBlocked_found cur hf]; simp
    | none =>
      cases hl : s1.semdFree_h.getLast? with
      | none =>
        rw [insertBlocked_full cur hf (List.getLast?_eq_none_iff.mp hl)]
        exact e8
      | some n => rw [insertBlocked_fresh cur hf hl]; simp
  obtain ⟨s2, hs2⟩ : ∃ s : State, s = (insertBlocked a cur s1).2 := ⟨_, rfl⟩
  rw [← hs2] at hq f1 f2 f3 f9 hsem
  have hb : blockCaller prid t1 t2 a st =
      some { (s2.updPcb cur (fun b =>
          { b with p_s := { b.p_s with pc_epc := (b.p_s.pc_epc + 4) % WORD } })) with
        CurrentProcess := Function.update s2.CurrentProcess prid none } := by
    rw [hs2, hs1]
    simp only [blockCaller, hcur]
    rfl
  refine ⟨_, hb, ?_, ?_, ?_, ?_, ?_, ?_, ?_⟩
  · simp [State.updPcb, f9, e7]
  · simp [State.updPcb, hsem]
  · show blockedQueue a s2 = _
    rw [hq, e3]
  · simp
  · intro i hi
    simp [State.updPcb, Function.update_noteq hi, f3, e4]
  · show s2.mem = _
    rw [f2, e5]
  · show s2.ReadyQueue = _
    rw [f1, e6]

/-- C2 (as amended): let `cur` be the process running on CPU `prid` and `a` a
semaphore address that has a descriptor on the ASL or for which a free
descriptor is left.  Then PASSEREN on `a` with value 0 and VERHOGEN on `a` with
value 1 block the caller: when the scheduler is entered, the PCB of `cur` holds
the saved exception state with the pc advanced by 4, its `p_semAdd` is `a`,
`cur` is the last element of the blocked queue of `a`, slot `prid` is null (the
other slots are unchanged), and memory (so the semaphore) and the ready queue
are unchanged. -/
theorem passeren_verhogen_block (prid t1 t2 a cur : Nat) (st : State)
    (hcur : st.CurrentProcess prid = some cur)
    (hroom : (findSemd a st).isSome ∨ st.semdFree_h ≠ []) :
    ∃ st1, blockCaller prid t1 t2 a st = some st1 ∧
      (st.mem a = 0 → passeren prid t1 t2 a st = scheduler prid st1) ∧
      (st.mem a = 1 → verhogen prid t1 t2 a st = scheduler prid st1) ∧
      (st1.pcbFree_table cur).p_s =
        { (st.excState prid) with pc_epc := ((st.excState prid).pc_epc + 4) % WORD } ∧
      (st1.pcbFree_table cur).p_semAdd = a ∧
      blockedQueue a st1 = blockedQueue a st ++ [cur] ∧
      st1.CurrentProcess prid = none ∧
      (∀ i, i ≠ prid → st1.CurrentProcess i = st.CurrentProcess i) ∧
      st1.mem = st.mem ∧ st1.ReadyQueue = st.ReadyQueue := by
  obtain ⟨st1, hb, hrest⟩ := blockCaller_effect prid t1 t2 a cur st hcur hroom
  exact ⟨st1, hb, fun h0 => by simp [passeren, h0, hb], fun h1 => by simp [verhogen, h1, hb],
    hrest⟩

theorem passeren_verhogen_block_witness :
    oneProcessState.CurrentProcess 0 = some 19 ∧ oneProcessState.semdFree_h ≠ [] ∧
    oneProcessState.mem semA = 0 ∧
    ∃ st1, blockCaller 0 0 0 semA oneProcessState = some st1 ∧
      passeren 0 0 0 semA oneProcessState = scheduler 0 st1 ∧
      blockedQueue semA st1 = blockedQueue semA oneProcessState ++ [19] ∧
      st1.CurrentProcess 0 = none := by
  obtain ⟨st1, h1, h2, -, -, -, h3, h4, -⟩ :=
    passeren_verhogen_block 0 0 0 semA 19 oneProcessState (by decide) (Or.inr (by decide))
  exact ⟨by decide, by decide, by decide, st1, h1, h2 (by decide), h3, h4⟩

set_option maxRecDepth 100000 in
/-- C2, counterexample: after the process on CPU 0 (of two running processes)
has used twenty different devices no free descriptor is left and `semA` (value 0) has none; a PASSEREN on
`semA` then takes the caller out of its CPU slot without putting it on the
blocked queue of `semA`, which stays empty. -/
theorem passeren_block_without_descriptor :
    twentyDevicesState.CurrentProcess 0 = some 19 ∧ twentyDevicesState.mem semA = 0 ∧
    twentyDevicesState.semdFree_h = [] ∧
    (blockCaller 0 0 0 semA twentyDevicesState).map
      (fun st1 => (st1.CurrentProcess 0, blockedQueue semA st1, st1.ReadyQueue)) =
      some (none, [], []) ∧
    (passeren 0 0 0 semA twentyDevicesState).map
      (fun r => (r.1.CurrentProcess 0, blockedQueue semA r.1, r.1.ReadyQueue, r.2)) =
      some (none, [], [], Control.WAIT) := by
  decide

/-! ### The pseudo-clock tick -/

theorem removeBlocked_keys (a : Nat) (st : State) (x : Nat) :
    ((removeBlocked a st).2.semd_table x).s_key = (st.semd_table x).s_key := by
  cases h : findSemd a st with
  | none => rw [removeBlocked_none h]
  | some d =>
    rw [removeBlocked_some h]
    by_cases ht : (st.semd_table d).s_procq.tail = []
    · simp only [ht, if_true]
      exact key_update_procq _ _ _ _
    · simp only [ht, if_false]
      exact key_update_procq _ _ _ _

theorem removeBlocked_lists (a : Nat) (st : State) :
    (∀ x, x ∈ st.semdFree_h → x ∈ (removeBlocked a st).2.semdFree_h) ∧
    (∀ d, findSemd a st = some d → (blockedQueue a st).tail = [] →
      d ∈ (removeBlocked a st).2.semdFree_h) ∧
    (∀ d, findSemd a st = some d → (blockedQueue a st).tail ≠ [] →
      findSemd a (removeBlocked a st).2 = some d) := by
  cases h : findSemd a st with
  | none =>
    rw [removeBlocked_none h]
    exact ⟨fun x hx => hx, fun d hd => by simp at hd, fun d hd => by simp at hd⟩
  | some d =>
    have hbq : blockedQueue a st = (st.semd_table d).s_procq := by simp [blockedQueue, h]
    rw [removeBlocked_some h, hbq]
    by_cases ht : (st.semd_table d).s_procq.tail = []
    · simp only [ht, if_true]
      refine ⟨fun x hx => by simp [hx], fun d' hd' _ => ?_, fun d' _ hne => absurd rfl hne⟩
      injection hd' with hd'
      simp [hd']
    · simp only [ht, if_false]
      refine ⟨fun x hx => hx, fun d' _ h0 => h0.elim, fun d' hd' _ => ?_⟩
      rw [findSemd_congr a st _ (st.semd_table d).s_procq.tail d (by rfl) (Or.inl (by rfl)), h]
      exact hd'

theorem removeBlocked_recycled (a : Nat) (st : State) (hk : ASLKeysDistinct st)
    (ht : (blockedQueue a st).tail = []) : findSemd a (removeBlocked a st).2 = none := by
  cases h : findSemd a st with
  | none => rw [removeBlocked_none h]; exact h
  | some d =>
    have hbq : blockedQueue a st = (st.semd_table d).s_procq := by simp [blockedQueue, h]
    rw [hbq] at ht
    rw [removeBlocked_some h]
    simp only [ht, if_true, findSemd]
    rw [find?_congr (q := fun x => decide ((st.semd_table x).s_key = a)) _
      (fun x _ => by rw [key_update_procq])]
    exact find?_erase_key st.semd_h hk h

theorem drainBlocked_spec (a : Nat) :
    ∀ (ws : List Nat) (fuel : Nat) (st : State), ASLKeysDistinct st →
      blockedQueue a st = ws → ws.length < fuel →
      ∃ st', drainBlocked fuel a st = some st' ∧
        st'.ReadyQueue = st.ReadyQueue ++ ws ∧ blockedQueue a st' = [] ∧
        findSemd a st' = none ∧ st'.mem = st.mem ∧
        st'.CurrentProcess = st.CurrentProcess ∧
        st'.DeviceSemaphores = st.DeviceSemaphores ∧
        (∀ x, x ∈ st.semdFree_h → x ∈ st'.semdFree_h) ∧
        (∀ d, findSemd a st = some d → d ∈ st'.semdFree_h) ∧
        (∀ x, (st'.semd_table x).s_key = (st.semd_table x).s_key)
  | [], fuel, st, hk, hq, hfuel => by
    obtain ⟨n, rfl⟩ : ∃ n, fuel = n + 1 := ⟨fuel - 1, by simp at hfuel; omega⟩
    have h1 : (removeBlocked a st).1 = none := by rw [removeBlocked_fst, hq]; rfl
    have hf := removeBlocked_fields a st
    have hl := removeBlocked_lists a st
    have hq' := removeBlocked_queue a st hk
    rw [hq] at hq'
    refine ⟨(removeBlocked a st).2, by simp [drainBlocked, h1], by simp [hf.1], hq',
      removeBlocked_recycled a st hk (by rw [hq]; rfl), hf.2.1, hf.2.2.1, hf.2.2.2.2.2.2, hl.1,
      fun d hd => hl.2.1 d hd (by rw [hq]; rfl), removeBlocked_keys a st⟩
  | w :: ws, fuel, st, hk, hq, hfuel => by
    obtain ⟨n, rfl⟩ : ∃ n, fuel = n + 1 := ⟨fuel - 1, by simp at hfuel; omega⟩
    have h1 : (removeBlocked a st).1 = some w := by rw [removeBlocked_fst, hq]; rfl
    have hf := removeBlocked_fields a st
    have hl := removeBlocked_lists a st
    have hq' := removeBlocked_queue a st hk
    rw [hq] at hq'
    have hk' := removeBlocked_keysDistinct a st hk
    obtain ⟨st', hd, hr, hb, hn, hm, hc, hds, hfree, hrec, hkeys⟩ :=
      drainBlocked_spec a ws n
        { (removeBlocked a st).2 with ReadyQueue := (removeBlocked a st).2.ReadyQueue ++ [w] }
        hk' hq' (by simp at hfuel; omega)
    refine ⟨st', by simp only [drainBlocked, h1, insertProcQ]; exact hd, ?_, hb, hn,
      hm.trans hf.2.1, hc.trans hf.2.2.1, hds.trans hf.2.2.2.2.2.2, fun x hx => hfree x (hl.1 x hx),
      fun d hd' => ?_, fun x => (hkeys x).trans (removeBlocked_keys a st x)⟩
    · rw [hr]
      simp [hf.1]
    · by_cases ht : ws = []
      · exact hfree d (hl.2.1 d hd' (by rw [hq]; simp [ht]))
      · exact hrec d (hl.2.2 d hd' (by rw [hq]; simpa using ht))

theorem headBlocked_eq (a : Nat) (st : State) : headBlocked a st = (blockedQueue a st).head? := by
  unfold headBlocked blockedQueue
  cases findSemd a st with
  | none => rfl
  | some d =>
    cases hq : (st.semd_table d).s_procq with
    | nil => simp [emptyProcQ, hq]
    | cons x xs => simp [emptyProcQ, headProcQ, hq]

/-- C9: let `ws` be the blocked queue of the pseudo-clock semaphore (the
processes waiting for the clock, in the order they blocked) in a state whose
active descriptors have distinct keys, the semaphore not being the interval
timer register.  `handlePseudoClockInterrupt` reaches the point where it hands
the CPU over (to its current process, or to the scheduler when the CPU has
none) in a state `st2` whose ready queue is the old ready queue followed by
`ws`, in which the blocked queue of the pseudo-clock semaphore is empty, its
descriptor (when there were waiters) has left the ASL and sits on the free list,
and the value of the semaphore is what it was. -/
theorem pseudoClock_tick (fuel prid : Nat) (st : State) (ws : List Nat)
    (hk : ASLKeysDistinct st)
    (hq : blockedQueue (getPseudoClockSemaphore st) st = ws)
    (hfuel : ws.length < fuel)
    (hram : getPseudoClockSemaphore st ≠ INTERVALTMR) :
    ∃ st2,
      handlePseudoClockInterrupt fuel prid st =
        (match st2.CurrentProcess prid with
         | none => scheduler prid st2
         | some cur => some (st2, Control.LDST (st2.pcbFree_table cur).p_s)) ∧
      st2.ReadyQueue = st.ReadyQueue ++ ws ∧
      blockedQueue (getPseudoClockSemaphore st) st2 = [] ∧
      (ws ≠ [] → findSemd (getPseudoClockSemaphore st) st2 = none ∧
        ∀ d, findSemd (getPseudoClockSemaphore st) st = some d →
          d ∈ st2.semdFree_h ∧ d ∉ st2.semd_h) ∧
      st2.mem (getPseudoClockSemaphore st) = st.mem (getPseudoClockSemaphore st) ∧
      st2.CurrentProcess = st.CurrentProcess := by
  have hmem : (LDIT PSECOND st).mem (getPseudoClockSemaphore st) =
      st.mem (getPseudoClockSemaphore st) := by
    simp [LDIT, Function.update, hram]
  by_cases hws : ws = []
  · subst hws
    refine ⟨LDIT PSECOND st, ?_, by simp [LDIT], hq, fun h => absurd rfl h, hmem, rfl⟩
    have hh : headBlocked (getPseudoClockSemaphore (LDIT PSECOND st)) (LDIT PSECOND st) = none := by
      rw [headBlocked_eq]
      show (blockedQueue (getPseudoClockSemaphore st) st).head? = none
      rw [hq]
      rfl
    simp only [handlePseudoClockInterrupt, hh]
    rfl
  · obtain ⟨st', hd, hr, hb, hn, hm, hc, -, -, hrec, hkeys⟩ :=
      drainBlocked_spec (getPseudoClockSemaphore st) ws fuel (LDIT PSECOND st) hk hq hfuel
    have hh : (headBlocked (getPseudoClockSemaphore (LDIT PSECOND st)) (LDIT PSECOND st)).isSome
        = true := by
      rw [headBlocked_eq]
      show (blockedQueue (getPseudoClockSemaphore st) st).head?.isSome = true
      rw [hq]
      cases ws with
      | nil => exact absurd rfl hws
      | cons w ws => rfl
    refine ⟨st', ?_, hr, hb, fun _ => ⟨hn, fun d hd' => ⟨hrec d hd', fun hin => ?_⟩⟩, ?_, hc⟩
    · simp only [handlePseudoClockInterrupt, hh, if_true]
      have hd' : drainBlocked fuel (getPseudoClockSemaphore (LDIT PSECOND st)) (LDIT PSECOND st)
          = some st' := hd
      rw [hd']
    · have hkd : (st'.semd_table d).s_key = getPseudoClockSemaphore st :=
        (hkeys d).trans (findSemd_key hd')
      unfold findSemd at hn
      rw [List.find?_eq_none] at hn
      have := hn d hin
      simp [hkd] at this
    · rw [hm]; exact hmem

theorem clockWaitState_keysDistinct : ASLKeysDistinct clockWaitState := by
  unfold ASLKeysDistinct
  decide

theorem pseudoClock_tick_witness :
    ASLKeysDistinct clockWaitState ∧
    blockedQueue (getPseudoClockSemaphore clockWaitState) clockWaitState = [18, 17, 16] ∧
    ∃ st2,
      handlePseudoClockInterrupt 4 0 clockWaitState =
        (match st2.CurrentProcess 0 with
         | none => scheduler 0 st2
         | some cur => some (st2, Control.LDST (st2.pcbFree_table cur).p_s)) ∧
      st2.ReadyQueue = clockWaitState.ReadyQueue ++ [18, 17, 16] ∧
      blockedQueue (getPseudoClockSemaphore clockWaitState) st2 = [] := by
  obtain ⟨st2, h1, h2, h3, -⟩ :=
    pseudoClock_tick 4 0 clockWaitState [18, 17, 16] clockWaitState_keysDistinct (by decide)
      (by decide) (by decide)
  exact ⟨clockWaitState_keysDistinct, by decide, st2, h1, h2, h3⟩

/-! ### Device interrupts -/

/-- C8, the code at the failing input: PCB 19 is blocked by `doIo` on the
semaphore of flash device 0 and the device interrupts CPU 0.  The handler
delivers the status (1) in the a0 of PCB 19, sets the semaphore to 1 and appends
PCB 19 to the ready queue (the scheduler then dispatches it on the idle CPU 0),
but PCB 19 is still the head of the semaphore's blocked queue: `headBlocked`
does not unlink it.  A second interrupt of the device, with no new `doIo`, finds
it there again and appends it to the ready queue while it is running. -/
theorem deviceInterrupt_keeps_pcb_blocked :
    blockedQueue flashSem0 ioPendingState = [19] ∧
    ioPendingState.CurrentProcess 0 = none ∧
    (handleDeviceInterrupt 0 IL_FLASH ioPendingState).map (fun r =>
        (((r.1.pcbFree_table 19).p_s.reg_a0, r.1.mem flashSem0, r.1.CurrentProcess 0,
          r.1.ReadyQueue), blockedQueue flashSem0 r.1, headBlocked flashSem0 r.1)) =
      some ((1, 1, some 19, []), [19], some 19) ∧
    ((handleDeviceInterrupt 0 IL_FLASH ioPendingState).bind (fun r =>
        handleDeviceInterrupt 0 IL_FLASH r.1)).map (fun r =>
        (r.1.CurrentProcess 0, r.1.ReadyQueue, blockedQueue flashSem0 r.1)) =
      some (some 19, [19], [19]) := by
  decide

/-! ### TERMPROCESS -/

/-- C7, the code at the failing input: Root (PCB 19) runs on CPU 0 and issues
TERMPROCESS on its child A while another child X (PCB 15) is ready.  A, B and
C are terminated, and then `terminateProcess` calls the scheduler, which puts X
in the CPU slot of Root and resumes X; Root is left in no queue and no slot.
When nothing else is ready (`chainState`) the scheduler idles the CPU (WAIT)
instead of returning to Root.  In neither case does `SYSCALL_handler` reach its
final `LDST` of the saved state with the pc advanced by 4. -/
theorem termprocess_does_not_return_to_caller :
    chainAndSiblingState.CurrentProcess 0 = some 19 ∧
    chainAndSiblingState.ReadyQueue = [18, 17, 16, 15] ∧
    (chainAndSiblingState.pcbFree_table 19).p_child = [18, 15] ∧
    (SYSCALL_handler 4 0 0 0 chainAndSiblingState).map (fun r =>
        (r.1.CurrentProcess 0, r.1.ReadyQueue, r.1.semd_h, r.1.ProcessCount,
          decide (r.2 = Control.LDST (chainAndSiblingState.pcbFree_table 15).p_s))) =
      some (some 15, [], [], 2, true) ∧
    (SYSCALL_handler 4 0 0 0 chainState).map (fun r =>
        (r.1.CurrentProcess 0, r.1.ReadyQueue, r.1.ProcessCount, decide (r.2 = Control.WAIT))) =
      some (some 19, [], 1, true) := by
  decide

/-! ### The ASL invariant -/

theorem semd_h_nodup {st : State} (hk : ASLKeysDistinct st) : st.semd_h.Nodup :=
  List.Nodup.of_map _ hk

theorem removeBlocked_inv (a : Nat) (st : State) (hi : ASLInv st) :
    ASLInv (removeBlocked a st).2 := by
  obtain ⟨hk, hd, hn⟩ := hi
  refine ⟨removeBlocked_keysDistinct a st hk, ?_⟩
  cases h : findSemd a st with
  | none => rw [removeBlocked_none h]; exact ⟨hd, hn⟩
  | some d =>
    have hmem := findSemd_mem h
    rw [removeBlocked_some h]
    by_cases ht : (st.semd_table d).s_procq.tail = []
    · simp only [ht, if_true]
      refine ⟨fun x hx => ?_, ?_⟩
      · have hx' : x ∈ st.semd_h := List.mem_of_mem_erase hx
        have hxd : x ≠ d := by
          intro he
          rw [he] at hx
          exact (List.Nodup.not_mem_erase (semd_h_nodup hk)) hx
        simp [hd x hx', hxd]
      · rw [List.nodup_append]
        refine ⟨hn, by simp, ?_⟩
        intro x hx1 hx2
        have : x = d := by simpa using hx2
        subst this
        exact hd x hmem hx1
    · simp only [ht, if_false]
      exact ⟨hd, hn⟩

theorem insertBlocked_inv (a p : Nat) (st : State) (hi : ASLInv st) :
    ASLInv (insertBlocked a p st).2 := by
  obtain ⟨hk, hd, hn⟩ := hi
  cases hf : findSemd a st with
  | some d =>
    rw [insertBlocked_found p hf]
    refine ⟨?_, hd, hn⟩
    unfold ASLKeysDistinct at hk ⊢
    have : st.semd_h.map (fun x =>
        (Function.update st.semd_table d
          { st.semd_table d with s_procq := (st.semd_table d).s_procq ++ [p] } x).s_key) =
        st.semd_h.map (fun x => (st.semd_table x).s_key) :=
      List.map_congr_left (fun x _ => key_update_procq _ _ _ _)
    simpa [this] using hk
  | none =>
    cases hl : st.semdFree_h.getLast? with
    | none =>
      rw [insertBlocked_full p hf (List.getLast?_eq_none_iff.mp hl)]
      exact ⟨hk, hd, hn⟩
    | some n =>
      rw [insertBlocked_fresh p hf hl]
      have hsplit := dropLast_append_of_getLast? hl
      have hnfree : n ∈ st.semdFree_h := mem_of_getLast? hl
      have hnot : n ∉ st.semd_h := fun hin => hd n hin hnfree
      have hn' : (st.semdFree_h.dropLast ++ [n]).Nodup := by rw [← hsplit]; exact hn
      rw [List.nodup_append] at hn'
      refine ⟨?_, fun x hx => ?_, hn'.1⟩
      · unfold ASLKeysDistinct at hk ⊢
        have hmap : st.semd_h.map (fun x =>
            (Function.update st.semd_table n { s_key := a, s_procq := [p] } x).s_key) =
            st.semd_h.map (fun x => (st.semd_table x).s_key) :=
          List.map_congr_left (fun x hx => by
            have : x ≠ n := fun he => hnot (he ▸ hx)
            simp [Function.update, this])
        simp only [List.map_append, List.map_cons, List.map_nil, hmap, Function.update_same]
        rw [List.nodup_append]
        refine ⟨hk, by simp, ?_⟩
        intro k hk1 hk2
        have hka : k = a := by simpa using hk2
        subst hka
        obtain ⟨x, hx, hxk⟩ := List.mem_map.mp hk1
        unfold findSemd at hf
        rw [List.find?_eq_none] at hf
        have := hf x hx
        simp [hxk] at this
      · rcases List.mem_append.mp hx with h | h
        · exact fun hin => hd x h (List.mem_of_mem_dropLast hin)
        · have : x = n := by simpa using h
          subst this
          exact fun hin => hn'.2.2 hin (by simp)

theorem insertBlocked_other (a b p : Nat) (st : State) (hab : b ≠ a) (hi : ASLInv st) :
    blockedQueue b (insertBlocked a p st).2 = blockedQueue b st := by
  obtain ⟨hk, hd, hn⟩ := hi
  cases hf : findSemd a st with
  | some d =>
    have hkd : (st.semd_table d).s_key = a := findSemd_key hf
    rw [insertBlocked_found p hf]
    unfold blockedQueue
    rw [findSemd_congr b st { st with
        semd_table := Function.update st.semd_table d
          { st.semd_table d with s_procq := (st.semd_table d).s_procq ++ [p] }
        pcbFree_table := Function.update st.pcbFree_table p
          { st.pcbFree_table p with p_semAdd := a } }
      ((st.semd_table d).s_procq ++ [p]) d rfl (Or.inl rfl)]
    cases hb : findSemd b st with
    | none => rfl
    | some d' =>
      have hne : d' ≠ d := by
        intro he
        rw [he] at hb
        exact hab ((findSemd_key hb).symm.trans hkd)
      simp [Function.update, hne]
  | none =>
    cases hl : st.semdFree_h.getLast? with
    | none => rw [insertBlocked_full p hf (List.getLast?_eq_none_iff.mp hl)]
    | some n =>
      rw [insertBlocked_fresh p hf hl]
      have hnfree : n ∈ st.semdFree_h := mem_of_getLast? hl
      have hnot : n ∉ st.semd_h := fun hin => hd n hin hnfree
      have hfind : findSemd b { st with
          semd_table := Function.update st.semd_table n { s_key := a, s_procq := [p] }
          semdFree_h := st.semdFree_h.dropLast
          semd_h := st.semd_h ++ [n]
          pcbFree_table := Function.update st.pcbFree_table p
            { st.pcbFree_table p with p_semAdd := a } } = findSemd b st := by
        unfold findSemd
        simp only [List.find?_append]
        have h1 : st.semd_h.find? (fun x => decide
            ((Function.update st.semd_table n { s_key := a, s_procq := [p] } x).s_key = b)) =
            st.semd_h.find? (fun x => decide ((st.semd_table x).s_key = b)) :=
          find?_congr _ (fun x hx => by
            have : x ≠ n := fun he => hnot (he ▸ hx)
            simp [Function.update, this])
        rw [h1]
        have h2 : [n].find? (fun x => decide
            ((Function.update st.semd_table n { s_key := a, s_procq := [p] } x).s_key = b)) =
            none := by
          simp [List.find?, Ne.symm hab]
        rw [h2]
        simp
      unfold blockedQueue
      rw [hfind]
      cases hb : findSemd b st with
      | none => rfl
      | some d' =>
        have hne : d' ≠ n := fun he => hnot (he ▸ findSemd_mem hb)
        simp [Function.update, hne]

/-! ### Sequences of PASSEREN and VERHOGEN calls -/

theorem blockedQueue_congr (b : Nat) {s t : State} (h1 : s.semd_h = t.semd_h)
    (h2 : s.semd_table = t.semd_table) : blockedQueue b s = blockedQueue b t := by
  unfold blockedQueue findSemd
  rw [h1, h2]

theorem ASLInv_congr {s t : State} (h1 : s.semd_h = t.semd_h)
    (h2 : s.semd_table = t.semd_table) (h3 : s.semdFree_h = t.semdFree_h) (h : ASLInv t) :
    ASLInv s := by
  unfold ASLInv ASLKeysDistinct at *
  rw [h1, h2, h3]
  exact h

theorem findSemd_congr_state (b : Nat) {s t : State} (h1 : s.semd_h = t.semd_h)
    (h2 : s.semd_table = t.semd_table) : findSemd b s = findSemd b t := by
  unfold findSemd
  rw [h1, h2]

theorem blockCaller_shape (prid t1 t2 a cur : Nat) (st : State)
    (hcur : st.CurrentProcess prid = some cur) :
    ∃ st1 s1 : State, blockCaller prid t1 t2 a st = some st1 ∧
      s1.semd_h = st.semd_h ∧ s1.semd_table = st.semd_table ∧ s1.semdFree_h = st.semdFree_h ∧
      s1.mem = st.mem ∧ s1.ReadyQueue = st.ReadyQueue ∧
      st1.semd_h = (insertBlocked a cur s1).2.semd_h ∧
      st1.semd_table = (insertBlocked a cur s1).2.semd_table ∧
      st1.semdFree_h = (insertBlocked a cur s1).2.semdFree_h ∧
      st1.mem = (insertBlocked a cur s1).2.mem ∧
      st1.ReadyQueue = (insertBlocked a cur s1).2.ReadyQueue := by
  obtain ⟨s1, hs1⟩ : ∃ s : State, s = (getTimeElapsed t1 t2 st).2.updPcb cur (fun b =>
      { b with p_s := st.excState prid,
               p_time := (b.p_time + (getTimeElapsed t1 t2 st).1) % WORD, p_semAdd := a }) :=
    ⟨_, rfl⟩
  obtain ⟨s2, hs2⟩ : ∃ s : State, s = (insertBlocked a cur s1).2 := ⟨_, rfl⟩
  have hb : blockCaller prid t1 t2 a st =
      some { (s2.updPcb cur (fun b =>
          { b with p_s := { b.p_s with pc_epc := (b.p_s.pc_epc + 4) % WORD } })) with
        CurrentProcess := Function.update s2.CurrentProcess prid none } := by
    rw [hs2, hs1]
    simp only [blockCaller, hcur]
    rfl
  refine ⟨_, s1, hb, by rw [hs1]; rfl, by rw [hs1]; rfl, by rw [hs1]; rfl, by rw [hs1]; rfl,
    by rw [hs1]; rfl, ?_, ?_, ?_, ?_, ?_⟩ <;> rw [← hs2] <;> rfl

theorem blockCaller_frame (prid t1 t2 a cur : Nat) (st : State)
    (hcur : st.CurrentProcess prid = some cur) (hi : ASLInv st) :
    ∃ st1, blockCaller prid t1 t2 a st = some st1 ∧ ASLInv st1 ∧
      (∀ b, b ≠ a → blockedQueue b st1 = blockedQueue b st) ∧
      st1.mem = st.mem ∧ st1.ReadyQueue = st.ReadyQueue := by
  obtain ⟨st1, s1, hb, e1, e2, e3, e4, e5, g1, g2, g3, g4, g5⟩ :=
    blockCaller_shape prid t1 t2 a cur st hcur
  have hi1 : ASLInv s1 := ASLInv_congr e1 e2 e3 hi
  have hf := insertBlocked_fields a cur s1
  refine ⟨st1, hb, ASLInv_congr g1 g2 g3 (insertBlocked_inv a cur s1 hi1), fun b hab => ?_,
    by rw [g4, hf.2.1, e4], by rw [g5, hf.1, e5]⟩
  rw [blockedQueue_congr b g1 g2, insertBlocked_other a b cur s1 hab hi1,
    blockedQueue_congr b e1 e2]

theorem scheduler_frame (prid : Nat) (st : State) :
    ∃ r, scheduler prid st = some r ∧ r.1.semd_h = st.semd_h ∧
      r.1.semd_table = st.semd_table ∧ r.1.semdFree_h = st.semdFree_h ∧
      (∀ x, RAMSTART ≤ x → r.1.mem x = st.mem x) := by
  have hT : ∀ x, RAMSTART ≤ x → x ≠ TPR := by
    intro x hx he
    rw [he] at hx
    exact absurd hx (by decide)
  rcases hq : st.ReadyQueue with _ | ⟨p, rest⟩
  · by_cases hc : st.ProcessCount = 0
    · refine ⟨_, scheduler_halt prid st hq hc, rfl, rfl, rfl, fun x hx => ?_⟩
      have : ¬ (x < IRT_START + 4 * IRT_NUM_ENTRY) := by
        have h1 : IRT_START + 4 * IRT_NUM_ENTRY ≤ RAMSTART := by decide
        omega
      simp [writeIRT, this]
    · refine ⟨_, scheduler_wait prid st hq hc, rfl, rfl, rfl, fun x hx => ?_⟩
      simp [Function.update, hT x hx]
  · refine ⟨_, scheduler_dispatch prid st p rest hq, rfl, rfl, rfl, fun x hx => ?_⟩
    simp [Function.update, hT x hx]

theorem wakeOrSet_asl (b v : Nat) (st : State) :
    (wakeOrSet b v st).semd_h = (removeBlocked b st).2.semd_h ∧
    (wakeOrSet b v st).semd_table = (removeBlocked b st).2.semd_table ∧
    (wakeOrSet b v st).semdFree_h = (removeBlocked b st).2.semdFree_h ∧
    (∀ x, x ≠ b → (wakeOrSet b v st).mem x = st.mem x) := by
  have hf := removeBlocked_fields b st
  cases hq : blockedQueue b st with
  | nil =>
    rw [wakeOrSet_nil b v st hq]
    refine ⟨rfl, rfl, rfl, fun x hx => ?_⟩
    simp [Function.update, hx, hf.2.1]
  | cons p rest =>
    rw [wakeOrSet_cons b v p rest st hq]
    exact ⟨rfl, rfl, rfl, fun x _ => by simp [hf.2.1]⟩

theorem semCall_run_blocks (c : SemCall) (st : State) (hb : c.blocks st) :
    c.run st = (blockCaller c.prid c.currTOD c.nextTOD c.semAddr st).bind (scheduler c.prid) := by
  unfold SemCall.blocks at hb
  unfold SemCall.run
  cases hv : c.isV with
  | true =>
    simp only [hv, if_true] at hb ⊢
    simp only [verhogen, hb, if_true]
    cases blockCaller c.prid c.currTOD c.nextTOD c.semAddr st <;> rfl
  | false =>
    simp only [hv] at hb ⊢
    simp only [passeren, hb, if_true]
    cases blockCaller c.prid c.currTOD c.nextTOD c.semAddr st <;> rfl

theorem semCall_run_passes (c : SemCall) (st : State) (hb : ¬ c.blocks st) :
    c.run st = some (wakeOrSet c.semAddr (if c.isV then 1 else 0) st, Control.ret) := by
  unfold SemCall.blocks at hb
  unfold SemCall.run
  cases hv : c.isV with
  | true =>
    simp only [hv, if_true] at hb ⊢
    simp only [verhogen, hb, if_false]
  | false =>
    have hb' : st.mem c.semAddr ≠ 0 := by simpa [hv] using hb
    simp [passeren, hb']

theorem semCall_step (a : Nat) (c : SemCall) (st : State) (r : State × Control)
    (hi : ASLInv st)
    (hroom : c.blocks st → (findSemd c.semAddr st).isSome ∨ st.semdFree_h ≠ [])
    (hrun : c.run st = some r) :
    ASLInv r.1 ∧
    blockedQueue a st ++
        (if c.semAddr = a ∧ c.blocks st then (st.CurrentProcess c.prid).toList else []) =
      (if c.semAddr = a ∧ ¬ c.blocks st then r.1.ReadyQueue.drop st.ReadyQueue.length else []) ++
        blockedQueue a r.1 ∧
    (RAMSTART ≤ a → (c.semAddr ≠ a ∨ c.blocks st ∨ blockedQueue a st ≠ []) →
      r.1.mem a = st.mem a) := by
  by_cases hb : c.blocks st
  · rw [semCall_run_blocks c st hb] at hrun
    cases hcur : st.CurrentProcess c.prid with
    | none => simp [blockCaller, hcur] at hrun
    | some cur =>
      obtain ⟨st1, h1, hinv, hother, hmem, -⟩ :=
        blockCaller_frame c.prid c.currTOD c.nextTOD c.semAddr cur st hcur hi
      obtain ⟨st1', h1', -, -, hq, -⟩ :=
        blockCaller_effect c.prid c.currTOD c.nextTOD c.semAddr cur st hcur (hroom hb)
      have hst : st1' = st1 := by
        rw [h1] at h1'
        injection h1' with h
        exact h.symm
      subst hst
      obtain ⟨r', hs, f1, f2, f3, f4⟩ := scheduler_frame c.prid st1'
      have hr : r = r' := by
        rw [h1] at hrun
        simp only [Option.bind] at hrun
        rw [hs] at hrun
        injection hrun with h
        exact h.symm
      subst hr
      refine ⟨ASLInv_congr f1 f2 f3 hinv, ?_, fun hram _ => by rw [f4 a hram, hmem]⟩
      rw [blockedQueue_congr a f1 f2]
      by_cases hca : c.semAddr = a
      · subst hca
        simp [hb, hq]
      · simp [hca, hother a (Ne.symm hca)]
  · rw [semCall_run_passes c st hb] at hrun
    injection hrun with hrun
    subst hrun
    obtain ⟨w1, w2, w3, w4⟩ := wakeOrSet_asl c.semAddr (if c.isV then 1 else 0) st
    obtain ⟨e1, e2, -, -⟩ := wakeOrSet_effect c.semAddr (if c.isV then 1 else 0) st hi.1
    refine ⟨ASLInv_congr w1 w2 w3 (removeBlocked_inv c.semAddr st hi), ?_, fun _ hor => ?_⟩
    · by_cases hca : c.semAddr = a
      · subst hca
        cases hq : blockedQueue c.semAddr st with
        | nil =>
          obtain ⟨-, g2, g3⟩ := e2 hq
          simp [hb, g2, g3]
        | cons p rest =>
          obtain ⟨g1, g2, -⟩ := e1 p rest hq
          simp [hb, g1, g2]
      · simp only [hca, false_and, if_false, List.append_nil, List.nil_append]
        rw [blockedQueue_congr a w1 w2, removeBlocked_other c.semAddr a st (Ne.symm hca)]
    · by_cases hca : c.semAddr = a
      · subst hca
        rcases hor with h | h | h
        · exact absurd rfl h
        · exact absurd h hb
        · cases hq : blockedQueue c.semAddr st with
          | nil => exact absurd hq h
          | cons p rest =>
            obtain ⟨-, -, g3⟩ := e1 p rest hq
            rw [g3]
      · exact w4 a (Ne.symm hca)

theorem fifo_law (a : Nat) :
    ∀ (cs : List SemCall) (st st' : State), ASLInv st → roomToBlock cs st = true →
      runCalls cs st = some st' →
      blockedQueue a st ++ blockLog a cs st = wakeLog a cs st ++ blockedQueue a st'
  | [], st, st', _, _, hrun => by
    simp only [runCalls] at hrun
    injection hrun with hrun
    subst hrun
    simp [blockLog, wakeLog]
  | c :: cs, st, st', hi, hroom, hrun => by
    simp only [roomToBlock, Bool.and_eq_true, decide_eq_true_eq] at hroom
    cases hr : c.run st with
    | none => simp [runCalls, hr] at hrun
    | some r =>
      simp only [runCalls, hr] at hrun
      simp only [hr] at hroom
      obtain ⟨hinv, hstep, -⟩ := semCall_step a c st r hi hroom.1 hr
      have ih := fifo_law a cs r.1 st' hinv hroom.2 hrun
      simp only [blockLog, wakeLog, hr]
      rw [← List.append_assoc, hstep, List.append_assoc, ih, List.append_assoc]

theorem kindsOn_cons (a : Nat) (c : SemCall) (cs : List SemCall) :
    kindsOn a (c :: cs) = if c.semAddr = a then c.isV :: kindsOn a cs else kindsOn a cs := by
  unfold kindsOn
  by_cases h : c.semAddr = a <;> simp [List.filter, h]

theorem semCall_wake_one (c : SemCall) (st : State) (r : State × Control) (hi : ASLInv st)
    (hb : ¬ c.blocks st) (hq : blockedQueue c.semAddr st ≠ []) (hrun : c.run st = some r) :
    (r.1.ReadyQueue.drop st.ReadyQueue.length).length = 1 := by
  rw [semCall_run_passes c st hb] at hrun
  injection hrun with hrun
  subst hrun
  obtain ⟨e1, -, -, -⟩ := wakeOrSet_effect c.semAddr (if c.isV then 1 else 0) st hi.1
  cases hq' : blockedQueue c.semAddr st with
  | nil => exact absurd hq' hq
  | cons p rest =>
    obtain ⟨g1, -, -⟩ := e1 p rest hq'
    simp [g1]

theorem semCall_block_one (c : SemCall) (st : State) (r : State × Control)
    (hb : c.blocks st) (hrun : c.run st = some r) :
    (st.CurrentProcess c.prid).toList.length = 1 := by
  rw [semCall_run_blocks c st hb] at hrun
  cases hcur : st.CurrentProcess c.prid with
  | none => simp [blockCaller, hcur] at hrun
  | some cur => rfl

theorem phase_counts (a : Nat) (hram : RAMSTART ≤ a) :
    ∀ (cs : List SemCall) (st st' : State) (k m : Nat), ASLInv st →
      roomToBlock cs st = true → runCalls cs st = some st' → st.mem a = 0 →
      kindsOn a cs = List.replicate k false ++ List.replicate m true →
      m ≤ (blockedQueue a st).length + k →
      (blockLog a cs st).length = k ∧ (wakeLog a cs st).length = m
  | [], st, st', k, m, _, _, _, _, hkinds, _ => by
    have hlen := congrArg List.length hkinds
    simp [kindsOn] at hlen
    simp only [blockLog, wakeLog, List.length_nil]
    omega
  | c :: cs, st, st', k, m, hi, hroom, hrun, h0, hkinds, hm => by
    simp only [roomToBlock, Bool.and_eq_true, decide_eq_true_eq] at hroom
    cases hr : c.run st with
    | none => simp [runCalls, hr] at hrun
    | some r =>
      simp only [runCalls, hr] at hrun
      simp only [hr] at hroom
      obtain ⟨hinv, hstep, hmem⟩ := semCall_step a c st r hi hroom.1 hr
      rw [kindsOn_cons] at hkinds
      simp only [blockLog, wakeLog, hr]
      by_cases hca : c.semAddr = a
      · simp only [hca, if_true] at hkinds
        cases hv : c.isV with
        | false =>
          rw [hv] at hkinds
          have hb : c.blocks st := by
            unfold SemCall.blocks
            rw [hv, hca, h0]
            rfl
          cases k with
          | zero =>
            cases m with
            | zero => simp at hkinds
            | succ m => simp [List.replicate_succ] at hkinds
          | succ k =>
            simp only [List.replicate_succ, List.cons_append, List.cons.injEq, true_and]
              at hkinds
            have hone := semCall_block_one c st r hb hr
            simp only [hca, hb, and_self, if_true, not_true_eq_false, and_false, if_false,
              List.nil_append] at hstep ⊢
            have hq1 : (blockedQueue a r.1).length = (blockedQueue a st).length + 1 := by
              rw [← hstep, List.length_append, hone]
            have ih := phase_counts a hram cs r.1 st' k m hinv hroom.2 hrun
              (by rw [hmem hram (Or.inr (Or.inl hb)), h0]) hkinds (by omega)
            simp [List.length_append, hone, ih.1, ih.2]
            omega
        | true =>
          rw [hv] at hkinds
          have hb : ¬ c.blocks st := by
            unfold SemCall.blocks
            rw [hv, hca, h0]
            decide
          cases k with
          | succ k => simp [List.replicate_succ] at hkinds
          | zero =>
            cases m with
            | zero => simp at hkinds
            | succ m =>
              simp only [List.replicate_zero, List.nil_append, List.replicate_succ,
                List.cons.injEq, true_and] at hkinds
              have hne : blockedQueue a st ≠ [] := by
                intro he
                rw [he] at hm
                simp at hm
              have hone := semCall_wake_one c st r hi hb (by rw [hca]; exact hne) hr
              simp only [hca, hb, and_false, if_false, List.append_nil, not_false_eq_true,
                and_self, if_true] at hstep ⊢
              have hq1 : (blockedQueue a st).length = 1 + (blockedQueue a r.1).length := by
                rw [hstep, List.length_append, hone]
              have ih := phase_counts a hram cs r.1 st' 0 m hinv hroom.2 hrun
                (by rw [hmem hram (Or.inr (Or.inr hne)), h0]) (by simpa using hkinds) (by omega)
              simp [List.length_append, hone, ih.1, ih.2]
              omega
      · simp only [hca, if_false] at hkinds
        simp only [hca, false_and, if_false, List.nil_append, List.append_nil] at hstep ⊢
        exact phase_counts a hram cs r.1 st' k m hinv hroom.2 hrun
          (by rw [hmem hram (Or.inl hca), h0]) hkinds (by rw [← hstep]; exact hm)

/-- C3 (as amended): take any sequence of PASSEREN and VERHOGEN calls, each
issued from a CPU with a current process, in which the calls on the semaphore
`a` (in RAM, of value 0) are `n` PASSERENs followed by `n` VERHOGENs, the calls
on other semaphores being arbitrary and arbitrarily interleaved, and in which
every blocking call finds a descriptor for its semaphore or a free one.  Then
`n` processes block on `a`, the VERHOGENs on `a` append `n` processes to the
ready queue, and these are the first `n` of the earlier waiters of `a` followed
by the processes that blocked, in that order; when no process was blocked on
`a` beforehand they are exactly the processes that blocked, in the order in
which they blocked, and the blocked queue of `a` is empty at the end. -/
theorem fifo_wake_order (a n : Nat) (cs : List SemCall) (st st' : State)
    (hram : RAMSTART ≤ a) (hi : ASLInv st) (h0 : st.mem a = 0)
    (hkinds : kindsOn a cs = List.replicate n false ++ List.replicate n true)
    (hroom : roomToBlock cs st = true) (hrun : runCalls cs st = some st') :
    (blockLog a cs st).length = n ∧ (wakeLog a cs st).length = n ∧
    wakeLog a cs st = (blockedQueue a st ++ blockLog a cs st).take n ∧
    (blockedQueue a st = [] →
      wakeLog a cs st = blockLog a cs st ∧ blockedQueue a st' = []) := by
  obtain ⟨hB, hW⟩ := phase_counts a hram cs st st' n n hi hroom hrun h0 hkinds (by omega)
  have hlaw := fifo_law a cs st st' hi hroom hrun
  have htake : wakeLog a cs st = (blockedQueue a st ++ blockLog a cs st).take n := by
    rw [hlaw, ← hW, List.take_left]
  refine ⟨hB, hW, htake, fun hq => ?_⟩
  rw [hq, List.nil_append] at hlaw
  have hlen := congrArg List.length hlaw
  rw [List.length_append, hB, hW] at hlen
  have hnil : blockedQueue a st' = [] := List.length_eq_zero.mp (by omega)
  rw [hnil, List.append_nil] at hlaw
  exact ⟨hlaw.symm, hnil⟩

theorem threeCpuState_inv : ASLInv threeCpuState := by
  unfold ASLInv ASLKeysDistinct
  decide

/-- Two processes block on `semA`, with a call on another semaphore in
between, and are woken by two VERHOGENs in the order in which they blocked. -/
theorem fifo_wake_order_witness :
    ASLInv threeCpuState ∧ threeCpuState.mem semA = 0 ∧
    kindsOn semA twoBlockTwoWake = List.replicate 2 false ++ List.replicate 2 true ∧
    roomToBlock twoBlockTwoWake threeCpuState = true ∧
    wakeLog semA twoBlockTwoWake threeCpuState = blockLog semA twoBlockTwoWake threeCpuState ∧
    blockLog semA twoBlockTwoWake threeCpuState = [19, 18] := by
  have hsome : (runCalls twoBlockTwoWake threeCpuState).isSome = true := by decide
  obtain ⟨st', hst'⟩ := Option.isSome_iff_exists.mp hsome
  have h := fifo_wake_order semA 2 twoBlockTwoWake threeCpuState st' (by decide)
    threeCpuState_inv (by decide) (by decide) (by decide) hst'
  exact ⟨threeCpuState_inv, by decide, by decide, by decide, (h.2.2.2 (by decide)).1, by decide⟩

set_option maxRecDepth 100000 in
/-- C3, counterexample: in `twentyDevicesState` no free descriptor is left and
`semA` (value 0, nobody blocked) has none.  The process on CPU 0 issues
PASSEREN on `semA` and blocks; the process on CPU 1 then issues VERHOGEN on
`semA`.  One process blocked (PCB 19), and the VERHOGEN wakes nobody. -/
theorem fifo_breaks_without_descriptor :
    twentyDevicesState.mem semA = 0 ∧ blockedQueue semA twentyDevicesState = [] ∧
    kindsOn semA oneBlockOneWake = List.replicate 1 false ++ List.replicate 1 true ∧
    (runCalls oneBlockOneWake twentyDevicesState).isSome = true ∧
    blockLog semA oneBlockOneWake twentyDevicesState = [19] ∧
    wakeLog semA oneBlockOneWake twentyDevicesState = [] ∧
    (runCalls oneBlockOneWake twentyDevicesState).map (fun s => s.ReadyQueue) = some [] := by
  decide

/-! ### TERMPROCESS: reaping one PCB -/

theorem outProcQ_erase (tbl : Nat → pcb_t) (q : List Nat) (x : Nat)
    (hinj : ∀ z, z ∈ q → (tbl z).p_pid = (tbl x).p_pid → z = x) :
    (outProcQ tbl q x).2 = q.erase x := by
  unfold outProcQ
  cases hf : q.find? (fun z => decide ((tbl z).p_pid = (tbl x).p_pid)) with
  | none =>
    rw [List.find?_eq_none] at hf
    have hx : x ∉ q := fun hin => by simpa using hf x hin
    simp [List.erase_of_not_mem hx]
  | some z =>
    have hz := List.find?_some hf
    have hmem := List.mem_of_find?_eq_some hf
    have : z = x := hinj z hmem (by simpa using hz)
    simp [this]

theorem reapPcb_fields (x : Nat) (st : State) :
    (reapPcb x st).semd_h = st.semd_h ∧
    (reapPcb x st).semdFree_h = st.semdFree_h ∧
    (reapPcb x st).pcbFree_h = st.pcbFree_h ++ [x] ∧
    (reapPcb x st).ProcessCount = (st.ProcessCount + WORD - 1) % WORD ∧
    (reapPcb x st).CurrentProcess = (fun i =>
      if i < NCPU ∧ st.CurrentProcess i = some x then none else st.CurrentProcess i) ∧
    (reapPcb x st).mem = st.mem ∧
    (reapPcb x st).pcbFree_table = (outChild x st).2.pcbFree_table := by
  unfold reapPcb outBlocked outChild freePcb State.updSemd State.updPcb
  cases (st.pcbFree_table x).p_parent <;>
    (simp only []; split <;> simp)

theorem outChild_table (x : Nat) (st : State) (z : Nat) :
    ((outChild x st).2.pcbFree_table z).p_parent =
      (if z = x then none else (st.pcbFree_table z).p_parent) ∧
    ((outChild x st).2.pcbFree_table z).p_child =
      (if (st.pcbFree_table x).p_parent = some z then (st.pcbFree_table z).p_child.erase x
       else (st.pcbFree_table z).p_child) ∧
    ((outChild x st).2.pcbFree_table z).p_pid = (st.pcbFree_table z).p_pid ∧
    ((outChild x st).2.pcbFree_table z).p_semAdd = (st.pcbFree_table z).p_semAdd := by
  unfold outChild
  cases hp : (st.pcbFree_table x).p_parent with
  | none =>
    refine ⟨?_, ?_, rfl, rfl⟩
    · by_cases hz : z = x
      · simp [hz, hp]
      · simp [hz]
    · simp
  | some y =>
    simp only [State.updPcb]
    by_cases hz : z = x
    · subst hz
      by_cases hy : y = z
      · subst hy
        simp
      · have hy' : z ≠ y := fun h => hy h.symm
        simp [Function.update, hy, hy']
    · by_cases hy : z = y
      · subst hy
        simp [Function.update, hz]
      · have hy' : y ≠ z := fun h => hy h.symm
        simp [Function.update, hz, hy, hy']

theorem reapPcb_table (x : Nat) (st : State) (z : Nat) :
    ((reapPcb x st).pcbFree_table z).p_parent =
      (if z = x then none else (st.pcbFree_table z).p_parent) ∧
    ((reapPcb x st).pcbFree_table z).p_child =
      (if (st.pcbFree_table x).p_parent = some z then (st.pcbFree_table z).p_child.erase x
       else (st.pcbFree_table z).p_child) ∧
    ((reapPcb x st).pcbFree_table z).p_pid = (st.pcbFree_table z).p_pid ∧
    ((reapPcb x st).pcbFree_table z).p_semAdd = (st.pcbFree_table z).p_semAdd := by
  rw [(reapPcb_fields x st).2.2.2.2.2.2]
  exact outChild_table x st z

theorem outChild_other (x : Nat) (st : State) :
    (outChild x st).2.ReadyQueue = st.ReadyQueue ∧
    (outChild x st).2.semd_h = st.semd_h ∧
    (outChild x st).2.semd_table = st.semd_table := by
  unfold outChild
  cases (st.pcbFree_table x).p_parent <;> exact ⟨rfl, rfl, rfl⟩

theorem reapPcb_readyQueue (x : Nat) (st : State)
    (hinj : ∀ z, Queued st z → (st.pcbFree_table z).p_pid = (st.pcbFree_table x).p_pid → z = x) :
    (reapPcb x st).ReadyQueue = st.ReadyQueue.erase x := by
  have h1 : (reapPcb x st).ReadyQueue =
      (outProcQ (outChild x st).2.pcbFree_table (outChild x st).2.ReadyQueue x).2 := by
    unfold reapPcb outBlocked freePcb State.updSemd
    simp only []
    split <;> rfl
  rw [h1, (outChild_other x st).1]
  apply outProcQ_erase
  intro z hz hpid
  rw [(outChild_table x st z).2.2.1, (outChild_table x st x).2.2.1] at hpid
  exact hinj z (Or.inl hz) hpid

theorem outBlocked_table (x : Nat) (s : State)
    (hinj : ∀ d z, findSemd (s.pcbFree_table x).p_semAdd s = some d →
      z ∈ (s.semd_table d).s_procq → (s.pcbFree_table z).p_pid = (s.pcbFree_table x).p_pid →
      z = x) (d' : Nat) :
    ((outBlocked x s).2.semd_table d').s_key = (s.semd_table d').s_key ∧
    ((outBlocked x s).2.semd_table d').s_procq =
      (if findSemd (s.pcbFree_table x).p_semAdd s = some d' then (s.semd_table d').s_procq.erase x
       else (s.semd_table d').s_procq) ∧
    (outBlocked x s).2.semd_h = s.semd_h := by
  unfold outBlocked
  cases hf : findSemd (s.pcbFree_table x).p_semAdd s with
  | none => simp
  | some d =>
    have he := outProcQ_erase s.pcbFree_table (s.semd_table d).s_procq x
      (fun z hz hp => hinj d z hf hz hp)
    simp only [State.updSemd]
    by_cases hd : d' = d
    · subst hd
      simp [he]
    · have hd' : d ≠ d' := fun h => hd h.symm
      simp [Function.update, hd, hd']

theorem reapPcb_semd (x : Nat) (st : State)
    (hinj : ∀ z, Queued st z → (st.pcbFree_table z).p_pid = (st.pcbFree_table x).p_pid → z = x)
    (d' : Nat) :
    ((reapPcb x st).semd_table d').s_key = (st.semd_table d').s_key ∧
    ((reapPcb x st).semd_table d').s_procq =
      (if findSemd (st.pcbFree_table x).p_semAdd st = some d'
       then (st.semd_table d').s_procq.erase x else (st.semd_table d').s_procq) := by
  obtain ⟨s2, hs2⟩ : ∃ s : State, s = { (outChild x st).2 with
      ReadyQueue := (outProcQ (outChild x st).2.pcbFree_table (outChild x st).2.ReadyQueue x).2 } :=
    ⟨_, rfl⟩
  have e1 : s2.semd_h = st.semd_h := by rw [hs2]; exact (outChild_other x st).2.1
  have e2 : s2.semd_table = st.semd_table := by rw [hs2]; exact (outChild_other x st).2.2
  have e3 : ∀ z, (s2.pcbFree_table z).p_pid = (st.pcbFree_table z).p_pid := by
    intro z; rw [hs2]; exact (outChild_table x st z).2.2.1
  have e4 : (s2.pcbFree_table x).p_semAdd = (st.pcbFree_table x).p_semAdd := by
    rw [hs2]; exact (outChild_table x st x).2.2.2
  have hr : (reapPcb x st).semd_table = (outBlocked x s2).2.semd_table := by
    rw [hs2]
    rfl
  have hfind : findSemd (s2.pcbFree_table x).p_semAdd s2 =
      findSemd (st.pcbFree_table x).p_semAdd st := by
    rw [e4]; exact findSemd_congr_state _ e1 e2
  have h := outBlocked_table x s2 (by
    intro d z hd hz hp
    rw [hfind] at hd
    rw [e2] at hz
    rw [e3, e3] at hp
    exact hinj z (Or.inr ⟨d, findSemd_mem hd, hz⟩) hp) d'
  rw [hr, h.1, h.2.1, hfind, e2]
  exact ⟨rfl, rfl⟩

theorem reapPcb_blockedQueue (x a : Nat) (st : State)
    (hinj : ∀ z, Queued st z → (st.pcbFree_table z).p_pid = (st.pcbFree_table x).p_pid → z = x)
    (h4 : x ∈ blockedQueue a st → findSemd (st.pcbFree_table x).p_semAdd st = findSemd a st) :
    findSemd a (reapPcb x st) = findSemd a st ∧
    blockedQueue a (reapPcb x st) = (blockedQueue a st).erase x := by
  have hfind : findSemd a (reapPcb x st) = findSemd a st := by
    unfold findSemd
    rw [(reapPcb_fields x st).1]
    exact find?_congr _ (fun d _ => by rw [(reapPcb_semd x st hinj d).1])
  refine ⟨hfind, ?_⟩
  unfold blockedQueue at h4 ⊢
  rw [hfind]
  cases hf : findSemd a st with
  | none => rfl
  | some d =>
    simp only [hf] at h4
    show ((reapPcb x st).semd_table d).s_procq = ((st.semd_table d).s_procq).erase x
    rw [(reapPcb_semd x st hinj d).2]
    by_cases hc : findSemd (st.pcbFree_table x).p_semAdd st = some d
    · simp [hc]
    · have hx : x ∉ (st.semd_table d).s_procq := fun hin => hc (h4 hin)
      simp [hc, List.erase_of_not_mem hx]

/-! ### TERMPROCESS: reaping a list of PCBs -/

theorem erase_filter_notin (q : List Nat) (x : Nat) (l : List Nat) (hq : q.Nodup) :
    (q.erase x).filter (fun z => decide (z ∉ l)) = q.filter (fun z => decide (z ∉ x :: l)) := by
  rw [List.Nodup.erase_eq_filter hq, List.filter_filter]
  apply List.filter_congr
  intro z _
  by_cases hz : z = x <;> simp [hz]

theorem reapPcb_queued {x z : Nat} {st : State}
    (hinj : ∀ z, Queued st z → (st.pcbFree_table z).p_pid = (st.pcbFree_table x).p_pid → z = x)
    (h : Queued (reapPcb x st) z) : Queued st z := by
  rcases h with h | ⟨d, hd, hz⟩
  · rw [reapPcb_readyQueue x st hinj] at h
    exact Or.inl (List.mem_of_mem_erase h)
  · rw [(reapPcb_fields x st).1] at hd
    rw [(reapPcb_semd x st hinj d).2] at hz
    refine Or.inr ⟨d, hd, ?_⟩
    by_cases hc : findSemd (st.pcbFree_table x).p_semAdd st = some d
    · rw [if_pos hc] at hz
      exact List.mem_of_mem_erase hz
    · rw [if_neg hc] at hz
      exact hz

theorem reapPcb_ready (x : Nat) (l : List Nat) (st : State) (h : ReapReady (x :: l) st) :
    ReapReady l (reapPcb x st) := by
  obtain ⟨h1, h2, h3, h4⟩ := h
  have hinj := h1 x (List.mem_cons_self _ _)
  have hbq := fun a => reapPcb_blockedQueue x a st hinj (h2 x (List.mem_cons_self _ _) a)
  refine ⟨fun y hy z hz hp => ?_, fun y hy a ha => ?_, ?_, fun a => ?_⟩
  · rw [(reapPcb_table x st z).2.2.1, (reapPcb_table x st y).2.2.1] at hp
    exact h1 y (List.mem_cons_of_mem _ hy) z (reapPcb_queued hinj hz) hp
  · rw [(hbq a).2] at ha
    rw [(reapPcb_table x st y).2.2.2, (hbq a).1, (hbq _).1]
    exact h2 y (List.mem_cons_of_mem _ hy) a (List.mem_of_mem_erase ha)
  · rw [reapPcb_readyQueue x st hinj]
    exact h3.erase x
  · rw [(hbq a).2]
    exact (h4 a).erase x

theorem reapAll_views : ∀ (l : List Nat) (st : State), ReapReady l st →
    (reapAll l st).ReadyQueue = st.ReadyQueue.filter (fun z => decide (z ∉ l)) ∧
    (∀ a, blockedQueue a (reapAll l st) =
      (blockedQueue a st).filter (fun z => decide (z ∉ l))) ∧
    (∀ a, findSemd a (reapAll l st) = findSemd a st)
  | [], st, _ => by simp [reapAll]
  | x :: l, st, h => by
    have hinj := h.1 x (List.mem_cons_self _ _)
    have hbq := fun a => reapPcb_blockedQueue x a st hinj (h.2.1 x (List.mem_cons_self _ _) a)
    obtain ⟨i1, i2, i3⟩ := reapAll_views l (reapPcb x st) (reapPcb_ready x l st h)
    have hr : reapAll (x :: l) st = reapAll l (reapPcb x st) := rfl
    rw [hr]
    refine ⟨?_, fun a => ?_, fun a => ?_⟩
    · rw [i1, reapPcb_readyQueue x st hinj]
      exact erase_filter_notin _ _ _ h.2.2.1
    · rw [i2 a, (hbq a).2]
      exact erase_filter_notin _ _ _ (h.2.2.2 a)
    · rw [i3 a, (hbq a).1]

theorem reapAll_fields : ∀ (l : List Nat) (st : State),
    (reapAll l st).pcbFree_h = st.pcbFree_h ++ l ∧
    (reapAll l st).semd_h = st.semd_h ∧
    (reapAll l st).semdFree_h = st.semdFree_h ∧
    (reapAll l st).mem = st.mem ∧
    (∀ i, (reapAll l st).CurrentProcess i =
      if i < NCPU ∧ ∃ x, x ∈ l ∧ st.CurrentProcess i = some x then none
      else st.CurrentProcess i) ∧
    (l.length ≤ st.ProcessCount → st.ProcessCount < WORD →
      (reapAll l st).ProcessCount = st.ProcessCount - l.length)
  | [], st => by simp [reapAll]
  | x :: l, st => by
    obtain ⟨f1, f2, f3, f4, f5, f6, -⟩ := reapPcb_fields x st
    obtain ⟨i1, i2, i3, i4, i5, i6⟩ := reapAll_fields l (reapPcb x st)
    have hr : reapAll (x :: l) st = reapAll l (reapPcb x st) := rfl
    rw [hr]
    refine ⟨by rw [i1, f3]; simp, i2.trans f1, i3.trans f2, i4.trans f6, fun i => ?_,
      fun hlen hw => ?_⟩
    · rw [i5 i, f5]
      by_cases hi : i < NCPU
      · by_cases hx : st.CurrentProcess i = some x
        · simp [hi, hx]
        · simp only [hi, hx, and_false, if_false, true_and, List.mem_cons]
          by_cases hl : ∃ y, y ∈ l ∧ st.CurrentProcess i = some y
          · have : ∃ y, (y = x ∨ y ∈ l) ∧ st.CurrentProcess i = some y := by
              obtain ⟨y, hy, hc⟩ := hl
              exact ⟨y, Or.inr hy, hc⟩
            simp [hl, this, hi]
          · have : ¬ ∃ y, (y = x ∨ y ∈ l) ∧ st.CurrentProcess i = some y := by
              rintro ⟨y, hy | hy, hc⟩
              · exact hx (hy ▸ hc)
              · exact hl ⟨y, hy, hc⟩
            simp [hl, this, hi]
      · simp [hi]
    · simp only [List.length_cons] at hlen
      have hpc : (reapPcb x st).ProcessCount = st.ProcessCount - 1 := by
        rw [f4]
        have : st.ProcessCount + WORD - 1 = (st.ProcessCount - 1) + WORD := by
          have : 0 < WORD := by decide
          omega
        rw [this, Nat.add_mod_right]
        exact Nat.mod_eq_of_lt (by omega)
      rw [i6 (by rw [hpc]; omega) (by rw [hpc]; omega), hpc]
      simp only [List.length_cons]
      omega

/-! ### TERMPROCESS: the recursion over the process tree -/

theorem reapAll_append (l1 l2 : List Nat) (st : State) :
    reapAll (l1 ++ l2) st = reapAll l2 (reapAll l1 st) := by
  simp [reapAll, List.foldl_append]

theorem Forest.nodes_of_roots_nil : ∀ f : Forest, f.roots = [] → f.nodes = []
  | Forest.nil, _ => rfl
  | Forest.node _ _ _, h => by simp [Forest.roots] at h

theorem Forest.storedIn_congr (t1 t2 : Nat → pcb_t) :
    ∀ (f : Forest) (y : Nat),
      (∀ z, z ∈ f.nodes → (t2 z).p_parent = (t1 z).p_parent ∧ (t2 z).p_child = (t1 z).p_child) →
      Forest.StoredIn t1 y f → Forest.StoredIn t2 y f
  | Forest.nil, _, _, _ => trivial
  | Forest.node p c s, y, h, hs => by
    obtain ⟨h1, h2, h3, h4⟩ := hs
    have hp := h p (by simp [Forest.nodes])
    refine ⟨by rw [hp.1]; exact h1, by rw [hp.2]; exact h2, ?_, ?_⟩
    · exact Forest.storedIn_congr t1 t2 c p (fun z hz => h z (by simp [Forest.nodes, hz])) h3
    · exact Forest.storedIn_congr t1 t2 s y (fun z hz => h z (by simp [Forest.nodes, hz])) h4

theorem nextSibling_append (p : Nat) (pre rest : List Nat) (hp : p ∉ pre) :
    nextSibling p (pre ++ p :: rest) = some rest.head? := by
  induction pre with
  | nil => simp [nextSibling]
  | cons q pre ih =>
    have hq : q ≠ p := fun h => hp (by simp [h])
    have hp' : p ∉ pre := fun h => hp (by simp [h])
    simp [nextSibling, hq, ih hp']

theorem terminateProcessSubTree_succ (fuel target : Nat) (st : State) :
    terminateProcessSubTree (fuel + 1) (some target) st =
      (match (if emptyChild target st then some st
             else terminateProcessSubTree fuel (st.pcbFree_table target).p_child.head? st) with
       | none => none
       | some st1 =>
         match (st1.pcbFree_table target).p_parent with
         | none => none
         | some prnt =>
           match nextSibling target (st1.pcbFree_table prnt).p_child with
           | none => none
           | some none => some (reapPcb target st1)
           | some (some sib) =>
             match terminateProcessSubTree fuel (some sib) st1 with
             | none => none
             | some st2 => some (reapPcb target st2)) := by
  rw [terminateProcessSubTree]

theorem terminateProcessSubTree_none (fuel : Nat) (st : State) :
    terminateProcessSubTree fuel none st = some st := by
  cases fuel <;> rw [terminateProcessSubTree]

theorem nodup_parts (y p : Nat) (pre c s : List Nat)
    (hnd : (y :: (pre ++ (c ++ s ++ [p]))).Nodup) :
    (p :: ([] ++ c)).Nodup ∧ (y :: (pre ++ [p] ++ s)).Nodup ∧ y ∉ c ∧ y ∉ s ∧ y ≠ p ∧
      p ∉ c ∧ p ∉ s ∧ p ∉ pre ∧ (∀ z, z ∈ s → z ∉ c ∧ z ≠ p) := by
  simp only [List.nodup_cons, List.nodup_append, List.disjoint_left, List.mem_append,
    List.mem_singleton, List.mem_cons, List.nil_append, List.nodup_nil, List.not_mem_nil,
    not_or, not_false_eq_true, and_true, or_false, true_and] at hnd ⊢
  obtain ⟨⟨h1, ⟨h2, h3⟩, h4⟩, h5, ⟨⟨h6, h7, h8⟩, h10⟩, h11⟩ := hnd
  refine ⟨⟨?_, h6⟩, ⟨⟨⟨h1, h4⟩, h3⟩, ⟨h5, ?_⟩, h7, ?_⟩, h2, h3, h4, ?_, ?_, ?_, ?_⟩
  · intro hp; exact (h10 (Or.inl hp)) rfl
  · intro a ha hap; exact (h11 ha).2 hap
  · intro a ha has
    rcases ha with ha | ha
    · exact (h11 ha).1.2 has
    · subst ha; exact (h10 (Or.inr has)) rfl
  · intro hp; exact (h10 (Or.inl hp)) rfl
  · intro hp; exact (h10 (Or.inr hp)) rfl
  · intro hp; exact (h11 hp).2 rfl
  · intro z hz
    exact ⟨fun hc => h8 hc hz, fun hzp => (h10 (Or.inr hz)) hzp⟩

theorem erase_append_singleton (pre : List Nat) (p : Nat) (hp : p ∉ pre) :
    (pre ++ [p]).erase p = pre := by
  rw [List.erase_append_right _ hp]
  simp

theorem subTree_spec :
    ∀ (f : Forest) (fuel : Nat) (st : State) (y : Nat) (pre : List Nat),
      f.depth ≤ fuel → Forest.StoredIn st.pcbFree_table y f →
      (st.pcbFree_table y).p_child = pre ++ f.roots →
      (y :: (pre ++ f.nodes)).Nodup →
      terminateProcessSubTree fuel f.roots.head? st = some (reapAll f.nodes st) ∧
      ((reapAll f.nodes st).pcbFree_table y).p_child = pre ∧
      (∀ z, z ∉ f.nodes → z ≠ y →
        ((reapAll f.nodes st).pcbFree_table z).p_child = (st.pcbFree_table z).p_child) ∧
      (∀ z, z ∉ f.nodes →
        ((reapAll f.nodes st).pcbFree_table z).p_parent = (st.pcbFree_table z).p_parent) ∧
      (∀ z, z ∈ f.nodes → ((reapAll f.nodes st).pcbFree_table z).p_parent = none) ∧
      (∀ z, z ∈ f.nodes → ((reapAll f.nodes st).pcbFree_table z).p_child = [])
  | Forest.nil, fuel, st, y, pre, _, _, hch, _ => by
    simp only [Forest.roots, Forest.nodes, List.head?_nil, terminateProcessSubTree_none,
      List.append_nil] at hch ⊢
    exact ⟨rfl, hch, fun _ _ _ => rfl, fun _ _ => rfl, fun z hz => absurd hz (List.not_mem_nil z),
      fun z hz => absurd hz (List.not_mem_nil z)⟩
  | Forest.node p c s, fuel, st, y, pre, hd, hs, hch, hnd => by
    obtain ⟨n, rfl⟩ : ∃ n, fuel = n + 1 := ⟨fuel - 1, by simp [Forest.depth] at hd; omega⟩
    have hdc : c.depth ≤ n := by simp [Forest.depth] at hd; omega
    have hds : s.depth ≤ n := by simp [Forest.depth] at hd; omega
    obtain ⟨hpar, hpc, hsc, hss⟩ := hs
    obtain ⟨n1, n2, yc, ys, yp, pc, ps, ppre, hdis⟩ := nodup_parts y p pre c.nodes s.nodes hnd
    -- the children of `p`
    obtain ⟨a1, a2, a3, a4, a5, a6⟩ :=
      subTree_spec c n st p [] hdc hsc (by simpa using hpc) n1
    obtain ⟨st1, hst1⟩ : ∃ s1 : State, s1 = reapAll c.nodes st := ⟨_, rfl⟩
    rw [← hst1] at a1 a2 a3 a4 a5 a6
    have h1 : (if emptyChild p st then some st
        else terminateProcessSubTree n (st.pcbFree_table p).p_child.head? st) = some st1 := by
      by_cases he : emptyChild p st = true
      · have hr : c.roots = [] := by
          have : (st.pcbFree_table p).p_child = [] := by simpa [emptyChild] using he
          rw [← hpc]; exact this
        rw [if_pos he, hst1, Forest.nodes_of_roots_nil c hr]
        rfl
      · rw [if_neg he, hpc]
        exact a1
    have hp1 : (st1.pcbFree_table p).p_parent = some y := by rw [a4 p pc]; exact hpar
    have hy1 : (st1.pcbFree_table y).p_child = pre ++ p :: s.roots := by
      rw [a3 y yc yp]; exact hch
    -- the later siblings of `p`
    have hs1 : Forest.StoredIn st1.pcbFree_table y s :=
      Forest.storedIn_congr st.pcbFree_table st1.pcbFree_table s y
        (fun z hz => ⟨a4 z (hdis z hz).1, a3 z (hdis z hz).1 (hdis z hz).2⟩) hss
    obtain ⟨b1, b2, b3, b4, b5, b6⟩ :=
      subTree_spec s n st1 y (pre ++ [p]) hds hs1 (by simpa using hy1) n2
    obtain ⟨st2, hst2⟩ : ∃ s2 : State, s2 = reapAll s.nodes st1 := ⟨_, rfl⟩
    rw [← hst2] at b1 b2 b3 b4 b5 b6
    have hp2 : (st2.pcbFree_table p).p_parent = some y := by rw [b4 p ps]; exact hp1
    have hfin : reapAll (Forest.node p c s).nodes st = reapPcb p st2 := by
      simp only [Forest.nodes]
      rw [reapAll_append, reapAll_append, ← hst1, ← hst2]
      rfl
    have hres : terminateProcessSubTree (n + 1) (some p) st = some (reapPcb p st2) := by
      rw [terminateProcessSubTree_succ, h1]
      simp only [hp1, hy1, nextSibling_append p pre s.roots ppre]
      cases hh : s.roots.head? with
      | none =>
        have hr : s.roots = [] := by
          cases hroots : s.roots with
          | nil => rfl
          | cons a l => rw [hroots] at hh; simp at hh
        have : st2 = st1 := by rw [hst2, Forest.nodes_of_roots_nil s hr]; rfl
        rw [this]
      | some sib =>
        rw [hh] at b1
        simp only [b1]
    rw [hfin]
    refine ⟨hres, ?_, fun z hz hzy => ?_, fun z hz => ?_, fun z hz => ?_, fun z hz => ?_⟩
    · rw [(reapPcb_table p st2 y).2.1, if_pos hp2, b2]
      exact erase_append_singleton pre p ppre
    · simp only [Forest.nodes, List.mem_append, List.mem_singleton, not_or] at hz
      have hne : ¬ ((st2.pcbFree_table p).p_parent = some z) := by
        rw [hp2]; intro h; injection h with h; exact hzy h.symm
      rw [(reapPcb_table p st2 z).2.1, if_neg hne, b3 z hz.1.2 hzy, a3 z hz.1.1 hz.2]
    · simp only [Forest.nodes, List.mem_append, List.mem_singleton, not_or] at hz
      rw [(reapPcb_table p st2 z).1, if_neg hz.2, b4 z hz.1.2, a4 z hz.1.1]
    · rw [(reapPcb_table p st2 z).1]
      by_cases hzp : z = p
      · rw [if_pos hzp]
      · rw [if_neg hzp]
        simp only [Forest.nodes, List.mem_append, List.mem_singleton] at hz
        rcases hz with (hz | hz) | hz
        · have hzs : z ∉ s.nodes := fun h => (hdis z h).1 hz
          rw [b4 z hzs]
          exact a5 z hz
        · exact b5 z hz
        · exact absurd hz hzp
    · simp only [Forest.nodes, List.mem_append, List.mem_singleton] at hz
      have hzy : z ≠ y := by
        rcases hz with (hz | hz) | hz
        · exact fun h => yc (h ▸ hz)
        · exact fun h => ys (h ▸ hz)
        · exact fun h => yp (h.symm.trans hz)
      have hne : ¬ ((st2.pcbFree_table p).p_parent = some z) := by
        rw [hp2]; intro h; injection h with h; exact hzy h.symm
      rw [(reapPcb_table p st2 z).2.1, if_neg hne]
      rcases hz with (hz | hz) | hz
      · have hzs : z ∉ s.nodes := fun h => (hdis z h).1 hz
        rw [b3 z hzs hzy]
        exact a6 z hz
      · exact b6 z hz
      · subst hz
        rw [b3 z ps hzy]
        exact a2

theorem Forest.parent_mem (tbl : Nat → pcb_t) :
    ∀ (f : Forest) (y : Nat), Forest.StoredIn tbl y f →
      ∀ x, x ∈ f.nodes → ∃ y', (y' = y ∨ y' ∈ f.nodes) ∧ (tbl x).p_parent = some y'
  | Forest.nil, _, _, x, hx => absurd hx (List.not_mem_nil x)
  | Forest.node p c s, y, hs, x, hx => by
    obtain ⟨h1, -, h3, h4⟩ := hs
    simp only [Forest.nodes, List.mem_append, List.mem_singleton] at hx ⊢
    rcases hx with (hx | hx) | hx
    · obtain ⟨y', hy', hp⟩ := Forest.parent_mem tbl c p h3 x hx
      refine ⟨y', Or.inr ?_, hp⟩
      rcases hy' with h | h
      · exact Or.inr h
      · exact Or.inl (Or.inl h)
    · obtain ⟨y', hy', hp⟩ := Forest.parent_mem tbl s y h4 x hx
      refine ⟨y', ?_, hp⟩
      rcases hy' with h | h
      · exact Or.inl h
      · exact Or.inr (Or.inl (Or.inr h))
    · subst hx
      exact ⟨y, Or.inl rfl, h1⟩

theorem terminateTarget_spec (fuel prid T : Nat) (f : Forest) (st : State)
    (htree : Forest.StoredIn st.pcbFree_table T f)
    (hch : (st.pcbFree_table T).p_child = f.roots)
    (hnd : (T :: f.nodes).Nodup)
    (hpar : ∀ y, (st.pcbFree_table T).p_parent = some y →
      y ∉ T :: f.nodes ∧ (st.pcbFree_table y).p_child.Nodup)
    (hready : ReapReady (f.nodes ++ [T]) st)
    (hcount : (f.nodes ++ [T]).length ≤ st.ProcessCount ∧ st.ProcessCount < WORD)
    (hfuel : f.depth ≤ fuel) :
    terminateTarget fuel prid T st = scheduler prid (reapAll (f.nodes ++ [T]) st) ∧
    SubtreeGone st (reapAll (f.nodes ++ [T]) st) (f.nodes ++ [T]) ∧
    (∀ y, (st.pcbFree_table T).p_parent = some y →
      ((reapAll (f.nodes ++ [T]) st).pcbFree_table y).p_child =
        (st.pcbFree_table y).p_child.erase T) := by
  have hTf : T ∉ f.nodes := (List.nodup_cons.mp hnd).1
  obtain ⟨a1, a2, a3, a4, a5, a6⟩ :=
    subTree_spec f fuel st T [] hfuel htree (by simpa using hch) (by simpa using hnd)
  obtain ⟨s1, hs1⟩ : ∃ s : State, s = reapAll f.nodes st := ⟨_, rfl⟩
  rw [← hs1] at a1 a2 a3 a4 a5 a6
  have hfin : reapAll (f.nodes ++ [T]) st = reapPcb T s1 := by
    rw [reapAll_append, ← hs1]
    rfl
  have h1 : (if emptyChild T st then some st
      else terminateProcessSubTree fuel (st.pcbFree_table T).p_child.head? st) = some s1 := by
    by_cases he : emptyChild T st = true
    · have hr : f.roots = [] := by
        have : (st.pcbFree_table T).p_child = [] := by simpa [emptyChild] using he
        rw [← hch]; exact this
      rw [if_pos he, hs1, Forest.nodes_of_roots_nil f hr]
      rfl
    · rw [if_neg he, hch]
      exact a1
  have hpT : (s1.pcbFree_table T).p_parent = (st.pcbFree_table T).p_parent := a4 T hTf
  obtain ⟨v1, v2, -⟩ := reapAll_views (f.nodes ++ [T]) st hready
  obtain ⟨g1, -, -, -, g5, g6⟩ := reapAll_fields (f.nodes ++ [T]) st
  have hparent : ∀ y, (st.pcbFree_table T).p_parent = some y →
      ((reapPcb T s1).pcbFree_table y).p_child = (st.pcbFree_table y).p_child.erase T := by
    intro y hy
    obtain ⟨hy1, -⟩ := hpar y hy
    have hyT : y ≠ T := fun h => hy1 (by simp [h])
    have hyf : y ∉ f.nodes := fun h => hy1 (by simp [h])
    rw [(reapPcb_table T s1 y).2.1, hpT, if_pos hy, a3 y hyf hyT]
  refine ⟨?_, ⟨?_, ?_, ?_, v1, v2, fun i hi => ?_, g1, g6 hcount.1 hcount.2⟩, ?_⟩
  · rw [hfin]
    simp only [terminateTarget, h1]
  · intro x hx
    rw [hfin, (reapPcb_table T s1 x).1]
    by_cases hxT : x = T
    · rw [if_pos hxT]
    · rw [if_neg hxT]
      have hxf : x ∈ f.nodes := by
        rcases List.mem_append.mp hx with h | h
        · exact h
        · exact absurd (by simpa using h) hxT
      exact a5 x hxf
  · intro x hx y hy
    rw [hfin]
    by_cases hxT : x = T
    · subst hxT
      rw [hparent y hy]
      exact List.Nodup.not_mem_erase (hpar y hy).2
    · have hxf : x ∈ f.nodes := by
        rcases List.mem_append.mp hx with h | h
        · exact h
        · exact absurd (by simpa using h) hxT
      obtain ⟨y', hy', hp'⟩ := Forest.parent_mem st.pcbFree_table f T htree x hxf
      have hyy : y = y' := by
        rw [hy] at hp'
        injection hp'
      subst hyy
      have hempty : (s1.pcbFree_table y).p_child = [] := by
        rcases hy' with h | h
        · rw [h]; exact a2
        · exact a6 y h
      rw [(reapPcb_table T s1 y).2.1, hempty]
      split <;> simp
  · intro z hz
    have hzT : z ≠ T := fun h => hz (by simp [h])
    have hzf : z ∉ f.nodes := fun h => hz (by simp [h])
    rw [hfin, (reapPcb_table T s1 z).1, if_neg hzT, a4 z hzf]
  · rw [g5 i]
    by_cases hx : ∃ x, x ∈ f.nodes ++ [T] ∧ st.CurrentProcess i = some x
    · rw [if_pos ⟨hi, hx⟩, if_pos hx]
    · rw [if_neg (fun h => hx h.2), if_neg hx]
  · intro y hy
    rw [hfin]
    exact hparent y hy

/-! ### TERMPROCESS: finding the target -/

theorem outBlockedPIDFrom_spec (pid : Int) (T : Nat) (st : State)
    (hinj : ∀ z, Queued st z → (st.pcbFree_table z).p_pid = pid → z = T)
    (hpid : (st.pcbFree_table T).p_pid = pid) :
    ∀ sems : List Nat, (∀ d, d ∈ sems → d ∈ st.semd_h) →
      (∃ d, d ∈ sems ∧ T ∈ (st.semd_table d).s_procq) →
      ∃ d0, d0 ∈ st.semd_h ∧ T ∈ (st.semd_table d0).s_procq ∧
        outBlockedPIDFrom pid st sems =
          some (T, st.updSemd d0 (fun s => { s with s_procq := s.s_procq.erase T }))
  | [], _, h => by
    obtain ⟨d, hd, -⟩ := h
    exact absurd hd (List.not_mem_nil d)
  | sem :: rest, hsub, h => by
    cases hf : (st.semd_table sem).s_procq.find?
        (fun q => decide ((st.pcbFree_table q).p_pid = pid)) with
    | some z =>
      have hz := List.find?_some hf
      have hmem := List.mem_of_find?_eq_some hf
      have hzT : z = T :=
        hinj z (Or.inr ⟨sem, hsub sem (List.mem_cons_self _ _), hmem⟩) (by simpa using hz)
      subst hzT
      exact ⟨sem, hsub sem (List.mem_cons_self _ _), hmem, by simp only [outBlockedPIDFrom, hf]⟩
    | none =>
      rw [List.find?_eq_none] at hf
      have hnot : T ∉ (st.semd_table sem).s_procq := fun hin => by simpa [hpid] using hf T hin
      obtain ⟨d, hd, hT⟩ := h
      have hd' : d ∈ rest := by
        rcases List.mem_cons.mp hd with h | h
        · rw [h] at hT; exact absurd hT hnot
        · exact h
      obtain ⟨d0, h1, h2, h3⟩ := outBlockedPIDFrom_spec pid T st hinj hpid rest
        (fun d hd => hsub d (List.mem_cons_of_mem _ hd)) ⟨d, hd', hT⟩
      refine ⟨d0, h1, h2, ?_⟩
      have hf' : (st.semd_table sem).s_procq.find?
          (fun q => decide ((st.pcbFree_table q).p_pid = pid)) = none := by
        rw [List.find?_eq_none]; exact hf
      simp only [outBlockedPIDFrom, hf']
      exact h3

theorem unqueue_views (T d0 : Nat) (st : State) :
    (∀ a, findSemd a (st.updSemd d0 (fun s => { s with s_procq := s.s_procq.erase T })) =
      findSemd a st) ∧
    (∀ a, blockedQueue a (st.updSemd d0 (fun s => { s with s_procq := s.s_procq.erase T })) =
      if findSemd a st = some d0 then (blockedQueue a st).erase T else blockedQueue a st) ∧
    (∀ z, Queued (st.updSemd d0 (fun s => { s with s_procq := s.s_procq.erase T })) z →
      Queued st z) := by
  have hfind : ∀ a, findSemd a (st.updSemd d0 (fun s =>
      { s with s_procq := s.s_procq.erase T })) = findSemd a st :=
    fun a => findSemd_congr a st _ ((st.semd_table d0).s_procq.erase T) d0 rfl (Or.inl rfl)
  refine ⟨hfind, fun a => ?_, fun z hz => ?_⟩
  · unfold blockedQueue
    rw [hfind a]
    cases hf : findSemd a st with
    | none => simp
    | some d =>
      by_cases hd : d = d0
      · subst hd
        simp [State.updSemd]
      · have hd' : ¬ (some d = some d0) := fun h => hd (by injection h)
        simp [State.updSemd, Function.update, hd, hd']
  · rcases hz with hz | ⟨d, hd, hz⟩
    · exact Or.inl hz
    · refine Or.inr ⟨d, hd, ?_⟩
      by_cases hdd : d = d0
      · subst hdd
        simp only [State.updSemd, Function.update_same] at hz
        exact List.mem_of_mem_erase hz
      · simpa [State.updSemd, Function.update, hdd] using hz

theorem unqueue_ready (T d0 : Nat) (l : List Nat) (st : State) (h : ReapReady l st) :
    ReapReady l (st.updSemd d0 (fun s => { s with s_procq := s.s_procq.erase T })) := by
  obtain ⟨u1, u2, u3⟩ := unqueue_views T d0 st
  obtain ⟨h1, h2, h3, h4⟩ := h
  have hsub : ∀ a x, x ∈ blockedQueue a (st.updSemd d0 (fun s =>
      { s with s_procq := s.s_procq.erase T })) → x ∈ blockedQueue a st := by
    intro a x hx
    rw [u2 a] at hx
    by_cases hc : findSemd a st = some d0
    · rw [if_pos hc] at hx; exact List.mem_of_mem_erase hx
    · rw [if_neg hc] at hx; exact hx
  refine ⟨fun x hx z hz hp => h1 x hx z (u3 z hz) hp, fun x hx a ha => ?_, h3, fun a => ?_⟩
  · rw [u1, u1]
    exact h2 x hx a (hsub a x ha)
  · rw [u2 a]
    by_cases hc : findSemd a st = some d0
    · rw [if_pos hc]; exact (h4 a).erase T
    · rw [if_neg hc]; exact h4 a

theorem subtreeGone_unqueue (T d0 : Nat) (l : List Nat) (st st' : State) (hT : T ∈ l)
    (hnd : ∀ a, (blockedQueue a st).Nodup)
    (h : SubtreeGone (st.updSemd d0 (fun s => { s with s_procq := s.s_procq.erase T })) st' l) :
    SubtreeGone st st' l := by
  obtain ⟨-, u2, -⟩ := unqueue_views T d0 st
  obtain ⟨h1, h2, h3, h4, h5, h6, h7, h8⟩ := h
  refine ⟨h1, h2, h3, h4, fun a => ?_, h6, h7, h8⟩
  rw [h5 a, u2 a]
  by_cases hc : findSemd a st = some d0
  · rw [if_pos hc, List.Nodup.erase_eq_filter (hnd a), List.filter_filter]
    apply List.filter_congr
    intro z _
    by_cases hz : z = T
    · subst hz; simp [hT]
    · simp [hz]
  · rw [if_neg hc]

/-- C6: let `T` be the target of TERMPROCESS issued on CPU `prid` (the caller
when the pid is 0, otherwise the PCB with that pid, which is on the ready queue
or on the queue of an active semaphore descriptor), let the forest `f` be the
tree of descendants of `T` as stored in the PCB table, and let the state be
well formed: every PCB is linked in at most one list and a running PCB in none
(`LinkedOnce`), `T` and its descendants are allocated (none is on the free
list), pids identify queued PCBs, a blocked PCB has the address of its
semaphore in `p_semAdd` (`ReapReady`), the parent of `T` is outside the subtree
and lists its children once, and `ProcessCount` counts at least the subtree.
With the recursion depth bounded by at least the depth of `f`,
`terminateProcess` reaches its call of the scheduler in a state `st'` in which
exactly `T` and its descendants are terminated (`SubtreeGone`): each has lost
its parent and left its parent's child list, the ready queue and every blocked
queue are the old ones without these PCBs, the CPU slots that held them are
null and the others unchanged, the free list is the old one followed by these
PCBs and holds no PCB twice, `ProcessCount` is lower by their number, PCBs
outside keep their parent, and the child list of the parent of `T` only loses
`T`. -/
theorem termprocess_subtree (fuel prid T : Nat) (pid : Int) (f : Forest) (st : State)
    (hlink : LinkedOnce st)
    (halloc : ∀ x, x ∈ f.nodes ++ [T] → x ∉ st.pcbFree_h)
    (htree : Forest.StoredIn st.pcbFree_table T f)
    (hch : (st.pcbFree_table T).p_child = f.roots)
    (hnd : (T :: f.nodes).Nodup)
    (hpar : ∀ y, (st.pcbFree_table T).p_parent = some y →
      y ∉ T :: f.nodes ∧ (st.pcbFree_table y).p_child.Nodup)
    (hready : ReapReady (f.nodes ++ [T]) st)
    (hcount : (f.nodes ++ [T]).length ≤ st.ProcessCount ∧ st.ProcessCount < WORD)
    (hfuel : f.depth ≤ fuel)
    (htarget : (pid = 0 ∧ st.CurrentProcess prid = some T) ∨
      (pid ≠ 0 ∧ (st.pcbFree_table T).p_pid = pid ∧ Queued st T)) :
    ∃ st', terminateProcess fuel prid pid st = scheduler prid st' ∧
      SubtreeGone st st' (f.nodes ++ [T]) ∧
      (∀ y, (st.pcbFree_table T).p_parent = some y →
        (st'.pcbFree_table y).p_child = (st.pcbFree_table y).p_child.erase T) ∧
      st'.pcbFree_h.Nodup := by
  have hTl : T ∈ f.nodes ++ [T] := by simp
  have hfreeNodup : ∀ st' : State, SubtreeGone st st' (f.nodes ++ [T]) → st'.pcbFree_h.Nodup := by
    intro st' hg
    rw [hg.2.2.2.2.2.2.1]
    have h1 : st.pcbFree_h.Nodup := by
      have := hlink.1
      unfold linkedPcbs at this
      exact (List.nodup_append.mp this).2.1
    have h2 : (f.nodes ++ [T]).Nodup :=
      (List.perm_append_singleton T f.nodes).nodup_iff.mpr hnd
    exact List.nodup_append.mpr ⟨h1, h2, fun x hx hl => halloc x hl hx⟩
  suffices hmain : ∃ st', terminateProcess fuel prid pid st = scheduler prid st' ∧
      SubtreeGone st st' (f.nodes ++ [T]) ∧
      (∀ y, (st.pcbFree_table T).p_parent = some y →
        (st'.pcbFree_table y).p_child = (st.pcbFree_table y).p_child.erase T) by
    obtain ⟨st', h1, h2, h3⟩ := hmain
    exact ⟨st', h1, h2, h3, hfreeNodup st' h2⟩
  rcases htarget with ⟨h0, hcur⟩ | ⟨h0, hpid, hq⟩
  · obtain ⟨r1, r2, r3⟩ :=
      terminateTarget_spec fuel prid T f st htree hch hnd hpar hready hcount hfuel
    exact ⟨_, by simp only [terminateProcess, h0, if_true, hcur]; exact r1, r2, r3⟩
  · have hinj : ∀ z, Queued st z → (st.pcbFree_table z).p_pid = pid → z = T :=
      fun z hz hp => hready.1 T hTl z hz (hp.trans hpid.symm)
    cases hf : st.ReadyQueue.find? (fun q => decide ((st.pcbFree_table q).p_pid = pid)) with
    | some z =>
      have hz := List.find?_some hf
      have hzT : z = T := hinj z (Or.inl (List.mem_of_find?_eq_some hf)) (by simpa using hz)
      subst hzT
      obtain ⟨r1, r2, r3⟩ :=
        terminateTarget_spec fuel prid z f st htree hch hnd hpar hready hcount hfuel
      refine ⟨_, ?_, r2, r3⟩
      simp only [terminateProcess, h0, if_false, findPcb, hf]
      exact r1
    | none =>
      have hnotin : T ∉ st.ReadyQueue := by
        intro hin
        rw [List.find?_eq_none] at hf
        simpa [hpid] using hf T hin
      have hd : ∃ d, d ∈ st.semd_h ∧ T ∈ (st.semd_table d).s_procq := by
        rcases hq with h | h
        · exact absurd h hnotin
        · exact h
      obtain ⟨d0, -, -, hout⟩ :=
        outBlockedPIDFrom_spec pid T st hinj hpid st.semd_h (fun d hd => hd) hd
      obtain ⟨r1, r2, r3⟩ :=
        terminateTarget_spec fuel prid T f
          (st.updSemd d0 (fun s => { s with s_procq := s.s_procq.erase T }))
          htree hch hnd hpar (unqueue_ready T d0 _ st hready) hcount hfuel
      refine ⟨_, ?_, subtreeGone_unqueue T d0 _ st _ hTl hready.2.2.2 r2, r3⟩
      have hout' : outBlockedPID pid st =
          some (T, st.updSemd d0 (fun s => { s with s_procq := s.s_procq.erase T })) := hout
      simp only [terminateProcess, h0, if_false, findPcb, hf, hout']
      exact r1

theorem chainState_ready : ReapReady (chainForest.nodes ++ [18]) chainState := by
  have hRQ : chainState.ReadyQueue = [18, 17, 16] := by decide
  have hsemd : chainState.semd_h = [] := by decide
  have hbq : ∀ a, blockedQueue a chainState = [] := by
    intro a
    unfold blockedQueue findSemd
    rw [hsemd]
    rfl
  have hl : chainForest.nodes ++ [18] = [16, 17, 18] := by decide
  rw [hl]
  refine ⟨?_, ?_, by rw [hRQ]; decide, fun a => by rw [hbq a]; exact List.nodup_nil⟩
  · intro x hx z hz hp
    have hz' : z ∈ [18, 17, 16] := by
      rcases hz with h | ⟨d, hd, -⟩
      · rw [hRQ] at h; exact h
      · rw [hsemd] at hd; exact absurd hd (List.not_mem_nil d)
    simp only [List.mem_cons, List.mem_singleton, List.not_mem_nil, or_false] at hx hz'
    rcases hx with rfl | rfl | rfl <;> rcases hz' with rfl | rfl | rfl <;>
      first
        | rfl
        | (exfalso; revert hp; decide)
  · intro x _ a ha
    rw [hbq a] at ha
    exact absurd ha (List.not_mem_nil x)

/-- The chain Root -> A -> B -> C, all linked once, with TERMPROCESS of A
issued by Root. -/
theorem termprocess_subtree_witness :
    LinkedOnce chainState ∧
    Queued chainState 18 ∧ (chainState.pcbFree_table 18).p_pid = 2 ∧
    chainState.ProcessCount = 4 ∧
    ∃ st', terminateProcess 2 0 2 chainState = scheduler 0 st' ∧
      SubtreeGone chainState st' [16, 17, 18] ∧ st'.ProcessCount = 1 ∧
      st'.ReadyQueue = [] ∧ (st'.pcbFree_table 19).p_child = [] ∧
      st'.pcbFree_h = List.range 16 ++ [16, 17, 18] := by
  have hq : Queued chainState 18 := Or.inl (by decide)
  have hlink : LinkedOnce chainState := by decide
  obtain ⟨st', h1, h2, h3, -⟩ := termprocess_subtree 2 0 18 2 chainForest chainState
    hlink (by decide)
    ⟨by decide, by decide, ⟨by decide, by decide, trivial, trivial⟩, trivial⟩
    (by decide) (by decide)
    (by
      intro y hy
      have h19 : (chainState.pcbFree_table 18).p_parent = some 19 := by decide
      rw [h19] at hy
      injection hy with hy
      subst hy
      exact ⟨by decide, by decide⟩)
    chainState_ready
    (by decide) (by decide)
    (Or.inr ⟨by decide, by decide, hq⟩)
  have hl : chainForest.nodes ++ [18] = [16, 17, 18] := by decide
  rw [hl] at h2
  refine ⟨hlink, hq, by decide, by decide, st', h1, h2, ?_, ?_, ?_, ?_⟩
  · rw [h2.2.2.2.2.2.2.2]
    decide
  · rw [h2.2.2.2.1]
    decide
  · rw [h3 19 (by decide)]
    decide
  · rw [h2.2.2.2.2.2.2.1]
    decide

/-! ### System calls that are handled as program traps -/

theorem scheduler_not_ret (prid : Nat) (st st' : State) :
    scheduler prid st ≠ some (st', Control.ret) := by
  unfold scheduler
  intro h
  split at h
  · split at h <;> simp at h
  · dsimp only at h
    split at h <;> simp at h

theorem afterService_terminate_self (fuel prid : Nat) (st : State) :
    afterService prid (terminateProcess fuel prid 0 st) = terminateProcess fuel prid 0 st := by
  cases h : terminateProcess fuel prid 0 st with
  | none => rfl
  | some r =>
    obtain ⟨s, c⟩ := r
    cases c with
    | ret =>
      exfalso
      simp only [terminateProcess, if_true] at h
      cases hc : st.CurrentProcess prid with
      | none => simp [hc] at h
      | some target =>
        simp only [hc, terminateTarget] at h
        split at h
        · simp at h
        · exact scheduler_not_ret _ _ _ h
    | _ => rfl

theorem passUp_effect (prid ty cur : Nat) (st : State)
    (hcur : st.CurrentProcess prid = some cur) :
    ∃ st', passUpToSupportLevel prid ty st =
        some (st', Control.LDCXT
          ((st.supportMem (st.pcbFree_table cur).p_supportStruct).sup_exceptContext ty).stackPtr
          ((st.supportMem (st.pcbFree_table cur).p_supportStruct).sup_exceptContext ty).status
          ((st.supportMem (st.pcbFree_table cur).p_supportStruct).sup_exceptContext ty).pc) ∧
      st'.excState = st.excState ∧
      (st'.supportMem (st.pcbFree_table cur).p_supportStruct).sup_exceptState ty =
        st.excState prid ∧
      SameKernelData st st' := by
  simp only [passUpToSupportLevel, hcur]
  exact ⟨_, rfl, rfl, by simp, rfl, rfl, rfl, rfl, rfl, rfl, rfl, rfl, rfl⟩

/-- The two tests of `SYSCALL_handler` that lead to a program trap, for the
process `cur` in the slot of CPU `prid`.  When `status & MSTATUS_MPP_MASK` is
zero the handler stores PRIVINSTR in the saved cause and, when the caller has a
support structure, copies the saved state into its general-exception slot and
loads the general-exception context, changing no queue, semaphore, PCB or
process count; when the caller has none, it is `terminateProcess(0)` on that
state.  When the masked status is not zero and a0 is none of the nine service
numbers, the same happens with the saved cause left as it is. -/
theorem syscall_trap_by_field (fuel prid t1 t2 cur : Nat) (st : State)
    (hcur : st.CurrentProcess prid = some cur) :
    ((st.excState prid).status &&& MSTATUS_MPP_MASK = 0 →
      ((st.pcbFree_table cur).p_supportStruct ≠ 0 →
        ∃ st', SYSCALL_handler fuel prid t1 t2 st =
            some (st', Control.LDCXT
              ((st.supportMem (st.pcbFree_table cur).p_supportStruct).sup_exceptContext
                GENERALEXCEPT).stackPtr
              ((st.supportMem (st.pcbFree_table cur).p_supportStruct).sup_exceptContext
                GENERALEXCEPT).status
              ((st.supportMem (st.pcbFree_table cur).p_supportStruct).sup_exceptContext
                GENERALEXCEPT).pc) ∧
          st'.excState prid = { (st.excState prid) with cause := PRIVINSTR } ∧
          (st'.supportMem (st.pcbFree_table cur).p_supportStruct).sup_exceptState GENERALEXCEPT =
            { (st.excState prid) with cause := PRIVINSTR } ∧
          SameKernelData st st') ∧
      ((st.pcbFree_table cur).p_supportStruct = 0 →
        SYSCALL_handler fuel prid t1 t2 st =
          terminateProcess fuel prid 0
            { st with excState := Function.update st.excState prid { (st.excState prid) with cause := PRIVINSTR } })) ∧
    ((st.excState prid).status &&& MSTATUS_MPP_MASK ≠ 0 →
      (st.excState prid).reg_a0 ∉ serviceCodes →
      ((st.pcbFree_table cur).p_supportStruct ≠ 0 →
        ∃ st', SYSCALL_handler fuel prid t1 t2 st =
            some (st', Control.LDCXT
              ((st.supportMem (st.pcbFree_table cur).p_supportStruct).sup_exceptContext
                GENERALEXCEPT).stackPtr
              ((st.supportMem (st.pcbFree_table cur).p_supportStruct).sup_exceptContext
                GENERALEXCEPT).status
              ((st.supportMem (st.pcbFree_table cur).p_supportStruct).sup_exceptContext
                GENERALEXCEPT).pc) ∧
          st'.excState = st.excState ∧
          (st'.supportMem (st.pcbFree_table cur).p_supportStruct).sup_exceptState GENERALEXCEPT =
            st.excState prid ∧
          SameKernelData st st') ∧
      ((st.pcbFree_table cur).p_supportStruct = 0 →
        SYSCALL_handler fuel prid t1 t2 st = terminateProcess fuel prid 0 st)) := by
  refine ⟨fun hmpp => ⟨fun hsp => ?_, fun hsp => ?_⟩, fun hmpp ha0 => ⟨fun hsp => ?_, fun hsp => ?_⟩⟩
  · obtain ⟨s1, hs1⟩ : ∃ s : State, s =
        { st with excState := Function.update st.excState prid { (st.excState prid) with cause := PRIVINSTR } } :=
      ⟨_, rfl⟩
    have hc1 : s1.CurrentProcess prid = some cur := by rw [hs1]; exact hcur
    obtain ⟨st', h1, h2, h3, h4⟩ := passUp_effect prid GENERALEXCEPT cur s1 hc1
    have htbl : s1.pcbFree_table = st.pcbFree_table := by rw [hs1]
    have hsup : s1.supportMem = st.supportMem := by rw [hs1]
    have hexc : s1.excState prid = { (st.excState prid) with cause := PRIVINSTR } := by
      rw [hs1]; simp
    rw [htbl, hsup] at h1
    rw [htbl] at h3
    refine ⟨st', ?_, ?_, ?_, ?_⟩
    · simp only [SYSCALL_handler, hmpp, if_true, handleProgramTrap, hcur, ← hs1]
      rw [if_pos hsp]
      exact h1
    · rw [h2, hexc]
    · rw [h3, hexc]
    · rw [hs1] at h4
      exact h4
  · simp only [SYSCALL_handler, hmpp, if_true, handleProgramTrap, hcur, hsp, ne_eq,
      not_true_eq_false, if_false]
  · obtain ⟨st', h1, h2, h3, h4⟩ := passUp_effect prid GENERALEXCEPT cur st hcur
    refine ⟨st', ?_, h2, h3, h4⟩
    simp only [serviceCodes, List.mem_cons, List.mem_singleton, List.not_mem_nil, or_false,
      not_or] at ha0
    obtain ⟨a1, a2, a3, a4, a5, a6, a7, a8, a9⟩ := ha0
    simp only [SYSCALL_handler, hmpp, if_false, a1, a2, a3, a4, a5, a6, a7, a8, a9,
      handleProgramTrap, hcur, hsp, ne_eq, not_false_eq_true, if_true, h1, afterService]
  · simp only [serviceCodes, List.mem_cons, List.mem_singleton, List.not_mem_nil, or_false,
      not_or] at ha0
    obtain ⟨a1, a2, a3, a4, a5, a6, a7, a8, a9⟩ := ha0
    simp only [SYSCALL_handler, hmpp, if_false, a1, a2, a3, a4, a5, a6, a7, a8, a9,
      handleProgramTrap, hcur, hsp, ne_eq, not_true_eq_false]
    exact afterService_terminate_self fuel prid st


/-- C11 (amended).  The caller is the process `cur` in the slot of CPU `prid`,
and the previous-privilege field of its saved status holds one of the two
modes of the machine, `MSTATUS_MPP_U` or `MSTATUS_MPP_M` (const.h lines 92-93).
When the field is not machine mode, `SYSCALL_handler` runs no service whatever
a0 holds: it stores PRIVINSTR in the saved cause and, when the caller has a
support structure, copies the saved state into its general-exception slot and
loads the general-exception context, changing no queue, semaphore, PCB or
process count; when the caller has none, it is `terminateProcess(0)` on that
state.  For a machine-mode caller whose a0 is none of the nine service numbers,
the same happens with the saved cause left as it is. -/
theorem syscall_program_trap (fuel prid t1 t2 cur : Nat) (st : State)
    (hcur : st.CurrentProcess prid = some cur)
    (hmode : (st.excState prid).status &&& MSTATUS_MPP_MASK = MSTATUS_MPP_U ∨
      (st.excState prid).status &&& MSTATUS_MPP_MASK = MSTATUS_MPP_M) :
    ((st.excState prid).status &&& MSTATUS_MPP_MASK ≠ MSTATUS_MPP_M →
      ((st.pcbFree_table cur).p_supportStruct ≠ 0 →
        ∃ st', SYSCALL_handler fuel prid t1 t2 st =
            some (st', Control.LDCXT
              ((st.supportMem (st.pcbFree_table cur).p_supportStruct).sup_exceptContext
                GENERALEXCEPT).stackPtr
              ((st.supportMem (st.pcbFree_table cur).p_supportStruct).sup_exceptContext
                GENERALEXCEPT).status
              ((st.supportMem (st.pcbFree_table cur).p_supportStruct).sup_exceptContext
                GENERALEXCEPT).pc) ∧
          st'.excState prid = { (st.excState prid) with cause := PRIVINSTR } ∧
          (st'.supportMem (st.pcbFree_table cur).p_supportStruct).sup_exceptState GENERALEXCEPT =
            { (st.excState prid) with cause := PRIVINSTR } ∧
          SameKernelData st st') ∧
      ((st.pcbFree_table cur).p_supportStruct = 0 →
        SYSCALL_handler fuel prid t1 t2 st =
          terminateProcess fuel prid 0
            { st with excState := Function.update st.excState prid { (st.excState prid) with cause := PRIVINSTR } })) ∧
    ((st.excState prid).status &&& MSTATUS_MPP_MASK = MSTATUS_MPP_M →
      (st.excState prid).reg_a0 ∉ serviceCodes →
      ((st.pcbFree_table cur).p_supportStruct ≠ 0 →
        ∃ st', SYSCALL_handler fuel prid t1 t2 st =
            some (st', Control.LDCXT
              ((st.supportMem (st.pcbFree_table cur).p_supportStruct).sup_exceptContext
                GENERALEXCEPT).stackPtr
              ((st.supportMem (st.pcbFree_table cur).p_supportStruct).sup_exceptContext
                GENERALEXCEPT).status
              ((st.supportMem (st.pcbFree_table cur).p_supportStruct).sup_exceptContext
                GENERALEXCEPT).pc) ∧
          st'.excState = st.excState ∧
          (st'.supportMem (st.pcbFree_table cur).p_supportStruct).sup_exceptState GENERALEXCEPT =
            st.excState prid ∧
          SameKernelData st st') ∧
      ((st.pcbFree_table cur).p_supportStruct = 0 →
        SYSCALL_handler fuel prid t1 t2 st = terminateProcess fuel prid 0 st)) := by
  have h := syscall_trap_by_field fuel prid t1 t2 cur st hcur
  refine ⟨fun hnm => ?_, fun hm => ?_⟩
  · rcases hmode with hu | hm
    · exact h.1 hu
    · exact absurd hm hnm
  · refine h.2 ?_
    rw [hm]
    decide

/-- The trap of a user-mode caller with a support structure: PASSEREN issued
from `userCallState` is passed up with the cause PRIVINSTR. -/
theorem syscall_program_trap_witness :
    userCallState.CurrentProcess 0 = some 19 ∧
    (userCallState.excState 0).status &&& MSTATUS_MPP_MASK = MSTATUS_MPP_U ∧
    (userCallState.excState 0).reg_a0 = PASSEREN ∧
    ∃ st', SYSCALL_handler 1 0 0 0 userCallState =
        some (st', Control.LDCXT 0x20006000 0x1800 0x20007000) ∧
      (st'.excState 0).cause = PRIVINSTR ∧
      ((st'.supportMem 0x20005000).sup_exceptState GENERALEXCEPT).cause = PRIVINSTR ∧
      ((st'.supportMem 0x20005000).sup_exceptState GENERALEXCEPT).reg_a0 = PASSEREN ∧
      SameKernelData userCallState st' := by
  obtain ⟨st', h1, h2, h3, h4⟩ :=
    ((syscall_program_trap 1 0 0 0 19 userCallState (by decide) (by decide)).1 (by decide)).1
      (by decide)
  have hsp : (userCallState.pcbFree_table 19).p_supportStruct = 0x20005000 := by decide
  have hctx : (userCallState.supportMem 0x20005000).sup_exceptContext GENERALEXCEPT =
      { stackPtr := 0x20006000, status := 0x1800, pc := 0x20007000 } := by decide
  rw [hsp] at h1 h3
  rw [hctx] at h1
  refine ⟨by decide, by decide, by decide, st', h1, ?_, ?_, ?_, h4⟩
  · rw [h2]
  · rw [h3]
  · rw [h3]
    decide

/-- C11, counterexample.  In `badCodeState` the caller is in machine mode, has no
support structure and passes 0 in a0, which is no service number: the handler
treats the call as a program trap, that is it terminates the caller, so the
process count goes from 1 to 0, the caller leaves its CPU slot and its PCB is
appended to the free list (the scheduler then halts). -/
theorem syscall_trap_claim_fails :
    (badCodeState.excState 0).status &&& MSTATUS_MPP_MASK = MSTATUS_MPP_M ∧
    (badCodeState.excState 0).reg_a0 ∉ serviceCodes ∧
    badCodeState.CurrentProcess 0 = some 19 ∧
    (badCodeState.pcbFree_table 19).p_supportStruct = 0 ∧
    badCodeState.ProcessCount = 1 ∧ 19 ∉ badCodeState.pcbFree_h ∧
    (SYSCALL_handler 1 0 0 0 badCodeState).map (fun r =>
        (r.1.ProcessCount, r.1.CurrentProcess 0, r.1.pcbFree_h.getLast?, r.2)) =
      some (0, none, some 19, Control.HALT) := by
  decide

/-! ### GETTIME -/

/-- C12, the code at the failing input: PCB 19 runs on CPU 0 with accumulated
time 0 and `lastTOD = 0`.  It issues GETTIME when the clock reads 1000 and
receives 1000; `getTimeElapsed` has then set `lastTOD` to 1000 while `p_time`
is still 0.  It is resumed, runs on without blocking or being preempted and
issues GETTIME again when the clock reads 1010: it receives 10. -/
theorem gettime_decreases :
    gettimeState.CurrentProcess 0 = some 19 ∧
    (gettimeState.pcbFree_table 19).p_time = 0 ∧ gettimeState.lastTOD = 0 ∧
    (SYSCALL_handler 0 0 1000 1000 gettimeState).map (fun r =>
        ((r.1.excState 0).reg_a0, r.1.lastTOD, (r.1.pcbFree_table 19).p_time,
          r.1.CurrentProcess 0, decide (r.2 = Control.LDST (r.1.excState 0)))) =
      some (1000, 1000, 0, some 19, true) ∧
    ((SYSCALL_handler 0 0 1000 1000 gettimeState).bind (fun r =>
        SYSCALL_handler 0 0 1010 1010 (trapAgain GETTIME r.1))).map (fun r =>
        ((r.1.excState 0).reg_a0, r.1.lastTOD, (r.1.pcbFree_table 19).p_time,
          r.1.CurrentProcess 0)) =
      some (10, 1010, 0, some 19) := by
  decide

/-! ### Process queues -/

theorem queueOf_eq (ps : List Nat) : queueOf ps = ps := by
  have h : ∀ (l q : List Nat), l.foldl insertProcQ q = q ++ l := by
    intro l
    induction l with
    | nil => intro q; simp
    | cons x l ih => intro q; simp [List.foldl, insertProcQ, ih]
  simpa [queueOf, mkEmptyProcQ] using h ps []

theorem removeMany_eq (k : Nat) :
    ∀ q : List Nat, removeMany k q =
      ((q.take k).map some ++ List.replicate (k - q.length) none, q.drop k) := by
  induction k with
  | zero => intro q; simp [removeMany]
  | succ k ih =>
    intro q
    cases q with
    | nil => simp [removeMany, removeProcQ, ih, List.replicate_succ]
    | cons x q => simp [removeMany, removeProcQ, ih]

/-- C13.  Let the queue be built from `mkEmptyProcQ` by `insertProcQ` of the
distinct PCBs `ps`, in that order.  Then `ps.length + 1` successive
`removeProcQ` calls return the PCBs of `ps` in that order and then null, and
more generally `k` calls return the first `k` of them (padded with nulls) and
leave the others queued in order.  At every point of such a run `headProcQ`
returns what the next `removeProcQ` returns (null on the empty queue; it takes
the queue by value, so it leaves it as it is), and `emptyProcQ` is true exactly
when as many PCBs have been removed as were inserted. -/
theorem procQ_fifo (ps : List Nat) (_hd : ps.Nodup) :
    (removeMany (ps.length + 1) (queueOf ps)).1 = ps.map some ++ [none] ∧
    (∀ k, removeMany k (queueOf ps) =
      ((ps.take k).map some ++ List.replicate (k - ps.length) none, ps.drop k)) ∧
    (∀ k, headProcQ (removeMany k (queueOf ps)).2 =
      (removeProcQ (removeMany k (queueOf ps)).2).1) ∧
    headProcQ mkEmptyProcQ = none ∧
    (∀ k, emptyProcQ (removeMany k (queueOf ps)).2 = true ↔ ps.length ≤ k) := by
  rw [queueOf_eq]
  refine ⟨?_, fun k => removeMany_eq k ps, fun k => ?_, rfl, fun k => ?_⟩
  · rw [removeMany_eq]
    simp
  · cases h : (removeMany k ps).2 with
    | nil => rfl
    | cons x q => rfl
  · rw [removeMany_eq]
    simp [emptyProcQ]

theorem procQ_fifo_witness :
    [7, 3, 5].Nodup ∧
    (removeMany 4 (insertProcQ (insertProcQ (insertProcQ mkEmptyProcQ 7) 3) 5)).1 =
      [some 7, some 3, some 5, none] ∧
    headProcQ (insertProcQ (insertProcQ (insertProcQ mkEmptyProcQ 7) 3) 5) = some 7 := by
  have h := procQ_fifo [7, 3, 5] (by decide)
  exact ⟨by decide, h.1, (h.2.2.1 0).trans (by decide)⟩

/-! ### The PCB pool -/

theorem allocPcb_free_list (st : State) :
    (allocPcb st).2.pcbFree_h = st.pcbFree_h.dropLast := by
  cases h : st.pcbFree_h.getLast? with
  | none =>
    have hnil : st.pcbFree_h = [] := by simpa using h
    rw [allocPcb_none st hnil, hnil]
    rfl
  | some np =>
    rw [allocPcb_some st np h]
    rfl

theorem allocPcb_result (st : State) : (allocPcb st).1 = st.pcbFree_h.getLast? := by
  cases h : st.pcbFree_h.getLast? with
  | none =>
    have hnil : st.pcbFree_h = [] := by simpa using h
    rw [allocPcb_none st hnil]
  | some np => rw [allocPcb_some st np h]

theorem allocPcb_cleared (st : State) (p : Nat) (h : (allocPcb st).1 = some p) :
    ((allocPcb st).2.pcbFree_table p).Cleared ∧
    ((allocPcb st).2.pcbFree_table p).p_pid = st.next_pid ∧
    (∀ q, q ≠ p → (allocPcb st).2.pcbFree_table q = st.pcbFree_table q) := by
  rw [allocPcb_result] at h
  rw [allocPcb_some st p h]
  refine ⟨?_, ?_, ?_⟩
  · simp [_initPcb, State.updPcb, pcb_t.Cleared, state_t.Zeroed, _initState]
  · simp [_initPcb, State.updPcb]
  · intro q hq
    simp [_initPcb, State.updPcb, Function.update_noteq hq]

theorem allocMany_spec (k : Nat) :
    ∀ st : State, (allocMany k st).1 =
        (st.pcbFree_h.reverse.take k).map some ++ List.replicate (k - st.pcbFree_h.length) none ∧
      (allocMany k st).2.pcbFree_h = st.pcbFree_h.take (st.pcbFree_h.length - k) := by
  induction k with
  | zero => intro st; simp [allocMany]
  | succ k ih =>
    intro st
    obtain ⟨ih1, ih2⟩ := ih (allocPcb st).2
    simp only [allocMany]
    rw [ih1, ih2, allocPcb_free_list, allocPcb_result]
    rcases List.eq_nil_or_concat st.pcbFree_h with hnil | ⟨l, x, hl⟩
    · simp [hnil, List.replicate_succ]
    · rw [hl]
      simp [List.take_append_eq_append_take, Nat.add_sub_add_right]

/-- C14.  Start from any state and call `initPcbs`.  Then `MAXPROC + 1`
successive `allocPcb` calls return the twenty PCBs 19, 18, ..., 0 and then
null; the twenty results are pairwise distinct; each of the twenty calls
returns a PCB that at that moment has no parent, no children, a zeroed
processor state, no accumulated time and a null semaphore address; after them
the free list is empty, and after `freePcb` of any PCB two further calls
return that PCB and then null. -/
theorem pcb_pool_capacity (st : State) :
    (allocMany (MAXPROC + 1) (initPcbs st)).1 =
      (List.range MAXPROC).reverse.map some ++ [none] ∧
    (allocMany MAXPROC (initPcbs st)).1.Nodup ∧
    (∀ k, k < MAXPROC → ∃ p, (allocPcb (allocMany k (initPcbs st)).2).1 = some p ∧
      ((allocPcb (allocMany k (initPcbs st)).2).2.pcbFree_table p).Cleared) ∧
    (allocMany MAXPROC (initPcbs st)).2.pcbFree_h = [] ∧
    (∀ p, (allocMany 2 (freePcb p (allocMany MAXPROC (initPcbs st)).2)).1 = [some p, none]) := by
  have hfree : (initPcbs st).pcbFree_h = List.range MAXPROC := rfl
  have hlen : (List.range MAXPROC).length = MAXPROC := List.length_range MAXPROC
  have hempty : (allocMany MAXPROC (initPcbs st)).2.pcbFree_h = [] := by
    rw [(allocMany_spec MAXPROC (initPcbs st)).2, hfree, hlen]
    simp
  refine ⟨?_, ?_, ?_, hempty, ?_⟩
  · rw [(allocMany_spec (MAXPROC + 1) (initPcbs st)).1, hfree, hlen]
    simp [List.take_of_length_le]
  · rw [(allocMany_spec MAXPROC (initPcbs st)).1, hfree, hlen]
    simp only [Nat.sub_self, List.replicate_zero, List.append_nil]
    rw [List.take_of_length_le (by simp)]
    exact (List.nodup_reverse.mpr (List.nodup_range MAXPROC)).map (Option.some_injective Nat)
  · intro k hk
    have hne : (allocMany k (initPcbs st)).2.pcbFree_h ≠ [] := by
      rw [(allocMany_spec k (initPcbs st)).2, hfree, hlen]
      intro h
      have := congrArg List.length h
      simp only [List.length_take, List.length_range, List.length_nil] at this
      omega
    cases hp : (allocPcb (allocMany k (initPcbs st)).2).1 with
    | none =>
      rw [allocPcb_result] at hp
      exact absurd (List.getLast?_eq_none_iff.mp hp) hne
    | some p => exact ⟨p, rfl, (allocPcb_cleared _ p hp).1⟩
  · intro p
    have h := (allocMany_spec 2 (freePcb p (allocMany MAXPROC (initPcbs st)).2)).1
    have hf : (freePcb p (allocMany MAXPROC (initPcbs st)).2).pcbFree_h = [p] := by
      show (allocMany MAXPROC (initPcbs st)).2.pcbFree_h ++ [p] = [p]
      rw [hempty]
      rfl
    rw [hf] at h
    rw [h]
    rfl

/-! ### The pids assigned by `allocPcb` -/

theorem allocPcb_next_pid (st : State) (p : Nat) (h : (allocPcb st).1 = some p) :
    (allocPcb st).2.next_pid = wrapInt (st.next_pid + 1) := by
  rw [allocPcb_result] at h
  rw [allocPcb_some st p h]
  rfl

theorem allocPcb_failed (st : State) (h : (allocPcb st).1 = none) : (allocPcb st).2 = st := by
  rw [allocPcb_result] at h
  rw [allocPcb_none st (List.getLast?_eq_none_iff.mp h)]

theorem wrapInt_small (n : Nat) (h : n < 2 ^ 31) : wrapInt (n : Int) = (n : Int) := by
  unfold wrapInt
  have h1 : ((n : Int) + 2 ^ 31) % 2 ^ 32 = (n : Int) + 2 ^ 31 := by
    apply Int.emod_eq_of_lt <;> omega
  rw [h1]
  omega

theorem pidLog_no_alloc :
    ∀ (cs : List PcbCall) (st : State), cs.count PcbCall.alloc = 0 → pidLog cs st = []
  | [], _, _ => rfl
  | PcbCall.alloc :: cs, _, h => by simp at h
  | PcbCall.free p :: cs, st, h => by
    rw [List.count_cons_of_ne (by simp)] at h
    simp only [pidLog]
    exact pidLog_no_alloc cs _ h

theorem pidLog_spec :
    ∀ (cs : List PcbCall) (st : State) (n : Nat), st.next_pid = (n : Int) →
      n + cs.count PcbCall.alloc ≤ 2 ^ 31 →
      pidLog cs st = (List.range (pidLog cs st).length).map (fun i => ((n + i : Nat) : Int))
  | [], _, _, _, _ => rfl
  | PcbCall.free p :: cs, st, n, hn, hc => by
    rw [List.count_cons_of_ne (by simp)] at hc
    simp only [pidLog]
    exact pidLog_spec cs (freePcb p st) n hn hc
  | PcbCall.alloc :: cs, st, n, hn, hc => by
    rw [List.count_cons_self] at hc
    cases hp : (allocPcb st).1 with
    | none =>
      simp only [pidLog, hp]
      rw [allocPcb_failed st hp]
      exact pidLog_spec cs st n hn (by omega)
    | some p =>
      simp only [pidLog, hp]
      have hpid : ((allocPcb st).2.pcbFree_table p).p_pid = (n : Int) := by
        rw [(allocPcb_cleared st p hp).2.1, hn]
      rw [hpid]
      by_cases h0 : cs.count PcbCall.alloc = 0
      · rw [pidLog_no_alloc cs _ h0]
        rfl
      · have hnext : (allocPcb st).2.next_pid = ((n + 1 : Nat) : Int) := by
          rw [allocPcb_next_pid st p hp, hn]
          have := wrapInt_small (n + 1) (by omega)
          simpa using this
        have ih := pidLog_spec cs (allocPcb st).2 (n + 1) hnext (by omega)
        rw [List.length_cons, List.range_succ_eq_map, List.map_cons, List.map_map]
        congr 1
        rw [ih]
        simp only [List.length_map, List.length_range]
        apply List.map_congr_left
        intro i _
        simp only [Function.comp, Nat.succ_eq_add_one]
        omega

/-- C15.  Let `next_pid` have its initial value 1, call `initPcbs` and then any
sequence of `allocPcb` and `freePcb` calls with fewer than `2 ^ 31` `allocPcb`
calls.  The pids of the PCBs returned by the successful `allocPcb` calls are, in
the order of the calls, 1, 2, 3, ...: they increase strictly and none occurs
twice, whichever PCBs are freed and returned again. -/
theorem pids_strictly_increasing (cs : List PcbCall) (st : State)
    (hpid : st.next_pid = 1) (hn : cs.count PcbCall.alloc < 2 ^ 31) :
    pidLog cs (initPcbs st) =
      (List.range (pidLog cs (initPcbs st)).length).map (fun i => ((1 + i : Nat) : Int)) ∧
    (pidLog cs (initPcbs st)).Pairwise (fun a b => a < b) ∧
    (pidLog cs (initPcbs st)).Nodup := by
  have h := pidLog_spec cs (initPcbs st) 1 (by simpa [initPcbs] using hpid) (by omega)
  have hpw : (pidLog cs (initPcbs st)).Pairwise (fun a b => a < b) := by
    rw [h, List.pairwise_map]
    exact (List.pairwise_lt_range _).imp (fun hab => by omega)
  exact ⟨h, hpw, hpw.imp (fun hab => ne_of_lt hab)⟩

theorem pids_strictly_increasing_witness :
    initState.next_pid = 1 ∧
    slotLog [PcbCall.alloc, PcbCall.free 19, PcbCall.alloc, PcbCall.alloc] (initPcbs initState) =
      [19, 19, 18] ∧
    pidLog [PcbCall.alloc, PcbCall.free 19, PcbCall.alloc, PcbCall.alloc] (initPcbs initState) =
      [1, 2, 3] ∧
    (pidLog [PcbCall.alloc, PcbCall.free 19, PcbCall.alloc, PcbCall.alloc]
      (initPcbs initState)).Nodup := by
  have h := pids_strictly_increasing
    [PcbCall.alloc, PcbCall.free 19, PcbCall.alloc, PcbCall.alloc] initState (by decide)
    (by decide)
  exact ⟨by decide, by decide, by decide, h.2.2⟩

/-! ### The result of `insertBlocked` -/

theorem insertBlocked_semAdd (a p : Nat) (st : State)
    (h : (findSemd a st).isSome ∨ st.semdFree_h ≠ []) :
    ((insertBlocked a p st).2.pcbFree_table p).p_semAdd = a := by
  cases hf : findSemd a st with
  | some d =>
    rw [insertBlocked_found p hf]
    simp
  | none =>
    have hne : st.semdFree_h ≠ [] := by
      rcases h with h | h
      · simp [hf] at h
      · exact h
    cases hl : st.semdFree_h.getLast? with
    | none => exact absurd (List.getLast?_eq_none_iff.mp hl) hne
    | some n =>
      rw [insertBlocked_fresh p hf hl]
      simp

/-- C16 (amended).  For every state, semaphore address `a` and PCB `p`,
`insertBlocked(a, p)` returns 1 exactly when `a` has no descriptor on the active
list and the free descriptor list is empty, and then it changes nothing; in
every other case it returns 0, the blocked queue of `a` is the former one with
`p` appended at its end, and `p_semAdd` of `p` is `a`. -/
theorem insertBlocked_result (a p : Nat) (st : State) :
    ((insertBlocked a p st).1 = 1 ↔ (findSemd a st = none ∧ st.semdFree_h = [])) ∧
    ((findSemd a st = none ∧ st.semdFree_h = []) → (insertBlocked a p st).2 = st) ∧
    (¬ (findSemd a st = none ∧ st.semdFree_h = []) →
      (insertBlocked a p st).1 = 0 ∧
      blockedQueue a (insertBlocked a p st).2 = blockedQueue a st ++ [p] ∧
      (blockedQueue a (insertBlocked a p st).2).getLast? = some p ∧
      ((insertBlocked a p st).2.pcbFree_table p).p_semAdd = a) := by
  have hroom : ¬ (findSemd a st = none ∧ st.semdFree_h = []) →
      (findSemd a st).isSome ∨ st.semdFree_h ≠ [] := by
    intro h
    cases hf : findSemd a st with
    | some d => exact Or.inl rfl
    | none => exact Or.inr (fun h0 => h ⟨hf, h0⟩)
  refine ⟨⟨fun h1 => ?_, fun h => ?_⟩, fun h => ?_, fun h => ?_⟩
  · by_contra hn
    have h0 := (insertBlocked_queue a p st (hroom hn)).1
    rw [h0] at h1
    exact absurd h1 (by decide)
  · rw [insertBlocked_full p h.1 h.2]
  · rw [insertBlocked_full p h.1 h.2]
  · obtain ⟨h0, hq⟩ := insertBlocked_queue a p st (hroom h)
    refine ⟨h0, hq, ?_, insertBlocked_semAdd a p st (hroom h)⟩
    rw [hq]
    simp

/-- C16, counterexample.  In `twentyRoundsState` the free descriptor list is
empty: each of the twenty rounds took a descriptor and `outBlocked` left it on
the active list with an empty queue.  PCB 19 is on no queue.  `insertBlocked` of
PCB 19 on `semA` finds the descriptor of `semA`, returns 0 and queues PCB 19,
although no descriptor is free; on the semaphore at `semA + 80`, which has no
descriptor, it returns 1. -/
theorem insertBlocked_succeeds_with_empty_pool :
    twentyRoundsState.semdFree_h = [] ∧
    twentyRoundsState.semd_h.length = 20 ∧
    (∀ d, d ∈ twentyRoundsState.semd_h → (twentyRoundsState.semd_table d).s_procq = []) ∧
    (insertBlocked semA 19 twentyRoundsState).1 = 0 ∧
    blockedQueue semA (insertBlocked semA 19 twentyRoundsState).2 = [19] ∧
    (insertBlocked (semA + 80) 19 twentyRoundsState).1 = 1 := by
  decide

/-! ### The ASL: first in, first out -/

theorem aslCall_step (a : Nat) (c : AslCall) (st : State) (hi : ASLInv st) :
    ASLInv (c.run st) ∧
    blockedQueue a st ++ insertedLog a [c] st = removedLog a [c] st ++ blockedQueue a (c.run st) := by
  cases c with
  | ins b p =>
    refine ⟨insertBlocked_inv b p st hi, ?_⟩
    simp only [insertedLog, removedLog, AslCall.run, List.append_nil, List.nil_append]
    by_cases hb : b = a
    · subst hb
      by_cases hfull : findSemd b st = none ∧ st.semdFree_h = []
      · rw [insertBlocked_full p hfull.1 hfull.2]
        simp
      · have hroom : (findSemd b st).isSome ∨ st.semdFree_h ≠ [] := by
          cases hf : findSemd b st with
          | some d => exact Or.inl rfl
          | none => exact Or.inr (fun h0 => hfull ⟨hf, h0⟩)
        obtain ⟨h0, hq⟩ := insertBlocked_queue b p st hroom
        rw [hq, h0]
        simp
    · rw [insertBlocked_other b a p st (fun h => hb h.symm) hi]
      simp [hb]
  | rem b =>
    refine ⟨removeBlocked_inv b st hi, ?_⟩
    simp only [insertedLog, removedLog, AslCall.run, List.append_nil]
    by_cases hb : b = a
    · subst hb
      rw [removeBlocked_fst, removeBlocked_queue b st hi.1]
      cases blockedQueue b st <;> simp
    · rw [removeBlocked_other b a st (fun h => hb h.symm)]
      simp [hb]

theorem asl_fifo_law (a : Nat) :
    ∀ (cs : List AslCall) (st : State), ASLInv st →
      ASLInv (runAsl cs st) ∧
      blockedQueue a st ++ insertedLog a cs st = removedLog a cs st ++ blockedQueue a (runAsl cs st)
  | [], st, hi => by simp [runAsl, insertedLog, removedLog, hi]
  | c :: cs, st, hi => by
    obtain ⟨hinv, hstep⟩ := aslCall_step a c st hi
    obtain ⟨hinv', ih⟩ := asl_fifo_law a cs (c.run st) hinv
    refine ⟨hinv', ?_⟩
    cases c with
    | ins b p =>
      simp only [insertedLog, removedLog, AslCall.run, runAsl, List.append_nil,
        List.nil_append] at hstep ih ⊢
      rw [← List.append_assoc, hstep, ih]
    | rem b =>
      simp only [insertedLog, removedLog, AslCall.run, runAsl, List.append_nil] at hstep ih ⊢
      rw [hstep, List.append_assoc, ih, List.append_assoc]

theorem allAllocatedState_inv : ASLInv allAllocatedState := by
  unfold ASLInv ASLKeysDistinct
  decide

/-! ### Descriptors whose queue has been emptied -/

/-- C18, the code at the failing input: PCB 19 (pid 1) is the only PCB blocked
on `semA`; nineteen descriptors are free.  `outBlocked` of PCB 19 returns it and
empties the queue of `semA`, but the descriptor of `semA` stays on the active
list and the free list still has nineteen entries; the same holds for
`outBlockedPID` of pid 1.  `removeBlocked` on `semA`, in the same state, takes
the descriptor off the active list and the free list has twenty entries. -/
theorem outBlocked_keeps_empty_descriptor :
    (blockedQueue semA blockedOnceState = [19] ∧ blockedOnceState.semd_h.length = 1 ∧
      blockedOnceState.semdFree_h.length = 19) ∧
    ((outBlocked 19 blockedOnceState).1 = some 19 ∧
      blockedQueue semA (outBlocked 19 blockedOnceState).2 = [] ∧
      (findSemd semA (outBlocked 19 blockedOnceState).2).isSome = true ∧
      (outBlocked 19 blockedOnceState).2.semd_h = blockedOnceState.semd_h ∧
      (outBlocked 19 blockedOnceState).2.semdFree_h.length = 19) ∧
    (outBlockedPID 1 blockedOnceState).map (fun r =>
        (r.1, blockedQueue semA r.2, (findSemd semA r.2).isSome, r.2.semd_h.length,
          r.2.semdFree_h.length)) = some (19, [], true, 1, 19) ∧
    ((removeBlocked semA blockedOnceState).1 = some 19 ∧
      findSemd semA (removeBlocked semA blockedOnceState).2 = none ∧
      (removeBlocked semA blockedOnceState).2.semd_h = [] ∧
      (removeBlocked semA blockedOnceState).2.semdFree_h.length = 20) := by
  decide

/-! ### PASSEREN and VERHOGEN: descriptors and blocked processes -/

theorem noEmpty_congr {s t : State} (h1 : s.semd_h = t.semd_h)
    (h2 : s.semd_table = t.semd_table) (h : NoEmptyDescriptor t) : NoEmptyDescriptor s := by
  intro d hd
  rw [h2]
  exact h d (h1 ▸ hd)

theorem insertBlocked_noEmpty (a p : Nat) (st : State) (h : NoEmptyDescriptor st) :
    NoEmptyDescriptor (insertBlocked a p st).2 := by
  cases hf : findSemd a st with
  | some d =>
    rw [insertBlocked_found p hf]
    intro d' hd'
    by_cases hdd : d' = d
    · subst hdd
      simp
    · simpa [Function.update_noteq hdd] using h d' hd'
  | none =>
    cases hl : st.semdFree_h.getLast? with
    | none =>
      rw [insertBlocked_full p hf (List.getLast?_eq_none_iff.mp hl)]
      exact h
    | some n =>
      rw [insertBlocked_fresh p hf hl]
      intro d' hd'
      by_cases hdd : d' = n
      · subst hdd
        simp
      · have hm : d' ∈ st.semd_h := by
          have : d' ∈ st.semd_h ++ [n] := hd'
          simpa [hdd] using this
        simpa [Function.update_noteq hdd] using h d' hm

theorem removeBlocked_noEmpty (a : Nat) (st : State) (hk : ASLKeysDistinct st)
    (h : NoEmptyDescriptor st) : NoEmptyDescriptor (removeBlocked a st).2 := by
  cases hf : findSemd a st with
  | none =>
    rw [removeBlocked_none hf]
    exact h
  | some d =>
    rw [removeBlocked_some hf]
    by_cases ht : (st.semd_table d).s_procq.tail = []
    · simp only [ht, if_true]
      intro d' hd'
      have hd'' : d' ∈ st.semd_h.erase d := hd'
      have hne : d' ≠ d := ((semd_h_nodup hk).mem_erase_iff.mp hd'').1
      have hm : d' ∈ st.semd_h := List.mem_of_mem_erase hd''
      simpa [Function.update_noteq hne] using h d' hm
    · simp only [ht, if_false]
      intro d' hd'
      by_cases hdd : d' = d
      · subst hdd
        simpa using ht
      · simpa [Function.update_noteq hdd] using h d' hd'

theorem semCall_descriptors (c : SemCall) (st : State) (r : State × Control)
    (hi : ASLInv st) (hne : NoEmptyDescriptor st) (hrun : c.run st = some r) :
    ASLInv r.1 ∧ NoEmptyDescriptor r.1 := by
  by_cases hb : c.blocks st
  · rw [semCall_run_blocks c st hb] at hrun
    cases hcur : st.CurrentProcess c.prid with
    | none => simp [blockCaller, hcur] at hrun
    | some cur =>
      obtain ⟨st1, s1, hbc, e1, e2, e3, -, -, f1, f2, f3, -, -⟩ :=
        blockCaller_shape c.prid c.currTOD c.nextTOD c.semAddr cur st hcur
      rw [hbc] at hrun
      obtain ⟨r', hr', g1, g2, g3, -⟩ := scheduler_frame c.prid st1
      have hrr : r' = r := by
        have : some r' = some r := by rw [← hr']; exact hrun
        exact Option.some.inj this
      subst hrr
      have hi1 : ASLInv s1 := ASLInv_congr e1 e2 e3 hi
      have hn1 : NoEmptyDescriptor s1 := noEmpty_congr e1 e2 hne
      exact ⟨ASLInv_congr (g1.trans f1) (g2.trans f2) (g3.trans f3)
          (insertBlocked_inv c.semAddr cur s1 hi1),
        noEmpty_congr (g1.trans f1) (g2.trans f2) (insertBlocked_noEmpty c.semAddr cur s1 hn1)⟩
  · rw [semCall_run_passes c st hb] at hrun
    have hr : r = (wakeOrSet c.semAddr (if c.isV then 1 else 0) st, Control.ret) :=
      (Option.some.inj hrun).symm
    subst hr
    obtain ⟨w1, w2, w3, -⟩ := wakeOrSet_asl c.semAddr (if c.isV then 1 else 0) st
    exact ⟨ASLInv_congr w1 w2 w3 (removeBlocked_inv c.semAddr st hi),
      noEmpty_congr w1 w2 (removeBlocked_noEmpty c.semAddr st hi.1 hne)⟩

theorem runCalls_descriptors :
    ∀ (cs : List SemCall) (st st' : State), ASLInv st → NoEmptyDescriptor st →
      runCalls cs st = some st' → ASLInv st' ∧ NoEmptyDescriptor st'
  | [], st, st', hi, hne, hrun => by
    simp only [runCalls] at hrun
    have : st = st' := Option.some.inj hrun
    subst this
    exact ⟨hi, hne⟩
  | c :: cs, st, st', hi, hne, hrun => by
    cases hr : c.run st with
    | none => simp [runCalls, hr] at hrun
    | some r =>
      simp only [runCalls, hr] at hrun
      obtain ⟨h1, h2⟩ := semCall_descriptors c st r hi hne hr
      exact runCalls_descriptors cs r.1 st' h1 h2 hrun

/-- C20 (amended).  Start from a well-formed ASL in which every active
descriptor has a blocked PCB (as after `initASL`, where there is none) and serve
any sequence of PASSEREN and VERHOGEN calls.  In the state reached, for every
semaphore address `a`, a descriptor for `a` is on the ASL exactly when some
process is blocked on `a`, whatever the value of the semaphore; the active
descriptors still carry distinct keys. -/
theorem pv_descriptor_iff_blocked (cs : List SemCall) (st st' : State) (hi : ASLInv st)
    (hne : NoEmptyDescriptor st) (hrun : runCalls cs st = some st') :
    (∀ a, (findSemd a st').isSome = true ↔ blockedQueue a st' ≠ []) ∧
    (∀ a, st'.mem a = 0 → blockedQueue a st' ≠ [] → (findSemd a st').isSome = true) ∧
    ASLKeysDistinct st' := by
  obtain ⟨h1, h2⟩ := runCalls_descriptors cs st st' hi hne hrun
  have key : ∀ a, (findSemd a st').isSome = true ↔ blockedQueue a st' ≠ [] := by
    intro a
    unfold blockedQueue
    cases hf : findSemd a st' with
    | none => simp
    | some d => simpa using h2 d (findSemd_mem hf)
  exact ⟨key, fun a _ hq => (key a).mpr hq, h1.1⟩

/-- C20, counterexample.  In `oneProcessState` the semaphore at `semA` has the
value 0 and nobody is blocked.  The running process issues VERHOGEN on `semA`
twice: the first call sets the semaphore to 1 and returns; the second finds the
value 1 and blocks the caller on `semA`.  The state reached has the semaphore
at 1 and a descriptor for `semA` on the ASL, with PCB 19 in its queue. -/
theorem verhogen_blocks_on_one :
    oneProcessState.mem semA = 0 ∧ oneProcessState.semd_h = [] ∧
    (runCalls (twoVerhogen.take 1) oneProcessState).map (fun s =>
        (s.mem semA, s.semd_h, s.CurrentProcess 0)) = some (1, [], some 19) ∧
    (runCalls twoVerhogen oneProcessState).map (fun s =>
        (s.mem semA, (findSemd semA s).isSome, blockedQueue semA s, s.CurrentProcess 0)) =
      some (1, true, [19], none) := by
  decide

theorem oneProcessState_inv : ASLInv oneProcessState := by
  unfold ASLInv ASLKeysDistinct
  decide

theorem oneProcessState_noEmpty : NoEmptyDescriptor oneProcessState := by
  unfold NoEmptyDescriptor
  decide

theorem pv_descriptor_iff_blocked_witness :
    ASLInv oneProcessState ∧ NoEmptyDescriptor oneProcessState ∧
    ∃ st', runCalls twoVerhogen oneProcessState = some st' ∧
      (∀ a, (findSemd a st').isSome = true ↔ blockedQueue a st' ≠ []) ∧
      st'.mem semA = 1 ∧ blockedQueue semA st' = [19] := by
  have hsome : (runCalls twoVerhogen oneProcessState).isSome = true := by decide
  obtain ⟨st', hst'⟩ := Option.isSome_iff_exists.mp hsome
  have h := pv_descriptor_iff_blocked twoVerhogen oneProcessState st' oneProcessState_inv
    oneProcessState_noEmpty hst'
  have hv : (runCalls twoVerhogen oneProcessState).map
      (fun s => (s.mem semA, blockedQueue semA s)) = some (1, [19]) := by decide
  rw [hst'] at hv
  simp only [Option.map_some', Option.some.injEq, Prod.mk.injEq] at hv
  exact ⟨oneProcessState_inv, oneProcessState_noEmpty, st', hst', h.1, hv.1, hv.2⟩

/-! ### `p_semAdd` of the blocked PCBs -/

theorem semAddKept_refl (s : State) : SemAddKept s s :=
  ⟨fun _ hd _ hp => Or.inl ⟨hd, hp⟩, fun _ h => h, rfl⟩

theorem semAddKept_trans {s t u : State} (h1 : SemAddKept s t) (h2 : SemAddKept t u) :
    SemAddKept s u := by
  refine ⟨fun d hd p hp => ?_, fun p hp => h2.2.1 p (h1.2.1 p hp), h2.2.2.trans h1.2.2⟩
  rcases h2.1 d hd p hp with ⟨hd', hp'⟩ | h
  · rcases h1.1 d hd' p hp' with h' | h'
    · exact Or.inl h'
    · exact Or.inr (h2.2.1 p h')
  · exact Or.inr h

theorem semAddKept_inv {s t : State} (h : SemAddKept s t) (hi : BlockedHaveSemAdd s) :
    BlockedHaveSemAdd t := by
  intro d hd p hp
  rcases h.1 d hd p hp with ⟨hd', hp'⟩ | h'
  · exact h.2.1 p (hi d hd' p hp')
  · exact h'

theorem semAddKept_fields (s t : State) (h1 : t.semd_h = s.semd_h)
    (h2 : t.semd_table = s.semd_table) (h3 : t.pcbFree_table = s.pcbFree_table)
    (h4 : t.DeviceSemaphores = s.DeviceSemaphores) : SemAddKept s t := by
  refine ⟨fun d hd p hp => Or.inl ⟨h1 ▸ hd, ?_⟩, fun p hp => ?_, h4⟩
  · rw [h2] at hp
    exact hp
  · rw [h3]
    exact hp

theorem semAddKept_updPcb (s : State) (p : Nat) (f : pcb_t → pcb_t)
    (hf : (s.pcbFree_table p).p_semAdd ≠ 0 → (f (s.pcbFree_table p)).p_semAdd ≠ 0) :
    SemAddKept s (s.updPcb p f) := by
  refine ⟨fun d hd q hq => Or.inl ⟨hd, hq⟩, fun q hq => ?_, rfl⟩
  show ((Function.update s.pcbFree_table p (f (s.pcbFree_table p))) q).p_semAdd ≠ 0
  by_cases hqp : q = p
  · subst hqp
    simpa using hf hq
  · rw [Function.update_noteq hqp]
    exact hq

theorem semAddKept_updSemd (s : State) (d : Nat) (g : semd_t → semd_t)
    (hg : ∀ x, x ∈ (g (s.semd_table d)).s_procq → x ∈ (s.semd_table d).s_procq) :
    SemAddKept s (s.updSemd d g) := by
  refine ⟨fun d' hd' q hq => Or.inl ⟨hd', ?_⟩, fun q hq => hq, rfl⟩
  have hq' : q ∈ ((Function.update s.semd_table d (g (s.semd_table d))) d').s_procq := hq
  by_cases hdd : d' = d
  · subst hdd
    rw [Function.update_same] at hq'
    exact hg q hq'
  · rw [Function.update_noteq hdd] at hq'
    exact hq'

theorem insertBlocked_kept (a p : Nat) (st : State) (ha : a ≠ 0) :
    SemAddKept st (insertBlocked a p st).2 := by
  have hpcb : ∀ q, (st.pcbFree_table q).p_semAdd ≠ 0 →
      ((Function.update st.pcbFree_table p { st.pcbFree_table p with p_semAdd := a }) q).p_semAdd
        ≠ 0 := by
    intro q hq
    by_cases hqp : q = p
    · subst hqp
      simpa using ha
    · rw [Function.update_noteq hqp]
      exact hq
  have hp : ((Function.update st.pcbFree_table p
      { st.pcbFree_table p with p_semAdd := a }) p).p_semAdd ≠ 0 := by simpa using ha
  cases hf : findSemd a st with
  | some d =>
    rw [insertBlocked_found p hf]
    refine ⟨fun d' hd' x hx => ?_, hpcb, rfl⟩
    have hx' : x ∈ ((Function.update st.semd_table d
        { st.semd_table d with s_procq := (st.semd_table d).s_procq ++ [p] }) d').s_procq := hx
    by_cases hdd : d' = d
    · subst hdd
      rw [Function.update_same] at hx'
      rcases List.mem_append.mp hx' with h | h
      · exact Or.inl ⟨hd', h⟩
      · rw [List.mem_singleton.mp h]
        exact Or.inr hp
    · rw [Function.update_noteq hdd] at hx'
      exact Or.inl ⟨hd', hx'⟩
  | none =>
    cases hl : st.semdFree_h.getLast? with
    | none =>
      rw [insertBlocked_full p hf (List.getLast?_eq_none_iff.mp hl)]
      exact semAddKept_refl st
    | some n =>
      rw [insertBlocked_fresh p hf hl]
      refine ⟨fun d' hd' x hx => ?_, hpcb, rfl⟩
      have hx' : x ∈ ((Function.update st.semd_table n
          { s_key := a, s_procq := [p] }) d').s_procq := hx
      by_cases hdd : d' = n
      · subst hdd
        rw [Function.update_same] at hx'
        rw [List.mem_singleton.mp hx']
        exact Or.inr hp
      · rw [Function.update_noteq hdd] at hx'
        have hm : d' ∈ st.semd_h := by
          have : d' ∈ st.semd_h ++ [n] := hd'
          simpa [hdd] using this
        exact Or.inl ⟨hm, hx'⟩

theorem removeBlocked_kept (a : Nat) (st : State) : SemAddKept st (removeBlocked a st).2 := by
  cases hf : findSemd a st with
  | none =>
    rw [removeBlocked_none hf]
    exact semAddKept_refl st
  | some d =>
    rw [removeBlocked_some hf]
    have hq : ∀ d' x, x ∈ ((Function.update st.semd_table d
        { st.semd_table d with s_procq := (st.semd_table d).s_procq.tail }) d').s_procq →
        x ∈ (st.semd_table d').s_procq := by
      intro d' x hx
      by_cases hdd : d' = d
      · subst hdd
        rw [Function.update_same] at hx
        exact List.mem_of_mem_tail hx
      · rw [Function.update_noteq hdd] at hx
        exact hx
    by_cases ht : (st.semd_table d).s_procq.tail = []
    · simp only [ht, if_true]
      refine ⟨fun d' hd' x hx => Or.inl ⟨?_, hq d' x (ht ▸ hx)⟩, fun _ h => h, rfl⟩
      exact List.mem_of_mem_erase hd'
    · simp only [ht, if_false]
      exact ⟨fun d' hd' x hx => Or.inl ⟨hd', hq d' x hx⟩, fun _ h => h, rfl⟩

theorem outProcQ_subset (tbl : Nat → pcb_t) (q : List Nat) (p x : Nat)
    (hx : x ∈ (outProcQ tbl q p).2) : x ∈ q := by
  unfold outProcQ at hx
  split at hx
  · exact hx
  · exact List.mem_of_mem_erase hx

theorem outBlocked_kept (p : Nat) (st : State) : SemAddKept st (outBlocked p st).2 := by
  unfold outBlocked
  cases hf : findSemd (st.pcbFree_table p).p_semAdd st with
  | none => exact semAddKept_refl st
  | some sem =>
    exact semAddKept_updSemd st sem _ (fun x hx => outProcQ_subset _ _ p x hx)

theorem outBlockedPIDFrom_kept (pid : Int) (st : State) :
    ∀ (l : List Nat) (r : Nat × State), outBlockedPIDFrom pid st l = some r → SemAddKept st r.2
  | [], r, h => by simp [outBlockedPIDFrom] at h
  | sem :: rest, r, h => by
    unfold outBlockedPIDFrom at h
    split at h
    · injection h with h
      subst h
      exact semAddKept_updSemd st sem _ (fun x hx => List.mem_of_mem_erase hx)
    · exact outBlockedPIDFrom_kept pid st rest r h

theorem scheduler_kept (prid : Nat) (st : State) (r : State × Control)
    (h : scheduler prid st = some r) : SemAddKept st r.1 := by
  unfold scheduler at h
  split at h
  · split at h <;>
    · injection h with h
      subst h
      exact semAddKept_fields _ _ rfl rfl rfl rfl
  · dsimp only at h
    split at h
    · simp at h
    · injection h with h
      subst h
      exact semAddKept_fields _ _ rfl rfl rfl rfl

theorem blockCaller_kept (prid t1 t2 a : Nat) (st st1 : State) (ha : a ≠ 0)
    (h : blockCaller prid t1 t2 a st = some st1) : SemAddKept st st1 := by
  unfold blockCaller at h
  cases hcur : st.CurrentProcess prid with
  | none => simp [hcur] at h
  | some cur =>
    simp only [hcur] at h
    injection h with h
    subst h
    have k1 : SemAddKept st (getTimeElapsed t1 t2 st).2 :=
      semAddKept_fields _ _ rfl rfl rfl rfl
    have k2 := semAddKept_trans k1 (semAddKept_updPcb (getTimeElapsed t1 t2 st).2 cur
      (fun b => { b with p_s := st.excState prid, p_time := (b.p_time + (getTimeElapsed t1 t2 st).1) % WORD, p_semAdd := a })
      (fun _ => ha))
    have k3 := semAddKept_trans k2 (insertBlocked_kept a cur _ ha)
    have k4 := semAddKept_trans k3 (semAddKept_updPcb _ cur
      (fun b => { b with p_s := { b.p_s with pc_epc := (b.p_s.pc_epc + 4) % WORD } })
      (fun hne => hne))
    exact semAddKept_trans k4 (semAddKept_fields _ _ rfl rfl rfl rfl)

theorem wakeOrSet_kept (a v : Nat) (st : State) : SemAddKept st (wakeOrSet a v st) := by
  unfold wakeOrSet
  dsimp only
  split
  · exact semAddKept_trans (removeBlocked_kept a st) (semAddKept_fields _ _ rfl rfl rfl rfl)
  · exact semAddKept_trans (removeBlocked_kept a st) (semAddKept_fields _ _ rfl rfl rfl rfl)

theorem passeren_kept (prid t1 t2 a : Nat) (st : State) (r : State × Control) (ha : a ≠ 0)
    (h : passeren prid t1 t2 a st = some r) : SemAddKept st r.1 := by
  unfold passeren at h
  split at h
  · cases hb : blockCaller prid t1 t2 a st with
    | none => simp [hb] at h
    | some st1 =>
      simp only [hb] at h
      exact semAddKept_trans (blockCaller_kept prid t1 t2 a st st1 ha hb)
        (scheduler_kept prid st1 r h)
  · injection h with h
    subst h
    exact wakeOrSet_kept a 0 st

theorem verhogen_kept (prid t1 t2 a : Nat) (st : State) (r : State × Control) (ha : a ≠ 0)
    (h : verhogen prid t1 t2 a st = some r) : SemAddKept st r.1 := by
  unfold verhogen at h
  split at h
  · cases hb : blockCaller prid t1 t2 a st with
    | none => simp [hb] at h
    | some st1 =>
      simp only [hb] at h
      exact semAddKept_trans (blockCaller_kept prid t1 t2 a st st1 ha hb)
        (scheduler_kept prid st1 r h)
  · injection h with h
    subst h
    exact wakeOrSet_kept a 1 st

theorem getDeviceSemaphoreIndex_ge (cmdAddr : Nat) (i : Int)
    (h : getDeviceSemaphoreIndex cmdAddr = some i) : -1 ≤ i := by
  unfold getDeviceSemaphoreIndex at h
  simp only [DEVS_PER_LINE, INT_LINE_OFFSET, DEVREGSIZE] at h
  split at h
  · split at h
    · injection h with h
      omega
    · split at h
      · injection h with h
        omega
      · injection h with h
        omega
  · split at h
    · simp at h
    · injection h with h
      omega

theorem devSemAddr_ne_zero (st : State) (i : Int) (hb : 4 < st.DeviceSemaphores)
    (hi : -1 ≤ i) : devSemAddr st i ≠ 0 := by
  unfold devSemAddr
  omega

theorem doIo_kept (prid t1 t2 c v : Nat) (st : State) (r : State × Control)
    (hb : 4 < st.DeviceSemaphores) (h : doIo prid t1 t2 c v st = some r) :
    SemAddKept st r.1 := by
  unfold doIo at h
  cases hi : getDeviceSemaphoreIndex c with
  | none =>
    simp only [hi] at h
    injection h with h
    subst h
    exact semAddKept_refl st
  | some i =>
    simp only [hi] at h
    have ha := devSemAddr_ne_zero st i hb (getDeviceSemaphoreIndex_ge c i hi)
    cases hbc : blockCaller prid t1 t2 (devSemAddr st i)
        { st with mem := Function.update st.mem c v } with
    | none => simp [hbc] at h
    | some st2 =>
      simp only [hbc] at h
      refine semAddKept_trans ?_ (semAddKept_trans (blockCaller_kept prid t1 t2 _ _ st2 ha hbc)
        (scheduler_kept prid st2 r h))
      exact semAddKept_fields _ _ rfl rfl rfl rfl

theorem deliverStatus_kept (prid cmdAddr status : Nat) (st : State) (r : State × Control)
    (h : deliverStatus prid cmdAddr status st = some r) : SemAddKept st r.1 := by
  unfold deliverStatus at h
  cases hi : getDeviceSemaphoreIndex cmdAddr with
  | none =>
    simp only [hi] at h
    injection h with h
    subst h
    exact semAddKept_refl st
  | some i =>
    simp only [hi] at h
    cases hh : headBlocked (devSemAddr st i) st with
    | none =>
      simp only [hh] at h
      injection h with h
      subst h
      exact semAddKept_refl st
    | some unblocked =>
      simp only [hh] at h
      have k1 := semAddKept_updPcb st unblocked
        (fun b => { b with p_s := { b.p_s with reg_a0 := status } }) (fun hne => hne)
      split at h
      · refine semAddKept_trans (semAddKept_trans k1 ?_) (scheduler_kept prid _ r h)
        exact semAddKept_fields _ _ rfl rfl rfl rfl
      · injection h with h
        subst h
        exact semAddKept_trans k1 (semAddKept_fields _ _ rfl rfl rfl rfl)

theorem handleDeviceInterrupt_kept (prid cause : Nat) (st : State) (r : State × Control)
    (h : handleDeviceInterrupt prid cause st = some r) : SemAddKept st r.1 := by
  unfold handleDeviceInterrupt at h
  dsimp only at h
  split at h
  · injection h with h
    subst h
    exact semAddKept_refl st
  · split at h
    · split at h
      · refine semAddKept_trans ?_ (deliverStatus_kept _ _ _ _ r h)
        exact semAddKept_fields _ _ rfl rfl rfl rfl
      · refine semAddKept_trans ?_ (deliverStatus_kept _ _ _ _ r h)
        exact semAddKept_fields _ _ rfl rfl rfl rfl
    · refine semAddKept_trans ?_ (deliverStatus_kept _ _ _ _ r h)
      exact semAddKept_fields _ _ rfl rfl rfl rfl

theorem localTimer_kept (prid : Nat) (st : State) (r : State × Control)
    (h : handleProcessLocalTimerInterrupt prid st = some r) : SemAddKept st r.1 := by
  unfold handleProcessLocalTimerInterrupt at h
  cases hcur : st.CurrentProcess prid with
  | none => simp [hcur] at h
  | some cur =>
    simp only [hcur] at h
    have k1 : SemAddKept st
        { st with timer := Function.update st.timer prid ((TIMESLICE * TIMESCALEADDR) % WORD) } :=
      semAddKept_fields _ _ rfl rfl rfl rfl
    have k2 := semAddKept_trans k1 (semAddKept_updPcb _ cur
      (fun b => { b with p_s := st.excState prid }) (fun hne => hne))
    refine semAddKept_trans (semAddKept_trans k2 ?_) (scheduler_kept prid _ r h)
    exact semAddKept_fields _ _ rfl rfl rfl rfl

theorem drainBlocked_kept (a : Nat) :
    ∀ (fuel : Nat) (st st' : State), drainBlocked fuel a st = some st' → SemAddKept st st'
  | 0, _, _, h => by simp [drainBlocked] at h
  | fuel + 1, st, st', h => by
    unfold drainBlocked at h
    dsimp only at h
    split at h
    · injection h with h
      subst h
      exact removeBlocked_kept a st
    · refine semAddKept_trans (semAddKept_trans (removeBlocked_kept a st) ?_)
        (drainBlocked_kept a fuel _ st' h)
      exact semAddKept_fields _ _ rfl rfl rfl rfl

theorem pseudoClock_kept (fuel prid : Nat) (st : State) (r : State × Control)
    (h : handlePseudoClockInterrupt fuel prid st = some r) : SemAddKept st r.1 := by
  unfold handlePseudoClockInterrupt at h
  dsimp only at h
  have k0 : SemAddKept st (LDIT PSECOND st) := semAddKept_fields _ _ rfl rfl rfl rfl
  have k1 : ∀ st2, (if (headBlocked (getPseudoClockSemaphore (LDIT PSECOND st))
        (LDIT PSECOND st)).isSome then
        drainBlocked fuel (getPseudoClockSemaphore (LDIT PSECOND st)) (LDIT PSECOND st)
      else some (LDIT PSECOND st)) = some st2 → SemAddKept st st2 := by
    intro st2 h2
    split at h2
    · exact semAddKept_trans k0 (drainBlocked_kept _ fuel _ st2 h2)
    · injection h2 with h2
      subst h2
      exact k0
  split at h
  · simp at h
  · rename_i st2 h2
    have k2 := k1 st2 h2
    split at h
    · exact semAddKept_trans k2 (scheduler_kept prid st2 r h)
    · injection h with h
      subst h
      exact k2

theorem interrupt_kept (fuel prid cause : Nat) (st : State) (r : State × Control)
    (h : INTERRUPT_handler fuel prid cause st = some r) : SemAddKept st r.1 := by
  unfold INTERRUPT_handler at h
  split at h
  · exact localTimer_kept prid st r h
  · split at h
    · exact pseudoClock_kept fuel prid st r h
    · exact handleDeviceInterrupt_kept prid cause st r h

theorem kernelCall_kept (c : KernelCall) (st st' : State) (hb : 4 < st.DeviceSemaphores)
    (hc : c.semNonNull = true) (h : c.run st = some st') : SemAddKept st st' := by
  cases c with
  | ins a p =>
    simp only [KernelCall.semNonNull, decide_eq_true_eq] at hc
    simp only [KernelCall.run, Option.some.injEq] at h
    subst h
    exact insertBlocked_kept a p st hc
  | rem a =>
    simp only [KernelCall.run, Option.some.injEq] at h
    subst h
    exact removeBlocked_kept a st
  | out p =>
    simp only [KernelCall.run, Option.some.injEq] at h
    subst h
    exact outBlocked_kept p st
  | outPID pid =>
    simp only [KernelCall.run, Option.map_eq_some'] at h
    obtain ⟨r, hr, rfl⟩ := h
    exact outBlockedPIDFrom_kept pid st st.semd_h r hr
  | P prid t1 t2 a =>
    simp only [KernelCall.semNonNull, decide_eq_true_eq] at hc
    simp only [KernelCall.run, Option.map_eq_some'] at h
    obtain ⟨r, hr, rfl⟩ := h
    exact passeren_kept prid t1 t2 a st r hc hr
  | V prid t1 t2 a =>
    simp only [KernelCall.semNonNull, decide_eq_true_eq] at hc
    simp only [KernelCall.run, Option.map_eq_some'] at h
    obtain ⟨r, hr, rfl⟩ := h
    exact verhogen_kept prid t1 t2 a st r hc hr
  | io prid t1 t2 c v =>
    simp only [KernelCall.run, Option.map_eq_some'] at h
    obtain ⟨r, hr, rfl⟩ := h
    exact doIo_kept prid t1 t2 c v st r hb hr
  | interrupt fuel prid cause =>
    simp only [KernelCall.run, Option.map_eq_some'] at h
    obtain ⟨r, hr, rfl⟩ := h
    exact interrupt_kept fuel prid cause st r hr

theorem runKernel_kept :
    ∀ (cs : List KernelCall) (st st' : State), 4 < st.DeviceSemaphores →
      (∀ c, c ∈ cs → c.semNonNull = true) → runKernel cs st = some st' → SemAddKept st st'
  | [], st, st', _, _, h => by
    simp only [runKernel, Option.some.injEq] at h
    subst h
    exact semAddKept_refl st
  | c :: cs, st, st', hb, hnn, h => by
    cases hr : c.run st with
    | none => simp [runKernel, hr] at h
    | some s =>
      simp only [runKernel, hr] at h
      have k := kernelCall_kept c st s hb (hnn c (List.mem_cons_self c cs)) hr
      have hb' : 4 < s.DeviceSemaphores := by rw [k.2.2]; exact hb
      exact semAddKept_trans k
        (runKernel_kept cs s st' hb' (fun c' hc' => hnn c' (List.mem_cons_of_mem c hc')) h)

theorem outBlockedPIDFrom_table (pid : Int) (st : State) :
    ∀ (l : List Nat) (r : Nat × State), outBlockedPIDFrom pid st l = some r →
      r.2.pcbFree_table = st.pcbFree_table
  | [], r, h => by simp [outBlockedPIDFrom] at h
  | sem :: rest, r, h => by
    unfold outBlockedPIDFrom at h
    split at h
    · injection h with h
      subst h
      rfl
    · exact outBlockedPIDFrom_table pid st rest r h

/-- C19 (amended).  Start with the ASL as `initASL` leaves it (no active
descriptor) and the array `DeviceSemaphores` above address 4, and run any
sequence of `insertBlocked`, `removeBlocked`, `outBlocked`, `outBlockedPID`,
PASSEREN, VERHOGEN, DOIO and interrupt-handler calls in which the semaphore
addresses passed are not null.  In the state reached every PCB that is a member
of a semaphore's blocked queue (of the queue of any active descriptor) has a
non-null `p_semAdd`.  No operation clears the field: a `p_semAdd` that was not
null at the start is not null at the end, and `removeBlocked`, `outBlocked`
and `outBlockedPID` leave every PCB, the one they return included, as it was. -/
theorem blocked_pcb_has_semAdd (cs : List KernelCall) (st st' : State)
    (hasl : st.semd_h = []) (hdev : 4 < st.DeviceSemaphores)
    (hnn : ∀ c, c ∈ cs → c.semNonNull = true) (hrun : runKernel cs st = some st') :
    (∀ a p, p ∈ blockedQueue a st' → (st'.pcbFree_table p).p_semAdd ≠ 0) ∧
    (∀ d, d ∈ st'.semd_h → ∀ p, p ∈ (st'.semd_table d).s_procq →
      (st'.pcbFree_table p).p_semAdd ≠ 0) ∧
    (∀ p, (st.pcbFree_table p).p_semAdd ≠ 0 → (st'.pcbFree_table p).p_semAdd ≠ 0) ∧
    (∀ (s : State) (a : Nat), (removeBlocked a s).2.pcbFree_table = s.pcbFree_table) ∧
    (∀ (s : State) (p : Nat), (outBlocked p s).2.pcbFree_table = s.pcbFree_table) ∧
    (∀ (s : State) (pid : Int) (r : Nat × State), outBlockedPID pid s = some r →
      r.2.pcbFree_table = s.pcbFree_table) := by
  have k := runKernel_kept cs st st' hdev hnn hrun
  have h0 : BlockedHaveSemAdd st := by
    intro d hd
    rw [hasl] at hd
    exact absurd hd (List.not_mem_nil d)
  have hinv := semAddKept_inv k h0
  refine ⟨fun a p hp => ?_, hinv, k.2.1, fun s a => (removeBlocked_fields a s).2.2.2.1,
    fun s p => ?_, fun s pid r hr => outBlockedPIDFrom_table pid s s.semd_h r hr⟩
  · unfold blockedQueue at hp
    cases hf : findSemd a st' with
    | none => simp [hf] at hp
    | some d =>
      simp only [hf] at hp
      exact hinv d (findSemd_mem hf) p hp
  · unfold outBlocked
    split <;> rfl

theorem blocked_pcb_has_semAdd_witness :
    twoCpuState.semd_h = [] ∧ 4 < twoCpuState.DeviceSemaphores ∧
    ∃ st', runKernel blockTwo twoCpuState = some st' ∧
      blockedQueue semA st' = [19] ∧ blockedQueue flashSem0 st' = [18] ∧
      (st'.pcbFree_table 19).p_semAdd ≠ 0 ∧ (st'.pcbFree_table 18).p_semAdd ≠ 0 := by
  have hsome : (runKernel blockTwo twoCpuState).isSome = true := by decide
  obtain ⟨st', hst'⟩ := Option.isSome_iff_exists.mp hsome
  have h := blocked_pcb_has_semAdd blockTwo twoCpuState st' (by decide) (by decide)
    (by decide) hst'
  have hv : (runKernel blockTwo twoCpuState).map
      (fun s => (blockedQueue semA s, blockedQueue flashSem0 s)) = some ([19], [18]) := by
    decide
  rw [hst'] at hv
  simp only [Option.map_some', Option.some.injEq, Prod.mk.injEq] at hv
  exact ⟨by decide, by decide, st', hst', hv.1, hv.2,
    h.1 semA 19 (by rw [hv.1]; exact List.mem_singleton_self 19),
    h.1 flashSem0 18 (by rw [hv.2]; exact List.mem_singleton_self 18)⟩

/-- C19, counterexample.  In `twoCpuState` the process on CPU 0 (PCB 19) issues
PASSEREN on `semA` and blocks; the process on CPU 1 issues VERHOGEN on `semA`,
which takes PCB 19 from the blocked queue with `removeBlocked` and appends it to
the ready queue.  PCB 19 is then on the ready queue and in no blocked queue (no
descriptor is active), and its `p_semAdd` is still `semA`.  The same holds
after `outBlocked` and `outBlockedPID` on `blockedOnceState`.  And a PCB blocked
by `insertBlocked` on the null address is in a blocked queue with a null
`p_semAdd`. -/
theorem semAdd_not_cleared :
    (runKernel blockThenWake twoCpuState).map (fun s =>
        (s.ReadyQueue, s.semd_h, (s.pcbFree_table 19).p_semAdd)) = some ([19], [], semA) ∧
    ((removeBlocked semA blockedOnceState).1 = some 19 ∧
      (removeBlocked semA blockedOnceState).2.semd_h = [] ∧
      ((removeBlocked semA blockedOnceState).2.pcbFree_table 19).p_semAdd = semA) ∧
    ((outBlocked 19 blockedOnceState).1 = some 19 ∧
      blockedQueue semA (outBlocked 19 blockedOnceState).2 = [] ∧
      ((outBlocked 19 blockedOnceState).2.pcbFree_table 19).p_semAdd = semA) ∧
    (outBlockedPID 1 blockedOnceState).map (fun r =>
        (r.1, blockedQueue semA r.2, (r.2.pcbFree_table 19).p_semAdd)) =
      some (19, [], semA) ∧
    (blockedQueue 0 (insertBlocked 0 19 oneProcessState).2 = [19] ∧
      ((insertBlocked 0 19 oneProcessState).2.pcbFree_table 19).p_semAdd = 0) ∧
    semA ≠ 0 := by
  decide

/-! ### The device semaphore index -/

/-- C22.  For every interrupt line `L` from 3 to 6 and device `D` from 0 to 7,
`getDeviceSemaphoreIndex` on the command register of the device returns
`(L - 3) * 8 + D`; for every terminal `D` from 0 to 7 it returns `32 + 2 * D` on
the receive command register and `32 + 2 * D + 1` on the transmit command
register; the 48 command registers, taken in that order, are mapped to the
indices 0, 1, ..., 47 in order, hence one-to-one. -/
theorem deviceSemaphoreIndex_table :
    (∀ L D : Nat, 3 ≤ L → L ≤ 6 → D < 8 →
      getDeviceSemaphoreIndex (0x10000054 + (L - 3) * 0x80 + D * 0x10 + 4) =
        some (((L - 3) * 8 + D : Nat) : Int)) ∧
    (∀ D : Nat, D < 8 →
      getDeviceSemaphoreIndex (0x10000054 + 4 * 0x80 + D * 0x10 + 0x4) =
        some ((32 + 2 * D : Nat) : Int) ∧
      getDeviceSemaphoreIndex (0x10000054 + 4 * 0x80 + D * 0x10 + 0xC) =
        some ((32 + 2 * D + 1 : Nat) : Int)) ∧
    deviceCommandRegisters.map getDeviceSemaphoreIndex =
      (List.range 48).map (fun i => some (i : Int)) ∧
    deviceCommandRegisters.Nodup := by
  refine ⟨?_, ?_, by decide, by decide⟩
  · intro L D h3 h6 h8
    interval_cases L <;> interval_cases D <;> decide
  · intro D h8
    interval_cases D <;> decide

/-! ### The swap pool -/

/-- C23 (amended).  For every frame `i` of the swap pool, the address the
page-fault handler computes for it is `RAMSTART + (64 + NCPU + i) * PAGESIZE`,
that is `0x20048000 + i * 0x1000`. -/
theorem swapPool_frame_address (i : Nat) (hi : i < SWAP_POOL_SIZE) :
    frameAddr i = RAMSTART + (64 + NCPU + i) * PAGESIZE ∧
    frameAddr i = 0x20048000 + i * 0x1000 := by
  have h16 : i < 16 := hi
  unfold frameAddr SWAP_POOL_STARTADDR RAMSTART NCPU PAGESIZE WORD
  constructor <;> omega

theorem swapPool_frame_address_witness :
    15 < SWAP_POOL_SIZE ∧ frameAddr 15 = 0x20057000 := by
  exact ⟨by decide, ((swapPool_frame_address 15 (by decide)).2).trans (by decide)⟩

/-- C23, counterexample.  Frame 0 of the swap pool is at `0x20048000`, not at
`RAMSTART + (32 + NCPU) * PAGESIZE = 0x20028000`: the first page fault after
`test` has set the support level up (U-proc 1, page `0x80000`) hands
`0x20048000` to the flash device as the address to read into and stores it,
with the valid and dirty bits, in the page-table entry. -/
theorem swapPool_not_after_32_frames :
    frameAddr 0 = 0x20048000 ∧
    RAMSTART + (32 + NCPU + 0) * PAGESIZE = 0x20028000 ∧
    frameAddr 0 ≠ RAMSTART + (32 + NCPU + 0) * PAGESIZE ∧
    (runSup [SupCall.fault (supportAddr 1) 0x80000 READY READY] supBoot).map (fun s =>
        (s.mem (GET_DEV_BASE 4 0 + 0x8),
          ((s.supportMem (supportAddr 1)).sup_privatePgTbl 0).pte_entryLO,
          (s.SwapTable 0).sw_asid, (s.SwapTable 0).sw_pageNo)) =
      some (0x20048000, 0x20048000 ||| VALIDON ||| DIRTYON, 1, 0x80000) := by
  decide

/-- With every entry of the swap table occupied, `_getFreeSwapFrameIndex`
returns 1 and leaves the cursor alone. -/
theorem getFreeSwapFrameIndex_full (st : SupState)
    (h : ∀ i, i < SWAP_POOL_SIZE → (st.SwapTable i).sw_asid ≠ -1) :
    _getFreeSwapFrameIndex st = (1, st) := by
  have hnone : (List.range SWAP_POOL_SIZE).find? (fun i =>
      decide ((st.SwapTable ((st.free_frame_index + i) % SWAP_POOL_SIZE)).sw_asid = -1)) = none := by
    rw [List.find?_eq_none]
    intro i _
    have := h ((st.free_frame_index + i) % SWAP_POOL_SIZE) (Nat.mod_lt _ (by decide))
    simpa using this
  unfold _getFreeSwapFrameIndex
  simp only [hnone, Option.getD_none, if_true]

/-- With every entry of the swap table occupied, any number of successive
victim selections all return frame 1. -/
theorem selectMany_full (st : SupState)
    (h : ∀ i, i < SWAP_POOL_SIZE → (st.SwapTable i).sw_asid ≠ -1) (k : Nat) :
    selectMany k st = List.replicate k 1 := by
  induction k with
  | zero => rfl
  | succ k ih =>
    simp only [selectMany, getFreeSwapFrameIndex_full st h, ih, List.replicate_succ]

set_option maxRecDepth 100000 in
/-- C24, the code at the failing input: after `test` has set the support level
up, sixteen page-ins of U-proc 1 occupy the frames 0 to 15 in that order and
leave the cursor at 15.  With every entry occupied `_getFreeSwapFrameIndex`
returns 1, which is neither frame 0 nor the cursor, and leaves the cursor at 15;
the seventeenth page fault (U-proc 2, page `0x80000`) accordingly replaces the
page in frame 1 and leaves frame 0 as it was. -/
theorem full_pool_victim_is_frame_one :
    (runSup sixteenPageIns supBoot).map (fun s =>
        ((List.range 16).map (fun i => ((s.SwapTable i).sw_asid, (s.SwapTable i).sw_pageNo)),
          s.free_frame_index)) =
      some ((List.range 16).map (fun i => ((1 : Int), ((0x80000 + i : Nat) : Int))), 15) ∧
    (initSwapStructs supZero).free_frame_index = 0 ∧
    (∀ i, i ∈ List.range 16 → ((initSwapStructs supZero).SwapTable i).sw_asid = -1) ∧
    (∀ i, i ∈ List.range 16 → (fullPoolState.SwapTable i).sw_asid ≠ -1) ∧
    (_getFreeSwapFrameIndex fullPoolState).1 = 1 ∧
    (_getFreeSwapFrameIndex fullPoolState).2.free_frame_index = 15 ∧
    (runSup [SupCall.fault (supportAddr 2) 0x80000 READY READY] fullPoolState).map (fun s =>
        ((s.SwapTable 0).sw_asid, (s.SwapTable 0).sw_pageNo, (s.SwapTable 1).sw_asid,
          (s.SwapTable 1).sw_pageNo)) = some (1, 0x80000, 2, 0x80000) := by
  refine ⟨by decide, by decide, by decide, by decide, by decide, by decide, by decide⟩

set_option maxRecDepth 100000 in
/-- C25, the code at the failing input: with the pool filled by sixteen page-ins,
sixteen consecutive calls of `_getFreeSwapFrameIndex` all return frame 1, so
their results are not pairwise distinct; the same holds of any number of
selections in any state whose sixteen entries are all occupied, and the cursor
never moves. -/
theorem full_pool_evicts_frame_one_only :
    selectMany 16 fullPoolState = List.replicate 16 1 ∧
    ¬ (selectMany 16 fullPoolState).Nodup ∧
    (∀ (st : SupState) (k : Nat), (∀ i, i < SWAP_POOL_SIZE → (st.SwapTable i).sw_asid ≠ -1) →
      selectMany k st = List.replicate k 1 ∧ _getFreeSwapFrameIndex st = (1, st)) := by
  refine ⟨by decide, by decide, ?_⟩
  intro st k h
  exact ⟨selectMany_full st h k, getFreeSwapFrameIndex_full st h⟩

/-! ### The swap table and the page tables -/

set_option maxRecDepth 100000 in
/-- C26, the code at the failing input: U-proc 1 brings in its pages `0x80000`
and `0x80001` (frames 0 and 1) and U-proc 3 fourteen pages (frames 2 to 15);
U-proc 2 faults, the victim is frame 1, and the write of the victim page to the
flash device returns status 6, so U-proc 2 is terminated: the entry of frame 1
still records page `0x80001` of U-proc 1, whose page-table entry is no longer
valid.  U-proc 3 terminates and U-proc 1 touches page `0x80001` again: the entry
found in frame 1 is not valid, the page is read into the free frame 15, and two
entries of the swap table, 1 and 15, record page `0x80001` of U-proc 1. -/
theorem swap_table_duplicate_entry :
    (runSup (staleEntryRun.take 17) supBoot).map (fun s =>
        (swapMatches 1 0x80001 s, (s.SwapTable 1).sw_pte, s.AsidInSwapPool,
          ((s.supportMem (supportAddr 1)).sup_privatePgTbl 1).pte_entryLO)) =
      some ([1], some (supportAddr 1, 1), 0, frameAddr 1 ||| DIRTYON) ∧
    (runSup staleEntryRun supBoot).map (fun s =>
        (swapMatches 1 0x80001 s, (s.SwapTable 1).sw_pte, (s.SwapTable 15).sw_pte,
          ((s.supportMem (supportAddr 1)).sup_privatePgTbl 1).pte_entryLO)) =
      some ([1, 15], some (supportAddr 1, 1), some (supportAddr 1, 1),
        frameAddr 15 ||| VALIDON ||| DIRTYON) := by
  refine ⟨by decide, by decide⟩

set_option maxRecDepth 100000 in
/-- C27, the code at the failing input: after `test` has set the support level
up, U-proc 1 brings in its page `0x80000` (frame 0) and then terminates.
`terminateUProc` frees the swap-table entry of frame 0 and leaves the page table
of the U-proc as it is: entry 0 of that page table still has the valid bit set
and the address of frame 0 in entryLO, while the swap-table entry of frame 0
records no owner and no page-table entry. -/
theorem valid_pte_after_terminate :
    (runSup [SupCall.fault (supportAddr 1) 0x80000 READY READY,
             SupCall.terminate (supportAddr 1)] supBoot).map (fun s =>
        (((s.supportMem (supportAddr 1)).sup_privatePgTbl 0).pte_entryLO,
          ((s.supportMem (supportAddr 1)).sup_privatePgTbl 0).pte_entryLO &&& VALIDON,
          (s.SwapTable 0).sw_asid, (s.SwapTable 0).sw_pageNo)) =
      some (frameAddr 0 ||| VALIDON ||| DIRTYON, VALIDON, -1, -1) ∧
    (runSup [SupCall.fault (supportAddr 1) 0x80000 READY READY,
             SupCall.terminate (supportAddr 1)] supBoot).map (fun s => (s.SwapTable 0).sw_pte) =
      some none := by
  refine ⟨by decide, by decide⟩

/-! ### The service routines of the support level -/

/-- C28, the code at the failing input: the buffer of 32 bytes at `0xFFFFFFF0`
ends beyond `0xFFFFFFFF`; its end address wraps to `0x10` and the check accepts
it.  For every address and length whose sum stays below `2 ^ 32` the check
accepts exactly when the length is between 0 and 128 and the range lies in one
of the two regions. -/
theorem is_valid_address_wraps :
    _is_valid_address 0xFFFFFFF0 0x20 = true ∧
    (0xFFFFFFF0 + 0x20) % WORD = 0x10 ∧
    (∀ (virtAddr : Nat) (len : Int), virtAddr < WORD → virtAddr + len < (WORD : Int) →
      (_is_valid_address virtAddr len = true ↔
        0 ≤ len ∧ len ≤ 128 ∧
          ((0x80000000 ≤ virtAddr ∧ virtAddr + len ≤ 0x8001E000) ∨
           (0xBFFFF000 ≤ virtAddr ∧ virtAddr + len ≤ 0xC0000000)))) := by
  refine ⟨by decide, by norm_num [WORD], ?_⟩
  intro virtAddr len hv hsum
  unfold WORD at hv hsum
  by_cases h0 : 0 ≤ len
  · obtain ⟨n, rfl⟩ := Int.eq_ofNat_of_zero_le h0
    have hn : ofInt32 (n : Int) = n := by
      unfold ofInt32
      omega
    simp only [_is_valid_address, hn, WORD, USERSTACKTOP, MAXSTRLENG, Bool.and_eq_true,
      Bool.or_eq_true, decide_eq_true_eq]
    have hm : (virtAddr + n) % 2 ^ 32 = virtAddr + n := Nat.mod_eq_of_lt (by omega)
    rw [hm]
    omega
  · simp only [_is_valid_address, Bool.and_eq_true, Bool.or_eq_true, decide_eq_true_eq]
    omega

/-- C29, the code at the failing input: U-proc 1 asks for at most 5 characters
of the buffer holding `h`, `i`, NUL to be printed and every DOIO returns READY.
Two characters are sent to the printer (two DOIO requests, command PRINTCHR on
the command register of printer 0) and a0 is left at 5, the value of `len`.
When the first DOIO returns status 4, a0 is left at -4 and no further
character is sent. -/
theorem writePrinter_returns_len :
    (writePrinter 200 0x80001000 5 (supportAddr 1) (fun _ => READY) hiBufferState).map (fun r =>
        (r.1.resultA0 (supportAddr 1), doioCount r.1.trace,
          r.1.trace.map (fun q => (q.a0, q.a1, q.a2)))) =
      some (5, 2,
        [(PASSEREN, 0x20009100 + 4 * 24, 0), ( DOIO, GET_DEV_BASE 6 0 + 0x4, PRINTCHR),
         ( DOIO, GET_DEV_BASE 6 0 + 0x4, PRINTCHR), (VERHOGEN, 0x20009100 + 4 * 24, 0)]) ∧
    _is_valid_address 0x80001000 5 = true ∧
    (writePrinter 200 0x80001000 2 (supportAddr 1) (fun k => if k = 0 then 4 else READY)
        hiBufferState).map (fun r => (r.1.resultA0 (supportAddr 1), doioCount r.1.trace)) =
      some (sub32 0 4, 1) := by
  refine ⟨by decide, by decide, by decide⟩

/-- C30, the code at the failing input: U-proc 1 asks for at most 2 characters
of the buffer holding `a`, `b`, `c`, NUL to be written to its terminal and every
transmit status is 5.  Two characters are transmitted (two DOIO requests) and a0
is left at 3, which exceeds `len`.  On the buffer holding `h`, `i`, NUL with
`len` equal to 2 the two transmit commands `0x6802` and `0x6902` are issued and
a0 is left at 2. -/
theorem writeTerminal_returns_len_plus_one :
    (writeTerminal 200 0x80001000 2 (supportAddr 1) (fun _ => 5) abcBufferState).map (fun r =>
        (r.1.resultA0 (supportAddr 1), doioCount r.1.trace)) = some (3, 2) ∧
    _is_valid_address 0x80001000 2 = true ∧
    (writeTerminal 200 0x80001000 2 (supportAddr 1) (fun _ => 5) hiBufferState).map (fun r =>
        (r.1.resultA0 (supportAddr 1), doioCount r.1.trace,
          (r.1.trace.filter (fun q => decide (q.a0 = DOIO))).map (fun q => (q.a1, q.a2)))) =
      some (2, 2, [(GET_DEV_BASE 7 0 + 0xC, 0x6802), (GET_DEV_BASE 7 0 + 0xC, 0x6902)]) := by
  refine ⟨by decide, by decide, by decide⟩

/-! ### The accounting of PCBs -/

theorem flatMap_congr_mem {l : List Nat} {g h : Nat → List Nat}
    (e : ∀ x, x ∈ l → g x = h x) : l.flatMap g = l.flatMap h := by
  induction l with
  | nil => rfl
  | cons a t ih =>
    simp only [List.flatMap_cons]
    rw [e a (List.mem_cons_self _ _), ih (fun x hx => e x (List.mem_cons_of_mem _ hx))]

/-- Replacing the list of one index of a duplicate-free list: the old list and
the new one are exchanged in the bag of all members. -/
theorem flatMap_update_bag (l : List Nat) (hl : l.Nodup) (g : Nat → List Nat) (d : Nat)
    (hd : d ∈ l) (q : List Nat) :
    ((l.flatMap (Function.update g d q) : List Nat) : Multiset Nat) + (g d : Multiset Nat) =
      (l.flatMap g : Multiset Nat) + (q : Multiset Nat) := by
  induction l with
  | nil => simp at hd
  | cons a t ih =>
    have hat : a ∉ t := (List.nodup_cons.mp hl).1
    have ht : t.Nodup := (List.nodup_cons.mp hl).2
    simp only [List.flatMap_cons, ← Multiset.coe_add]
    by_cases had : a = d
    · subst had
      have e : t.flatMap (Function.update g a q) = t.flatMap g :=
        flatMap_congr_mem (fun x hx => by
          have : x ≠ a := fun h => hat (h ▸ hx)
          simp [Function.update, this])
      rw [e]
      simp only [Function.update_same]
      abel
    · have hdt : d ∈ t := by
        rcases List.mem_cons.mp hd with h | h
        · exact absurd h.symm had
        · exact h
      have e := ih ht hdt
      rw [Function.update_noteq had]
      calc (g a : Multiset Nat) + ((t.flatMap (Function.update g d q) : List Nat) : Multiset Nat)
            + (g d : Multiset Nat)
          = (g a : Multiset Nat) + (((t.flatMap (Function.update g d q) : List Nat) : Multiset Nat)
            + (g d : Multiset Nat)) := by abel
        _ = (g a : Multiset Nat) + ((t.flatMap g : Multiset Nat) + (q : Multiset Nat)) := by rw [e]
        _ = _ := by abel

theorem flatMap_update_notin (l : List Nat) (g : Nat → List Nat) (d : Nat) (hd : d ∉ l)
    (q : List Nat) : l.flatMap (Function.update g d q) = l.flatMap g :=
  flatMap_congr_mem (fun x hx => by
    have : x ≠ d := fun h => hd (h ▸ hx)
    simp [Function.update, this])

theorem flatMap_erase_bag (l : List Nat) (g : Nat → List Nat) (d : Nat) (hd : d ∈ l) :
    (((l.erase d).flatMap g : List Nat) : Multiset Nat) + (g d : Multiset Nat) =
      (l.flatMap g : Multiset Nat) := by
  have hp : (l.flatMap g).Perm ((d :: l.erase d).flatMap g) :=
    List.Perm.flatMap_right g (List.perm_cons_erase hd)
  rw [Multiset.coe_eq_coe.mpr hp]
  simp only [List.flatMap_cons, ← Multiset.coe_add]
  abel

theorem slotList_update (st : State) (prid : Nat) (hp : prid < NCPU) (v : Option Nat)
    (s : State) (hs : s.CurrentProcess = Function.update st.CurrentProcess prid v) :
    ((slotList s : List Nat) : Multiset Nat) + ((st.CurrentProcess prid).toList : Multiset Nat) =
      (slotList st : Multiset Nat) + (v.toList : Multiset Nat) := by
  have h := flatMap_update_bag (List.range NCPU) (List.nodup_range _)
    (fun i => (st.CurrentProcess i).toList) prid (List.mem_range.mpr hp) v.toList
  have e : (fun i => (s.CurrentProcess i).toList) =
      Function.update (fun i => (st.CurrentProcess i).toList) prid v.toList := by
    funext i
    rw [hs]
    by_cases hi : i = prid
    · subst hi; simp
    · simp [Function.update, hi]
  unfold slotList
  rw [e]
  exact h

theorem blockedList_update (st s : State) (d : Nat) (q : List Nat) (hn : st.semd_h.Nodup)
    (hd : d ∈ st.semd_h) (h1 : s.semd_h = st.semd_h)
    (h2 : s.semd_table = Function.update st.semd_table d { st.semd_table d with s_procq := q }) :
    ((blockedList s : List Nat) : Multiset Nat) + ((st.semd_table d).s_procq : Multiset Nat) =
      (blockedList st : Multiset Nat) + (q : Multiset Nat) := by
  have h := flatMap_update_bag st.semd_h hn (fun d => (st.semd_table d).s_procq) d hd q
  have e : (fun d => (s.semd_table d).s_procq) =
      Function.update (fun d => (st.semd_table d).s_procq) d q := by
    funext i
    rw [h2]
    by_cases hi : i = d
    · subst hi; simp
    · simp [Function.update, hi]
  unfold blockedList
  rw [h1, e]
  exact h

theorem pcbBag_congr {s t : State} (h1 : s.ReadyQueue = t.ReadyQueue)
    (h2 : s.CurrentProcess = t.CurrentProcess) (h3 : s.semd_h = t.semd_h)
    (h4 : s.semd_table = t.semd_table) (h5 : s.pcbFree_h = t.pcbFree_h) :
    pcbBag s = pcbBag t := by
  unfold pcbBag slotList blockedList
  rw [h1, h2, h3, h4, h5]

theorem aslOk_congr {s t : State} (h1 : s.semd_h = t.semd_h) (h2 : s.semd_table = t.semd_table)
    (h3 : s.semdFree_h = t.semdFree_h) (h : AslOk t) : AslOk s := by
  refine ⟨?_, noEmpty_congr h1 h2 h.2⟩
  rw [h1, h3]
  exact h.1

theorem aslOk_nodup {st : State} (h : AslOk st) : (st.semd_h ++ st.semdFree_h).Nodup :=
  (h.1.nodup_iff).mpr (List.nodup_range _)

theorem insertBlocked_bag (a p : Nat) (st : State) (h : AslOk st)
    (hroom : findSemd a st = none → st.semdFree_h ≠ []) :
    pcbBag (insertBlocked a p st).2 = pcbBag st + ((([p] : List Nat)) : Multiset Nat) ∧
    AslOk (insertBlocked a p st).2 := by
  have hnd := aslOk_nodup h
  have hf := insertBlocked_fields a p st
  have hne := insertBlocked_noEmpty a p st h.2
  have hsl : slotList (insertBlocked a p st).2 = slotList st := by
    unfold slotList
    rw [hf.2.2.1]
  cases hfd : findSemd a st with
  | some d =>
    have hd : d ∈ st.semd_h := findSemd_mem hfd
    have hb := blockedList_update st (insertBlocked a p st).2 d ((st.semd_table d).s_procq ++ [p])
      (List.Nodup.of_append_left hnd) hd (by rw [insertBlocked_found p hfd])
      (by rw [insertBlocked_found p hfd])
    have hb2 : ((blockedList (insertBlocked a p st).2 : List Nat) : Multiset Nat) =
        (blockedList st : Multiset Nat) + (([p] : List Nat) : Multiset Nat) := by
      rw [← Multiset.coe_add] at hb
      have : ((blockedList (insertBlocked a p st).2 : List Nat) : Multiset Nat) +
          ((st.semd_table d).s_procq : Multiset Nat) =
          ((blockedList st : Multiset Nat) + (([p] : List Nat) : Multiset Nat)) +
          ((st.semd_table d).s_procq : Multiset Nat) := by
        rw [hb]; abel
      exact add_right_cancel this
    refine ⟨?_, ?_, hne⟩
    · unfold pcbBag
      rw [hf.1, hsl, hb2, hf.2.2.2.1]
      abel
    · have e1 : (insertBlocked a p st).2.semd_h = st.semd_h := by rw [insertBlocked_found p hfd]
      have e2 : (insertBlocked a p st).2.semdFree_h = st.semdFree_h := by
        rw [insertBlocked_found p hfd]
      rw [e1, e2]
      exact h.1
  | none =>
    have hfree := hroom hfd
    obtain ⟨n, hn⟩ : ∃ n, st.semdFree_h.getLast? = some n := by
      cases hl : st.semdFree_h.getLast? with
      | none => exact absurd (List.getLast?_eq_none_iff.mp hl) hfree
      | some n => exact ⟨n, rfl⟩
    have hsplit : st.semdFree_h.dropLast ++ [n] = st.semdFree_h :=
      List.dropLast_append_getLast? n (by simp [hn])
    have hnmem : n ∈ st.semdFree_h := by
      rw [← hsplit]; simp
    have hnot : n ∉ st.semd_h := fun hin =>
      (List.disjoint_of_nodup_append hnd) hin hnmem
    have e1 : (insertBlocked a p st).2.semd_h = st.semd_h ++ [n] := by
      rw [insertBlocked_fresh p hfd hn]
    have e2 : (insertBlocked a p st).2.semdFree_h = st.semdFree_h.dropLast := by
      rw [insertBlocked_fresh p hfd hn]
    have e3 : (insertBlocked a p st).2.semd_table =
        Function.update st.semd_table n { s_key := a, s_procq := [p] } := by
      rw [insertBlocked_fresh p hfd hn]
    have hb2 : blockedList (insertBlocked a p st).2 = blockedList st ++ [p] := by
      unfold blockedList
      rw [e1, e3, List.flatMap_append]
      congr 1
      · exact flatMap_congr_mem (fun x hx => by
          have : x ≠ n := fun hxn => hnot (hxn ▸ hx)
          simp [Function.update, this])
      · simp
    refine ⟨?_, ?_, hne⟩
    · unfold pcbBag
      rw [hf.1, hsl, hb2, hf.2.2.2.1, ← Multiset.coe_add]
      abel
    · rw [e1, e2]
      refine List.Perm.trans ?_ h.1
      rw [List.append_assoc]
      refine List.Perm.append_left _ ?_
      rw [← hsplit]
      simp only [List.dropLast_concat]
      exact List.perm_append_comm

theorem removeBlocked_bag (a : Nat) (st : State) (h : AslOk st) :
    pcbBag (removeBlocked a st).2 + ((removeBlocked a st).1.toList : Multiset Nat) = pcbBag st ∧
    AslOk (removeBlocked a st).2 := by
  have hnd := aslOk_nodup h
  have hndh : st.semd_h.Nodup := List.Nodup.of_append_left hnd
  have hf := removeBlocked_fields a st
  have hsl : slotList (removeBlocked a st).2 = slotList st := by
    unfold slotList
    rw [hf.2.2.1]
  cases hfd : findSemd a st with
  | none =>
    rw [removeBlocked_none hfd]
    exact ⟨by simp, h⟩
  | some d =>
    have hd : d ∈ st.semd_h := findSemd_mem hfd
    have hq : (st.semd_table d).s_procq =
        (st.semd_table d).s_procq.head?.toList ++ (st.semd_table d).s_procq.tail := by
      cases (st.semd_table d).s_procq <;> simp
    have h1 : (removeBlocked a st).1 = (st.semd_table d).s_procq.head? := by
      rw [removeBlocked_some hfd]
    -- the state with the queue popped and the chain left alone
    obtain ⟨s1, hs1⟩ : ∃ s : State, s = { st with
        semd_table := Function.update st.semd_table d
          { st.semd_table d with s_procq := (st.semd_table d).s_procq.tail } } := ⟨_, rfl⟩
    have hb := blockedList_update st s1 d (st.semd_table d).s_procq.tail hndh hd
      (by rw [hs1]) (by rw [hs1])
    have hb1 : ((blockedList s1 : List Nat) : Multiset Nat) +
        ((st.semd_table d).s_procq.head?.toList : Multiset Nat) = (blockedList st : Multiset Nat) := by
      have e : ((blockedList s1 : List Nat) : Multiset Nat) +
          ((st.semd_table d).s_procq.head?.toList : Multiset Nat) +
          ((st.semd_table d).s_procq.tail : Multiset Nat) =
          (blockedList st : Multiset Nat) + ((st.semd_table d).s_procq.tail : Multiset Nat) := by
        rw [← hb]
        conv_rhs => rw [hq, ← Multiset.coe_add]
        abel
      exact add_right_cancel e
    by_cases ht : (st.semd_table d).s_procq.tail = []
    · have e1 : (removeBlocked a st).2.semd_h = st.semd_h.erase d := by
        rw [removeBlocked_some hfd, if_pos ht]
      have e2 : (removeBlocked a st).2.semdFree_h = st.semdFree_h ++ [d] := by
        rw [removeBlocked_some hfd, if_pos ht]
      have e3 : (removeBlocked a st).2.semd_table = s1.semd_table := by
        rw [removeBlocked_some hfd, if_pos ht, hs1]
      have hbl : ((blockedList (removeBlocked a st).2 : List Nat) : Multiset Nat) =
          (blockedList s1 : Multiset Nat) := by
        have := flatMap_erase_bag st.semd_h (fun x => (s1.semd_table x).s_procq) d hd
        have hz : (s1.semd_table d).s_procq = [] := by rw [hs1]; simpa using ht
        simp only [hz, Multiset.coe_nil, add_zero] at this
        unfold blockedList
        rw [e1, e3, this, hs1]
      refine ⟨?_, ?_, ?_⟩
      · unfold pcbBag
        rw [hf.1, hsl, hbl, hf.2.2.2.2.1, h1, ← hb1]
        abel
      · rw [e1, e2]
        refine List.Perm.trans ?_ h.1
        have e : (st.semd_h : Multiset Nat) =
            ((st.semd_h.erase d : List Nat) : Multiset Nat) + (([d] : List Nat) : Multiset Nat) := by
          rw [Multiset.coe_add]
          exact Multiset.coe_eq_coe.mpr
            ((List.perm_cons_erase hd).trans (List.perm_append_singleton d _).symm)
        apply Multiset.coe_eq_coe.mp
        simp only [← Multiset.coe_add]
        rw [e]
        abel
      · intro d' hd'
        rw [e1] at hd'
        have hne : d' ≠ d := fun he => by
          rw [he] at hd'
          exact (List.Nodup.not_mem_erase hndh) hd'
        rw [e3, hs1]
        simpa [Function.update, hne] using h.2 d' (List.mem_of_mem_erase hd')
    · have e1 : (removeBlocked a st).2 = s1 := by
        rw [removeBlocked_some hfd, if_neg ht, hs1]
      refine ⟨?_, ?_, ?_⟩
      · unfold pcbBag
        rw [hsl, hf.1, hf.2.2.2.2.1, h1, e1, ← hb1]
        abel
      · rw [e1, hs1]
        exact h.1
      · intro d' hd'
        rw [e1, hs1] at hd' ⊢
        by_cases hne : d' = d
        · subst hne
          simpa using ht
        · simpa [Function.update, hne] using h.2 d' hd'

/-! ### The ASL: first in, first out, over PCBs linked once -/

theorem aslInv_nodup {st : State} (hi : ASLInv st) : (st.semd_h ++ st.semdFree_h).Nodup :=
  List.nodup_append.mpr ⟨semd_h_nodup hi.1, hi.2.2, fun d hd hf => hi.2.1 d hd hf⟩

/-- The PCBs of the blocked queues after `insertBlocked`: the old ones and,
when the call succeeds, the inserted PCB. -/
theorem insertBlocked_blockedList (a p : Nat) (st : State) (hi : ASLInv st) :
    ((blockedList (insertBlocked a p st).2 : List Nat) : Multiset Nat) =
      (blockedList st : Multiset Nat) +
        ((if (insertBlocked a p st).1 = 0 then [p] else [] : List Nat) : Multiset Nat) := by
  have hnd := aslInv_nodup hi
  cases hfd : findSemd a st with
  | some d =>
    have hd : d ∈ st.semd_h := findSemd_mem hfd
    have hb := blockedList_update st (insertBlocked a p st).2 d ((st.semd_table d).s_procq ++ [p])
      (List.Nodup.of_append_left hnd) hd (by rw [insertBlocked_found p hfd])
      (by rw [insertBlocked_found p hfd])
    have h0 : (insertBlocked a p st).1 = 0 := by rw [insertBlocked_found p hfd]
    rw [if_pos h0]
    rw [← Multiset.coe_add] at hb
    have : ((blockedList (insertBlocked a p st).2 : List Nat) : Multiset Nat) +
        ((st.semd_table d).s_procq : Multiset Nat) =
        ((blockedList st : Multiset Nat) + (([p] : List Nat) : Multiset Nat)) +
        ((st.semd_table d).s_procq : Multiset Nat) := by
      rw [hb]; abel
    exact add_right_cancel this
  | none =>
    cases hl : st.semdFree_h.getLast? with
    | none =>
      rw [insertBlocked_full p hfd (List.getLast?_eq_none_iff.mp hl)]
      simp
    | some n =>
      have hsplit : st.semdFree_h.dropLast ++ [n] = st.semdFree_h :=
        List.dropLast_append_getLast? n (by simp [hl])
      have hnmem : n ∈ st.semdFree_h := by
        rw [← hsplit]; simp
      have hnot : n ∉ st.semd_h := fun hin =>
        (List.disjoint_of_nodup_append hnd) hin hnmem
      have e1 : (insertBlocked a p st).2.semd_h = st.semd_h ++ [n] := by
        rw [insertBlocked_fresh p hfd hl]
      have e3 : (insertBlocked a p st).2.semd_table =
          Function.update st.semd_table n { s_key := a, s_procq := [p] } := by
        rw [insertBlocked_fresh p hfd hl]
      have h0 : (insertBlocked a p st).1 = 0 := by rw [insertBlocked_fresh p hfd hl]
      have hb2 : blockedList (insertBlocked a p st).2 = blockedList st ++ [p] := by
        unfold blockedList
        rw [e1, e3, List.flatMap_append]
        congr 1
        · exact flatMap_congr_mem (fun x hx => by
            have : x ≠ n := fun hxn => hnot (hxn ▸ hx)
            simp [Function.update, this])
        · simp
      rw [if_pos h0, hb2, ← Multiset.coe_add]

/-- The PCBs of the blocked queues after `removeBlocked`: the old ones without
the PCB returned. -/
theorem removeBlocked_blockedList (a : Nat) (st : State) (hi : ASLInv st) :
    ((blockedList (removeBlocked a st).2 : List Nat) : Multiset Nat) +
      ((removeBlocked a st).1.toList : Multiset Nat) = (blockedList st : Multiset Nat) := by
  have hndh : st.semd_h.Nodup := semd_h_nodup hi.1
  cases hfd : findSemd a st with
  | none =>
    rw [removeBlocked_none hfd]
    simp
  | some d =>
    have hd : d ∈ st.semd_h := findSemd_mem hfd
    have hq : (st.semd_table d).s_procq =
        (st.semd_table d).s_procq.head?.toList ++ (st.semd_table d).s_procq.tail := by
      cases (st.semd_table d).s_procq <;> simp
    have h1 : (removeBlocked a st).1 = (st.semd_table d).s_procq.head? := by
      rw [removeBlocked_some hfd]
    obtain ⟨s1, hs1⟩ : ∃ s : State, s = { st with
        semd_table := Function.update st.semd_table d
          { st.semd_table d with s_procq := (st.semd_table d).s_procq.tail } } := ⟨_, rfl⟩
    have hb := blockedList_update st s1 d (st.semd_table d).s_procq.tail hndh hd
      (by rw [hs1]) (by rw [hs1])
    have hb1 : ((blockedList s1 : List Nat) : Multiset Nat) +
        ((st.semd_table d).s_procq.head?.toList : Multiset Nat) = (blockedList st : Multiset Nat) := by
      have e : ((blockedList s1 : List Nat) : Multiset Nat) +
          ((st.semd_table d).s_procq.head?.toList : Multiset Nat) +
          ((st.semd_table d).s_procq.tail : Multiset Nat) =
          (blockedList st : Multiset Nat) + ((st.semd_table d).s_procq.tail : Multiset Nat) := by
        rw [← hb]
        conv_rhs => rw [hq, ← Multiset.coe_add]
        abel
      exact add_right_cancel e
    by_cases ht : (st.semd_table d).s_procq.tail = []
    · have e1 : (removeBlocked a st).2.semd_h = st.semd_h.erase d := by
        rw [removeBlocked_some hfd, if_pos ht]
      have e3 : (removeBlocked a st).2.semd_table = s1.semd_table := by
        rw [removeBlocked_some hfd, if_pos ht, hs1]
      have hbl : ((blockedList (removeBlocked a st).2 : List Nat) : Multiset Nat) =
          (blockedList s1 : Multiset Nat) := by
        have := flatMap_erase_bag st.semd_h (fun x => (s1.semd_table x).s_procq) d hd
        have hz : (s1.semd_table d).s_procq = [] := by rw [hs1]; simpa using ht
        simp only [hz, Multiset.coe_nil, add_zero] at this
        unfold blockedList
        rw [e1, e3, this, hs1]
      rw [hbl, h1, hb1]
    · have e1 : (removeBlocked a st).2 = s1 := by
        rw [removeBlocked_some hfd, if_neg ht, hs1]
      rw [e1, h1, hb1]

/-- The linked PCBs as a bag. -/
theorem linkedPcbs_coe (st : State) :
    ((linkedPcbs st : List Nat) : Multiset Nat) =
      (st.ReadyQueue : Multiset Nat) + (blockedList st : Multiset Nat) +
        (st.pcbFree_h : Multiset Nat) := by
  unfold linkedPcbs
  simp only [← Multiset.coe_add]

/-- A call of the ASL on PCBs linked at most once, `insertBlocked` being given
an unlinked PCB, leaves every PCB linked at most once. -/
theorem aslCall_linked (c : AslCall) (st : State) (hi : ASLInv st)
    (hn : (linkedPcbs st).Nodup) (hc : insertsUnlinked [c] st = true) :
    (linkedPcbs (c.run st)).Nodup := by
  rw [← Multiset.coe_nodup] at hn ⊢
  cases c with
  | ins b p =>
    have hp : p ∉ linkedPcbs st := by
      simpa [insertsUnlinked] using hc
    have hf := insertBlocked_fields b p st
    show Multiset.Nodup ((linkedPcbs (insertBlocked b p st).2 : List Nat) : Multiset Nat)
    rw [linkedPcbs_coe, hf.1, hf.2.2.2.1, insertBlocked_blockedList b p st hi]
    by_cases h0 : (insertBlocked b p st).1 = 0
    · rw [if_pos h0]
      have e : (st.ReadyQueue : Multiset Nat) +
          ((blockedList st : Multiset Nat) + (([p] : List Nat) : Multiset Nat)) +
          (st.pcbFree_h : Multiset Nat) =
          p ::ₘ ((linkedPcbs st : List Nat) : Multiset Nat) := by
        rw [linkedPcbs_coe, ← Multiset.singleton_add, Multiset.coe_singleton]
        abel
      rw [e]
      exact Multiset.nodup_cons.mpr ⟨by simpa using hp, hn⟩
    · rw [if_neg h0]
      simpa [linkedPcbs_coe] using hn
  | rem b =>
    have hf := removeBlocked_fields b st
    show Multiset.Nodup ((linkedPcbs (removeBlocked b st).2 : List Nat) : Multiset Nat)
    have hle : ((linkedPcbs (removeBlocked b st).2 : List Nat) : Multiset Nat) ≤
        ((linkedPcbs st : List Nat) : Multiset Nat) := by
      rw [linkedPcbs_coe, linkedPcbs_coe, hf.1, hf.2.2.2.2.1,
        ← removeBlocked_blockedList b st hi]
      refine Multiset.le_iff_exists_add.mpr ⟨((removeBlocked b st).1.toList : Multiset Nat), ?_⟩
      abel
    exact Multiset.nodup_of_le hle hn

/-- A sequence of ASL calls on PCBs linked at most once. -/
theorem runAsl_linked : ∀ (cs : List AslCall) (st : State), ASLInv st →
    (linkedPcbs st).Nodup → insertsUnlinked cs st = true → (linkedPcbs (runAsl cs st)).Nodup
  | [], _, _, hn, _ => hn
  | c :: cs, st, hi, hn, hc => by
    have hstep : insertsUnlinked [c] st = true ∧ insertsUnlinked cs (c.run st) = true := by
      cases c with
      | ins b p =>
        simp only [insertsUnlinked, Bool.and_eq_true, Bool.and_true] at hc ⊢
        exact hc
      | rem b =>
        simp only [insertsUnlinked] at hc ⊢
        exact ⟨trivial, hc⟩
    exact runAsl_linked cs (c.run st) (aslCall_step 0 c st hi).1
      (aslCall_linked c st hi hn hstep.1) hstep.2

set_option maxRecDepth 100000 in
/-- The state a device interrupt leaves is outside `LinkedOnce`: in
`ioPendingState` PCB 19 is a member of the blocked queue of the semaphore of
flash device 0 and of no other list, and after `handleDeviceInterrupt` it runs
on CPU 0 and is still a member of that queue. -/
theorem deviceInterrupt_links_twice :
    LinkedOnce ioPendingState ∧
    (handleDeviceInterrupt 0 IL_FLASH ioPendingState).map (fun r =>
        (r.1.CurrentProcess 0, blockedQueue flashSem0 r.1, decide (LinkedOnce r.1))) =
      some (some 19, [19], false) := by
  decide

/-- C17.  Over a well-formed ASL whose PCBs are each linked in at most one
list (`LinkedOnce`), run any sequence of `insertBlocked` and `removeBlocked`
calls on any addresses, each `insertBlocked` being given a PCB that is linked
in no list at the time of the call.  For every address `a`, the PCBs that were
queued on `a` at the start followed by those blocked on `a` by the successful
`insertBlocked(a, .)` calls are, in that order, the PCBs returned by the
`removeBlocked(a)` calls followed by those still queued on `a` at the end; the
calls on other addresses play no part in this, and at the end every PCB is
still linked in at most one list.  In every state of that kind
`removeBlocked(a)` returns the head of the blocked queue of `a`, `headBlocked(a)`
returns the same PCB (it only reads the ASL), and both return null when no PCB
is blocked on `a`. -/
theorem asl_fifo (a : Nat) (cs : List AslCall) (st : State) (hi : ASLInv st)
    (hlink : LinkedOnce st) (hins : insertsUnlinked cs st = true) :
    blockedQueue a st ++ insertedLog a cs st =
      removedLog a cs st ++ blockedQueue a (runAsl cs st) ∧
    (linkedPcbs (runAsl cs st)).Nodup ∧
    (∀ s : State, LinkedOnce s → (removeBlocked a s).1 = (blockedQueue a s).head?) ∧
    (∀ s : State, LinkedOnce s → headBlocked a s = (removeBlocked a s).1) ∧
    (∀ s : State, LinkedOnce s → blockedQueue a s = [] →
      (removeBlocked a s).1 = none ∧ headBlocked a s = none) := by
  refine ⟨(asl_fifo_law a cs st hi).2, runAsl_linked cs st hi hlink.1 hins,
    fun s _ => removeBlocked_fst a s,
    fun s _ => by rw [headBlocked_eq, removeBlocked_fst], fun s _ hs => ?_⟩
  rw [headBlocked_eq, removeBlocked_fst, hs]
  exact ⟨rfl, rfl⟩

/-- The FIFO law on a sample run: three PCBs are blocked on `semA` and two on
the next semaphore, interleaved with `removeBlocked` calls; every PCB is
allocated and unlinked when it is inserted. -/
theorem asl_fifo_witness :
    ASLInv allAllocatedState ∧ LinkedOnce allAllocatedState ∧
    insertsUnlinked sampleAslCalls allAllocatedState = true ∧
    insertedLog semA sampleAslCalls allAllocatedState = [5, 7, 9] ∧
    removedLog semA sampleAslCalls allAllocatedState = [5, 7, 9] ∧
    insertedLog (semA + 4) sampleAslCalls allAllocatedState = [6, 8] ∧
    removedLog (semA + 4) sampleAslCalls allAllocatedState = [6] ∧
    blockedQueue semA allAllocatedState ++ insertedLog semA sampleAslCalls allAllocatedState =
      removedLog semA sampleAslCalls allAllocatedState ++
        blockedQueue semA (runAsl sampleAslCalls allAllocatedState) ∧
    (linkedPcbs (runAsl sampleAslCalls allAllocatedState)).Nodup := by
  have h := asl_fifo semA sampleAslCalls allAllocatedState allAllocatedState_inv
    (by decide) (by decide)
  exact ⟨allAllocatedState_inv, by decide, by decide, by decide, by decide, by decide, by decide,
    h.1, h.2.1⟩

/-- The scheduler leaves the descriptors alone; with an empty ready queue it
leaves the bag of PCBs alone, and otherwise the head of the ready queue replaces
the PCB in the slot of the CPU. -/
theorem scheduler_bag (prid : Nat) (st : State) (hp : prid < NCPU) :
    ∃ r, scheduler prid st = some r ∧ r.1.semd_h = st.semd_h ∧
      r.1.semd_table = st.semd_table ∧ r.1.semdFree_h = st.semdFree_h ∧
      (st.ReadyQueue = [] → pcbBag r.1 = pcbBag st) ∧
      (st.ReadyQueue ≠ [] →
        pcbBag r.1 + ((st.CurrentProcess prid).toList : Multiset Nat) = pcbBag st) := by
  rcases hq : st.ReadyQueue with _ | ⟨p, rest⟩
  · by_cases hc : st.ProcessCount = 0
    · exact ⟨_, scheduler_halt prid st hq hc, rfl, rfl, rfl,
        fun _ => pcbBag_congr rfl rfl rfl rfl rfl, fun h => absurd rfl h⟩
    · exact ⟨_, scheduler_wait prid st hq hc, rfl, rfl, rfl,
        fun _ => pcbBag_congr rfl rfl rfl rfl rfl, fun h => absurd rfl h⟩
  · obtain ⟨s, hsdef⟩ : ∃ s : State, s = { st with
        ReadyQueue := rest
        CurrentProcess := Function.update st.CurrentProcess prid (some p)
        timer := Function.update st.timer prid ((TIMESLICE * st.mem TIMESCALEADDR) % WORD)
        mem := Function.update st.mem TPR 0 } := ⟨_, rfl⟩
    have hsch : scheduler prid st = some (s, Control.LDST (st.pcbFree_table p).p_s) := by
      rw [hsdef]
      exact scheduler_dispatch prid st p rest hq
    refine ⟨_, hsch, by rw [hsdef], by rw [hsdef], by rw [hsdef], fun h => by simp at h,
      fun _ => ?_⟩
    have hs := slotList_update st prid hp (some p) s (by rw [hsdef])
    have hb : blockedList s = blockedList st := by rw [hsdef]; rfl
    have hr : s.ReadyQueue = rest := by rw [hsdef]
    have hf : s.pcbFree_h = st.pcbFree_h := by rw [hsdef]
    have hcons : ((p :: rest : List Nat) : Multiset Nat) =
        (([p] : List Nat) : Multiset Nat) + (rest : Multiset Nat) := by
      rw [Multiset.coe_add]; rfl
    have hsome : (((some p : Option Nat).toList : List Nat) : Multiset Nat) =
        (([p] : List Nat) : Multiset Nat) := rfl
    rw [hsome] at hs
    show pcbBag s + _ = _
    unfold pcbBag
    rw [hr, hb, hf, hq, hcons]
    have e1 : (rest : Multiset Nat) + (slotList s : Multiset Nat) + (blockedList st : Multiset Nat) +
        (st.pcbFree_h : Multiset Nat) + ((st.CurrentProcess prid).toList : Multiset Nat) =
        (rest : Multiset Nat) + (blockedList st : Multiset Nat) + (st.pcbFree_h : Multiset Nat) +
        ((slotList s : Multiset Nat) + ((st.CurrentProcess prid).toList : Multiset Nat)) := by abel
    rw [e1, hs]
    abel

/-- The number of active descriptors is at most the number of blocked PCBs. -/
theorem semd_h_length_le (st : State) (h : NoEmptyDescriptor st) :
    st.semd_h.length ≤ (blockedList st).length := by
  unfold blockedList
  have : ∀ l : List Nat, (∀ d, d ∈ l → (st.semd_table d).s_procq ≠ []) →
      l.length ≤ (l.flatMap (fun d => (st.semd_table d).s_procq)).length := by
    intro l
    induction l with
    | nil => intro _; simp
    | cons a t ih =>
      intro hl
      have ha := hl a (List.mem_cons_self _ _)
      have hpos : 0 < (st.semd_table a).s_procq.length := List.length_pos.mpr ha
      have := ih (fun d hd => hl d (List.mem_cons_of_mem _ hd))
      simp only [List.flatMap_cons, List.length_append, List.length_cons]
      omega
  exact this st.semd_h h

theorem pcbBag_card (st : State) :
    Multiset.card (pcbBag st) =
      st.ReadyQueue.length + (slotList st).length + (blockedList st).length + st.pcbFree_h.length := by
  unfold pcbBag
  simp
  omega

/-- A free descriptor is left as long as fewer PCBs are blocked than there are
descriptors. -/
theorem free_descriptor_left (st : State) (h : AslOk st)
    (hb : (blockedList st).length < MAXPROC) : st.semdFree_h ≠ [] := by
  intro h0
  have h1 := h.1.length_eq
  have h2 := semd_h_length_le st h.2
  rw [h0] at h1
  simp at h1
  omega

theorem accounted_iff (st : State) :
    Accounted st ↔
      (pcbBag st + (otherCpuPcbs : Multiset Nat) = ((List.range MAXPROC : List Nat) : Multiset Nat) ∧
        AslOk st) := by
  unfold Accounted AslOk accountedPcbs pcbBag
  rw [← Multiset.coe_eq_coe]
  simp only [← Multiset.coe_add, and_assoc]

theorem accounted_blocked_lt (st : State) (h : Accounted st) :
    (blockedList st).length < MAXPROC := by
  have h1 := ((accounted_iff st).mp h).1
  have h2 := congrArg Multiset.card h1
  rw [Multiset.card_add, pcbBag_card] at h2
  have h3 : Multiset.card ((otherCpuPcbs : List Nat) : Multiset Nat) = 7 := by decide
  have h4 : Multiset.card ((List.range MAXPROC : List Nat) : Multiset Nat) = MAXPROC := by simp
  rw [h3, h4] at h2
  omega

/-- The blocking branch of PASSEREN, VERHOGEN and DOIO moves the caller from its
slot to a blocked queue. -/
theorem blockCaller_bag (prid t1 t2 a : Nat) (st s1 : State) (hp : prid < NCPU)
    (h : AslOk st) (hlt : (blockedList st).length < MAXPROC)
    (hb : blockCaller prid t1 t2 a st = some s1) :
    pcbBag s1 = pcbBag st ∧ AslOk s1 ∧ s1.CurrentProcess prid = none := by
  unfold blockCaller at hb
  cases hcur : st.CurrentProcess prid with
  | none => simp [hcur] at hb
  | some cur =>
    simp only [hcur] at hb
    obtain ⟨s0, hs0⟩ : ∃ s : State, s = (getTimeElapsed t1 t2 st).2.updPcb cur (fun b =>
      { b with p_s := st.excState prid,
               p_time := (b.p_time + (getTimeElapsed t1 t2 st).1) % WORD, p_semAdd := a }) :=
      ⟨_, rfl⟩
    rw [← hs0] at hb
    obtain ⟨s2, hs2⟩ : ∃ s : State, s = (insertBlocked a cur s0).2 := ⟨_, rfl⟩
    rw [← hs2] at hb
    injection hb with hb
    have e1 : s0.ReadyQueue = st.ReadyQueue := by rw [hs0]; rfl
    have e2 : s0.CurrentProcess = st.CurrentProcess := by rw [hs0]; rfl
    have e3 : s0.semd_h = st.semd_h := by rw [hs0]; rfl
    have e4 : s0.semd_table = st.semd_table := by rw [hs0]; rfl
    have e5 : s0.pcbFree_h = st.pcbFree_h := by rw [hs0]; rfl
    have e6 : s0.semdFree_h = st.semdFree_h := by rw [hs0]; rfl
    have hbag0 : pcbBag s0 = pcbBag st := pcbBag_congr e1 e2 e3 e4 e5
    have hok0 : AslOk s0 := aslOk_congr e3 e4 e6 h
    have hlt0 : (blockedList s0).length < MAXPROC := by
      have : blockedList s0 = blockedList st := by unfold blockedList; rw [e3, e4]
      rw [this]; exact hlt
    have hins := insertBlocked_bag a cur s0 hok0 (fun _ => free_descriptor_left s0 hok0 hlt0)
    rw [← hs2] at hins
    have hf := insertBlocked_fields a cur s0
    rw [← hs2] at hf
    have g1 : s1.ReadyQueue = s2.ReadyQueue := by rw [← hb]; rfl
    have g3 : s1.semd_h = s2.semd_h := by rw [← hb]; rfl
    have g4 : s1.semd_table = s2.semd_table := by rw [← hb]; rfl
    have g5 : s1.pcbFree_h = s2.pcbFree_h := by rw [← hb]; rfl
    have g6 : s1.semdFree_h = s2.semdFree_h := by rw [← hb]; rfl
    have g2 : s1.CurrentProcess = Function.update s2.CurrentProcess prid none := by
      rw [← hb]; rfl
    have hsl := slotList_update s2 prid hp none s1 g2
    have hc2 : s2.CurrentProcess prid = some cur := by rw [hf.2.2.1, e2, hcur]
    rw [hc2] at hsl
    have hbl : blockedList s1 = blockedList s2 := by unfold blockedList; rw [g3, g4]
    refine ⟨?_, aslOk_congr g3 g4 g6 hins.2, by rw [g2]; simp⟩
    have hx : pcbBag s1 + (([cur] : List Nat) : Multiset Nat) = pcbBag s2 := by
      unfold pcbBag
      rw [g1, hbl, g5]
      have e : (s2.ReadyQueue : Multiset Nat) + (slotList s1 : Multiset Nat) +
          (blockedList s2 : Multiset Nat) + (s2.pcbFree_h : Multiset Nat) +
          (([cur] : List Nat) : Multiset Nat) =
          (s2.ReadyQueue : Multiset Nat) + ((slotList s1 : Multiset Nat) +
          (((some cur : Option Nat).toList : List Nat) : Multiset Nat)) +
          (blockedList s2 : Multiset Nat) + (s2.pcbFree_h : Multiset Nat) := by
        have : (((some cur : Option Nat).toList : List Nat) : Multiset Nat) =
            (([cur] : List Nat) : Multiset Nat) := rfl
        rw [this]; abel
      rw [e, hsl]
      simp
    rw [hins.1, hbag0] at hx
    exact add_right_cancel hx

/-- The scheduler run by a CPU whose slot is empty keeps the bag of PCBs. -/
theorem scheduler_idle_bag (prid : Nat) (st : State) (hp : prid < NCPU)
    (hc : st.CurrentProcess prid = none) :
    ∃ r, scheduler prid st = some r ∧ pcbBag r.1 = pcbBag st ∧ (AslOk st → AslOk r.1) := by
  obtain ⟨r, hr, e1, e2, e3, h1, h2⟩ := scheduler_bag prid st hp
  refine ⟨r, hr, ?_, fun h => aslOk_congr e1 e2 e3 h⟩
  by_cases hq : st.ReadyQueue = []
  · exact h1 hq
  · have := h2 hq
    rw [hc] at this
    simpa using this

theorem wakeOrSet_bag (a v : Nat) (st : State) (h : AslOk st) :
    pcbBag (wakeOrSet a v st) = pcbBag st ∧ AslOk (wakeOrSet a v st) := by
  have hr := removeBlocked_bag a st h
  cases h1 : (removeBlocked a st).1 with
  | none =>
    have e : wakeOrSet a v st =
        { (removeBlocked a st).2 with mem := Function.update (removeBlocked a st).2.mem a v } := by
      simp only [wakeOrSet, h1]
    rw [h1] at hr
    rw [e]
    refine ⟨?_, aslOk_congr rfl rfl rfl hr.2⟩
    rw [← hr.1]
    simp only [Option.toList, Multiset.coe_nil, add_zero]
    exact pcbBag_congr rfl rfl rfl rfl rfl
  | some u =>
    have e : wakeOrSet a v st =
        { (removeBlocked a st).2 with
            ReadyQueue := insertProcQ (removeBlocked a st).2.ReadyQueue u } := by
      simp only [wakeOrSet, h1]
    rw [h1] at hr
    rw [e]
    refine ⟨?_, aslOk_congr rfl rfl rfl hr.2⟩
    rw [← hr.1]
    unfold pcbBag insertProcQ
    have hs : slotList { (removeBlocked a st).2 with
        ReadyQueue := (removeBlocked a st).2.ReadyQueue ++ [u] } = slotList (removeBlocked a st).2 :=
      rfl
    have hb : blockedList { (removeBlocked a st).2 with
        ReadyQueue := (removeBlocked a st).2.ReadyQueue ++ [u] } =
        blockedList (removeBlocked a st).2 := rfl
    rw [hs, hb]
    simp only [← Multiset.coe_add, Option.toList]
    abel

theorem createProcess_bag (prid statep supp : Nat) (st s : State)
    (hr : createProcess prid statep supp st = some s) :
    pcbBag s = pcbBag st ∧ (AslOk st → AslOk s) := by
  cases hl : st.pcbFree_h.getLast? with
  | none =>
    have hnil : st.pcbFree_h = [] := List.getLast?_eq_none_iff.mp hl
    have e : s = st.setA0 prid (ofInt32 (-1)) := by
      unfold createProcess at hr
      rw [allocPcb_none st hnil] at hr
      injection hr with hr
      exact hr.symm
    rw [e]
    exact ⟨pcbBag_congr rfl rfl rfl rfl rfl, fun h => aslOk_congr rfl rfl rfl h⟩
  | some np =>
    have hsplit : st.pcbFree_h.dropLast ++ [np] = st.pcbFree_h :=
      List.dropLast_append_getLast? np (by simp [hl])
    have ha := allocPcb_some st np hl
    have hs : statep ≠ 0 := by
      intro h0
      simp [createProcess, ha, h0] at hr
    simp only [createProcess, ha, if_neg hs, Option.some.injEq] at hr
    have e1 : s.ReadyQueue = st.ReadyQueue ++ [np] := by
      rw [← hr]
      cases hc : st.CurrentProcess prid <;>
        simp [insertChild, _initPcb, State.updPcb, State.setA0, insertProcQ, hc]
    have e2 : s.CurrentProcess = st.CurrentProcess := by
      rw [← hr]
      cases hc : st.CurrentProcess prid <;>
        simp [insertChild, _initPcb, State.updPcb, State.setA0, insertProcQ, hc]
    have e3 : s.semd_h = st.semd_h := by
      rw [← hr]
      cases hc : st.CurrentProcess prid <;>
        simp [insertChild, _initPcb, State.updPcb, State.setA0, insertProcQ, hc]
    have e4 : s.semd_table = st.semd_table := by
      rw [← hr]
      cases hc : st.CurrentProcess prid <;>
        simp [insertChild, _initPcb, State.updPcb, State.setA0, insertProcQ, hc]
    have e5 : s.pcbFree_h = st.pcbFree_h.dropLast := by
      rw [← hr]
      cases hc : st.CurrentProcess prid <;>
        simp [insertChild, _initPcb, State.updPcb, State.setA0, insertProcQ, hc]
    have e6 : s.semdFree_h = st.semdFree_h := by
      rw [← hr]
      cases hc : st.CurrentProcess prid <;>
        simp [insertChild, _initPcb, State.updPcb, State.setA0, insertProcQ, hc]
    refine ⟨?_, fun h => aslOk_congr e3 e4 e6 h⟩
    unfold pcbBag slotList blockedList
    rw [e1, e2, e3, e4, e5]
    conv_rhs => rw [← hsplit]
    simp only [← Multiset.coe_add, List.dropLast_concat]
    abel

/-- A blocking service followed by the scheduler keeps the accounting. -/
theorem block_then_schedule (prid t1 t2 a : Nat) (st : State) (r : State × Control)
    (hp : prid < NCPU) (h : AslOk st) (hlt : (blockedList st).length < MAXPROC)
    (hr : (match blockCaller prid t1 t2 a st with
           | none => none
           | some st1 => scheduler prid st1) = some r) :
    pcbBag r.1 = pcbBag st ∧ AslOk r.1 := by
  cases hb : blockCaller prid t1 t2 a st with
  | none => simp [hb] at hr
  | some s1 =>
    simp only [hb] at hr
    obtain ⟨e1, e2, e3⟩ := blockCaller_bag prid t1 t2 a st s1 hp h hlt hb
    obtain ⟨r', hr', g1, g2⟩ := scheduler_idle_bag prid s1 hp e3
    rw [hr'] at hr
    injection hr with hr
    rw [← hr]
    exact ⟨g1.trans e1, g2 e2⟩

theorem passeren_bag (prid t1 t2 a : Nat) (st : State) (r : State × Control)
    (hp : prid < NCPU) (h : AslOk st) (hlt : (blockedList st).length < MAXPROC)
    (hr : passeren prid t1 t2 a st = some r) : pcbBag r.1 = pcbBag st ∧ AslOk r.1 := by
  unfold passeren at hr
  by_cases hv : st.mem a = 0
  · rw [if_pos hv] at hr
    exact block_then_schedule prid t1 t2 a st r hp h hlt hr
  · rw [if_neg hv] at hr
    injection hr with hr
    rw [← hr]
    exact wakeOrSet_bag a 0 st h

theorem verhogen_bag (prid t1 t2 a : Nat) (st : State) (r : State × Control)
    (hp : prid < NCPU) (h : AslOk st) (hlt : (blockedList st).length < MAXPROC)
    (hr : verhogen prid t1 t2 a st = some r) : pcbBag r.1 = pcbBag st ∧ AslOk r.1 := by
  unfold verhogen at hr
  by_cases hv : st.mem a = 1
  · rw [if_pos hv] at hr
    exact block_then_schedule prid t1 t2 a st r hp h hlt hr
  · rw [if_neg hv] at hr
    injection hr with hr
    rw [← hr]
    exact wakeOrSet_bag a 1 st h

theorem doIo_bag (prid t1 t2 c v : Nat) (st : State) (r : State × Control)
    (hp : prid < NCPU) (h : AslOk st) (hlt : (blockedList st).length < MAXPROC)
    (hr : doIo prid t1 t2 c v st = some r) : pcbBag r.1 = pcbBag st ∧ AslOk r.1 := by
  unfold doIo at hr
  cases hi : getDeviceSemaphoreIndex c with
  | none =>
    simp only [hi] at hr
    injection hr with hr
    rw [← hr]
    exact ⟨rfl, h⟩
  | some i =>
    simp only [hi] at hr
    obtain ⟨s0, hs0⟩ : ∃ s : State, s = { st with mem := Function.update st.mem c v } := ⟨_, rfl⟩
    rw [← hs0] at hr
    have hbag0 : pcbBag s0 = pcbBag st := by rw [hs0]; exact pcbBag_congr rfl rfl rfl rfl rfl
    have hok0 : AslOk s0 := by rw [hs0]; exact aslOk_congr rfl rfl rfl h
    have hlt0 : (blockedList s0).length < MAXPROC := by
      have : blockedList s0 = blockedList st := by rw [hs0]; rfl
      rw [this]; exact hlt
    have := block_then_schedule prid t1 t2 (devSemAddr st i) s0 r hp hok0 hlt0 hr
    exact ⟨this.1.trans hbag0, this.2⟩

theorem localTimer_bag (prid : Nat) (st : State) (r : State × Control) (hp : prid < NCPU)
    (h : AslOk st) (hr : handleProcessLocalTimerInterrupt prid st = some r) :
    pcbBag r.1 = pcbBag st ∧ AslOk r.1 := by
  unfold handleProcessLocalTimerInterrupt at hr
  cases hcur : st.CurrentProcess prid with
  | none => simp [hcur] at hr
  | some cur =>
    simp only [hcur] at hr
    obtain ⟨s0, hs0⟩ : ∃ s : State, s =
        { ({ st with timer := Function.update st.timer prid ((TIMESLICE * TIMESCALEADDR) % WORD) }.updPcb
            cur (fun b => { b with p_s := st.excState prid })) with
          ReadyQueue := insertProcQ st.ReadyQueue cur } := ⟨_, rfl⟩
    have hr0 : scheduler prid s0 = some r := by rw [hs0]; exact hr
    obtain ⟨r', hr', e1, e2, e3, _, h2⟩ := scheduler_bag prid s0 hp
    rw [hr0] at hr'
    injection hr' with hr'
    rw [← hr'] at e1 e2 e3 h2
    have hq : s0.ReadyQueue ≠ [] := by rw [hs0]; simp [insertProcQ]
    have hc0 : s0.CurrentProcess prid = some cur := by rw [hs0]; exact hcur
    have hb := h2 hq
    rw [hc0] at hb
    have hbag0 : pcbBag s0 = pcbBag st + (([cur] : List Nat) : Multiset Nat) := by
      rw [hs0]
      unfold pcbBag insertProcQ
      have hs : slotList { ({ st with timer := Function.update st.timer prid ((TIMESLICE * TIMESCALEADDR) % WORD) }.updPcb
            cur (fun b => { b with p_s := st.excState prid })) with
          ReadyQueue := st.ReadyQueue ++ [cur] } = slotList st := rfl
      have hbl : blockedList { ({ st with timer := Function.update st.timer prid ((TIMESLICE * TIMESCALEADDR) % WORD) }.updPcb
            cur (fun b => { b with p_s := st.excState prid })) with
          ReadyQueue := st.ReadyQueue ++ [cur] } = blockedList st := rfl
      rw [hs, hbl]
      show ((st.ReadyQueue ++ [cur] : List Nat) : Multiset Nat) + _ + _ + (st.pcbFree_h : Multiset Nat) = _
      simp only [← Multiset.coe_add]
      abel
    have hok0 : AslOk s0 := by rw [hs0]; exact aslOk_congr rfl rfl rfl h
    refine ⟨?_, aslOk_congr e1 e2 e3 hok0⟩
    rw [hbag0] at hb
    exact add_right_cancel hb

theorem drainBlocked_bag (a : Nat) :
    ∀ (fuel : Nat) (st s : State), AslOk st → drainBlocked fuel a st = some s →
      pcbBag s = pcbBag st ∧ AslOk s ∧ s.CurrentProcess = st.CurrentProcess := by
  intro fuel
  induction fuel with
  | zero => intro st s _ hd; simp [drainBlocked] at hd
  | succ n ih =>
    intro st s h hd
    have hr := removeBlocked_bag a st h
    have hf := removeBlocked_fields a st
    cases h1 : (removeBlocked a st).1 with
    | none =>
      simp only [drainBlocked, h1] at hd
      injection hd with hd
      rw [h1] at hr
      rw [← hd]
      refine ⟨?_, hr.2, hf.2.2.1⟩
      rw [← hr.1]
      simp
    | some u =>
      simp only [drainBlocked, h1] at hd
      rw [h1] at hr
      obtain ⟨s0, hs0⟩ : ∃ s : State, s = { (removeBlocked a st).2 with
          ReadyQueue := insertProcQ (removeBlocked a st).2.ReadyQueue u } := ⟨_, rfl⟩
      rw [← hs0] at hd
      have hok0 : AslOk s0 := by rw [hs0]; exact aslOk_congr rfl rfl rfl hr.2
      have hbag0 : pcbBag s0 = pcbBag st := by
        rw [← hr.1, hs0]
        unfold pcbBag insertProcQ
        have hs : slotList { (removeBlocked a st).2 with
            ReadyQueue := (removeBlocked a st).2.ReadyQueue ++ [u] } =
            slotList (removeBlocked a st).2 := rfl
        have hb : blockedList { (removeBlocked a st).2 with
            ReadyQueue := (removeBlocked a st).2.ReadyQueue ++ [u] } =
            blockedList (removeBlocked a st).2 := rfl
        rw [hs, hb]
        simp only [← Multiset.coe_add, Option.toList]
        abel
      obtain ⟨g1, g2, g3⟩ := ih s0 s hok0 hd
      refine ⟨g1.trans hbag0, g2, ?_⟩
      rw [g3, hs0]
      exact hf.2.2.1

theorem pseudoClock_bag (fuel prid : Nat) (st : State) (r : State × Control) (hp : prid < NCPU)
    (h : AslOk st) (hr : handlePseudoClockInterrupt fuel prid st = some r) :
    pcbBag r.1 = pcbBag st ∧ AslOk r.1 := by
  unfold handlePseudoClockInterrupt at hr
  obtain ⟨s1, hs1⟩ : ∃ s : State, s = LDIT PSECOND st := ⟨_, rfl⟩
  have hbag1 : pcbBag s1 = pcbBag st := by rw [hs1]; exact pcbBag_congr rfl rfl rfl rfl rfl
  have hok1 : AslOk s1 := by rw [hs1]; exact aslOk_congr rfl rfl rfl h
  simp only [← hs1] at hr
  have key : ∀ s2, (if (headBlocked (getPseudoClockSemaphore s1) s1).isSome
        then drainBlocked fuel (getPseudoClockSemaphore s1) s1 else some s1) = some s2 →
      pcbBag s2 = pcbBag s1 ∧ AslOk s2 := by
    intro s2 h2
    by_cases hh : (headBlocked (getPseudoClockSemaphore s1) s1).isSome = true
    · rw [if_pos hh] at h2
      obtain ⟨g1, g2, _⟩ := drainBlocked_bag _ fuel s1 s2 hok1 h2
      exact ⟨g1, g2⟩
    · rw [if_neg hh] at h2
      injection h2 with h2
      rw [← h2]
      exact ⟨rfl, hok1⟩
  cases h2 : (if (headBlocked (getPseudoClockSemaphore s1) s1).isSome
        then drainBlocked fuel (getPseudoClockSemaphore s1) s1 else some s1) with
  | none => simp [h2] at hr
  | some s2 =>
    simp only [h2] at hr
    obtain ⟨g1, g2⟩ := key s2 h2
    cases hc : s2.CurrentProcess prid with
    | none =>
      simp only [hc] at hr
      obtain ⟨r', hr', k1, k2⟩ := scheduler_idle_bag prid s2 hp hc
      rw [hr] at hr'
      injection hr' with hr'
      rw [hr']
      exact ⟨k1.trans (g1.trans hbag1), k2 g2⟩
    | some cur =>
      simp only [hc] at hr
      injection hr with hr
      rw [← hr]
      exact ⟨g1.trans hbag1, g2⟩

theorem nucleusCall_accounted (c : NucleusCall) (st s : State) (hp : c.cpu < NCPU)
    (h : Accounted st) (hr : c.run st = some s) : Accounted s := by
  have hlt := accounted_blocked_lt st h
  obtain ⟨hbag, hok⟩ := (accounted_iff st).mp h
  rw [accounted_iff]
  suffices hs : pcbBag s = pcbBag st ∧ AslOk s by
    rw [hs.1]
    exact ⟨hbag, hs.2⟩
  cases c with
  | dispatch prid =>
    simp only [NucleusCall.run] at hr
    by_cases hc : st.CurrentProcess prid = none
    · rw [if_pos hc] at hr
      obtain ⟨r, hr', g1, g2⟩ := scheduler_idle_bag prid st hp hc
      rw [hr'] at hr
      simp only [Option.map_some'] at hr
      injection hr with hr
      rw [← hr]
      exact ⟨g1, g2 hok⟩
    · rw [if_neg hc] at hr
      exact absurd hr (by simp)
  | create prid statep supp =>
    simp only [NucleusCall.run] at hr
    exact ⟨(createProcess_bag prid statep supp st s hr).1,
      (createProcess_bag prid statep supp st s hr).2 hok⟩
  | P prid t1 t2 a =>
    simp only [NucleusCall.run] at hr
    cases hq : passeren prid t1 t2 a st with
    | none => simp [hq] at hr
    | some r =>
      rw [hq] at hr
      simp only [Option.map_some'] at hr
      injection hr with hr
      rw [← hr]
      exact passeren_bag prid t1 t2 a st r hp hok hlt hq
  | V prid t1 t2 a =>
    simp only [NucleusCall.run] at hr
    cases hq : verhogen prid t1 t2 a st with
    | none => simp [hq] at hr
    | some r =>
      rw [hq] at hr
      simp only [Option.map_some'] at hr
      injection hr with hr
      rw [← hr]
      exact verhogen_bag prid t1 t2 a st r hp hok hlt hq
  | io prid t1 t2 ca cv =>
    simp only [NucleusCall.run] at hr
    cases hq : doIo prid t1 t2 ca cv st with
    | none => simp [hq] at hr
    | some r =>
      rw [hq] at hr
      simp only [Option.map_some'] at hr
      injection hr with hr
      rw [← hr]
      exact doIo_bag prid t1 t2 ca cv st r hp hok hlt hq
  | localTimer prid =>
    simp only [NucleusCall.run] at hr
    cases hq : handleProcessLocalTimerInterrupt prid st with
    | none => simp [hq] at hr
    | some r =>
      rw [hq] at hr
      simp only [Option.map_some'] at hr
      injection hr with hr
      rw [← hr]
      exact localTimer_bag prid st r hp hok hq
  | pseudoClock fuel prid =>
    simp only [NucleusCall.run] at hr
    cases hq : handlePseudoClockInterrupt fuel prid st with
    | none => simp [hq] at hr
    | some r =>
      rw [hq] at hr
      simp only [Option.map_some'] at hr
      injection hr with hr
      rw [← hr]
      exact pseudoClock_bag fuel prid st r hp hok hq

theorem runNucleus_accounted (cs : List NucleusCall) :
    ∀ (st s : State), (∀ c, c ∈ cs → c.cpu < NCPU) → Accounted st →
      runNucleus cs st = some s → Accounted s := by
  induction cs with
  | nil =>
    intro st s _ h hr
    simp only [runNucleus] at hr
    injection hr with hr
    rw [← hr]
    exact h
  | cons c cs ih =>
    intro st s hcpu h hr
    simp only [runNucleus] at hr
    cases h1 : c.run st with
    | none => simp [h1] at hr
    | some s1 =>
      rw [h1] at hr
      simp only [Option.some_bind] at hr
      exact ih s1 s (fun c' hc' => hcpu c' (List.mem_cons_of_mem _ hc'))
        (nucleusCall_accounted c st s1 (hcpu c (List.mem_cons_self _ _)) h h1) hr

/-- In an accounted state the PCBs that are not free are the reachable ones and
the `NCPU - 1` PCBs of the other CPUs. -/
theorem accounted_count (st : State) (h : Accounted st) :
    (reachablePcbs st).length + (NCPU - 1) = (nonFreePcbs st).length := by
  have hperm := h.1
  have hnd : (accountedPcbs st).Nodup := (hperm.nodup_iff).mpr (List.nodup_range _)
  unfold accountedPcbs at hperm hnd
  obtain ⟨R, hR⟩ : ∃ R, R = st.ReadyQueue ++ slotList st ++ blockedList st := ⟨_, rfl⟩
  rw [← hR] at hperm hnd
  have hndR : R.Nodup := List.Nodup.of_append_left (List.Nodup.of_append_left hnd)
  have hdis1 : ∀ x, x ∈ R → x ∉ st.pcbFree_h := fun x hx hf =>
    (List.disjoint_of_nodup_append (List.Nodup.of_append_left hnd)) hx hf
  have hdis2 : ∀ x, x ∈ otherCpuPcbs → x ∉ st.pcbFree_h := fun x hx hf =>
    (List.disjoint_of_nodup_append hnd) (List.mem_append_right _ hf) hx
  have hreach : reachablePcbs st = R := by
    unfold reachablePcbs
    rw [← hR]
    exact List.Nodup.dedup hndR
  have hfilter := (List.Perm.filter (fun p => decide (p ∉ st.pcbFree_h)) hperm).length_eq
  have e1 : R.filter (fun p => decide (p ∉ st.pcbFree_h)) = R :=
    List.filter_eq_self.mpr (fun x hx => by simpa using hdis1 x hx)
  have e2 : st.pcbFree_h.filter (fun p => decide (p ∉ st.pcbFree_h)) = [] :=
    List.filter_eq_nil_iff.mpr (fun x hx => by simpa using hx)
  have e3 : otherCpuPcbs.filter (fun p => decide (p ∉ st.pcbFree_h)) = otherCpuPcbs :=
    List.filter_eq_self.mpr (fun x hx => by simpa using hdis2 x hx)
  rw [List.filter_append, List.filter_append, e1, e2, e3] at hfilter
  unfold nonFreePcbs
  rw [← hfilter, hreach]
  simp [otherCpuPcbs, NCPU]

theorem mainInit_accounted (uTLB exc test sched : Nat) (st0 : State) :
    ∃ st, mainInit uTLB exc test sched st0 = some st ∧ Accounted st := by
  have h0 : (mainInit uTLB exc test sched st0).isSome = true := rfl
  obtain ⟨st, hst⟩ := Option.isSome_iff_exists.mp h0
  have q1 : (mainInit uTLB exc test sched st0).map (fun s => s.ReadyQueue) = some [19] := rfl
  have q2 : (mainInit uTLB exc test sched st0).map (fun s => s.pcbFree_h) =
      some (List.range 12) := rfl
  have q3 : (mainInit uTLB exc test sched st0).map (fun s => s.semd_h) = some [] := rfl
  have q4 : (mainInit uTLB exc test sched st0).map (fun s => s.semdFree_h) =
      some (List.range MAXPROC) := rfl
  have q5 : (mainInit uTLB exc test sched st0).map (fun s => s.CurrentProcess) =
      some (fun i => if i < NCPU then none else st0.CurrentProcess i) := rfl
  rw [hst] at q1 q2 q3 q4 q5
  simp only [Option.map_some', Option.some.injEq] at q1 q2 q3 q4 q5
  refine ⟨st, hst, ?_, ?_, ?_⟩
  · have hs : slotList st = [] := by
      unfold slotList
      rw [q5, List.flatMap_eq_nil_iff]
      intro i hi
      simp [List.mem_range.mp hi]
    unfold accountedPcbs blockedList
    rw [q1, q2, q3, hs]
    simp only [List.flatMap_nil, List.append_nil]
    decide
  · rw [q3, q4]
    exact List.Perm.refl _
  · intro d hd
    rw [q3] at hd
    simp at hd

/-! ### The accounting of PCBs from the boot sequence -/

/-- C21 (amended).  For every state of the machine at power-on `main` reaches
its call of the scheduler, and in the state it has built the number of PCBs
reachable from the ready queue, the `CurrentProcess` entries and the blocked
queues, plus the `NCPU - 1` PCBs `_initOtherPCBs` has allocated for the other
CPUs, equals the number of PCBs that are not on the free list.  The same holds
of every state reached from there by the scheduler run on an idle CPU, by
CREATEPROCESS, PASSEREN, VERHOGEN and DOIO requested on a CPU, and by local-timer
and pseudo-clock interrupts. -/
theorem boot_accounting (uTLB_RefillHandler exceptionHandler test schedulerAddr : Nat)
    (st0 : State) :
    ∃ st, mainInit uTLB_RefillHandler exceptionHandler test schedulerAddr st0 = some st ∧
      (reachablePcbs st).length + (NCPU - 1) = (nonFreePcbs st).length ∧
      ∀ (cs : List NucleusCall) (s : State), (∀ c, c ∈ cs → c.cpu < NCPU) →
        runNucleus cs st = some s →
        (reachablePcbs s).length + (NCPU - 1) = (nonFreePcbs s).length := by
  obtain ⟨st, hst, hacc⟩ :=
    mainInit_accounted uTLB_RefillHandler exceptionHandler test schedulerAddr st0
  exact ⟨st, hst, accounted_count st hacc, fun cs s hcpu hr =>
    accounted_count s (runNucleus_accounted cs st s hcpu hacc hr)⟩

set_option maxRecDepth 100000 in
theorem boot_accounting_witness :
    ∃ s, runNucleus bootRun bootState = some s ∧
      (reachablePcbs s).length = 3 ∧ (nonFreePcbs s).length = 10 ∧
      (reachablePcbs s).length + (NCPU - 1) = (nonFreePcbs s).length := by
  obtain ⟨st, hst, _, hrun⟩ := boot_accounting 0x20001100 0x20001200 0x20001300 0x20001400
    powerOnState
  have hb : bootState = st := by
    unfold bootState
    rw [hst]
    rfl
  have h0 : (runNucleus bootRun bootState).isSome = true := by decide
  obtain ⟨s, hs⟩ := Option.isSome_iff_exists.mp h0
  have h1 : (runNucleus bootRun bootState).map (fun s => (reachablePcbs s).length) = some 3 := by
    decide
  have h2 : (runNucleus bootRun bootState).map (fun s => (nonFreePcbs s).length) = some 10 := by
    decide
  rw [hs] at h1 h2
  simp only [Option.map_some', Option.some.injEq] at h1 h2
  refine ⟨s, hs, h1, h2, hrun bootRun s (by decide) ?_⟩
  rw [← hb]
  exact hs

set_option maxRecDepth 100000 in
/-- C21, counterexample.  In the state `main` has built from `powerOnState` when
it calls the scheduler the ready queue holds PCB 19 (the process of `test`), no
CPU has a current process and no PCB is blocked, so one PCB is reachable; the
free list holds the PCBs 0 to 11, so eight PCBs are not free: the seven PCBs 18
to 12 were allocated by `_initOtherPCBs` for the CPUs 1 to 7 and are in no queue
and no slot.  The numbers still differ after the scheduler has dispatched PCB 19
on CPU 0. -/
theorem boot_count_differs :
    (mainInit 0x20001100 0x20001200 0x20001300 0x20001400 powerOnState).map (fun s =>
        (s.ReadyQueue, slotList s, blockedList s, s.pcbFree_h, (reachablePcbs s).length,
          (nonFreePcbs s).length)) =
      some ([19], [], [], List.range 12, 1, 8) ∧
    (mainInit 0x20001100 0x20001200 0x20001300 0x20001400 powerOnState).map nonFreePcbs =
      some (otherCpuPcbs.reverse ++ [19]) ∧
    (main 0x20001100 0x20001200 0x20001300 0x20001400 powerOnState).map (fun r =>
        (r.1.ReadyQueue, slotList r.1, blockedList r.1, (reachablePcbs r.1).length,
          (nonFreePcbs r.1).length)) =
      some ([], [19], [], 1, 8) := by
  refine ⟨by decide, by decide, by decide⟩

/-! ### The state of a U-proc and the timer of the local-timer handler -/

set_option maxRecDepth 100000 in
/-- C31, the code at the failing input: for every ASID from 1 to 8 the state
`_initState` of initProc.c fabricates has PC `0x800000B0`, SP `0xC0000000` and
the ASID in the ASID field of `entry_hi`, but its status word is
`IMON | TEBITON | USERPON | IEPON = 0x0800FF0C`, whose previous-privilege field
(`status & MSTATUS_MPP_MASK`) is `0x1800`, the machine-mode value, because
`IMON = 0xFF00` covers the bits 11 and 12.  `SYSCALL_handler` therefore takes the
branch of a kernel-mode caller: a TERMPROCESS requested from that state (U-proc
1, PCB 19) is served by the nucleus, which frees the PCB, and no PRIVINSTR
cause is set; GETPROCESSID returns the pid. -/
theorem uproc_state_is_machine_mode :
    (∀ (state : state_t) (asid : Nat), 1 ≤ asid → asid ≤ 8 →
      (initProc._initState state asid).pc_epc = 0x800000B0 ∧
      (initProc._initState state asid).reg_sp = 0xC0000000 ∧
      ((initProc._initState state asid).entry_hi >>> ASIDSHIFT) &&& 0x3F = asid ∧
      (initProc._initState state asid).status = 0x0800FF0C ∧
      (initProc._initState state asid).status &&& MSTATUS_MPP_MASK = MSTATUS_MPP_M) ∧
    (initProc._initState _initState 1).status &&& MSTATUS_MPP_MASK ≠ 0 ∧
    (SYSCALL_handler 10 0 0 0 (uprocState TERMPROCESS 0 64)).map (fun r =>
        (r.2, r.1.pcbFree_h.getLast?, r.1.ProcessCount, slotList r.1, (r.1.excState 0).cause)) =
      some (Control.HALT, some 19, 0, [], 0) ∧
    (SYSCALL_handler 10 0 0 0 (uprocState GETPROCESSID 0 64)).map (fun r =>
        ((r.1.excState 0).reg_a0, (r.1.excState 0).cause)) = some (1, 0) := by
  refine ⟨?_, by decide, by decide, by decide⟩
  intro state asid h1 h8
  have hs : (initProc._initState state asid).status = IMON ||| TEBITON ||| USERPON ||| IEPON := rfl
  refine ⟨rfl, rfl, ?_, by rw [hs]; decide, by rw [hs]; decide⟩
  show (((asid <<< ASIDSHIFT) % WORD) >>> ASIDSHIFT) &&& 0x3F = asid
  interval_cases asid <;> decide

set_option maxRecDepth 100000 in
/-- C33, the code at the failing input: with 1 in the time-scale register the
handler of the processor local timer calls the scheduler in a state in which
the timer of the CPU holds `TIMESLICE * TIMESCALEADDR` modulo `2 ^ 32`, that is
2147663648 (the product with the address `0x10000024` of the register), and not
`TIMESLICE` times the content of the register, 5000; in that state the saved
exception state is stored in the running PCB and the PCB is at the tail of the
ready queue.  For every state the handler is the scheduler run on that state;
the scheduler then dispatches and programs the timer with 5000. -/
theorem localTimer_rearm_uses_address :
    (∀ (prid cur : Nat) (st : State), st.CurrentProcess prid = some cur →
      ∃ s : State, handleProcessLocalTimerInterrupt prid st = scheduler prid s ∧
        s.timer prid = (TIMESLICE * TIMESCALEADDR) % WORD ∧
        (s.pcbFree_table cur).p_s = st.excState prid ∧
        s.ReadyQueue = st.ReadyQueue ++ [cur]) ∧
    (TIMESLICE * TIMESCALEADDR) % WORD = 2147663648 ∧
    (TIMESLICE * timeScaleOneState.mem TIMESCALEADDR) % WORD = 5000 ∧
    timeScaleOneState.CurrentProcess 0 = some 19 ∧
    (handleProcessLocalTimerInterrupt 0 timeScaleOneState).map (fun r =>
        (r.1.timer 0, r.1.ReadyQueue, slotList r.1)) = some (5000, [], [19]) := by
  refine ⟨?_, by decide, by decide, by decide, by decide⟩
  intro prid cur st hcur
  refine ⟨_, by simp only [handleProcessLocalTimerInterrupt, hcur]; rfl, ?_, ?_, rfl⟩
  · simp [State.updPcb]
  · simp [State.updPcb]

theorem word_eq : WORD = 4294967296 := by norm_num [WORD]

/-- Outside the terminal window an offset between 0 and `5 * INT_LINE_OFFSET`
is below the offset of the first terminal. -/
theorem device_offset_bound (cmdAddr : Nat) (hw : cmdAddr < WORD)
    (hwin : ¬ (0x10000254 ≤ cmdAddr ∧ cmdAddr < 0x10000354))
    (h0 : 0 ≤ toInt32 (sub32 (sub32 cmdAddr 0x4) START_DEVREG))
    (h1 : toInt32 (sub32 (sub32 cmdAddr 0x4) START_DEVREG) ≤ 640) :
    toInt32 (sub32 (sub32 cmdAddr 0x4) START_DEVREG) < 508 := by
  rw [word_eq] at hw
  unfold toInt32 sub32 at *
  simp only [word_eq, START_DEVREG] at *
  have e31 : (2 : Nat) ^ 31 = 2147483648 := by norm_num
  have e32 : (2 : Int) ^ 32 = 4294967296 := by norm_num
  simp only [e31, e32] at *
  split_ifs at h0 h1 ⊢ <;> omega

set_option maxRecDepth 100000 in
/-- C39, the code at the failing input: the terminal window
`[0x10000254, 0x10000354)` of `getDeviceSemaphoreIndex` is twice as long as the
registers of the eight terminals.  On `0x100002D8` (offset 4 of the ninth
16-byte block of the window) the function returns 48, the index of the
pseudo-clock semaphore; on `0x10000348` it returns 62, beyond the 49 entries of
`DeviceSemaphores`; on `0x10000254` (a status register) it returns -1.  DOIO on
`0x100002D8` blocks its caller (PCB 19) on the pseudo-clock semaphore.  Outside
the window every index returned is between 0 and 47. -/
theorem deviceSemaphoreIndex_out_of_range :
    getDeviceSemaphoreIndex 0x100002D8 = some 48 ∧
    NSUPPSEM = 48 ∧
    getDeviceSemaphoreIndex 0x10000348 = some 62 ∧
    getDeviceSemaphoreIndex 0x10000254 = some (-1) ∧
    (doIo 0 0 0 0x100002D8 2 oneProcessState).map (fun r =>
        (blockedQueue (getPseudoClockSemaphore r.1) r.1, slotList r.1,
          decide ((r.1.pcbFree_table 19).p_semAdd = getPseudoClockSemaphore r.1))) =
      some ([19], [], true) ∧
    (∀ (cmdAddr : Nat) (i : Int), cmdAddr < WORD →
      ¬ (0x10000254 ≤ cmdAddr ∧ cmdAddr < 0x10000354) →
      getDeviceSemaphoreIndex cmdAddr = some i → 0 ≤ i ∧ i ≤ 47) := by
  refine ⟨by decide, by decide, by decide, by decide, by decide, ?_⟩
  intro cmdAddr i hw hwin h
  have hb := device_offset_bound cmdAddr hw hwin
  unfold getDeviceSemaphoreIndex at h
  rw [if_neg hwin] at h
  simp only [] at h
  generalize toInt32 (sub32 (sub32 cmdAddr 0x4) START_DEVREG) = o at h hb
  simp only [INT_LINE_OFFSET, DEVREGSIZE, DEVS_PER_LINE] at h
  split at h
  · exact absurd h (by simp)
  · rename_i hc
    injection h with h
    push_neg at hc
    have h3 := hb hc.1 (by simpa using hc.2)
    have h4 := hc.1
    norm_num at h
    omega

set_option maxRecDepth 100000 in
/-- C40, the code at the failing input: for `entry_hi = 0x80020040` (page
`0x80020`, ASID 1) both handlers compute the page-table index 32, which is not
below `USERPGTBLSIZE`; for `0x800FF040` they compute 255.  The TLB-refill
handler then loads `sup_privatePgTbl[32]`, and the page-fault handler of
U-proc 1 stores the frame address in `sup_privatePgTbl[32]` and records a
pointer to that entry in the swap table.  For every `entry_hi` the two handlers
compute the same index, and it is below 256. -/
theorem page_index_out_of_range :
    refillIndex 0x80020040 = 32 ∧ faultIndex 0x80020040 = 32 ∧
    ¬ (refillIndex 0x80020040 < USERPGTBLSIZE) ∧
    refillIndex 0x800FF040 = 255 ∧
    (∀ st : State, st.CurrentProcess 0 = some 19 → (st.pcbFree_table 19).p_supportStruct ≠ 0 →
      (st.excState 0).entry_hi = 0x80020040 →
      uTLB_RefillHandler 0 st =
        some ((st.supportMem (st.pcbFree_table 19).p_supportStruct).sup_privatePgTbl 32,
          Control.LDST (st.excState 0))) ∧
    (runSup [SupCall.fault (supportAddr 1) 0x80020 READY READY] supBoot).map (fun s =>
        (((s.supportMem (supportAddr 1)).sup_privatePgTbl 32).pte_entryLO, (s.SwapTable 0).sw_pte)) =
      some (frameAddr 0 ||| VALIDON ||| DIRTYON, some (supportAddr 1, 32)) ∧
    (∀ entry_hi : Nat, faultIndex entry_hi = (refillIndex entry_hi : Nat) ∧
      refillIndex entry_hi < 256) := by
  refine ⟨by decide, by decide, by decide, by decide, ?_, by decide, ?_⟩
  · intro st hc hs he
    simp only [uTLB_RefillHandler, hc, he, if_neg hs]
    rfl
  · intro entry_hi
    have hm : ∀ x : Nat, x &&& 0xFF = x % 256 := fun x =>
      Nat.and_pow_two_sub_one_eq_mod x 8
    unfold faultIndex refillIndex GET_PAGE_INDEX USERPGTBLSIZE
    simp only [hm]
    by_cases hv : (entry_hi &&& 0xFFFFF000) >>> VPNSHIFT = 0xBFFFF
    · simp [hv]
    · have hv' : ((((entry_hi &&& 0xFFFFF000) >>> VPNSHIFT : Nat) : Int)) ≠ 0xBFFFF := by
        intro h
        exact hv (by exact_mod_cast h)
      rw [if_neg hv, if_neg hv']
      refine ⟨by norm_cast, Nat.mod_lt _ (by decide)⟩

set_option maxRecDepth 100000 in
/-- C38, the code at the failing input: from `oneProcessState`, whose ASL is
the one `initASL` builds, PCB 19 is blocked by `insertBlocked` on twenty
different semaphores in turn and taken out by `outBlocked` each time.
Afterwards no PCB is blocked, the twenty descriptors are all on the active
chain with empty queues, the free list is empty, and `insertBlocked` of PCB 19
on a further semaphore returns the failure value 1. -/
theorem insertBlocked_fails_after_outBlocked :
    oneProcessState.semd_h = [] ∧ oneProcessState.semdFree_h = List.range MAXPROC ∧
    blockedList twentyRoundsState = [] ∧
    twentyRoundsState.semd_h.length = 20 ∧
    (∀ d, d ∈ twentyRoundsState.semd_h → (twentyRoundsState.semd_table d).s_procq = []) ∧
    twentyRoundsState.semdFree_h = [] ∧
    findSemd 0x20004000 twentyRoundsState = none ∧
    (insertBlocked 0x20004000 19 twentyRoundsState).1 = 1 := by
  refine ⟨by decide, by decide, by decide, by decide, by decide, by decide, by decide, by decide⟩

/-! ### The page tables of the instantiator and the flash transfers -/

theorem initSupport_table (supp asid gh th sg stk : Nat) (st : SupState) (i : Nat) :
    ((_initSupport supp asid gh th sg stk st).supportMem supp).sup_privatePgTbl i =
      (if i < USERPGTBLSIZE - 1 then
        { pte_entryHI := (0x80000000 + (i <<< VPNSHIFT) + (asid <<< ASIDSHIFT)) % WORD,
          pte_entryLO := DIRTYON }
      else if i = USERPGTBLSIZE - 1 then
        { pte_entryHI := (0xBFFFF000 + (asid <<< ASIDSHIFT)) % WORD, pte_entryLO := DIRTYON }
      else ((st.supportMem supp).sup_privatePgTbl i)) := by
  simp [_initSupport]

/-- The entry `_initSupport` builds at index `i` for the address space `a`. -/
theorem initSupport_entries :
    ∀ a, a ∈ List.range' 1 8 → ∀ i, i ∈ List.range 32 →
      ∀ e : pteEntry_t,
        e = (if i < USERPGTBLSIZE - 1 then
          ({ pte_entryHI := (0x80000000 + (i <<< VPNSHIFT) + (a <<< ASIDSHIFT)) % WORD,
             pte_entryLO := DIRTYON } : pteEntry_t)
        else { pte_entryHI := (0xBFFFF000 + (a <<< ASIDSHIFT)) % WORD, pte_entryLO := DIRTYON }) →
        e.pte_entryLO &&& VALIDON = 0 ∧
        (e.pte_entryHI >>> ASIDSHIFT) &&& 0x3F = a ∧
        e.pte_entryHI >>> VPNSHIFT = (if i < 31 then 0x80000 + i else 0xBFFFF) ∧
        e.pte_entryHI < WORD ∧
        refillIndex e.pte_entryHI = i ∧ faultIndex e.pte_entryHI = (i : Nat) := by
  have h : ∀ a, a ∈ List.range' 1 8 → ∀ i, i ∈ List.range 32 →
      ((if i < USERPGTBLSIZE - 1 then
          ({ pte_entryHI := (0x80000000 + (i <<< VPNSHIFT) + (a <<< ASIDSHIFT)) % WORD,
             pte_entryLO := DIRTYON } : pteEntry_t)
        else { pte_entryHI := (0xBFFFF000 + (a <<< ASIDSHIFT)) % WORD, pte_entryLO := DIRTYON }).pte_entryLO &&& VALIDON = 0 ∧
       (((if i < USERPGTBLSIZE - 1 then
          ({ pte_entryHI := (0x80000000 + (i <<< VPNSHIFT) + (a <<< ASIDSHIFT)) % WORD,
             pte_entryLO := DIRTYON } : pteEntry_t)
        else { pte_entryHI := (0xBFFFF000 + (a <<< ASIDSHIFT)) % WORD, pte_entryLO := DIRTYON }).pte_entryHI >>> ASIDSHIFT) &&& 0x3F = a) ∧
       ((if i < USERPGTBLSIZE - 1 then
          ({ pte_entryHI := (0x80000000 + (i <<< VPNSHIFT) + (a <<< ASIDSHIFT)) % WORD,
             pte_entryLO := DIRTYON } : pteEntry_t)
        else { pte_entryHI := (0xBFFFF000 + (a <<< ASIDSHIFT)) % WORD, pte_entryLO := DIRTYON }).pte_entryHI >>> VPNSHIFT = (if i < 31 then 0x80000 + i else 0xBFFFF)) ∧
       ((if i < USERPGTBLSIZE - 1 then
          ({ pte_entryHI := (0x80000000 + (i <<< VPNSHIFT) + (a <<< ASIDSHIFT)) % WORD,
             pte_entryLO := DIRTYON } : pteEntry_t)
        else { pte_entryHI := (0xBFFFF000 + (a <<< ASIDSHIFT)) % WORD, pte_entryLO := DIRTYON }).pte_entryHI < WORD) ∧
       (refillIndex (if i < USERPGTBLSIZE - 1 then
          ({ pte_entryHI := (0x80000000 + (i <<< VPNSHIFT) + (a <<< ASIDSHIFT)) % WORD,
             pte_entryLO := DIRTYON } : pteEntry_t)
        else { pte_entryHI := (0xBFFFF000 + (a <<< ASIDSHIFT)) % WORD, pte_entryLO := DIRTYON }).pte_entryHI = i) ∧
       (faultIndex (if i < USERPGTBLSIZE - 1 then
          ({ pte_entryHI := (0x80000000 + (i <<< VPNSHIFT) + (a <<< ASIDSHIFT)) % WORD,
             pte_entryLO := DIRTYON } : pteEntry_t)
        else { pte_entryHI := (0xBFFFF000 + (a <<< ASIDSHIFT)) % WORD, pte_entryLO := DIRTYON }).pte_entryHI = (i : Nat))) := by
    decide
  intro a ha i hi e he
  rw [he]
  exact h a ha i hi


/-- The page number both handlers extract is the value of the bits 31..12. -/
theorem vpn_of_entry_hi (entry_hi : Nat) (h : entry_hi < WORD) :
    (entry_hi &&& 0xFFFFF000) >>> VPNSHIFT = entry_hi >>> VPNSHIFT := by
  rw [word_eq] at h
  have h1 : (entry_hi &&& 0xFFFFF000) >>> VPNSHIFT =
      (entry_hi >>> VPNSHIFT) &&& (0xFFFFF000 >>> VPNSHIFT) := by
    apply Nat.eq_of_testBit_eq
    intro i
    simp [Nat.testBit_shiftRight, Nat.testBit_and]
  have h2 : (0xFFFFF000 : Nat) >>> VPNSHIFT = 2 ^ 20 - 1 := by decide
  have h3 : entry_hi >>> VPNSHIFT < 2 ^ 20 := by
    rw [Nat.shiftRight_eq_div_pow]
    unfold VPNSHIFT
    omega
  rw [h1, h2, Nat.and_pow_two_sub_one_eq_mod, Nat.mod_eq_of_lt h3]

theorem index_of_vpn (x y : Nat) (hx : x < WORD) (hy : y < WORD)
    (h : x >>> VPNSHIFT = y >>> VPNSHIFT) :
    refillIndex x = refillIndex y ∧ faultIndex x = faultIndex y := by
  unfold refillIndex faultIndex
  rw [vpn_of_entry_hi x hx, vpn_of_entry_hi y hy, h]
  exact ⟨rfl, rfl⟩

/-- C36.  For every ASID `a` from 1 to 8 and every `i` from 0 to 31, entry `i`
of the page table `_initSupport` builds has its valid bit clear, carries `a` in
the ASID field of entryHI and has the page number `0x80000 + i` for `i` below 31
and `0xBFFFF` for `i = 31`; the index the TLB-refill handler and the page-fault
handler compute from that entryHI, and from every `entry_hi` with the same
page number, is `i`; and the TLB-refill handler run for a process with that
page table on such an `entry_hi` loads entry `i`. -/
theorem instantiator_page_table (supp a gh th sg stk : Nat) (st : SupState) (i : Nat)
    (ha1 : 1 ≤ a) (ha8 : a ≤ 8) (hi : i < 32) :
    (((_initSupport supp a gh th sg stk st).supportMem supp).sup_privatePgTbl i).pte_entryLO &&&
        VALIDON = 0 ∧
    ((((_initSupport supp a gh th sg stk st).supportMem supp).sup_privatePgTbl i).pte_entryHI >>>
        ASIDSHIFT) &&& 0x3F = a ∧
    (((_initSupport supp a gh th sg stk st).supportMem supp).sup_privatePgTbl i).pte_entryHI >>>
        VPNSHIFT = (if i < 31 then 0x80000 + i else 0xBFFFF) ∧
    (∀ entry_hi : Nat, entry_hi < WORD →
      entry_hi >>> VPNSHIFT = (if i < 31 then 0x80000 + i else 0xBFFFF) →
      refillIndex entry_hi = i ∧ faultIndex entry_hi = (i : Nat)) ∧
    (∀ (ks : State) (prid cur : Nat), ks.CurrentProcess prid = some cur →
      (ks.pcbFree_table cur).p_supportStruct = supp → supp ≠ 0 →
      ks.supportMem supp = (_initSupport supp a gh th sg stk st).supportMem supp →
      (ks.excState prid).entry_hi < WORD →
      (ks.excState prid).entry_hi >>> VPNSHIFT = (if i < 31 then 0x80000 + i else 0xBFFFF) →
      uTLB_RefillHandler prid ks =
        some (((_initSupport supp a gh th sg stk st).supportMem supp).sup_privatePgTbl i,
          Control.LDST (ks.excState prid))) := by
  have hmem_a : a ∈ List.range' 1 8 := by
    rw [List.mem_range']
    exact ⟨a - 1, by omega, by omega⟩
  have hmem_i : i ∈ List.range 32 := List.mem_range.mpr hi
  have htab := initSupport_table supp a gh th sg stk st i
  have he : ((_initSupport supp a gh th sg stk st).supportMem supp).sup_privatePgTbl i =
      (if i < USERPGTBLSIZE - 1 then
          ({ pte_entryHI := (0x80000000 + (i <<< VPNSHIFT) + (a <<< ASIDSHIFT)) % WORD,
             pte_entryLO := DIRTYON } : pteEntry_t)
        else { pte_entryHI := (0xBFFFF000 + (a <<< ASIDSHIFT)) % WORD, pte_entryLO := DIRTYON }) := by
    rw [htab]
    by_cases h31 : i < USERPGTBLSIZE - 1
    · rw [if_pos h31, if_pos h31]
    · have : i = USERPGTBLSIZE - 1 := by
        unfold USERPGTBLSIZE at h31 ⊢
        omega
      rw [if_neg h31, if_neg h31, if_pos this]
  obtain ⟨e1, e2, e3, e4, e5, e6⟩ := initSupport_entries a hmem_a i hmem_i _ he
  have hidx : ∀ entry_hi : Nat, entry_hi < WORD →
      entry_hi >>> VPNSHIFT = (if i < 31 then 0x80000 + i else 0xBFFFF) →
      refillIndex entry_hi = i ∧ faultIndex entry_hi = (i : Nat) := by
    intro x hx hv
    obtain ⟨g1, g2⟩ := index_of_vpn x _ hx e4 (hv.trans e3.symm)
    exact ⟨g1.trans e5, g2.trans e6⟩
  refine ⟨e1, e2, e3, hidx, ?_⟩
  intro ks prid cur hc hs hn hm hw hv
  have hsn : (ks.pcbFree_table cur).p_supportStruct ≠ 0 := by rw [hs]; exact hn
  simp only [uTLB_RefillHandler, hc]
  rw [if_neg hsn, hs, hm, (hidx _ hw hv).1]

set_option maxRecDepth 100000 in
theorem instantiator_page_table_witness :
    1 ≤ 1 ∧ 1 ≤ 8 ∧ 3 < 32 ∧
    (((_initSupport (supportAddr 1) 1 0x20004000 0x20005000 (supportAddr 1 + 0x800)
        (supportAddr 1 + 0x400) (initSwapStructs supZero)).supportMem
        (supportAddr 1)).sup_privatePgTbl 3).pte_entryHI >>> VPNSHIFT = 0x80003 :=
  ⟨by decide, by decide, by decide,
    ((instantiator_page_table (supportAddr 1) 1 0x20004000 0x20005000 (supportAddr 1 + 0x800)
      (supportAddr 1 + 0x400) (initSwapStructs supZero) 3 (by decide) (by decide)
      (by decide)).2.2.1).trans (by decide)⟩

theorem flash_device_base :
    ∀ a, a ∈ List.range' 1 8 →
      GET_DEV_BASE 4 ((a : Nat) - 1 : Int) = 0x100000D4 + (a - 1) * 0x10 ∧
      getDeviceSemaphoreIndex (0x100000D4 + (a - 1) * 0x10 + 4) = some (((8 + (a - 1) : Nat)) : Int) := by
  decide

theorem request_frame (st : SupState) (a0 a1 a2 a3 : Nat) :
    (st.request a0 a1 a2 a3).mem = st.mem ∧
    (st.request a0 a1 a2 a3).supportMem = st.supportMem ∧
    (st.request a0 a1 a2 a3).SwapTable = st.SwapTable ∧
    (st.request a0 a1 a2 a3).trace = st.trace ++ [{ a0 := a0, a1 := a1, a2 := a2, a3 := a3 }] :=
  ⟨rfl, rfl, rfl, rfl⟩

/-- `terminateUProc` leaves the memory and the support structures as they are
and only adds requests to the trace. -/
theorem terminateUProc_frame (supp : Nat) (st : SupState) :
    (terminateUProc supp st).mem = st.mem ∧
    (terminateUProc supp st).supportMem = st.supportMem ∧
    ∃ rest, (terminateUProc supp st).trace = st.trace ++ rest := by
  have hfold : ∀ (l : List Nat) (f : Nat → Int) (s : SupState),
      (l.foldl (fun s i =>
        if s.mem (s.supportSemAddr (f i)) = 0 then s.request VERHOGEN (s.supportSemAddr (f i)) 0 0
        else s) s).mem = s.mem ∧
      (l.foldl (fun s i =>
        if s.mem (s.supportSemAddr (f i)) = 0 then s.request VERHOGEN (s.supportSemAddr (f i)) 0 0
        else s) s).supportMem = s.supportMem ∧
      (l.foldl (fun s i =>
        if s.mem (s.supportSemAddr (f i)) = 0 then s.request VERHOGEN (s.supportSemAddr (f i)) 0 0
        else s) s).AsidInSwapPool = s.AsidInSwapPool ∧
      ∃ rest, (l.foldl (fun s i =>
        if s.mem (s.supportSemAddr (f i)) = 0 then s.request VERHOGEN (s.supportSemAddr (f i)) 0 0
        else s) s).trace = s.trace ++ rest := by
    intro l f
    induction l with
    | nil => intro s; exact ⟨rfl, rfl, rfl, [], by simp⟩
    | cons x t ih =>
      intro s
      simp only [List.foldl_cons]
      by_cases hc : s.mem (s.supportSemAddr (f x)) = 0
      · rw [if_pos hc]
        obtain ⟨h1, h2, h3, rest, h4⟩ := ih (s.request VERHOGEN (s.supportSemAddr (f x)) 0 0)
        refine ⟨h1, h2, h3,
          ({ a0 := VERHOGEN, a1 := s.supportSemAddr (f x), a2 := 0, a3 := 0 } : Request) :: rest, ?_⟩
        rw [h4]
        simp [SupState.request]
      · rw [if_neg hc]
        exact ih s
  obtain ⟨s1, hs1⟩ : ∃ s : SupState, s = (List.range' 3 6).foldl (fun s i =>
      if s.mem (s.supportSemAddr (getDeviceSemIndex (i : Nat)
          ((((st.supportMem supp).sup_asid : Nat) : Int) - 1))) = 0
      then s.request VERHOGEN (s.supportSemAddr (getDeviceSemIndex (i : Nat)
          ((((st.supportMem supp).sup_asid : Nat) : Int) - 1))) 0 0
      else s) st := ⟨_, rfl⟩
  obtain ⟨h1, h2, _, rest, h4⟩ := hfold (List.range' 3 6)
    (fun i => getDeviceSemIndex (i : Nat) ((((st.supportMem supp).sup_asid : Nat) : Int) - 1)) st
  rw [← hs1] at h1 h2 h4
  have hdef : terminateUProc supp st =
      ((if ({ s1 with SwapTable := fun i =>
            if i < SWAP_POOL_SIZE ∧ (s1.SwapTable i).sw_asid = (((st.supportMem supp).sup_asid : Nat) : Int) then
              { sw_asid := -1, sw_pageNo := -1, sw_pte := none }
            else s1.SwapTable i } : SupState).AsidInSwapPool = (((st.supportMem supp).sup_asid : Nat) : Int) then
          ({ ({ s1 with SwapTable := fun i =>
            if i < SWAP_POOL_SIZE ∧ (s1.SwapTable i).sw_asid = (((st.supportMem supp).sup_asid : Nat) : Int) then
              { sw_asid := -1, sw_pageNo := -1, sw_pte := none }
            else s1.SwapTable i } : SupState) with AsidInSwapPool := 0 } : SupState).request VERHOGEN s1.SwapPoolSemaphore 0 0
        else ({ s1 with SwapTable := fun i =>
            if i < SWAP_POOL_SIZE ∧ (s1.SwapTable i).sw_asid = (((st.supportMem supp).sup_asid : Nat) : Int) then
              { sw_asid := -1, sw_pageNo := -1, sw_pte := none }
            else s1.SwapTable i } : SupState)).request VERHOGEN s1.MasterSemaphore 0 0).request
        TERMPROCESS 0 0 0 := by
    rw [hs1]
    unfold terminateUProc
    simp only []
    split <;> rfl
  rw [hdef]
  split
  · refine ⟨h1, h2, rest ++ [({ a0 := VERHOGEN, a1 := s1.SwapPoolSemaphore, a2 := 0, a3 := 0 } : Request),
      ({ a0 := VERHOGEN, a1 := s1.MasterSemaphore, a2 := 0, a3 := 0 } : Request),
      ({ a0 := TERMPROCESS, a1 := 0, a2 := 0, a3 := 0 } : Request)], ?_⟩
    simp [SupState.request, h4]
  · refine ⟨h1, h2, rest ++ [({ a0 := VERHOGEN, a1 := s1.MasterSemaphore, a2 := 0, a3 := 0 } : Request),
      ({ a0 := TERMPROCESS, a1 := 0, a2 := 0, a3 := 0 } : Request)], ?_⟩
    simp [SupState.request, h4]

/-- C35 (amended).  For every ASID `a` from 1 to 8, every page number whose
page-table index is `i` (in particular every `i` from 0 to 31) and every
command (in particular FLASHREAD, 2, and FLASHWRITE, 3), `_flashIO` stores the
frame address in `data0` of flash device `a - 1` (line 4), and its requests to
the nucleus are GETSUPPORTPTR followed by DOIO on the command register
`0x100000D4 + (a - 1) * 0x10 + 4` with the value `(i << 8) | command`, followed
by nothing more when the status is READY; `getDeviceSemaphoreIndex` maps that
register to the index `8 + (a - 1)`.  The nucleus `doIo` on that register,
called by the process `cur` running on CPU `prid` when the semaphore
`DeviceSemaphores[8 + (a - 1)]` has a descriptor on the ASL or a free
descriptor is left, writes the command value to the register and blocks the
caller on that semaphore: when the scheduler is entered `cur` is the last
element of the blocked queue of that semaphore, its `p_semAdd` is the address
of that semaphore, slot `prid` is null and the ready queue is unchanged.  The
block number `i` depends on the page only, so it is the same when the page is
written out and when it is read back. -/
theorem flashIO_transfer (a : Nat) (vpn : Int) (i command frame status supp : Nat)
    (st : SupState) (ha1 : 1 ≤ a) (ha8 : a ≤ 8) (hidx : GET_PAGE_INDEX vpn = (i : Nat)) :
    ( _flashIO (a : Nat) vpn command frame status supp st).1.mem
        (0x100000D4 + (a - 1) * 0x10 + 0x8) = frame ∧
    (∃ rest : List Request,
      ( _flashIO (a : Nat) vpn command frame status supp st).1.trace =
        st.trace ++ [{ a0 := GETSUPPORTPTR, a1 := 0, a2 := 0, a3 := 0 },
          { a0 := DOIO, a1 := 0x100000D4 + (a - 1) * 0x10 + 0x4,
            a2 := (i <<< 8) ||| command, a3 := 0 }] ++ rest ∧
      (status = READY → rest = [])) ∧
    (( _flashIO (a : Nat) vpn command frame status supp st).2 = decide (status = READY)) ∧
    getDeviceSemaphoreIndex (0x100000D4 + (a - 1) * 0x10 + 0x4) =
      some (((8 + (a - 1) : Nat)) : Int) ∧
    (∀ (prid t1 t2 v cur : Nat) (ks : State),
      ks.CurrentProcess prid = some cur →
      ((findSemd (devSemAddr ks (((8 + (a - 1) : Nat)) : Int)) ks).isSome ∨ ks.semdFree_h ≠ []) →
      ∃ ks1, doIo prid t1 t2 (0x100000D4 + (a - 1) * 0x10 + 0x4) v ks = scheduler prid ks1 ∧
        ks1.mem (0x100000D4 + (a - 1) * 0x10 + 0x4) = v ∧
        (ks1.pcbFree_table cur).p_semAdd = devSemAddr ks (((8 + (a - 1) : Nat)) : Int) ∧
        blockedQueue (devSemAddr ks (((8 + (a - 1) : Nat)) : Int)) ks1 =
          blockedQueue (devSemAddr ks (((8 + (a - 1) : Nat)) : Int)) ks ++ [cur] ∧
        ks1.CurrentProcess prid = none ∧
        ks1.ReadyQueue = ks.ReadyQueue) := by
  have hmem_a : a ∈ List.range' 1 8 := by
    rw [List.mem_range']
    exact ⟨a - 1, by omega, by omega⟩
  obtain ⟨hbase, hsem⟩ := flash_device_base a hmem_a
  have hblock : (GET_PAGE_INDEX vpn).toNat = i := by rw [hidx]; rfl
  obtain ⟨s3, hs3⟩ : ∃ s : SupState, s =
      ({ (st.request GETSUPPORTPTR 0 0 0) with
          mem := Function.update (st.request GETSUPPORTPTR 0 0 0).mem
            (0x100000D4 + (a - 1) * 0x10 + 0x8) frame } : SupState).request DOIO
        (0x100000D4 + (a - 1) * 0x10 + 0x4) ((i <<< 8) ||| command) 0 := ⟨_, rfl⟩
  have hflash : _flashIO (a : Nat) vpn command frame status supp st =
      if status ≠ READY then (programTrapExceptionHandler supp s3, false) else (s3, true) := by
    unfold _flashIO
    simp only [hbase, hblock]
    rw [hs3]
  have hm3 : s3.mem (0x100000D4 + (a - 1) * 0x10 + 0x8) = frame := by
    rw [hs3]
    simp [SupState.request]
  have ht3 : s3.trace = st.trace ++ [{ a0 := GETSUPPORTPTR, a1 := 0, a2 := 0, a3 := 0 },
      { a0 := DOIO, a1 := 0x100000D4 + (a - 1) * 0x10 + 0x4,
        a2 := (i <<< 8) ||| command, a3 := 0 }] := by
    rw [hs3]
    simp [SupState.request]
  refine ⟨?_, ?_, ?_, hsem, ?_⟩
  · rw [hflash]
    by_cases hr : status = READY
    · simp [hr, hm3]
    · simp only [ne_eq, hr, not_false_eq_true, if_true, programTrapExceptionHandler]
      rw [(terminateUProc_frame supp s3).1, hm3]
  · rw [hflash]
    by_cases hr : status = READY
    · refine ⟨[], ?_, fun _ => rfl⟩
      simp [hr, ht3]
    · obtain ⟨rest, hrest⟩ := (terminateUProc_frame supp s3).2.2
      refine ⟨rest, ?_, fun h => absurd h hr⟩
      simp only [ne_eq, hr, not_false_eq_true, if_true, programTrapExceptionHandler]
      rw [hrest, ht3]
  · rw [hflash]
    by_cases hr : status = READY <;> simp [hr]
  · intro prid t1 t2 v cur ks hcur hroom
    obtain ⟨ks0, hks0⟩ : ∃ s : State, s =
        { ks with mem := Function.update ks.mem (0x100000D4 + (a - 1) * 0x10 + 0x4) v } :=
      ⟨_, rfl⟩
    have hc0 : ks0.CurrentProcess prid = some cur := by rw [hks0]; exact hcur
    have hr0 : (findSemd (devSemAddr ks (((8 + (a - 1) : Nat)) : Int)) ks0).isSome ∨
        ks0.semdFree_h ≠ [] := by rw [hks0]; exact hroom
    obtain ⟨ks1, hb, -, hadd, hq, hnone, -, hmem, hrq⟩ :=
      blockCaller_effect prid t1 t2 (devSemAddr ks (((8 + (a - 1) : Nat)) : Int)) cur ks0 hc0 hr0
    refine ⟨ks1, ?_, ?_, hadd, ?_, hnone, ?_⟩
    · unfold doIo
      rw [hsem]
      simp only []
      rw [← hks0, hb]
    · rw [hmem, hks0]
      simp
    · rw [hq, hks0]
      rfl
    · rw [hrq, hks0]

set_option maxRecDepth 100000 in
/-- The transfer of page `0x80005` of U-proc 3 into the frame at `0x20049000`,
and the DOIO it requests served by the nucleus for PCB 19 on CPU 0: the frame
address is in `data0` of flash device 2, the command register `0x100000F8`
receives the command value and PCB 19 is the only entry of the blocked queue
of `DeviceSemaphores[10]`. -/
theorem flashIO_transfer_witness :
    1 ≤ 3 ∧ 3 ≤ 8 ∧ GET_PAGE_INDEX 0x80005 = (5 : Nat) ∧
    ( _flashIO (3 : Nat) 0x80005 FLASHWRITE 0x20049000 READY (supportAddr 3) supBoot).1.mem
      0x100000FC = 0x20049000 ∧
    oneProcessState.CurrentProcess 0 = some 19 ∧
    ∃ ks1, doIo 0 0 0 0x100000F8 ((5 <<< 8) ||| FLASHWRITE) oneProcessState = scheduler 0 ks1 ∧
      ks1.mem 0x100000F8 = (5 <<< 8) ||| FLASHWRITE ∧
      (ks1.pcbFree_table 19).p_semAdd = devSemAddr oneProcessState 10 ∧
      blockedQueue (devSemAddr oneProcessState 10) ks1 = [19] ∧
      ks1.CurrentProcess 0 = none := by
  obtain ⟨h1, -, -, -, h5⟩ :=
    flashIO_transfer 3 0x80005 5 FLASHWRITE 0x20049000 READY (supportAddr 3) supBoot
      (by decide) (by decide) (by decide)
  obtain ⟨ks1, k1, k2, k3, k4, k5, -⟩ :=
    h5 0 0 0 ((5 <<< 8) ||| FLASHWRITE) 19 oneProcessState (by decide) (Or.inr (by decide))
  exact ⟨by decide, by decide, by decide, h1, by decide, ks1, k1, k2, k3, k4, k5⟩

set_option maxRecDepth 100000 in
/-- C35, counterexample.  After the process on CPU 0 (of two running processes)
has used the twenty devices with the semaphore indices 0 to 7 and 9 to 20, no
free descriptor is left and `DeviceSemaphores[8]`, the semaphore of flash
device 0, has none.  The DOIO of a flash transfer for ASID 1 (command register
`0x100000D8`) then takes the caller out of its CPU slot without putting it on
the blocked queue of that semaphore, which has no descriptor afterwards
either. -/
theorem flash_doio_without_descriptor :
    twentyOtherDevicesState.CurrentProcess 0 = some 19 ∧
    twentyOtherDevicesState.semdFree_h = [] ∧
    findSemd (devSemAddr twentyOtherDevicesState 8) twentyOtherDevicesState = none ∧
    getDeviceSemaphoreIndex 0x100000D8 = some 8 ∧
    (doIo 0 0 0 0x100000D8 ((5 <<< 8) ||| FLASHREAD) twentyOtherDevicesState).map
      (fun r => (r.1.CurrentProcess 0, blockedQueue (devSemAddr twentyOtherDevicesState 8) r.1,
        findSemd (devSemAddr twentyOtherDevicesState 8) r.1, r.1.ReadyQueue, r.2)) =
      some (none, [], none, [], Control.WAIT) := by
  decide

/-! ### The general exception handler of the support level -/

/-- The masked cause depends on the low seven bits only. -/
theorem and_execcode_mod (cause : Nat) :
    cause &&& GETEXECCODE = (cause % 128) &&& GETEXECCODE := by
  apply Nat.eq_of_testBit_eq
  intro i
  have h128 : (128 : Nat) = 2 ^ 7 := by norm_num
  rw [Nat.testBit_and, Nat.testBit_and, h128, Nat.testBit_mod_two_pow]
  by_cases hi : i < 7
  · simp [hi]
  · have : GETEXECCODE.testBit i = false := by
      apply Nat.testBit_eq_false_of_lt
      calc GETEXECCODE < 2 ^ 7 := by decide
        _ ≤ 2 ^ i := Nat.pow_le_pow_right (by decide) (by omega)
    simp [this]

theorem execcode_is_syscall (cause : Nat) :
    cause &&& GETEXECCODE = SYSEXCEPTION ↔ 8 ≤ cause % 128 ∧ cause % 128 ≤ 11 := by
  rw [and_execcode_mod]
  have hlt : cause % 128 < 128 := Nat.mod_lt _ (by decide)
  have hall : ∀ c, c < 128 → (c &&& GETEXECCODE = SYSEXCEPTION ↔ 8 ≤ c ∧ c ≤ 11) := by decide
  exact hall _ hlt

set_option maxRecDepth 100000 in
/-- C37, the code at the failing input: the handler compares
`cause & GETEXECCODE` with SYSEXCEPTION, and the mask `0x7C` drops the two low
bits of the cause.  With the cause 9 (breakpoint) or 10 (privileged
instruction) saved for U-proc 1 and 7 in a0, the handler invokes the support
syscall handler, which advances the saved pc by 4 and resumes the U-proc; its
only request to the nucleus is GETSUPPORTPTR, and the U-proc is not terminated.
With the cause 8 it does the same, and with the cause 12 it terminates the
U-proc.  For every cause the syscall handler is invoked exactly when the low
seven bits of the cause are between 8 and 11. -/
theorem general_handler_serves_breakpoint :
    (∀ (fuel supp : Nat) (status : Nat → Nat) (st : SupState),
      generalExceptionHandler fuel supp status st =
        if 8 ≤ ((st.supportMem supp).sup_exceptState GENERALEXCEPT).cause % 128 ∧
            ((st.supportMem supp).sup_exceptState GENERALEXCEPT).cause % 128 ≤ 11 then
          syscallHandler fuel supp status (st.request GETSUPPORTPTR 0 0 0)
        else some (programTrapExceptionHandler supp (st.request GETSUPPORTPTR 0 0 0),
          SupControl.terminated)) ∧
    (∀ c, c ∈ [BREAKEXCEPTION, PRIVINSTR, SYSEXCEPTION] →
      (generalExceptionHandler 10 (supportAddr 1) (fun _ => READY)
          (passUpGeneral (supportAddr 1) c 7 supBoot)).map (fun r =>
        (decide (r.2 = SupControl.terminated),
          match r.2 with
          | SupControl.LDST s => s.pc_epc
          | _ => 0,
          r.1.trace.map (fun q => q.a0))) =
      some (false, 0x80000104, [GETSUPPORTPTR])) ∧
    (generalExceptionHandler 10 (supportAddr 1) (fun _ => READY)
        (passUpGeneral (supportAddr 1) 12 7 supBoot)).map (fun r =>
      (decide (r.2 = SupControl.terminated), r.1.trace.map (fun q => q.a0))) =
      some (true, [GETSUPPORTPTR, VERHOGEN, TERMPROCESS]) := by
  refine ⟨?_, by decide, by decide⟩
  intro fuel supp status st
  unfold generalExceptionHandler
  simp only []
  by_cases h : ((st.supportMem supp).sup_exceptState GENERALEXCEPT).cause &&& GETEXECCODE =
      SYSEXCEPTION
  · have h' := (execcode_is_syscall _).mp h
    have e : ((st.request GETSUPPORTPTR 0 0 0).supportMem supp) = st.supportMem supp := rfl
    rw [e, if_pos h, if_pos h']
  · have h' := fun x => h ((execcode_is_syscall _).mpr x)
    have e : ((st.request GETSUPPORTPTR 0 0 0).supportMem supp) = st.supportMem supp := rfl
    rw [e, if_neg h, if_neg h']

/-! ### The page-fault handler -/

theorem updPte_table (st : SupState) (s i : Nat) (f : pteEntry_t → pteEntry_t) (s' j : Nat) :
    (((st.updPte s i f).supportMem s').sup_privatePgTbl j =
      if s' = s ∧ j = i then f ((st.supportMem s).sup_privatePgTbl i)
      else (st.supportMem s').sup_privatePgTbl j) := by
  unfold SupState.updPte
  by_cases hs : s' = s
  · subst hs
    by_cases hj : j = i
    · subst hj; simp
    · simp [Function.update, hj]
  · simp [Function.update, hs]

theorem updPte_fields (st : SupState) (s i : Nat) (f : pteEntry_t → pteEntry_t) :
    (st.updPte s i f).SwapTable = st.SwapTable ∧
    (st.updPte s i f).free_frame_index = st.free_frame_index ∧
    (∀ s', ((st.updPte s i f).supportMem s').sup_asid = (st.supportMem s').sup_asid) ∧
    (∀ s', ((st.updPte s i f).supportMem s').sup_exceptState = (st.supportMem s').sup_exceptState) := by
  unfold SupState.updPte
  refine ⟨rfl, rfl, fun s' => ?_, fun s' => ?_⟩ <;>
    (by_cases hs : s' = s
     · subst hs; simp
     · simp [Function.update, hs])

/-- A flash transfer whose status is READY changes the device register and the
trace only. -/
theorem flashIO_ready (asid vpn : Int) (command frame supp : Nat) (st : SupState) :
    ( _flashIO asid vpn command frame READY supp st).2 = true ∧
    ( _flashIO asid vpn command frame READY supp st).1.SwapTable = st.SwapTable ∧
    ( _flashIO asid vpn command frame READY supp st).1.supportMem = st.supportMem ∧
    ( _flashIO asid vpn command frame READY supp st).1.free_frame_index = st.free_frame_index := by
  unfold _flashIO
  simp [SupState.request]

theorem getFree_fields (st : SupState) :
    (_getFreeSwapFrameIndex st).2.SwapTable = st.SwapTable ∧
    (_getFreeSwapFrameIndex st).2.supportMem = st.supportMem := by
  unfold _getFreeSwapFrameIndex
  simp only []
  split <;> exact ⟨rfl, rfl⟩

theorem getFree_congr (s t : SupState) (h1 : s.SwapTable = t.SwapTable)
    (h2 : s.free_frame_index = t.free_frame_index) :
    (_getFreeSwapFrameIndex s).1 = (_getFreeSwapFrameIndex t).1 := by
  unfold _getFreeSwapFrameIndex
  simp only [h1, h2]
  split <;> rfl

theorem residentValid_false (asid vpn : Int) (st : SupState) :
    ∀ l : List Nat,
      (∀ i, i ∈ l → (st.SwapTable i).sw_asid = asid → (st.SwapTable i).sw_pageNo = vpn →
        ∃ s j, (st.SwapTable i).sw_pte = some (s, j) ∧
          ((st.supportMem s).sup_privatePgTbl j).pte_entryLO &&& VALIDON = 0) →
      residentValid asid vpn st l = some false := by
  intro l
  induction l with
  | nil => intro _; rfl
  | cons a t ih =>
    intro h
    have iht := ih (fun i hi => h i (List.mem_cons_of_mem _ hi))
    unfold residentValid
    by_cases hm : (st.SwapTable a).sw_asid = asid ∧ (st.SwapTable a).sw_pageNo = vpn
    · obtain ⟨s, j, hp, hv⟩ := h a (List.mem_cons_self _ _) hm.1 hm.2
      rw [if_pos hm]
      simp only [SupState.pteAt, hp]
      rw [if_neg (by simpa using hv)]
      exact iht
    · rw [if_neg hm]
      exact iht

/-- An invalidated page-table entry has its valid bit clear and its entryHI
unchanged. -/
theorem invalidated_valid_bit (e : pteEntry_t) :
    e.invalidated.pte_entryLO &&& VALIDON = 0 ∧ e.invalidated.pte_entryHI = e.pte_entryHI := by
  refine ⟨?_, rfl⟩
  show (e.pte_entryLO &&& (0xFFFFFFFF ^^^ VALIDON)) &&& VALIDON = 0
  rw [Nat.and_assoc]
  have : (0xFFFFFFFF ^^^ VALIDON) &&& VALIDON = 0 := by decide
  rw [this, Nat.and_zero]

/-- C34 (amended).  When `TLB_Handler` serves a page fault (cause 25 or 26) of
the U-proc at `supp` for a page that has no swap-table entry with a valid
page-table entry, the chosen frame `f`, if occupied, records a page-table
entry, and both flash operations return READY, then the handler resumes the
U-proc and on exit: the swap-table entry of `f` records the ASID, the page and
the page-table entry of the U-proc at the index of the page, and the other
swap-table entries are unchanged; that page-table entry has
`address(f) | VALIDON | DIRTYON` in entryLO and its entryHI unchanged; if `f`
held a page whose page-table entry is another entry (of this or of another
U-proc), that entry has its valid bit cleared and is otherwise unchanged; every
remaining page-table entry is unchanged. -/
theorem tlb_handler_page_in (supp : Nat) (st : SupState)
    (hcause : ((st.supportMem supp).sup_exceptState PGFAULTEXCEPT).cause = 25 ∨
      ((st.supportMem supp).sup_exceptState PGFAULTEXCEPT).cause = 26)
    (hres : ∀ i, i < SWAP_POOL_SIZE → (st.SwapTable i).sw_asid = faultAsid supp st →
      (st.SwapTable i).sw_pageNo = faultPage supp st →
      ∃ s j, (st.SwapTable i).sw_pte = some (s, j) ∧ (st.pte s j).pte_entryLO &&& VALIDON = 0)
    (hwf : (st.SwapTable (_getFreeSwapFrameIndex st).1).sw_asid ≠ -1 →
      (st.SwapTable (_getFreeSwapFrameIndex st).1).sw_pte ≠ none) :
    ∃ s' : SupState,
      TLB_Handler supp READY READY st =
        some (s', SupControl.LDST ((st.supportMem supp).sup_exceptState PGFAULTEXCEPT)) ∧
      s'.SwapTable (_getFreeSwapFrameIndex st).1 =
        { sw_asid := faultAsid supp st, sw_pageNo := faultPage supp st,
          sw_pte := some (supp, (GET_PAGE_INDEX (faultPage supp st)).toNat) } ∧
      (∀ i, i ≠ (_getFreeSwapFrameIndex st).1 → s'.SwapTable i = st.SwapTable i) ∧
      (s'.pte supp (GET_PAGE_INDEX (faultPage supp st)).toNat).pte_entryLO =
        frameAddr (_getFreeSwapFrameIndex st).1 ||| VALIDON ||| DIRTYON ∧
      (s'.pte supp (GET_PAGE_INDEX (faultPage supp st)).toNat).pte_entryHI =
        (st.pte supp (GET_PAGE_INDEX (faultPage supp st)).toNat).pte_entryHI ∧
      (∀ s j, ¬ (s = supp ∧ j = (GET_PAGE_INDEX (faultPage supp st)).toNat) →
        s'.pte s j =
          if (st.SwapTable (_getFreeSwapFrameIndex st).1).sw_asid ≠ -1 ∧
              (st.SwapTable (_getFreeSwapFrameIndex st).1).sw_pte = some (s, j)
          then (st.pte s j).invalidated else st.pte s j) := by
  obtain ⟨f, hf⟩ : ∃ f, f = (_getFreeSwapFrameIndex st).1 := ⟨_, rfl⟩
  obtain ⟨index, hindex⟩ : ∃ k, k = (GET_PAGE_INDEX (faultPage supp st)).toNat := ⟨_, rfl⟩
  rw [← hf] at hwf
  rw [← hf, ← hindex]
  -- the state when the victim is chosen
  obtain ⟨st1, hst1⟩ : ∃ s : SupState, s =
      { ((st.request GETSUPPORTPTR 0 0 0).request PASSEREN
          (st.request GETSUPPORTPTR 0 0 0).SwapPoolSemaphore 0 0) with
        AsidInSwapPool := faultAsid supp st } := ⟨_, rfl⟩
  have a1 : st1.SwapTable = st.SwapTable := by rw [hst1]; rfl
  have a2 : st1.supportMem = st.supportMem := by rw [hst1]; rfl
  have a3 : st1.free_frame_index = st.free_frame_index := by rw [hst1]; rfl
  have hnc : ¬ (((st.supportMem supp).sup_exceptState PGFAULTEXCEPT).cause ≠ 25 ∧
      ((st.supportMem supp).sup_exceptState PGFAULTEXCEPT).cause ≠ 26) := by
    rcases hcause with h | h <;> simp [h]
  have hrv : residentValid (faultAsid supp st) (faultPage supp st) st1
      (List.range SWAP_POOL_SIZE) = some false := by
    apply residentValid_false
    intro i hi h1 h2
    rw [a1] at h1 h2 ⊢
    obtain ⟨s, j, hp, hv⟩ := hres i (List.mem_range.mp hi) h1 h2
    exact ⟨s, j, hp, by rw [a2]; exact hv⟩
  obtain ⟨r2, hr2⟩ : ∃ s : SupState, s = (_getFreeSwapFrameIndex st1).2 := ⟨_, rfl⟩
  have hr1 : (_getFreeSwapFrameIndex st1).1 = f := by
    rw [hf]; exact getFree_congr st1 st a1 a3
  have b1 : r2.SwapTable = st.SwapTable := by rw [hr2, (getFree_fields st1).1, a1]
  have b2 : r2.supportMem = st.supportMem := by rw [hr2, (getFree_fields st1).2, a2]
  -- the eviction
  obtain ⟨st3, hev, c1, c2⟩ : ∃ st3 : SupState,
      evictFrame f (frameAddr f) READY supp r2 = some (st3, true) ∧
      st3.SwapTable = st.SwapTable ∧
      (∀ s j, st3.pte s j =
        if (st.SwapTable f).sw_asid ≠ -1 ∧ (st.SwapTable f).sw_pte = some (s, j)
        then (st.pte s j).invalidated else st.pte s j) := by
    unfold evictFrame
    rw [b1]
    by_cases hocc : (st.SwapTable f).sw_asid ≠ -1
    · rw [if_pos hocc]
      cases hp : (st.SwapTable f).sw_pte with
      | none => exact absurd hp (hwf hocc)
      | some p =>
        obtain ⟨vs, vj⟩ := p
        simp only []
        obtain ⟨e, he⟩ : ∃ e : SupState, e = r2.updPte vs vj (fun e =>
            { e with pte_entryLO := e.pte_entryLO &&& (0xFFFFFFFF ^^^ VALIDON) }) := ⟨_, rfl⟩
        rw [← he]
        obtain ⟨g1, g2, g3, _⟩ := flashIO_ready (st.SwapTable f).sw_asid
          (st.SwapTable f).sw_pageNo FLASHWRITE (frameAddr f) supp e
        refine ⟨( _flashIO (st.SwapTable f).sw_asid (st.SwapTable f).sw_pageNo FLASHWRITE
          (frameAddr f) READY supp e).1, congrArg some (Prod.ext rfl g1), ?_, ?_⟩
        · rw [g2, he, (updPte_fields r2 vs vj _).1, b1]
        · intro s j
          unfold SupState.pte
          rw [g3, he, updPte_table, b2]
          by_cases hsj : s = vs ∧ j = vj
          · obtain ⟨h1, h2⟩ := hsj
            subst h1; subst h2
            simp [hocc, pteEntry_t.invalidated]
          · have hne : (some (vs, vj) : Option (Nat × Nat)) ≠ some (s, j) := by
              intro h
              injection h with h
              injection h with h1 h2
              exact hsj ⟨h1.symm, h2.symm⟩
            simp [hsj, hne]
    · rw [if_neg hocc]
      refine ⟨r2, rfl, b1, ?_⟩
      intro s j
      unfold SupState.pte
      rw [b2]
      simp [hocc]
  -- the read of the missing page
  obtain ⟨st4, hst4⟩ : ∃ s : SupState, s = ( _flashIO (faultAsid supp st) (faultPage supp st)
      FLASHREAD (frameAddr f) READY supp st3).1 := ⟨_, rfl⟩
  obtain ⟨g1, g2, g3, _⟩ := flashIO_ready (faultAsid supp st) (faultPage supp st) FLASHREAD
    (frameAddr f) supp st3
  rw [← hst4] at g2 g3
  have hread : _flashIO (faultAsid supp st) (faultPage supp st) FLASHREAD (frameAddr f) READY
      supp st3 = (st4, true) := by
    rw [hst4]; exact Prod.ext rfl g1
  obtain ⟨entry, hentry⟩ : ∃ x : swap_t, x =
      { sw_asid := faultAsid supp st, sw_pageNo := faultPage supp st,
        sw_pte := some (supp, index) } := ⟨_, rfl⟩
  obtain ⟨st6, hst6⟩ : ∃ s : SupState, s =
      ({ st4 with SwapTable := Function.update st4.SwapTable f entry } : SupState).updPte supp index
        (fun e => { e with pte_entryLO := frameAddr f ||| VALIDON ||| DIRTYON }) := ⟨_, rfl⟩
  have hT : TLB_Handler supp READY READY st =
      some (({ st6 with AsidInSwapPool := 0 } : SupState).request VERHOGEN st6.SwapPoolSemaphore 0 0,
        SupControl.LDST ((st.supportMem supp).sup_exceptState PGFAULTEXCEPT)) := by
    unfold TLB_Handler
    simp only []
    have e0 : ((st.request GETSUPPORTPTR 0 0 0).supportMem supp) = st.supportMem supp := rfl
    rw [e0, if_neg hnc]
    have hst1n := hst1
    simp only [faultAsid] at hst1n
    rw [← hst1n]
    have hrv' := hrv
    simp only [faultAsid, faultPage] at hrv'
    rw [hrv']
    simp only []
    rw [hr1, ← hr2, hev]
    simp only []
    have hread' := hread
    simp only [faultAsid, faultPage] at hread'
    rw [hread']
    simp only []
    rw [hst6, hentry, hindex]
    rfl
  obtain ⟨st5, hst5⟩ : ∃ s : SupState, s =
      ({ st4 with SwapTable := Function.update st4.SwapTable f entry } : SupState) := ⟨_, rfl⟩
  rw [← hst5] at hst6
  have d1 : st5.supportMem = st3.supportMem := by rw [hst5]; exact g3
  have d2 : st5.SwapTable = Function.update st.SwapTable f entry := by
    rw [hst5]
    show Function.update st4.SwapTable f entry = _
    rw [g2, c1]
  have hpte : ∀ s j, (st6.supportMem s).sup_privatePgTbl j =
      if s = supp ∧ j = index then
        { (st3.pte supp index) with pte_entryLO := frameAddr f ||| VALIDON ||| DIRTYON }
      else st3.pte s j := by
    intro s j
    rw [hst6, updPte_table, d1]
    rfl
  have hsw : st6.SwapTable = Function.update st.SwapTable f entry := by
    rw [hst6, (updPte_fields st5 supp index _).1, d2]
  refine ⟨_, hT, ?_, ?_, ?_, ?_, ?_⟩
  · show st6.SwapTable f = _
    rw [hsw, hentry]
    simp
  · intro i hi
    show st6.SwapTable i = _
    rw [hsw]
    simp [Function.update, hi]
  · show ((st6.supportMem supp).sup_privatePgTbl index).pte_entryLO = _
    rw [hpte]
    simp
  · show ((st6.supportMem supp).sup_privatePgTbl index).pte_entryHI = _
    rw [hpte]
    simp only [and_self, if_true]
    rw [c2]
    split
    · exact (invalidated_valid_bit _).2
    · rfl
  · intro s j hsj
    show (st6.supportMem s).sup_privatePgTbl j = _
    rw [hpte, if_neg hsj, c2]

set_option maxRecDepth 100000 in
/-- The page-in theorem applied to the first fault after the instantiator has
run: U-proc 1 faults on page `0x80003`, frame 0 is chosen and records the page
and entry 3 of the page table of U-proc 1. -/
theorem tlb_handler_page_in_witness :
    ∃ s' : SupState,
      TLB_Handler (supportAddr 1) READY READY (passUpFault (supportAddr 1) 0x80003 supBoot) =
        some (s', SupControl.LDST (((passUpFault (supportAddr 1) 0x80003 supBoot).supportMem
          (supportAddr 1)).sup_exceptState PGFAULTEXCEPT)) ∧
      s'.SwapTable 0 = { sw_asid := 1, sw_pageNo := 0x80003, sw_pte := some (supportAddr 1, 3) } := by
  have hfree : ∀ i ∈ List.range SWAP_POOL_SIZE,
      ((passUpFault (supportAddr 1) 0x80003 supBoot).SwapTable i).sw_asid ≠
        faultAsid (supportAddr 1) (passUpFault (supportAddr 1) 0x80003 supBoot) := by
    decide
  obtain ⟨s', h1, h2, -⟩ := tlb_handler_page_in (supportAddr 1)
    (passUpFault (supportAddr 1) 0x80003 supBoot) (by decide)
    (fun i hi h => absurd h (hfree i (List.mem_range.mpr hi))) (by decide)
  refine ⟨s', h1, ?_⟩
  have e1 : (_getFreeSwapFrameIndex (passUpFault (supportAddr 1) 0x80003 supBoot)).1 = 0 := by
    decide
  have e2 : faultAsid (supportAddr 1) (passUpFault (supportAddr 1) 0x80003 supBoot) = 1 := by
    decide
  have e3 : faultPage (supportAddr 1) (passUpFault (supportAddr 1) 0x80003 supBoot) = 0x80003 := by
    decide
  have e4 : (GET_PAGE_INDEX (0x80003 : Int)).toNat = 3 := by decide
  rw [e1, e2, e3, e4] at h2
  exact h2

set_option maxRecDepth 100000 in
/-- C34, counterexample.  With the pool filled by sixteen pages of U-proc 1,
U-proc 1 faults on its page `0x80010`, which is not resident, and both flash
operations return READY.  The handler chooses frame 1, which holds page
`0x80001` of the same U-proc: entry 16 of the page table of U-proc 1 gets the
frame, and entry 1, another page-table entry of the faulting process, is
changed: its valid bit is cleared. -/
theorem page_in_changes_own_entry :
    ((fullPoolState.supportMem (supportAddr 1)).sup_privatePgTbl 1).pte_entryLO =
      frameAddr 1 ||| VALIDON ||| DIRTYON ∧
    swapMatches 1 0x80010 fullPoolState = [] ∧
    (runSup [SupCall.fault (supportAddr 1) 0x80010 READY READY] fullPoolState).map (fun s =>
        ((s.SwapTable 1).sw_asid, (s.SwapTable 1).sw_pageNo, (s.SwapTable 1).sw_pte,
          ((s.supportMem (supportAddr 1)).sup_privatePgTbl 16).pte_entryLO)) =
      some (1, 0x80010, some (supportAddr 1, 16), frameAddr 1 ||| VALIDON ||| DIRTYON) ∧
    (runSup [SupCall.fault (supportAddr 1) 0x80010 READY READY] fullPoolState).map (fun s =>
        ((s.supportMem (supportAddr 1)).sup_privatePgTbl 1).pte_entryLO) =
      some (frameAddr 1 ||| DIRTYON) ∧
    frameAddr 1 ||| DIRTYON ≠ frameAddr 1 ||| VALIDON ||| DIRTYON := by
  refine ⟨by decide, by decide, by decide, by decide, by decide⟩

/-! ### The global lock -/

/-- An acquisition of the free lock in front of a path that starts with the lock
held. -/
theorem lockSafe_acquire (t : List LockEvent) (h : LockSafeFrom true t) :
    LockSafeFrom false (LockEvent.ACQUIRE_LOCK :: t) := by
  unfold LockSafeFrom at *
  simpa [lockScan] using h

/-- A release of the held lock in front of a path that starts with the lock
free. -/
theorem lockSafe_release (t : List LockEvent) (h : LockSafeFrom false t) :
    LockSafeFrom true (LockEvent.RELEASE_LOCK :: t) := by
  unfold LockSafeFrom at *
  simpa [lockScan] using h

/-- A call of `scheduler` with the lock free in front of a path. -/
theorem lockSafe_scheduler (t : List LockEvent) (h : LockSafeFrom false t) :
    LockSafeFrom false (LockEvent.scheduler :: t) := by
  unfold LockSafeFrom at *
  simpa [lockScan] using h

/-- The paths of `scheduler`. -/
theorem schedulerLock_safe (prid : Nat) (st : State) (t : List LockEvent)
    (h : schedulerLock prid st = some t) : LockSafeFrom false t := by
  unfold schedulerLock at h
  split at h
  · split at h <;> (cases h; decide)
  · split at h
    · cases h
    · cases h; decide

/-- The events in front of the path of a routine that `scheduler` ends. -/
theorem lockSafe_map_scheduler (prid : Nat) (st : State) (p t : List LockEvent) (held : Bool)
    (hp : ∀ u, LockSafeFrom false u → LockSafeFrom held (p ++ u))
    (h : (schedulerLock prid st).map (fun u => p ++ u) = some t) : LockSafeFrom held t := by
  obtain ⟨u, hu, rfl⟩ := Option.map_eq_some'.mp h
  exact hp u (schedulerLock_safe prid st u hu)

/-- The prefix `ACQUIRE_LOCK, RELEASE_LOCK, scheduler`. -/
theorem lockSafe_ars (u : List LockEvent) (h : LockSafeFrom false u) :
    LockSafeFrom false
      ([LockEvent.ACQUIRE_LOCK, LockEvent.RELEASE_LOCK, LockEvent.scheduler] ++ u) :=
  lockSafe_acquire _ (lockSafe_release _ (lockSafe_scheduler _ h))

/-- The prefix `RELEASE_LOCK, scheduler` of a path that starts with the lock
held. -/
theorem lockSafe_rs (u : List LockEvent) (h : LockSafeFrom false u) :
    LockSafeFrom true ([LockEvent.RELEASE_LOCK, LockEvent.scheduler] ++ u) :=
  lockSafe_release _ (lockSafe_scheduler _ h)

/-- The prefix `ACQUIRE_LOCK, RELEASE_LOCK`. -/
theorem lockSafe_ar (u : List LockEvent) (h : LockSafeFrom false u) :
    LockSafeFrom false ([LockEvent.ACQUIRE_LOCK, LockEvent.RELEASE_LOCK] ++ u) :=
  lockSafe_acquire _ (lockSafe_release _ h)

/-- The paths of `createProcess`. -/
theorem createProcessLock_safe (statep : Nat) (st : State) (t : List LockEvent)
    (h : createProcessLock statep st = some t) : LockSafeFrom false t := by
  unfold createProcessLock at h
  split at h
  · cases h; decide
  · split at h
    · cases h
    · cases h; decide

/-- The paths of `terminateProcess` once the target is known. -/
theorem terminateTargetLock_safe (fuel prid target : Nat) (st : State) (t : List LockEvent)
    (h : terminateTargetLock fuel prid target st = some t) : LockSafeFrom true t := by
  unfold terminateTargetLock at h
  split at h
  · cases h
  · exact lockSafe_map_scheduler _ _ _ _ _ lockSafe_rs h

/-- The paths of `terminateProcess`. -/
theorem terminateProcessLock_safe (fuel prid : Nat) (pid : Int) (st : State)
    (t : List LockEvent) (h : terminateProcessLock fuel prid pid st = some t) :
    LockSafeFrom false t := by
  unfold terminateProcessLock at h
  split at h
  · split at h
    · cases h
    · obtain ⟨u, hu, rfl⟩ := Option.map_eq_some'.mp h
      exact lockSafe_acquire _ (terminateTargetLock_safe _ _ _ _ _ hu)
  · split at h
    · cases h
    · cases h; decide
    · obtain ⟨u, hu, rfl⟩ := Option.map_eq_some'.mp h
      exact lockSafe_acquire _ (terminateTargetLock_safe _ _ _ _ _ hu)

/-- The paths of `passeren`. -/
theorem passerenLock_safe (prid currTOD nextTOD semAddr : Nat) (st : State)
    (t : List LockEvent) (h : passerenLock prid currTOD nextTOD semAddr st = some t) :
    LockSafeFrom false t := by
  unfold passerenLock at h
  split at h
  · split at h
    · cases h
    · exact lockSafe_map_scheduler _ _ _ _ _ lockSafe_ars h
  · cases h; decide

/-- The paths of `verhogen`. -/
theorem verhogenLock_safe (prid currTOD nextTOD semAddr : Nat) (st : State)
    (t : List LockEvent) (h : verhogenLock prid currTOD nextTOD semAddr st = some t) :
    LockSafeFrom false t := by
  unfold verhogenLock at h
  split at h
  · split at h
    · cases h
    · exact lockSafe_map_scheduler _ _ _ _ _ lockSafe_ars h
  · cases h; decide

/-- The paths of `doIo`: the path that ends in `PANIC()` has no violation
before it. -/
theorem doIoLock_safe (prid currTOD nextTOD commandAddr commandValue : Nat) (st : State)
    (t : List LockEvent) (h : doIoLock prid currTOD nextTOD commandAddr commandValue st = some t) :
    LockSafeFrom false t := by
  unfold doIoLock at h
  split at h
  · cases h; decide
  · simp only [] at h
    split at h
    · cases h
    · exact lockSafe_map_scheduler _ _ _ _ _ lockSafe_ars h

/-- The paths of `passUpToSupportLevel`. -/
theorem passUpToSupportLevelLock_safe (prid exceptionType : Nat) (st : State)
    (t : List LockEvent) (h : passUpToSupportLevelLock prid exceptionType st = some t) :
    LockSafeFrom false t := by
  obtain ⟨u, -, rfl⟩ := Option.map_eq_some'.mp h
  decide

/-- The paths of `handleProgramTrap`. -/
theorem handleProgramTrapLock_safe (fuel prid : Nat) (st : State) (t : List LockEvent)
    (h : handleProgramTrapLock fuel prid st = some t) : LockSafeFrom false t := by
  unfold handleProgramTrapLock at h
  split at h
  · cases h
  · split at h
    · obtain ⟨u, hu, rfl⟩ := Option.map_eq_some'.mp h
      exact lockSafe_ar _ (passUpToSupportLevelLock_safe _ _ _ _ hu)
    · obtain ⟨u, hu, rfl⟩ := Option.map_eq_some'.mp h
      exact lockSafe_ar _ (terminateProcessLock_safe _ _ _ _ _ hu)

/-- The paths of `handleTLBException`. -/
theorem handleTLBExceptionLock_safe (fuel prid : Nat) (st : State) (t : List LockEvent)
    (h : handleTLBExceptionLock fuel prid st = some t) : LockSafeFrom false t := by
  unfold handleTLBExceptionLock at h
  split at h
  · cases h
  · split at h
    · obtain ⟨u, hu, rfl⟩ := Option.map_eq_some'.mp h
      exact lockSafe_ar _ (passUpToSupportLevelLock_safe _ _ _ _ hu)
    · obtain ⟨u, hu, rfl⟩ := Option.map_eq_some'.mp h
      exact lockSafe_ar _ (terminateProcessLock_safe _ _ _ _ _ hu)

/-- The scan of a path followed by another path. -/
theorem lockScan_append (u : List LockEvent) :
    ∀ (t : List LockEvent) (held : Bool),
      lockScan held (t ++ u) =
        if LockEvent.PANIC ∈ t then lockScan held t
        else (lockScan held t).bind (fun b => lockScan b u)
  | [], held => by simp [lockScan]
  | e :: t, held => by
    have ih := lockScan_append u t
    cases e <;> cases held <;> simp [lockScan, ih]

/-- A path with the `LDST` of the saved state after it. -/
theorem lockSafe_then_ldst (t : List LockEvent) (h : LockSafeFrom false t) :
    LockSafeFrom false (t ++ [LockEvent.LDST]) := by
  unfold LockSafeFrom at *
  rw [lockScan_append]
  by_cases hp : LockEvent.PANIC ∈ t
  · simp [hp, h.1]
  · simp [hp, h.2 hp, lockScan]

/-- The paths of a service followed by the end of `SYSCALL_handler`. -/
theorem afterServiceLock_safe (r : Option (List LockEvent)) (t : List LockEvent)
    (hr : ∀ u, r = some u → LockSafeFrom false u) (h : afterServiceLock r = some t) :
    LockSafeFrom false t := by
  cases r with
  | none => simp [afterServiceLock] at h
  | some u =>
    by_cases hl : u.getLast? = some LockEvent.ret
    · simp only [afterServiceLock, hl, if_true, Option.some.injEq] at h
      subst h
      exact lockSafe_then_ldst _ (hr u rfl)
    · simp only [afterServiceLock, hl, if_false, Option.some.injEq] at h
      subst h
      exact hr u rfl

/-- The paths of `SYSCALL_handler`. -/
theorem SYSCALL_handlerLock_safe (fuel prid currTOD nextTOD : Nat) (st : State)
    (t : List LockEvent) (h : SYSCALL_handlerLock fuel prid currTOD nextTOD st = some t) :
    LockSafeFrom false t := by
  unfold SYSCALL_handlerLock at h
  simp only [] at h
  split at h
  · exact handleProgramTrapLock_safe _ _ _ _ h
  · refine afterServiceLock_safe _ _ ?_ h
    intro u hu
    split at hu
    · exact createProcessLock_safe _ _ _ hu
    split at hu
    · exact terminateProcessLock_safe _ _ _ _ _ hu
    split at hu
    · exact passerenLock_safe _ _ _ _ _ _ hu
    split at hu
    · exact verhogenLock_safe _ _ _ _ _ _ hu
    split at hu
    · exact doIoLock_safe _ _ _ _ _ _ _ hu
    split at hu
    · obtain ⟨v, -, rfl⟩ := Option.map_eq_some'.mp hu
      decide
    split at hu
    · exact passerenLock_safe _ _ _ _ _ _ hu
    split at hu
    · obtain ⟨v, -, rfl⟩ := Option.map_eq_some'.mp hu
      decide
    split at hu
    · obtain ⟨v, -, rfl⟩ := Option.map_eq_some'.mp hu
      decide
    · exact handleProgramTrapLock_safe _ _ _ _ hu

/-- The paths of `handleDeviceInterrupt` after the `ACK`: the path that ends in
`PANIC()` has no violation before it. -/
theorem deliverStatusLock_safe (prid cmdAddr status : Nat) (st : State) (t : List LockEvent)
    (h : deliverStatusLock prid cmdAddr status st = some t) : LockSafeFrom true t := by
  unfold deliverStatusLock at h
  split at h
  · cases h; decide
  · simp only [] at h
    split at h
    · cases h; decide
    · split at h
      · exact lockSafe_map_scheduler _ _ _ _ _ lockSafe_rs h
      · cases h; decide

/-- The paths of `handleDeviceInterrupt`. -/
theorem handleDeviceInterruptLock_safe (prid cause : Nat) (st : State) (t : List LockEvent)
    (h : handleDeviceInterruptLock prid cause st = some t) : LockSafeFrom false t := by
  unfold handleDeviceInterruptLock at h
  simp only [] at h
  split at h
  · cases h; decide
  · split at h
    · split at h
      · obtain ⟨u, hu, rfl⟩ := Option.map_eq_some'.mp h
        exact lockSafe_acquire _ (deliverStatusLock_safe _ _ _ _ _ hu)
      · obtain ⟨u, hu, rfl⟩ := Option.map_eq_some'.mp h
        exact lockSafe_acquire _ (deliverStatusLock_safe _ _ _ _ _ hu)
    · obtain ⟨u, hu, rfl⟩ := Option.map_eq_some'.mp h
      exact lockSafe_acquire _ (deliverStatusLock_safe _ _ _ _ _ hu)

/-- The paths of `handleProcessLocalTimerInterrupt`. -/
theorem handleProcessLocalTimerInterruptLock_safe (prid : Nat) (st : State)
    (t : List LockEvent) (h : handleProcessLocalTimerInterruptLock prid st = some t) :
    LockSafeFrom false t := by
  unfold handleProcessLocalTimerInterruptLock at h
  split at h
  · cases h
  · exact lockSafe_map_scheduler _ _ _ _ _ lockSafe_ars h

/-- The paths of `handlePseudoClockInterrupt`. -/
theorem handlePseudoClockInterruptLock_safe (fuel prid : Nat) (st : State)
    (t : List LockEvent) (h : handlePseudoClockInterruptLock fuel prid st = some t) :
    LockSafeFrom false t := by
  unfold handlePseudoClockInterruptLock at h
  simp only [] at h
  split at h
  · cases h
  · split at h
    · exact lockSafe_map_scheduler _ _ _ _ _ lockSafe_ars h
    · cases h; decide

/-- Every path of every routine: no violation, and the lock free at the end
unless the path reaches `PANIC()`. -/
theorem lockTrace_safe (e : NucleusEntry) (st : State) (t : List LockEvent)
    (h : lockTrace e st = some t) : LockSafeFrom false t := by
  cases e with
  | scheduler prid => exact schedulerLock_safe _ _ _ h
  | createProcess prid statep supp => exact createProcessLock_safe _ _ _ h
  | terminateProcess fuel prid pid => exact terminateProcessLock_safe _ _ _ _ _ h
  | passeren prid c n a => exact passerenLock_safe _ _ _ _ _ _ h
  | verhogen prid c n a => exact verhogenLock_safe _ _ _ _ _ _ h
  | doIo prid c n a v => exact doIoLock_safe _ _ _ _ _ _ _ h
  | waitForClock prid c n => exact passerenLock_safe _ _ _ _ _ _ h
  | getCPUTime prid c n =>
    obtain ⟨v, -, rfl⟩ := Option.map_eq_some'.mp h
    decide
  | getSupportData prid =>
    obtain ⟨v, -, rfl⟩ := Option.map_eq_some'.mp h
    decide
  | getProcessID prid parent =>
    obtain ⟨v, -, rfl⟩ := Option.map_eq_some'.mp h
    decide
  | passUpToSupportLevel prid x => exact passUpToSupportLevelLock_safe _ _ _ _ h
  | handleProgramTrap fuel prid => exact handleProgramTrapLock_safe _ _ _ _ h
  | handleTLBException fuel prid => exact handleTLBExceptionLock_safe _ _ _ _ h
  | SYSCALL_handler fuel prid c n => exact SYSCALL_handlerLock_safe _ _ _ _ _ _ h
  | handleDeviceInterrupt prid cause => exact handleDeviceInterruptLock_safe _ _ _ _ h
  | handleProcessLocalTimerInterrupt prid =>
    exact handleProcessLocalTimerInterruptLock_safe _ _ _ h
  | handlePseudoClockInterrupt fuel prid =>
    exact handlePseudoClockInterruptLock_safe _ _ _ _ h
  | INTERRUPT_handler fuel prid cause =>
    change INTERRUPT_handlerLock fuel prid cause st = some t at h
    unfold INTERRUPT_handlerLock at h
    split at h
    · exact handleProcessLocalTimerInterruptLock_safe _ _ _ h
    · split at h
      · exact handlePseudoClockInterruptLock_safe _ _ _ _ h
      · exact handleDeviceInterruptLock_safe _ _ _ _ h
  | uTLB_RefillHandler prid =>
    obtain ⟨v, -, rfl⟩ := Option.map_eq_some'.mp h
    decide

/-! ### The paths and the routines they belong to -/

/-- A path whose last event is the event of an outcome is not empty. -/
theorem ne_of_last {α : Type} (o : Option (List LockEvent)) (r : Option α) (g : α → LockEvent)
    (h : o.map List.getLast? = r.map (fun x => some (g x))) :
    ∀ u, o = some u → u ≠ [] := by
  intro u hu hnil
  subst hu hnil
  cases r <;> simp at h

/-- The last event of a path behind a prefix of events. -/
theorem prefix_last {α : Type} (o : Option (List LockEvent)) (r : Option α) (g : α → LockEvent)
    (p : List LockEvent) (h : o.map List.getLast? = r.map (fun x => some (g x))) :
    o.map (fun u => (p ++ u).getLast?) = r.map (fun x => some (g x)) := by
  rw [← h]
  cases o with
  | none => rfl
  | some u =>
    have hne := ne_of_last _ r g h u rfl
    cases hu : u.getLast? with
    | none => exact absurd (List.getLast?_eq_none_iff.mp hu) hne
    | some x => simp [List.getLast?_append, hu]

/-- The path of `scheduler` ends with the event `scheduler` ends with. -/
theorem schedulerLock_last (prid : Nat) (st : State) :
    (schedulerLock prid st).map List.getLast? =
      (scheduler prid st).map (fun r => some r.2.event) := by
  unfold schedulerLock scheduler
  split
  · split <;> rfl
  · simp only [Function.update_same]
    split <;> rfl

/-- The path of `terminateProcess` once the target is known. -/
theorem terminateTargetLock_last (fuel prid target : Nat) (st : State) :
    ((terminateTargetLock fuel prid target st).map
        (fun t => LockEvent.ACQUIRE_LOCK :: t)).map List.getLast? =
      (terminateTarget fuel prid target st).map (fun r => some r.2.event) := by
  unfold terminateTargetLock terminateTarget
  split
  · rfl
  · rw [Option.map_map, Option.map_map]
    exact prefix_last _ _ _
      [LockEvent.ACQUIRE_LOCK, LockEvent.RELEASE_LOCK, LockEvent.scheduler]
      (schedulerLock_last prid _)

/-- The path of `terminateProcess`. -/
theorem terminateProcessLock_last (fuel prid : Nat) (pid : Int) (st : State) :
    (terminateProcessLock fuel prid pid st).map List.getLast? =
      (terminateProcess fuel prid pid st).map (fun r => some r.2.event) := by
  unfold terminateProcessLock terminateProcess
  split
  · split
    · rfl
    · exact terminateTargetLock_last _ _ _ _
  · split
    · rfl
    · rfl
    · exact terminateTargetLock_last _ _ _ _

/-- The path of `passeren`. -/
theorem passerenLock_last (prid currTOD nextTOD semAddr : Nat) (st : State) :
    (passerenLock prid currTOD nextTOD semAddr st).map List.getLast? =
      (passeren prid currTOD nextTOD semAddr st).map (fun r => some r.2.event) := by
  unfold passerenLock passeren
  split
  · split
    · rfl
    · rw [Option.map_map]
      exact prefix_last _ _ _
        [LockEvent.ACQUIRE_LOCK, LockEvent.RELEASE_LOCK, LockEvent.scheduler]
        (schedulerLock_last prid _)
  · rfl

/-- The path of `verhogen`. -/
theorem verhogenLock_last (prid currTOD nextTOD semAddr : Nat) (st : State) :
    (verhogenLock prid currTOD nextTOD semAddr st).map List.getLast? =
      (verhogen prid currTOD nextTOD semAddr st).map (fun r => some r.2.event) := by
  unfold verhogenLock verhogen
  split
  · split
    · rfl
    · rw [Option.map_map]
      exact prefix_last _ _ _
        [LockEvent.ACQUIRE_LOCK, LockEvent.RELEASE_LOCK, LockEvent.scheduler]
        (schedulerLock_last prid _)
  · rfl

/-- The path of `doIo`. -/
theorem doIoLock_last (prid currTOD nextTOD commandAddr commandValue : Nat) (st : State) :
    (doIoLock prid currTOD nextTOD commandAddr commandValue st).map List.getLast? =
      (doIo prid currTOD nextTOD commandAddr commandValue st).map (fun r => some r.2.event) := by
  unfold doIoLock doIo
  split
  · rfl
  · simp only []
    split
    · rfl
    · rw [Option.map_map]
      exact prefix_last _ _ _
        [LockEvent.ACQUIRE_LOCK, LockEvent.RELEASE_LOCK, LockEvent.scheduler]
        (schedulerLock_last prid _)

/-- The path of `passUpToSupportLevel`. -/
theorem passUpToSupportLevelLock_last (prid exceptionType : Nat) (st : State) :
    (passUpToSupportLevelLock prid exceptionType st).map List.getLast? =
      (passUpToSupportLevel prid exceptionType st).map (fun r => some r.2.event) := by
  unfold passUpToSupportLevelLock passUpToSupportLevel
  split <;> rfl

/-- The path of `handleProgramTrap`. -/
theorem handleProgramTrapLock_last (fuel prid : Nat) (st : State) :
    (handleProgramTrapLock fuel prid st).map List.getLast? =
      (handleProgramTrap fuel prid st).map (fun r => some r.2.event) := by
  unfold handleProgramTrapLock handleProgramTrap
  split
  · rfl
  · split
    · rw [Option.map_map]
      exact prefix_last _ _ _ [LockEvent.ACQUIRE_LOCK, LockEvent.RELEASE_LOCK]
        (passUpToSupportLevelLock_last prid _ st)
    · rw [Option.map_map]
      exact prefix_last _ _ _ [LockEvent.ACQUIRE_LOCK, LockEvent.RELEASE_LOCK]
        (terminateProcessLock_last fuel prid 0 st)

/-- The path of `handleTLBException`. -/
theorem handleTLBExceptionLock_last (fuel prid : Nat) (st : State) :
    (handleTLBExceptionLock fuel prid st).map List.getLast? =
      (handleTLBException fuel prid st).map (fun r => some r.2.event) := by
  unfold handleTLBExceptionLock handleTLBException
  split
  · rfl
  · split
    · rw [Option.map_map]
      exact prefix_last _ _ _ [LockEvent.ACQUIRE_LOCK, LockEvent.RELEASE_LOCK]
        (passUpToSupportLevelLock_last prid _ st)
    · rw [Option.map_map]
      exact prefix_last _ _ _ [LockEvent.ACQUIRE_LOCK, LockEvent.RELEASE_LOCK]
        (terminateProcessLock_last fuel prid 0 st)

/-- The end of `SYSCALL_handler` after a service. -/
theorem afterServiceLock_last (prid : Nat) (o : Option (List LockEvent))
    (r : Option (State × Control))
    (h : o.map List.getLast? = r.map (fun x => some x.2.event)) :
    (afterServiceLock o).map List.getLast? =
      (afterService prid r).map (fun x => some x.2.event) := by
  cases o with
  | none =>
    cases r with
    | none => rfl
    | some x => simp at h
  | some u =>
    cases r with
    | none => simp at h
    | some x =>
      obtain ⟨s, c⟩ := x
      simp only [Option.map_some', Option.some.injEq] at h
      cases c <;>
        simp [afterServiceLock, afterService, resumeCaller, h, Control.event]

/-- The path of `createProcess`. -/
theorem createProcessLock_last (prid statep supp : Nat) (st : State) :
    (createProcessLock statep st).map List.getLast? =
      (createProcess prid statep supp st).map (fun _ => some LockEvent.ret) := by
  unfold createProcessLock createProcess
  rcases h : allocPcb st with ⟨_ | np, st1⟩
  · rfl
  · by_cases hs : statep = 0
    · simp [hs]
    · simp [hs]

/-- The path of `SYSCALL_handler`. -/
theorem SYSCALL_handlerLock_last (fuel prid currTOD nextTOD : Nat) (st : State) :
    (SYSCALL_handlerLock fuel prid currTOD nextTOD st).map List.getLast? =
      (SYSCALL_handler fuel prid currTOD nextTOD st).map (fun r => some r.2.event) := by
  by_cases hmpp : (st.excState prid).status &&& MSTATUS_MPP_MASK = 0
  · simp only [SYSCALL_handlerLock, SYSCALL_handler, hmpp, if_true]
    exact handleProgramTrapLock_last _ _ _
  · simp only [SYSCALL_handlerLock, SYSCALL_handler, hmpp, if_false]
    apply afterServiceLock_last
    by_cases h1 : (st.excState prid).reg_a0 = CREATEPROCESS
    · rw [if_pos h1, if_pos h1, Option.map_map]
      exact createProcessLock_last _ _ _ _
    rw [if_neg h1, if_neg h1]
    by_cases h2 : (st.excState prid).reg_a0 = TERMPROCESS
    · rw [if_pos h2, if_pos h2]
      exact terminateProcessLock_last _ _ _ _
    rw [if_neg h2, if_neg h2]
    by_cases h3 : (st.excState prid).reg_a0 = PASSEREN
    · rw [if_pos h3, if_pos h3]
      exact passerenLock_last _ _ _ _ _
    rw [if_neg h3, if_neg h3]
    by_cases h4 : (st.excState prid).reg_a0 = VERHOGEN
    · rw [if_pos h4, if_pos h4]
      exact verhogenLock_last _ _ _ _ _
    rw [if_neg h4, if_neg h4]
    by_cases h5 : (st.excState prid).reg_a0 = DOIO
    · rw [if_pos h5, if_pos h5]
      exact doIoLock_last _ _ _ _ _ _
    rw [if_neg h5, if_neg h5]
    by_cases h6 : (st.excState prid).reg_a0 = GETTIME
    · rw [if_pos h6, if_pos h6]
      unfold getCPUTimeLock
      rw [Option.map_map, Option.map_map]
      rfl
    rw [if_neg h6, if_neg h6]
    by_cases h7 : (st.excState prid).reg_a0 = CLOCKWAIT
    · rw [if_pos h7, if_pos h7]
      exact passerenLock_last _ _ _ _ _
    rw [if_neg h7, if_neg h7]
    by_cases h8 : (st.excState prid).reg_a0 = GETSUPPORTPTR
    · rw [if_pos h8, if_pos h8]
      unfold getSupportDataLock
      rw [Option.map_map, Option.map_map]
      rfl
    rw [if_neg h8, if_neg h8]
    by_cases h9 : (st.excState prid).reg_a0 = GETPROCESSID
    · rw [if_pos h9, if_pos h9]
      unfold getProcessIDLock
      rw [Option.map_map, Option.map_map]
      rfl
    rw [if_neg h9, if_neg h9]
    exact handleProgramTrapLock_last _ _ _

/-- The path of `handleDeviceInterrupt` after the `ACK`. -/
theorem deliverStatusLock_last (prid cmdAddr status : Nat) (st : State) :
    ((deliverStatusLock prid cmdAddr status st).map
        (fun t => LockEvent.ACQUIRE_LOCK :: t)).map List.getLast? =
      (deliverStatus prid cmdAddr status st).map (fun r => some r.2.event) := by
  unfold deliverStatusLock deliverStatus
  split
  · rfl
  · simp only []
    split
    · rfl
    · split
      · rw [Option.map_map, Option.map_map]
        exact prefix_last _ _ _
          [LockEvent.ACQUIRE_LOCK, LockEvent.RELEASE_LOCK, LockEvent.scheduler]
          (schedulerLock_last prid _)
      · rfl

/-- The path of `handleDeviceInterrupt`. -/
theorem handleDeviceInterruptLock_last (prid cause : Nat) (st : State) :
    (handleDeviceInterruptLock prid cause st).map List.getLast? =
      (handleDeviceInterrupt prid cause st).map (fun r => some r.2.event) := by
  unfold handleDeviceInterruptLock handleDeviceInterrupt
  simp only []
  split
  · rfl
  · split
    · split
      · exact deliverStatusLock_last _ _ _ _
      · exact deliverStatusLock_last _ _ _ _
    · exact deliverStatusLock_last _ _ _ _

/-- The path of `handleProcessLocalTimerInterrupt`. -/
theorem handleProcessLocalTimerInterruptLock_last (prid : Nat) (st : State) :
    (handleProcessLocalTimerInterruptLock prid st).map List.getLast? =
      (handleProcessLocalTimerInterrupt prid st).map (fun r => some r.2.event) := by
  unfold handleProcessLocalTimerInterruptLock handleProcessLocalTimerInterrupt
  split
  · rfl
  · simp only []
    rw [Option.map_map]
    exact prefix_last _ _ _
      [LockEvent.ACQUIRE_LOCK, LockEvent.RELEASE_LOCK, LockEvent.scheduler]
      (schedulerLock_last prid _)

/-- The path of `handlePseudoClockInterrupt`. -/
theorem handlePseudoClockInterruptLock_last (fuel prid : Nat) (st : State) :
    (handlePseudoClockInterruptLock fuel prid st).map List.getLast? =
      (handlePseudoClockInterrupt fuel prid st).map (fun r => some r.2.event) := by
  unfold handlePseudoClockInterruptLock handlePseudoClockInterrupt
  simp only []
  split
  · rfl
  · split
    · rw [Option.map_map]
      exact prefix_last _ _ _
        [LockEvent.ACQUIRE_LOCK, LockEvent.RELEASE_LOCK, LockEvent.scheduler]
        (schedulerLock_last prid _)
    · rfl

/-- The outcome of a routine, reduced to how it ends. -/
theorem map_control (o : Option (List LockEvent)) (r : Option (State × Control))
    (h : o.map List.getLast? = r.map (fun x => some x.2.event)) :
    o.map List.getLast? = (r.map (fun x => x.2)).map (fun c => some c.event) := by
  rw [Option.map_map]
  exact h

/-- The path listed for a routine is defined exactly when the routine has a
defined outcome, and it ends with the event the routine ends with. -/
theorem lockTrace_last (e : NucleusEntry) (st : State) :
    (lockTrace e st).map List.getLast? = (e.control st).map (fun c => some c.event) := by
  cases e with
  | scheduler prid =>
    exact map_control _ _ (schedulerLock_last prid st)
  | createProcess prid statep supp =>
    show (createProcessLock statep st).map List.getLast? =
      ((createProcess prid statep supp st).map (fun _ => Control.ret)).map _
    rw [Option.map_map]
    exact createProcessLock_last _ _ _ _
  | terminateProcess fuel prid pid =>
    exact map_control _ _ (terminateProcessLock_last fuel prid pid st)
  | passeren prid c n a =>
    exact map_control _ _ (passerenLock_last prid c n a st)
  | verhogen prid c n a =>
    exact map_control _ _ (verhogenLock_last prid c n a st)
  | doIo prid c n a v =>
    exact map_control _ _ (doIoLock_last prid c n a v st)
  | waitForClock prid c n =>
    exact map_control _ _ (passerenLock_last prid c n _ st)
  | getCPUTime prid c n =>
    show ((getCPUTime prid c n st).map _).map _ = ((getCPUTime prid c n st).map _).map _
    rw [Option.map_map, Option.map_map]
    rfl
  | getSupportData prid =>
    show ((getSupportData prid st).map _).map _ = ((getSupportData prid st).map _).map _
    rw [Option.map_map, Option.map_map]
    rfl
  | getProcessID prid parent =>
    show ((getProcessID prid parent st).map _).map _ = ((getProcessID prid parent st).map _).map _
    rw [Option.map_map, Option.map_map]
    rfl
  | passUpToSupportLevel prid x =>
    exact map_control _ _ (passUpToSupportLevelLock_last prid x st)
  | handleProgramTrap fuel prid =>
    exact map_control _ _ (handleProgramTrapLock_last fuel prid st)
  | handleTLBException fuel prid =>
    exact map_control _ _ (handleTLBExceptionLock_last fuel prid st)
  | SYSCALL_handler fuel prid c n =>
    exact map_control _ _ (SYSCALL_handlerLock_last fuel prid c n st)
  | handleDeviceInterrupt prid cause =>
    exact map_control _ _ (handleDeviceInterruptLock_last prid cause st)
  | handleProcessLocalTimerInterrupt prid =>
    exact map_control _ _ (handleProcessLocalTimerInterruptLock_last prid st)
  | handlePseudoClockInterrupt fuel prid =>
    exact map_control _ _ (handlePseudoClockInterruptLock_last fuel prid st)
  | INTERRUPT_handler fuel prid cause =>
    show (INTERRUPT_handlerLock fuel prid cause st).map List.getLast? =
      ((INTERRUPT_handler fuel prid cause st).map (fun r => r.2)).map (fun c => some c.event)
    rw [Option.map_map]
    unfold INTERRUPT_handlerLock INTERRUPT_handler
    split
    · exact handleProcessLocalTimerInterruptLock_last _ _
    · split
      · exact handlePseudoClockInterruptLock_last _ _ _
      · exact handleDeviceInterruptLock_last _ _ _
  | uTLB_RefillHandler prid =>
    show ((uTLB_RefillHandler prid st).map _).map _ = ((uTLB_RefillHandler prid st).map _).map _
    rw [Option.map_map, Option.map_map]
    unfold uTLB_RefillHandler
    simp only []
    split
    · rfl
    · split <;> rfl

/-- C32 (amended).  On every control path through `scheduler`, the nucleus
services, the trap and pass-up routines, the interrupt handlers and the
TLB-refill handler: whenever the routine has a defined outcome from a state,
the path it takes there exists, ends with the event the routine ends with and
has no violation of the lock discipline up to its end; and when the path does
not reach `PANIC()`, each acquisition of the global lock is matched by exactly
one release with no nested acquisition in between, and the lock is not held
when `scheduler`, `WAIT`, `HALT`, `LDST` or `LDCXT` is invoked or a routine
returns. -/
theorem lock_discipline (e : NucleusEntry) (st : State) (c : Control)
    (h : e.control st = some c) :
    ∃ t, lockTrace e st = some t ∧ t.getLast? = some c.event ∧
      (lockScan false t).isSome ∧ (LockEvent.PANIC ∉ t → LockDiscipline t) := by
  have hl := lockTrace_last e st
  rw [h] at hl
  cases ht : lockTrace e st with
  | none => rw [ht] at hl; simp at hl
  | some t =>
    rw [ht] at hl
    simp only [Option.map_some', Option.some.injEq] at hl
    exact ⟨t, rfl, hl, (lockTrace_safe e st t ht).1, (lockTrace_safe e st t ht).2⟩

/-- The lock-discipline theorem applied to PASSEREN on a semaphore whose value
is 0, called by the only process: the caller blocks, `scheduler` finds the
ready queue empty and waits. -/
theorem lock_discipline_witness :
    lockTrace (NucleusEntry.passeren 0 0 0 semA) oneProcessState =
      some [LockEvent.ACQUIRE_LOCK, LockEvent.RELEASE_LOCK, LockEvent.scheduler,
        LockEvent.ACQUIRE_LOCK, LockEvent.RELEASE_LOCK, LockEvent.WAIT] ∧
    LockDiscipline [LockEvent.ACQUIRE_LOCK, LockEvent.RELEASE_LOCK, LockEvent.scheduler,
        LockEvent.ACQUIRE_LOCK, LockEvent.RELEASE_LOCK, LockEvent.WAIT] := by
  obtain ⟨t, h1, -, -, h4⟩ := lock_discipline (NucleusEntry.passeren 0 0 0 semA) oneProcessState
    Control.WAIT (by decide)
  have h5 : lockTrace (NucleusEntry.passeren 0 0 0 semA) oneProcessState =
      some [LockEvent.ACQUIRE_LOCK, LockEvent.RELEASE_LOCK, LockEvent.scheduler,
        LockEvent.ACQUIRE_LOCK, LockEvent.RELEASE_LOCK, LockEvent.WAIT] := by decide
  rw [h5] at h1
  cases h1
  exact ⟨h5, h4 (by decide)⟩

/-- C32, counterexample.  PCB 19, running in machine mode, issues DOIO with the
command address 0.  `doIo` acquires the lock at line 350 and calls
`getDeviceSemaphoreIndex`, which ends in `PANIC()`: the path of
`SYSCALL_handler` is `ACQUIRE_LOCK, PANIC`, the acquisition is matched by no
release and the lock is held at the end of the path. -/
theorem doio_panics_with_lock_held :
    (NucleusEntry.SYSCALL_handler 0 0 0 0).control doioBadAddressState = some Control.PANIC ∧
    lockTrace (NucleusEntry.SYSCALL_handler 0 0 0 0) doioBadAddressState =
      some [LockEvent.ACQUIRE_LOCK, LockEvent.PANIC] ∧
    lockScan false [LockEvent.ACQUIRE_LOCK, LockEvent.PANIC] = some true ∧
    ¬ LockDiscipline [LockEvent.ACQUIRE_LOCK, LockEvent.PANIC] := by
  refine ⟨by decide, by decide, by decide, by decide⟩

end MulOS
